import Mathlib

/-! Azure SDK for Go samples: provisioning scripts.

A shallow embedding of ten sample programs.  Every sample is a linear script:
read the environment, build a credential, call helper functions that create or
read resources through SDK clients, and finally delete the resource group
unless `KEEP_RESOURCE` is set.

The SDK and the service are outside the repository.  They are represented by a
`World`, which fixes what the environment holds and how the service answers
each SDK operation during one run, and by a trace of `Event`s that records what
the program does to the outside.
-/

namespace AzureSamples

/-! ## Values -/

/-- A Go `error` value (non-nil). -/
structure Error where
  msg : String
  deriving DecidableEq, Repr

/-- A Go `context.Context`: whether it is cancelled and the seconds left until
its deadline, when it has one. -/
structure Context where
  canceled : Bool
  deadline : Option Nat
  deriving DecidableEq, Repr

/-- The Go value `context.Background()`: never cancelled, no deadline. -/
def context.Background : Context := ⟨false, none⟩

/-- The credential built by `azidentity.NewDefaultAzureCredential`. -/
structure Cred where
  id : Nat
  deriving DecidableEq, Repr

/-- The connection of the older SDK generations (`arm.NewDefaultConnection`,
`armcore.NewDefaultConnection`); the newer generation passes the credential
itself, which is embedded as a connection without body logging. -/
structure Conn where
  cred : Cred
  IncludeBody : Bool
  deriving DecidableEq, Repr

/-- An SDK client: its type name, the subscription and the connection it was
built with. -/
structure Client where
  name : String
  subscriptionID : String
  conn : Conn
  deriving DecidableEq, Repr

/-- A client factory of the newest SDK generation. -/
structure ClientFactory where
  name : String
  subscriptionID : String
  cred : Cred
  deriving DecidableEq, Repr

/-- A resource model returned by the service.  Every field the samples read is
a Go pointer, hence optional. -/
structure Resource where
  ID : Option String := none
  Name : Option String := none
  RedirectURI : Option String := none
  DomainOwnershipIdentifier : Option String := none
  RelativePath : Option String := none
  UploadURL : Option String := none
  IsValid : Option Bool := none
  Message : Option String := none
  deriving DecidableEq, Repr

/-- A Go slice: `none` is the nil slice. -/
abbrev Slice (α : Type) := Option (List α)

/-- The elements of a slice; a nil slice has none. -/
def Slice.toList {α : Type} : Slice α → List α
  | none => []
  | some l => l

/-- Go `append(s, xs...)`: a nil slice stays nil when nothing is appended. -/
def Slice.append {α : Type} (s xs : Slice α) : Slice α :=
  match s, xs.toList with
  | none, [] => none
  | _, l => some (s.toList ++ l)

/-- Go `make([]T, 0)`: an empty slice that is not nil. -/
def Slice.make {α : Type} : Slice α := some []

/-- A list result (`AvailabilitySetListResult`, `VirtualMachineSizeListResult`):
a slice of pointers to resources. -/
structure ListResult where
  Value : Slice (Option Resource)
  deriving DecidableEq, Repr

/-- A Go `http.Response`, reduced to its status code. -/
structure HttpResponse where
  StatusCode : Nat
  deriving DecidableEq, Repr

/-- A request payload, flattened to (field path, value) pairs. -/
abbrev Payload := List (String × String)

/-! ## Long-running operations -/

/-- The status the service reports for an asynchronous operation.  `Running`
may carry a server-supplied `Retry-After` hint in seconds. -/
inductive OperationStatus (α : Type) where
  | Running (retryAfter : Option Nat)
  | Succeeded (result : α)
  | Failed (errorDetail : Error)
  | Canceled
  deriving DecidableEq, Repr

/-- A poller for one asynchronous operation: the operation that started it,
the statuses the service will report to successive status queries, and the
terminal result once one has been observed. -/
structure Poller (α : Type) where
  client : String
  method : String
  remote : List (OperationStatus α)
  cached : Option (Except Error α)

/-- A pager of the older SDK generation: the page responses `NextPage` yields
before it first returns false, and the error that stopped it, if any.  Each
page response holds a pointer to a list result. -/
structure Pager where
  pages : List (Option ListResult)
  err : Option Error

/-! ## The outside world and what a run does to it -/

/-- What the program does to the outside, in order. -/
inductive Event where
  | getenv (name : String)
  | credential
  | call (client : Client) (method : String) (ctx : Context) (args : List String)
      (payload : Payload)
  | poll (client method : String) (ctx : Context) (frequency : Option Nat)
  | query (client method : String)
  | wait (seconds : Nat)
  | nextPage (client : Client) (method : String) (ctx : Context)
  | println (args : List String)
  | fatal (msg : String)
  deriving DecidableEq, Repr

/-- The environment and the service during one run.  The service's answers are
given per SDK operation (client type and method); every sample issues each
operation at most once per run, so this covers every run. -/
structure World where
  env : String → String
  credential : Except Error Cred
  construct : String → Option Error
  send : String → String → Except Error Resource
  sendPtr : String → String → Except Error (Option Resource)
  sendList : String → String → Except Error (Option ListResult)
  begin : String → String → Except Error (List (OperationStatus Resource))
  beginDelete : String → String → Except Error (List (OperationStatus (Option HttpResponse)))
  pages : String → String → Pager

/-- Why a process stops early: `log.Fatal` (exit status 1) or a nil pointer
dereference. -/
inductive Halt where
  | fatal (msg : String)
  | panic
  deriving DecidableEq, Repr

/-- A run of a piece of program: the events it produced and either its value
or the reason the process stopped. -/
structure Act (α : Type) where
  trace : List Event
  out : Except Halt α

/-- Sequencing: the second part runs only when the first did not stop the
process. -/
def Act.bind {α β : Type} (x : Act α) (f : α → Act β) : Act β :=
  match x.out with
  | .error h => ⟨x.trace, .error h⟩
  | .ok a => ⟨x.trace ++ (f a).trace, (f a).out⟩

instance : Monad Act where
  pure a := ⟨[], .ok a⟩
  bind := Act.bind

/-- Record one event. -/
def emit (e : Event) : Act Unit := ⟨[e], .ok ()⟩

/-- Dereference a Go pointer; nil panics. -/
def deref {α : Type} : Option α → Act α
  | some a => ⟨[], .ok a⟩
  | none => ⟨[], .error .panic⟩

/-- Go `os.Getenv`. -/
def os.Getenv (w : World) (name : String) : Act String :=
  ⟨[.getenv name], .ok (w.env name)⟩

/-- Go `log.Println`. -/
def log.Println (args : List String) : Act Unit := emit (.println args)

/-- Go `log.Fatal`: print, then exit with status 1. -/
def log.Fatal {α : Type} (msg : String) : Act α := ⟨[.fatal msg], .error (.fatal msg)⟩

/-- SDK `azidentity.NewDefaultAzureCredential(nil)`. -/
def azidentity.NewDefaultAzureCredential (w : World) : Act (Except Error Cred) :=
  ⟨[.credential], .ok w.credential⟩

/-- SDK `arm.NewDefaultConnection` with `Logging.IncludeBody` as given. -/
def arm.NewDefaultConnection (cred : Cred) (IncludeBody : Bool) : Conn := ⟨cred, IncludeBody⟩

/-- SDK `armcore.NewDefaultConnection` with `Logging.IncludeBody` as given. -/
def armcore.NewDefaultConnection (cred : Cred) (IncludeBody : Bool) : Conn := ⟨cred, IncludeBody⟩

/-- A client constructor of the older generations, `NewXClient(conn,
subscriptionID)`: it cannot fail. -/
def Client.new (name : String) (conn : Conn) (subscriptionID : String) : Client :=
  ⟨name, subscriptionID, conn⟩

/-- A client constructor `NewXClient(subscriptionID, cred, nil)` that returns
the client alone. -/
def Client.ofCred (name : String) (subscriptionID : String) (cred : Cred) : Client :=
  ⟨name, subscriptionID, ⟨cred, false⟩⟩

/-- A client constructor `NewXClient(subscriptionID, cred, nil)` that returns an
error value as well; `World.construct` says whether it reports one. -/
def Client.newE (w : World) (name : String) (subscriptionID : String) (cred : Cred) :
    Except Error Client :=
  match w.construct name with
  | some e => .error e
  | none => .ok ⟨name, subscriptionID, ⟨cred, false⟩⟩

/-- SDK `NewClientFactory(subscriptionID, cred, nil)`. -/
def ClientFactory.new (w : World) (name : String) (subscriptionID : String) (cred : Cred) :
    Except Error ClientFactory :=
  match w.construct name with
  | some e => .error e
  | none => .ok ⟨name, subscriptionID, cred⟩

/-- A factory method such as `NewResourceGroupsClient()`. -/
def ClientFactory.client (f : ClientFactory) (name : String) : Client :=
  ⟨name, f.subscriptionID, ⟨f.cred, false⟩⟩

/-- A synchronous client method whose response embeds the resource. -/
def Client.send (w : World) (c : Client) (method : String) (ctx : Context)
    (args : List String) (payload : Payload) : Act (Except Error Resource) :=
  ⟨[.call c method ctx args payload], .ok (w.send c.name method)⟩

/-- A synchronous client method whose response holds a pointer to the resource
(oldest SDK generation). -/
def Client.sendPtr (w : World) (c : Client) (method : String) (ctx : Context)
    (args : List String) (payload : Payload) : Act (Except Error (Option Resource)) :=
  ⟨[.call c method ctx args payload], .ok (w.sendPtr c.name method)⟩

/-- The `List` client method of the oldest SDK generation: it only builds the
pager; pages are fetched by `NextPage`. -/
def Client.NewListPager (w : World) (c : Client) (method : String) : Pager :=
  w.pages c.name method

/-- A synchronous client method whose response holds a pointer to a list
result. -/
def Client.sendList (w : World) (c : Client) (method : String) (ctx : Context)
    (args : List String) (payload : Payload) : Act (Except Error (Option ListResult)) :=
  ⟨[.call c method ctx args payload], .ok (w.sendList c.name method)⟩

/-- A `Begin...` client method of a create operation: on success it hands back a
poller that tracks the operation. -/
def Client.begin (w : World) (c : Client) (method : String) (ctx : Context)
    (args : List String) (payload : Payload) : Act (Except Error (Poller Resource)) :=
  ⟨[.call c method ctx args payload],
    .ok ((w.begin c.name method).map fun statuses => ⟨c.name, method, statuses, none⟩)⟩

/-- The `BeginDelete` client method: its poller ends in the raw HTTP response. -/
def Client.beginDelete (w : World) (c : Client) (method : String) (ctx : Context)
    (args : List String) : Act (Except Error (Poller (Option HttpResponse))) :=
  ⟨[.call c method ctx args []],
    .ok ((w.beginDelete c.name method).map fun statuses => ⟨c.name, method, statuses, none⟩)⟩

/-- Modelled from the spec: the default poll interval of `pollUntilDone`, in
seconds, "default 10 seconds when the API specifies none".  The SDK constant is
not part of the repository. -/
def defaultPollInterval : Nat := 10

/-- Modelled from the spec: the error `pollUntilDone` returns for a cancelled
context. -/
def errCanceled : Error := ⟨"Canceled"⟩

/-- Modelled from the spec: the error `pollUntilDone` returns when the deadline
of the context elapses. -/
def errDeadlineExceeded : Error := ⟨"DeadlineExceeded"⟩

/-- Modelled from the spec: the error `pollUntilDone` returns when the service
reports no terminal status within the poll timeout. -/
def errTimeout : Error := ⟨"Timeout"⟩

/-- Modelled from the spec: the polling loop of `pollUntilDone` (the SDK's
`PollUntilDone` is not part of the repository).  It queries the remote status;
a terminal status ends the loop at once; on `Running` it waits for the
`Retry-After` hint when present, else for the poll interval, and queries again.
`budget` is the time left until the deadline of the context.  A script that
runs out stands for the poll timeout. -/
def pollLoop {α : Type} (client method : String) (interval : Nat) :
    Option Nat → List (OperationStatus α) → List Event × Except Error α
  | _, [] => ([], .error errTimeout)
  | _, .Succeeded r :: _ => ([.query client method], .ok r)
  | _, .Failed e :: _ => ([.query client method], .error e)
  | _, .Canceled :: _ => ([.query client method], .error errCanceled)
  | none, .Running hint :: rest =>
    let r := pollLoop client method interval none rest
    (.query client method :: .wait (hint.getD interval) :: r.1, r.2)
  | some b, .Running hint :: rest =>
    if b < hint.getD interval then
      ([.query client method, .wait b], .error errDeadlineExceeded)
    else
      let r := pollLoop client method interval (some (b - hint.getD interval)) rest
      (.query client method :: .wait (hint.getD interval) :: r.1, r.2)

/-- Modelled from the spec: whether the polling loop of `pollUntilDone` ends on
a terminal status (`Succeeded`, `Failed` or `Canceled`) rather than on the
deadline of the context or on the poll timeout. -/
def pollEnds {α : Type} (interval : Nat) : Option Nat → List (OperationStatus α) → Bool
  | _, [] => false
  | none, .Running _ :: rest => pollEnds interval none rest
  | some b, .Running hint :: rest =>
    if b < hint.getD interval then false
    else pollEnds interval (some (b - hint.getD interval)) rest
  | _, _ :: _ => true

/-- Modelled from the spec: `pollUntilDone(poller, context)` as a function of
the poller: the events, the result and the poller afterwards.  A poller that is
already terminal returns its cached result without another query; a cancelled
context returns at once; otherwise the polling loop runs at the given
frequency, or at the default interval when none is given, and a result that
comes from a terminal status is cached: the poller is terminal from then on. -/
def Poller.pollState {α : Type} (p : Poller α) (ctx : Context) (frequency : Option Nat) :
    List Event × Except Error α × Poller α :=
  match p.cached with
  | some r => ([.poll p.client p.method ctx frequency], r, p)
  | none =>
    if ctx.canceled then
      ([.poll p.client p.method ctx frequency], .error errCanceled, p)
    else
      let r := pollLoop p.client p.method (frequency.getD defaultPollInterval) ctx.deadline p.remote
      (.poll p.client p.method ctx frequency :: r.1, r.2,
        { p with
          cached :=
            if pollEnds (frequency.getD defaultPollInterval) ctx.deadline p.remote then some r.2
            else none })

/-- Modelled from the spec: `pollUntilDone` as the samples use it
(`resp, err := pollerResp.PollUntilDone(ctx, ...)`). -/
def Poller.PollUntilDone {α : Type} (p : Poller α) (ctx : Context) (frequency : Option Nat) :
    Act (Except Error α) :=
  ⟨(p.pollState ctx frequency).1, .ok (p.pollState ctx frequency).2.1⟩

/-- A Go `for i, x := range xs` loop whose body may stop the process. -/
def forRange {α : Type} (body : Nat → α → Act Unit) : Nat → List α → Act Unit
  | _, [] => pure ()
  | i, x :: xs => do
    body i x
    forRange body (i + 1) xs

/-! ## compute/availabilityset/main.go -/

namespace AvailabilitySet

def location : String := "westus"
def resourceGroupName : String := "sample-resource-group"
def availabilitySetName : String := "sample-availability-sets"

def createAvailabilitySet (w : World) (subscriptionID : String) (ctx : Context) (conn : Conn) :
    Act (Option Resource × Option Error) := do
  let availabilitySetsClient := Client.new "armcompute.AvailabilitySetsClient" conn subscriptionID
  match ← availabilitySetsClient.sendPtr w "CreateOrUpdate" ctx
      [resourceGroupName, availabilitySetName]
      [("Resource.Location", location),
       ("Properties.PlatformFaultDomainCount", "1"),
       ("Properties.PlatformUpdateDomainCount", "1"),
       ("SKU.Name", "Aligned")] with
  | .error err => return (none, some err)
  | .ok resp => return (resp, none)

/-- The loop `for availability.NextPage(ctx) { ... }` of `listAvailabilitySet`:
one fetch per page the pager yields, each page appended to the slice; when the
pager stops on an error the failing fetch is the last event. -/
def listAvailabilitySet.loop (c : Client) (ctx : Context) (err : Option Error) :
    List (Option ListResult) → Slice (Option Resource) → Act (Slice (Option Resource))
  | [], availabilitySet =>
    match err with
    | some _ => ⟨[.nextPage c "List" ctx], .ok availabilitySet⟩
    | none => ⟨[], .ok availabilitySet⟩
  | resp :: rest, availabilitySet => do
    emit (.nextPage c "List" ctx)
    let availabilitySetListResult ← deref resp
    listAvailabilitySet.loop c ctx err rest (availabilitySet.append availabilitySetListResult.Value)

def listAvailabilitySet (w : World) (subscriptionID : String) (ctx : Context) (conn : Conn) :
    Act (Slice (Option Resource)) := do
  let availabilitySetsClient := Client.new "armcompute.AvailabilitySetsClient" conn subscriptionID
  let availability := availabilitySetsClient.NewListPager w "List"
  let availabilitySet : Slice (Option Resource) := Slice.make
  listAvailabilitySet.loop availabilitySetsClient ctx availability.err availability.pages
    availabilitySet

def listAvailabilitySizes (w : World) (subscriptionID : String) (ctx : Context) (conn : Conn) :
    Act (Option ListResult × Option Error) := do
  let availabilitySetsClient := Client.new "armcompute.AvailabilitySetsClient" conn subscriptionID
  match ← availabilitySetsClient.sendList w "ListAvailableSizes" ctx
      [resourceGroupName, availabilitySetName] [] with
  | .error err => return (none, some err)
  | .ok availability => return (availability, none)

def createResourceGroup (w : World) (subscriptionID : String) (ctx : Context) (conn : Conn) :
    Act (Option Resource × Option Error) := do
  let resourceGroupClient := Client.new "armresources.ResourceGroupsClient" conn subscriptionID
  match ← resourceGroupClient.sendPtr w "CreateOrUpdate" ctx [resourceGroupName]
      [("Location", location)] with
  | .error err => return (none, some err)
  | .ok resourceGroupResp => return (resourceGroupResp, none)

def cleanup (w : World) (subscriptionID : String) (ctx : Context) (conn : Conn) :
    Act (Option HttpResponse × Option Error) := do
  let resourceGroupClient := Client.new "armresources.ResourceGroupsClient" conn subscriptionID
  match ← resourceGroupClient.beginDelete w "BeginDelete" ctx [resourceGroupName] with
  | .error err => return (none, some err)
  | .ok pollerResp =>
    match ← pollerResp.PollUntilDone ctx (some 10) with
    | .error err => return (none, some err)
    | .ok resp => return (resp, none)

def main (w : World) : Act Unit := do
  let subscriptionID ← os.Getenv w "AZURE_SUBSCRIPTION_ID"
  if subscriptionID.length = 0 then
    log.Fatal "AZURE_SUBSCRIPTION_ID is not set."
  match ← azidentity.NewDefaultAzureCredential w with
  | .error err => log.Fatal err.msg
  | .ok cred =>
    let conn := armcore.NewDefaultConnection cred true
    let ctx := context.Background
    let (resourceGroup, err) ← createResourceGroup w subscriptionID ctx conn
    if let some err := err then
      log.Fatal err.msg
    log.Println ["resources group:", ← deref (← deref resourceGroup).ID]
    let (availabilitySets, err) ← createAvailabilitySet w subscriptionID ctx conn
    if let some err := err then
      log.Fatal err.msg
    log.Println ["availability set:", ← deref (← deref availabilitySets).ID]
    let availabilitySetList ← listAvailabilitySet w subscriptionID ctx conn
    forRange (fun i a => do log.Println [toString i, ← deref (← deref a).ID]) 0
      availabilitySetList.toList
    let (availabilitySetSizes, err) ← listAvailabilitySizes w subscriptionID ctx conn
    if let some err := err then
      log.Fatal err.msg
    log.Println ["list availability size:",
      toString (← deref availabilitySetSizes).Value.toList.length]
    forRange (fun i v => do log.Println [toString i, ← deref (← deref v).Name]) 0
      (← deref availabilitySetSizes).Value.toList
    let keepResource ← os.Getenv w "KEEP_RESOURCE"
    if keepResource.length = 0 then
      let (_, err) ← cleanup w subscriptionID ctx conn
      if let some err := err then
        log.Fatal err.msg
      log.Println ["cleaned up successfully."]

end AvailabilitySet

/-! ## monitor/action_group/main.go -/

namespace ActionGroup

def location : String := "westus"
def resourceGroupName : String := "sample-resource-group"
def actionGroupName : String := "sample-action-group"

def createActionGroup (w : World) (subscriptionID : String) (ctx : Context) (conn : Conn) :
    Act (Option Resource × Option Error) := do
  let actionGroupsClient := Client.new "armmonitor.ActionGroupsClient" conn subscriptionID
  match ← actionGroupsClient.send w "CreateOrUpdate" ctx [resourceGroupName, actionGroupName]
      [("AzureResource.Location", location),
       ("Properties.GroupShortName", "sample"),
       ("Properties.Enabled", "true"),
       ("Properties.EmailReceivers[0].Name", "John Doe\x27s email"),
       ("Properties.EmailReceivers[0].EmailAddress", "johndoe@eamil.com"),
       ("Properties.EmailReceivers[0].UseCommonAlertSchema", "false"),
       ("Properties.SmsReceivers[0].Name", "Jhon Doe\x27s mobile"),
       ("Properties.SmsReceivers[0].CountryCode", "1"),
       ("Properties.SmsReceivers[0].PhoneNumber", "1234567890")] with
  | .error err => return (none, some err)
  | .ok resp => return (some resp, none)

def getActionGroup (w : World) (subscriptionID : String) (ctx : Context) (conn : Conn) :
    Act (Option Resource × Option Error) := do
  let actionGroupsClient := Client.new "armmonitor.ActionGroupsClient" conn subscriptionID
  match ← actionGroupsClient.send w "Get" ctx [resourceGroupName, actionGroupName] [] with
  | .error err => return (none, some err)
  | .ok resp => return (some resp, none)

def createResourceGroup (w : World) (subscriptionID : String) (ctx : Context) (conn : Conn) :
    Act (Option Resource × Option Error) := do
  let resourceGroupClient := Client.new "armresources.ResourceGroupsClient" conn subscriptionID
  match ← resourceGroupClient.send w "CreateOrUpdate" ctx [resourceGroupName]
      [("Location", location)] with
  | .error err => return (none, some err)
  | .ok resourceGroupResp => return (some resourceGroupResp, none)

def cleanup (w : World) (subscriptionID : String) (ctx : Context) (conn : Conn) :
    Act (Option HttpResponse × Option Error) := do
  let resourceGroupClient := Client.new "armresources.ResourceGroupsClient" conn subscriptionID
  match ← resourceGroupClient.beginDelete w "BeginDelete" ctx [resourceGroupName] with
  | .error err => return (none, some err)
  | .ok pollerResp =>
    match ← pollerResp.PollUntilDone ctx (some 10) with
    | .error err => return (none, some err)
    | .ok resp => return (resp, none)

def main (w : World) : Act Unit := do
  let subscriptionID ← os.Getenv w "AZURE_SUBSCRIPTION_ID"
  if subscriptionID.length = 0 then
    log.Fatal "AZURE_SUBSCRIPTION_ID is not set."
  match ← azidentity.NewDefaultAzureCredential w with
  | .error err => log.Fatal err.msg
  | .ok cred =>
    let conn := arm.NewDefaultConnection cred true
    let ctx := context.Background
    let (resourceGroup, err) ← createResourceGroup w subscriptionID ctx conn
    if let some err := err then
      log.Fatal err.msg
    log.Println ["resources group:", ← deref (← deref resourceGroup).ID]
    let (actionGroup, err) ← createActionGroup w subscriptionID ctx conn
    if let some err := err then
      log.Fatal err.msg
    log.Println ["action group:", ← deref (← deref actionGroup).ID]
    let (actionGroup, err) ← getActionGroup w subscriptionID ctx conn
    if let some err := err then
      log.Fatal err.msg
    log.Println ["get action group:", ← deref (← deref actionGroup).ID]
    let keepResource ← os.Getenv w "KEEP_RESOURCE"
    if keepResource.length = 0 then
      let (_, err) ← cleanup w subscriptionID ctx conn
      if let some err := err then
        log.Fatal err.msg
      log.Println ["cleaned up successfully."]

end ActionGroup

/-! ## apimanagement/apimanagement_service/main.go -/

namespace ApimanagementService

def location : String := "westus"
def resourceGroupName : String := "sample-resource-group"
def serviceName : String := "sample-api-service"

def createApiManagementService (w : World) (subscriptionID : String) (ctx : Context)
    (conn : Conn) : Act (Option Resource × Option Error) := do
  let apiManagementServiceClient :=
    Client.new "armapimanagement.APIManagementServiceClient" conn subscriptionID
  match ← apiManagementServiceClient.begin w "BeginCreateOrUpdate" ctx
      [resourceGroupName, serviceName]
      [("Location", location),
       ("Properties.PublisherName", "sample"),
       ("Properties.PublisherEmail", "xxx@wircesoft.com"),
       ("SKU.Name", "SKUTypeStandard"),
       ("SKU.Capacity", "2")] with
  | .error err => return (none, some err)
  | .ok pollerResp =>
    match ← pollerResp.PollUntilDone ctx (some 10) with
    | .error err => return (none, some err)
    | .ok resp => return (some resp, none)

def getDomainOwnershipIdentifier (w : World) (subscriptionID : String) (ctx : Context)
    (conn : Conn) : Act (Option Resource × Option Error) := do
  let apiManagementServiceClient :=
    Client.new "armapimanagement.APIManagementServiceClient" conn subscriptionID
  match ← apiManagementServiceClient.send w "GetDomainOwnershipIdentifier" ctx [] [] with
  | .error err => return (none, some err)
  | .ok resp => return (some resp, none)

def getSsoToken (w : World) (subscriptionID : String) (ctx : Context) (conn : Conn) :
    Act (Option Resource × Option Error) := do
  let apiManagementServiceClient :=
    Client.new "armapimanagement.APIManagementServiceClient" conn subscriptionID
  match ← apiManagementServiceClient.send w "GetSsoToken" ctx [resourceGroupName, serviceName]
      [] with
  | .error err => return (none, some err)
  | .ok resp => return (some resp, none)

def getApiManagementService (w : World) (subscriptionID : String) (ctx : Context)
    (conn : Conn) : Act (Option Resource × Option Error) := do
  let apiManagementServiceClient :=
    Client.new "armapimanagement.APIManagementServiceClient" conn subscriptionID
  match ← apiManagementServiceClient.send w "Get" ctx [resourceGroupName, serviceName] [] with
  | .error err => return (none, some err)
  | .ok resp => return (some resp, none)

def createResourceGroup (w : World) (subscriptionID : String) (ctx : Context) (conn : Conn) :
    Act (Option Resource × Option Error) := do
  let resourceGroupClient := Client.new "armresources.ResourceGroupsClient" conn subscriptionID
  match ← resourceGroupClient.send w "CreateOrUpdate" ctx [resourceGroupName]
      [("Location", location)] with
  | .error err => return (none, some err)
  | .ok resourceGroupResp => return (some resourceGroupResp, none)

def cleanup (w : World) (subscriptionID : String) (ctx : Context) (conn : Conn) :
    Act (Option HttpResponse × Option Error) := do
  let resourceGroupClient := Client.new "armresources.ResourceGroupsClient" conn subscriptionID
  match ← resourceGroupClient.beginDelete w "BeginDelete" ctx [resourceGroupName] with
  | .error err => return (none, some err)
  | .ok pollerResp =>
    match ← pollerResp.PollUntilDone ctx (some 10) with
    | .error err => return (none, some err)
    | .ok resp => return (resp, none)

def main (w : World) : Act Unit := do
  let subscriptionID ← os.Getenv w "AZURE_SUBSCRIPTION_ID"
  if subscriptionID.length = 0 then
    log.Fatal "AZURE_SUBSCRIPTION_ID is not set."
  match ← azidentity.NewDefaultAzureCredential w with
  | .error err => log.Fatal err.msg
  | .ok cred =>
    let conn := arm.NewDefaultConnection cred true
    let ctx := context.Background
    let (resourceGroup, err) ← createResourceGroup w subscriptionID ctx conn
    if let some err := err then
      log.Fatal err.msg
    log.Println ["resources group:", ← deref (← deref resourceGroup).ID]
    let (apiManagementService, err) ← createApiManagementService w subscriptionID ctx conn
    if let some err := err then
      log.Fatal err.msg
    log.Println ["api management service:", ← deref (← deref apiManagementService).ID]
    let (apiManagementService, err) ← getApiManagementService w subscriptionID ctx conn
    if let some err := err then
      log.Fatal err.msg
    log.Println ["get api management service:", ← deref (← deref apiManagementService).ID]
    let (ssoToken, err) ← getSsoToken w subscriptionID ctx conn
    if let some err := err then
      log.Fatal err.msg
    log.Println ["ssoToken:", ← deref (← deref ssoToken).RedirectURI]
    let (domainOwnershipIdentifier, err) ← getDomainOwnershipIdentifier w subscriptionID ctx conn
    if let some err := err then
      log.Fatal err.msg
    log.Println ["domain owner ship Identifier:",
      ← deref (← deref domainOwnershipIdentifier).DomainOwnershipIdentifier]
    let keepResource ← os.Getenv w "KEEP_RESOURCE"
    if keepResource.length = 0 then
      let (_, err) ← cleanup w subscriptionID ctx conn
      if let some err := err then
        log.Fatal err.msg
      log.Println ["cleaned up successfully."]

end ApimanagementService

/-! ## containerregistry/task_run/main.go -/

namespace TaskRun

def location : String := "westus"
def resourceGroupName : String := "sample-resource-group"
def registryName : String := "sample2registry"
def taskRunName : String := "sample-task-run"

def createRegistry (w : World) (subscriptionID : String) (ctx : Context) (conn : Conn) :
    Act (Option Resource × Option Error) := do
  let registriesClient := Client.new "armcontainerregistry.RegistriesClient" conn subscriptionID
  match ← registriesClient.begin w "BeginCreate" ctx [resourceGroupName, registryName]
      [("Resource.Location", location),
       ("Resource.Tags.key", "value"),
       ("SKU.Name", "SKUNamePremium"),
       ("Properties.AdminUserEnabled", "true")] with
  | .error err => return (none, some err)
  | .ok pollerResp =>
    match ← pollerResp.PollUntilDone ctx (some 10) with
    | .error err => return (none, some err)
    | .ok resp => return (some resp, none)

def createTaskRun (w : World) (subscriptionID : String) (ctx : Context) (conn : Conn) :
    Act (Option Resource × Option Error) := do
  let taskRunsClient := Client.new "armcontainerregistry.TaskRunsClient" conn subscriptionID
  match ← taskRunsClient.begin w "BeginCreate" ctx [resourceGroupName, registryName, taskRunName]
      [("Properties.ForceUpdateTag", "test"),
       ("Properties.RunRequest.RunRequest.IsArchiveEnabled", "true"),
       ("Properties.RunRequest.DockerFilePath", "Dockerfile"),
       ("Properties.RunRequest.Platform.OS", "OSLinux"),
       ("Properties.RunRequest.Platform.Architecture", "ArchitectureAmd64"),
       ("Properties.RunRequest.ImageNames[0]", "testtaskrun:v1"),
       ("Properties.RunRequest.IsPushEnabled", "true"),
       ("Properties.RunRequest.NoCache", "false"),
       ("Properties.RunRequest.SourceLocation",
        "https://github.com/Azure-Samples/acr-build-helloworld-node.git")] with
  | .error err => return (none, some err)
  | .ok pollerResp =>
    match ← pollerResp.PollUntilDone ctx (some 10) with
    | .error err => return (none, some err)
    | .ok resp => return (some resp, none)

def getTaskRun (w : World) (subscriptionID : String) (ctx : Context) (conn : Conn) :
    Act (Option Resource × Option Error) := do
  let taskRunsClient := Client.new "armcontainerregistry.TaskRunsClient" conn subscriptionID
  match ← taskRunsClient.send w "Get" ctx [resourceGroupName, registryName, taskRunName] [] with
  | .error err => return (none, some err)
  | .ok resp => return (some resp, none)

def createResourceGroup (w : World) (subscriptionID : String) (ctx : Context) (conn : Conn) :
    Act (Option Resource × Option Error) := do
  let resourceGroupClient := Client.new "armresources.ResourceGroupsClient" conn subscriptionID
  match ← resourceGroupClient.send w "CreateOrUpdate" ctx [resourceGroupName]
      [("Location", location)] with
  | .error err => return (none, some err)
  | .ok resourceGroupResp => return (some resourceGroupResp, none)

def cleanup (w : World) (subscriptionID : String) (ctx : Context) (conn : Conn) :
    Act (Option HttpResponse × Option Error) := do
  let resourceGroupClient := Client.new "armresources.ResourceGroupsClient" conn subscriptionID
  match ← resourceGroupClient.beginDelete w "BeginDelete" ctx [resourceGroupName] with
  | .error err => return (none, some err)
  | .ok pollerResp =>
    match ← pollerResp.PollUntilDone ctx (some 10) with
    | .error err => return (none, some err)
    | .ok resp => return (resp, none)

def main (w : World) : Act Unit := do
  let subscriptionID ← os.Getenv w "AZURE_SUBSCRIPTION_ID"
  if subscriptionID.length = 0 then
    log.Fatal "AZURE_SUBSCRIPTION_ID is not set."
  match ← azidentity.NewDefaultAzureCredential w with
  | .error err => log.Fatal err.msg
  | .ok cred =>
    let conn := arm.NewDefaultConnection cred true
    let ctx := context.Background
    let (resourceGroup, err) ← createResourceGroup w subscriptionID ctx conn
    if let some err := err then
      log.Fatal err.msg
    log.Println ["resources group:", ← deref (← deref resourceGroup).ID]
    let (registry, err) ← createRegistry w subscriptionID ctx conn
    if let some err := err then
      log.Fatal err.msg
    log.Println ["registry:", ← deref (← deref registry).ID]
    let (taskRun, err) ← createTaskRun w subscriptionID ctx conn
    if let some err := err then
      log.Fatal err.msg
    log.Println ["task run:", ← deref (← deref taskRun).ID]
    let (taskRun, err) ← getTaskRun w subscriptionID ctx conn
    if let some err := err then
      log.Fatal err.msg
    log.Println ["get task run:", ← deref (← deref taskRun).ID]
    let keepResource ← os.Getenv w "KEEP_RESOURCE"
    if keepResource.length = 0 then
      let (_, err) ← cleanup w subscriptionID ctx conn
      if let some err := err then
        log.Fatal err.msg
      log.Println ["cleaned up successfully."]

end TaskRun

/-! ## sdk/resourcemanager/eventhub/namespace/main.go -/

namespace EventhubNamespace

def location : String := "westus"
def resourceGroupName : String := "sample-resource-group"
def namespacesName : String := "sample1namespace"

def createNamespace (w : World) (subscriptionID : String) (ctx : Context) (cred : Cred) :
    Act (Option Resource × Option Error) := do
  let namespacesClient := Client.ofCred "armeventhub.NamespacesClient" subscriptionID cred
  match ← namespacesClient.begin w "BeginCreateOrUpdate" ctx [resourceGroupName, namespacesName]
      [("Location", location),
       ("Tags.tag1", "value1"),
       ("Tags.tag2", "value2"),
       ("SKU.Name", "SKUNameStandard"),
       ("SKU.Tier", "SKUTierStandard")] with
  | .error err => return (none, some err)
  | .ok pollerResp =>
    match ← pollerResp.PollUntilDone ctx (some 10) with
    | .error err => return (none, some err)
    | .ok resp => return (some resp, none)

def getNamespace (w : World) (subscriptionID : String) (ctx : Context) (cred : Cred) :
    Act (Option Resource × Option Error) := do
  let namespacesClient := Client.ofCred "armeventhub.NamespacesClient" subscriptionID cred
  match ← namespacesClient.send w "Get" ctx [resourceGroupName, namespacesName] [] with
  | .error err => return (none, some err)
  | .ok resp => return (some resp, none)

def createResourceGroup (w : World) (subscriptionID : String) (ctx : Context) (cred : Cred) :
    Act (Option Resource × Option Error) := do
  let resourceGroupClient := Client.ofCred "armresources.ResourceGroupsClient" subscriptionID cred
  match ← resourceGroupClient.send w "CreateOrUpdate" ctx [resourceGroupName]
      [("Location", location)] with
  | .error err => return (none, some err)
  | .ok resourceGroupResp => return (some resourceGroupResp, none)

def cleanup (w : World) (subscriptionID : String) (ctx : Context) (cred : Cred) :
    Act (Option HttpResponse × Option Error) := do
  let resourceGroupClient := Client.ofCred "armresources.ResourceGroupsClient" subscriptionID cred
  match ← resourceGroupClient.beginDelete w "BeginDelete" ctx [resourceGroupName] with
  | .error err => return (none, some err)
  | .ok pollerResp =>
    match ← pollerResp.PollUntilDone ctx (some 10) with
    | .error err => return (none, some err)
    | .ok resp => return (resp, none)

def main (w : World) : Act Unit := do
  let subscriptionID ← os.Getenv w "AZURE_SUBSCRIPTION_ID"
  if subscriptionID.length = 0 then
    log.Fatal "AZURE_SUBSCRIPTION_ID is not set."
  match ← azidentity.NewDefaultAzureCredential w with
  | .error err => log.Fatal err.msg
  | .ok cred =>
    let ctx := context.Background
    let (resourceGroup, err) ← createResourceGroup w subscriptionID ctx cred
    if let some err := err then
      log.Fatal err.msg
    log.Println ["resources group:", ← deref (← deref resourceGroup).ID]
    let (namespace1, err) ← createNamespace w subscriptionID ctx cred
    if let some err := err then
      log.Fatal err.msg
    log.Println ["eventhub namespace:", ← deref (← deref namespace1).ID]
    let (namespace1, err) ← getNamespace w subscriptionID ctx cred
    if let some err := err then
      log.Fatal err.msg
    log.Println ["get eventhub namespace:", ← deref (← deref namespace1).ID]
    let keepResource ← os.Getenv w "KEEP_RESOURCE"
    if keepResource.length = 0 then
      let (_, err) ← cleanup w subscriptionID ctx cred
      if let some err := err then
        log.Fatal err.msg
      log.Println ["cleaned up successfully."]

end EventhubNamespace

/-! ## sdk/resourcemanager/cosmos/cassandra/main.go -/

namespace Cassandra

def location : String := "westus"
def resourceGroupName : String := "sample-resource-group"
def accountName : String := "sample-cosmos-account"
def keyspaceName : String := "sample-cosmos-keyspace"
def tableName : String := "sample-cosmos-table"

def createCassandraKeyspace (w : World) (cassandraResourcesClient : Client) (ctx : Context) :
    Act (Option Resource × Option Error) := do
  match ← cassandraResourcesClient.begin w "BeginCreateUpdateCassandraKeyspace" ctx
      [resourceGroupName, accountName, keyspaceName]
      [("Location", location),
       ("Properties.Resource.ID", keyspaceName),
       ("Properties.Options.Throughput", "2000")] with
  | .error err => return (none, some err)
  | .ok pollerResp =>
    match ← pollerResp.PollUntilDone ctx none with
    | .error err => return (none, some err)
    | .ok resp => return (some resp, none)

def createCassandraTable (w : World) (cassandraResourcesClient : Client) (ctx : Context) :
    Act (Option Resource × Option Error) := do
  match ← cassandraResourcesClient.begin w "BeginCreateUpdateCassandraTable" ctx
      [resourceGroupName, accountName, keyspaceName, tableName]
      [("Location", location),
       ("Properties.Resource.ID", tableName),
       ("Properties.Resource.DefaultTTL", "100"),
       ("Properties.Resource.Schema.Columns[0].Name", "columnA"),
       ("Properties.Resource.Schema.Columns[0].Type", "Ascii"),
       ("Properties.Resource.Schema.PartitionKeys[0].Name", "columnA"),
       ("Properties.Options.Throughput", "2000")] with
  | .error err => return (none, some err)
  | .ok pollerResp =>
    match ← pollerResp.PollUntilDone ctx none with
    | .error err => return (none, some err)
    | .ok resp => return (some resp, none)

def createDatabaseAccount (w : World) (databaseAccountsClient : Client) (ctx : Context) :
    Act (Option Resource × Option Error) := do
  match ← databaseAccountsClient.begin w "BeginCreateOrUpdate" ctx
      [resourceGroupName, accountName]
      [("Location", location),
       ("Kind", "DatabaseAccountKindGlobalDocumentDB"),
       ("Properties.DatabaseAccountOfferType", "Standard"),
       ("Properties.Locations[0].FailoverPriority", "0"),
       ("Properties.Locations[0].LocationName", location),
       ("Properties.Capabilities[0].Name", "EnableCassandra")] with
  | .error err => return (none, some err)
  | .ok pollerResp =>
    match ← pollerResp.PollUntilDone ctx none with
    | .error err => return (none, some err)
    | .ok resp => return (some resp, none)

def createResourceGroup (w : World) (resourceGroupClient : Client) (ctx : Context) :
    Act (Option Resource × Option Error) := do
  match ← resourceGroupClient.send w "CreateOrUpdate" ctx [resourceGroupName]
      [("Location", location)] with
  | .error err => return (none, some err)
  | .ok resourceGroupResp => return (some resourceGroupResp, none)

def cleanup (w : World) (resourceGroupClient : Client) (ctx : Context) : Act (Option Error) := do
  match ← resourceGroupClient.beginDelete w "BeginDelete" ctx [resourceGroupName] with
  | .error err => return some err
  | .ok pollerResp =>
    match ← pollerResp.PollUntilDone ctx none with
    | .error err => return some err
    | .ok _ => return none

def main (w : World) : Act Unit := do
  let subscriptionID ← os.Getenv w "AZURE_SUBSCRIPTION_ID"
  if subscriptionID.length = 0 then
    log.Fatal "AZURE_SUBSCRIPTION_ID is not set."
  match ← azidentity.NewDefaultAzureCredential w with
  | .error err => log.Fatal err.msg
  | .ok cred =>
    let ctx := context.Background
    match ClientFactory.new w "armresources.ClientFactory" subscriptionID cred with
    | .error err => log.Fatal err.msg
    | .ok resourcesClientFactory =>
      let resourceGroupClient := resourcesClientFactory.client "armresources.ResourceGroupsClient"
      match ClientFactory.new w "armcosmos.ClientFactory" subscriptionID cred with
      | .error err => log.Fatal err.msg
      | .ok cosmosClientFactory =>
        let cassandraResourcesClient :=
          cosmosClientFactory.client "armcosmos.CassandraResourcesClient"
        let databaseAccountsClient := cosmosClientFactory.client "armcosmos.DatabaseAccountsClient"
        let (resourceGroup, err) ← createResourceGroup w resourceGroupClient ctx
        if let some err := err then
          log.Fatal err.msg
        log.Println ["resources group:", ← deref (← deref resourceGroup).ID]
        let (databaseAccount, err) ← createDatabaseAccount w databaseAccountsClient ctx
        if let some err := err then
          log.Fatal err.msg
        log.Println ["cosmos database account:", ← deref (← deref databaseAccount).ID]
        let (cassandraKeyspace, err) ← createCassandraKeyspace w cassandraResourcesClient ctx
        if let some err := err then
          log.Fatal err.msg
        log.Println ["cosmos cassandra keyspace:", ← deref (← deref cassandraKeyspace).ID]
        let (cassandraTable, err) ← createCassandraTable w cassandraResourcesClient ctx
        if let some err := err then
          log.Fatal err.msg
        log.Println ["cosmos cassandra table:", ← deref (← deref cassandraTable).ID]
        let keepResource ← os.Getenv w "KEEP_RESOURCE"
        if keepResource.length = 0 then
          let err ← cleanup w resourceGroupClient ctx
          if let some err := err then
            log.Fatal err.msg
          log.Println ["cleaned up successfully."]

end Cassandra

/-! ## sdk/resourcemanager/apimanagement/apitagdescription/main.go -/

namespace ApiTagDescription

def location : String := "westus"
def resourceGroupName : String := "sample-resource-group"
def serviceName : String := "sample-api-service"
def apiID : String := "sample-api"
def tagID : String := "sample-tag"

def createApiManagementService (w : World) (serviceClient : Client) (ctx : Context) :
    Act (Option Resource × Option Error) := do
  match ← serviceClient.begin w "BeginCreateOrUpdate" ctx [resourceGroupName, serviceName]
      [("Location", location),
       ("Properties.PublisherName", "sample"),
       ("Properties.PublisherEmail", "xxx@wircesoft.com"),
       ("SKU.Name", "SKUTypeStandard"),
       ("SKU.Capacity", "2")] with
  | .error err => return (none, some err)
  | .ok pollerResp =>
    match ← pollerResp.PollUntilDone ctx none with
    | .error err => return (none, some err)
    | .ok resp => return (some resp, none)

def createApi (w : World) (apiClient : Client) (ctx : Context) :
    Act (Option Resource × Option Error) := do
  match ← apiClient.begin w "BeginCreateOrUpdate" ctx [resourceGroupName, serviceName, apiID]
      [("Properties.Path", "test"),
       ("Properties.DisplayName", "sample-sample"),
       ("Properties.Protocols[0]", "ProtocolHTTP"),
       ("Properties.Protocols[1]", "ProtocolHTTPS")] with
  | .error err => return (none, some err)
  | .ok pollerResp =>
    match ← pollerResp.PollUntilDone ctx none with
    | .error err => return (none, some err)
    | .ok resp => return (some resp, none)

def createTag (w : World) (tagClient : Client) (ctx : Context) :
    Act (Option Resource × Option Error) := do
  match ← tagClient.send w "CreateOrUpdate" ctx [resourceGroupName, serviceName, tagID]
      [("Properties.DisplayName", "sample-tag")] with
  | .error err => return (none, some err)
  | .ok resp => return (some resp, none)

def createApiTagDescription (w : World) (apiTagDescriptionClient : Client) (ctx : Context) :
    Act (Option Resource × Option Error) := do
  match ← apiTagDescriptionClient.send w "CreateOrUpdate" ctx
      [resourceGroupName, serviceName, apiID, tagID]
      [("Properties.Description", "sample tag description")] with
  | .error err => return (none, some err)
  | .ok resp => return (some resp, none)

def createResourceGroup (w : World) (resourceGroupClient : Client) (ctx : Context) :
    Act (Option Resource × Option Error) := do
  match ← resourceGroupClient.send w "CreateOrUpdate" ctx [resourceGroupName]
      [("Location", location)] with
  | .error err => return (none, some err)
  | .ok resourceGroupResp => return (some resourceGroupResp, none)

def cleanup (w : World) (resourceGroupClient : Client) (ctx : Context) : Act (Option Error) := do
  match ← resourceGroupClient.beginDelete w "BeginDelete" ctx [resourceGroupName] with
  | .error err => return some err
  | .ok pollerResp =>
    match ← pollerResp.PollUntilDone ctx none with
    | .error err => return some err
    | .ok _ => return none

def main (w : World) : Act Unit := do
  let subscriptionID ← os.Getenv w "AZURE_SUBSCRIPTION_ID"
  if subscriptionID.length = 0 then
    log.Fatal "AZURE_SUBSCRIPTION_ID is not set."
  match ← azidentity.NewDefaultAzureCredential w with
  | .error err => log.Fatal err.msg
  | .ok cred =>
    let ctx := context.Background
    match ClientFactory.new w "armresources.ClientFactory" subscriptionID cred with
    | .error err => log.Fatal err.msg
    | .ok resourcesClientFactory =>
      let resourceGroupClient := resourcesClientFactory.client "armresources.ResourceGroupsClient"
      match ClientFactory.new w "armapimanagement.ClientFactory" subscriptionID cred with
      | .error err => log.Fatal err.msg
      | .ok apimanagementClientFactory =>
        let serviceClient := apimanagementClientFactory.client "armapimanagement.ServiceClient"
        let apiClient := apimanagementClientFactory.client "armapimanagement.APIClient"
        let tagClient := apimanagementClientFactory.client "armapimanagement.TagClient"
        let apiTagDescriptionClient :=
          apimanagementClientFactory.client "armapimanagement.APITagDescriptionClient"
        let (resourceGroup, err) ← createResourceGroup w resourceGroupClient ctx
        if let some err := err then
          log.Fatal err.msg
        log.Println ["resources group:", ← deref (← deref resourceGroup).ID]
        let (apiManagementService, err) ← createApiManagementService w serviceClient ctx
        if let some err := err then
          log.Fatal err.msg
        log.Println ["api management service:", ← deref (← deref apiManagementService).ID]
        let (api, err) ← createApi w apiClient ctx
        if let some err := err then
          log.Fatal err.msg
        log.Println ["api:", ← deref (← deref api).ID]
        let (tag, err) ← createTag w tagClient ctx
        if let some err := err then
          log.Fatal err.msg
        log.Println ["tag:", ← deref (← deref tag).ID]
        let (apiTagDescription, err) ← createApiTagDescription w apiTagDescriptionClient ctx
        if let some err := err then
          log.Fatal err.msg
        log.Println ["api tag description:", ← deref (← deref apiTagDescription).ID]
        let keepResource ← os.Getenv w "KEEP_RESOURCE"
        if keepResource.length = 0 then
          let err ← cleanup w resourceGroupClient ctx
          if let some err := err then
            log.Fatal err.msg
          log.Println ["cleaned up successfully."]

end ApiTagDescription

/-! ## sdk/resourcemanager/postgresql/virtual_network_rule/main.go -/

namespace VirtualNetworkRule

def location : String := "eastus"
def resourceGroupName : String := "sample-resource-group"
def serverName : String := "sampleXserver"
def virtualNetworkName : String := "sample-virtual-network"
def subnetName : String := "sample-subnet"
def virtualNetworkRuleName : String := "sample-virtual-network-rule"

def createServer (w : World) (subscriptionID : String) (ctx : Context) (cred : Cred) :
    Act (Option Resource × Option Error) := do
  match Client.newE w "armpostgresql.ServersClient" subscriptionID cred with
  | .error err => return (none, some err)
  | .ok serversClient =>
    match ← serversClient.begin w "BeginCreate" ctx [resourceGroupName, serverName]
        [("Location", location),
         ("Properties.AdministratorLogin", "dummylogin"),
         ("Properties.AdministratorLoginPassword", "QWE123!@#"),
         ("SKU.Name", "GP_Gen5_8")] with
    | .error err => return (none, some err)
    | .ok pollerResp =>
      match ← pollerResp.PollUntilDone ctx none with
      | .error err => return (none, some err)
      | .ok resp => return (some resp, none)

def createVirtualNetwork (w : World) (subscriptionID : String) (ctx : Context) (cred : Cred) :
    Act (Option Resource × Option Error) := do
  match Client.newE w "armnetwork.VirtualNetworksClient" subscriptionID cred with
  | .error err => return (none, some err)
  | .ok virtualNetworkClient =>
    match ← virtualNetworkClient.begin w "BeginCreateOrUpdate" ctx
        [resourceGroupName, virtualNetworkName]
        [("Location", location),
         ("Properties.AddressSpace.AddressPrefixes[0]", "10.1.0.0/16")] with
    | .error err => return (none, some err)
    | .ok pollerResp =>
      match ← pollerResp.PollUntilDone ctx none with
      | .error err => return (none, some err)
      | .ok resp => return (some resp, none)

def createSubnet (w : World) (subscriptionID : String) (ctx : Context) (cred : Cred) :
    Act (Option Resource × Option Error) := do
  match Client.newE w "armnetwork.SubnetsClient" subscriptionID cred with
  | .error err => return (none, some err)
  | .ok subnetsClient =>
    match ← subnetsClient.begin w "BeginCreateOrUpdate" ctx
        [resourceGroupName, virtualNetworkName, subnetName]
        [("Properties.AddressPrefix", "10.1.0.0/24")] with
    | .error err => return (none, some err)
    | .ok pollerResp =>
      match ← pollerResp.PollUntilDone ctx none with
      | .error err => return (none, some err)
      | .ok resp => return (some resp, none)

def createVirtualNetworkRule (w : World) (subscriptionID : String) (ctx : Context) (cred : Cred)
    (subnetID : String) : Act (Option Resource × Option Error) := do
  match Client.newE w "armpostgresql.VirtualNetworkRulesClient" subscriptionID cred with
  | .error err => return (none, some err)
  | .ok virtualNetworkRulesClient =>
    match ← virtualNetworkRulesClient.begin w "BeginCreateOrUpdate" ctx
        [resourceGroupName, serverName, virtualNetworkRuleName]
        [("Properties.VirtualNetworkSubnetID", subnetID),
         ("Properties.IgnoreMissingVnetServiceEndpoint", "true")] with
    | .error err => return (none, some err)
    | .ok pollerResp =>
      match ← pollerResp.PollUntilDone ctx none with
      | .error err => return (none, some err)
      | .ok resp => return (some resp, none)

def createResourceGroup (w : World) (subscriptionID : String) (ctx : Context) (cred : Cred) :
    Act (Option Resource × Option Error) := do
  match Client.newE w "armresources.ResourceGroupsClient" subscriptionID cred with
  | .error err => return (none, some err)
  | .ok resourceGroupClient =>
    match ← resourceGroupClient.send w "CreateOrUpdate" ctx [resourceGroupName]
        [("Location", location)] with
    | .error err => return (none, some err)
    | .ok resourceGroupResp => return (some resourceGroupResp, none)

def cleanup (w : World) (subscriptionID : String) (ctx : Context) (cred : Cred) :
    Act (Option Error) := do
  match Client.newE w "armresources.ResourceGroupsClient" subscriptionID cred with
  | .error err => return some err
  | .ok resourceGroupClient =>
    match ← resourceGroupClient.beginDelete w "BeginDelete" ctx [resourceGroupName] with
    | .error err => return some err
    | .ok pollerResp =>
      match ← pollerResp.PollUntilDone ctx none with
      | .error err => return some err
      | .ok _ => return none

def main (w : World) : Act Unit := do
  let subscriptionID ← os.Getenv w "AZURE_SUBSCRIPTION_ID"
  if subscriptionID.length = 0 then
    log.Fatal "AZURE_SUBSCRIPTION_ID is not set."
  match ← azidentity.NewDefaultAzureCredential w with
  | .error err => log.Fatal err.msg
  | .ok cred =>
    let ctx := context.Background
    let (resourceGroup, err) ← createResourceGroup w subscriptionID ctx cred
    if let some err := err then
      log.Fatal err.msg
    log.Println ["resources group:", ← deref (← deref resourceGroup).ID]
    let (server, err) ← createServer w subscriptionID ctx cred
    if let some err := err then
      log.Fatal err.msg
    log.Println ["postgresql server:", ← deref (← deref server).ID]
    let (virtualNetwork, err) ← createVirtualNetwork w subscriptionID ctx cred
    if let some err := err then
      log.Fatal err.msg
    log.Println ["virtual network:", ← deref (← deref virtualNetwork).ID]
    let (subnet, err) ← createSubnet w subscriptionID ctx cred
    if let some err := err then
      log.Fatal err.msg
    log.Println ["subnet:", ← deref (← deref subnet).ID]
    let (virtualNetworkRule, err) ←
      createVirtualNetworkRule w subscriptionID ctx cred (← deref (← deref subnet).ID)
    if let some err := err then
      log.Fatal err.msg
    log.Println ["virtualN network rule:", ← deref (← deref virtualNetworkRule).ID]
    let keepResource ← os.Getenv w "KEEP_RESOURCE"
    if keepResource.length = 0 then
      let err ← cleanup w subscriptionID ctx cred
      if let some err := err then
        log.Fatal err.msg
      log.Println ["cleaned up successfully."]

end VirtualNetworkRule

/-! ## sdk/resourcemanager/appplatform/apps/main.go -/

namespace Apps

def location : String := "westus"
def resourceGroupName : String := "sample-resource-group"
def serviceName : String := "sample-spring-cloud"
def appName : String := "sample-app"

def createSpringCloudService (w : World) (subscriptionID : String) (ctx : Context)
    (cred : Cred) : Act (Option Resource × Option Error) := do
  match Client.newE w "armappplatform.ServicesClient" subscriptionID cred with
  | .error err => return (none, some err)
  | .ok servicesClient =>
    match ← servicesClient.begin w "BeginCreateOrUpdate" ctx [resourceGroupName, serviceName]
        [("Location", location),
         ("SKU.Name", "S0"),
         ("SKU.Tier", "Standard")] with
    | .error err => return (none, some err)
    | .ok pollerResp =>
      match ← pollerResp.PollUntilDone ctx none with
      | .error err => return (none, some err)
      | .ok resp => return (some resp, none)

def createAPP (w : World) (subscriptionID : String) (ctx : Context) (cred : Cred) :
    Act (Option Resource × Option Error) := do
  match Client.newE w "armappplatform.AppsClient" subscriptionID cred with
  | .error err => return (none, some err)
  | .ok appsClient =>
    match ← appsClient.begin w "BeginCreateOrUpdate" ctx [resourceGroupName, serviceName, appName]
        [("Properties.Public", "true"),
         ("Properties.HTTPSOnly", "false"),
         ("Properties.TemporaryDisk.SizeInGB", "1"),
         ("Properties.TemporaryDisk.MountPath", "/mytemporary"),
         ("Properties.PersistentDisk.SizeInGB", "1"),
         ("Properties.PersistentDisk.MountPath", "/mypersistent")] with
    | .error err => return (none, some err)
    | .ok pollerResp =>
      match ← pollerResp.PollUntilDone ctx none with
      | .error err => return (none, some err)
      | .ok resp => return (some resp, none)

def getAppResource (w : World) (subscriptionID : String) (ctx : Context) (cred : Cred) :
    Act (Option Resource × Option Error) := do
  match Client.newE w "armappplatform.AppsClient" subscriptionID cred with
  | .error err => return (none, some err)
  | .ok appsClient =>
    match ← appsClient.send w "Get" ctx [resourceGroupName, serviceName, appName] [] with
    | .error err => return (none, some err)
    | .ok resp => return (some resp, none)

def getAppResourceUploadURL (w : World) (subscriptionID : String) (ctx : Context)
    (cred : Cred) : Act (Option Resource × Option Error) := do
  match Client.newE w "armappplatform.AppsClient" subscriptionID cred with
  | .error err => return (none, some err)
  | .ok appsClient =>
    match ← appsClient.send w "GetResourceUploadURL" ctx
        [resourceGroupName, serviceName, appName] [] with
    | .error err => return (none, some err)
    | .ok resp => return (some resp, none)

def validateDomain (w : World) (subscriptionID : String) (ctx : Context) (cred : Cred) :
    Act (Option Resource × Option Error) := do
  match Client.newE w "armappplatform.AppsClient" subscriptionID cred with
  | .error err => return (none, some err)
  | .ok appsClient =>
    match ← appsClient.send w "ValidateDomain" ctx [resourceGroupName, serviceName, appName]
        [("Name", "test")] with
    | .error err => return (none, some err)
    | .ok resp => return (some resp, none)

def createResourceGroup (w : World) (subscriptionID : String) (ctx : Context) (cred : Cred) :
    Act (Option Resource × Option Error) := do
  match Client.newE w "armresources.ResourceGroupsClient" subscriptionID cred with
  | .error err => return (none, some err)
  | .ok resourceGroupClient =>
    match ← resourceGroupClient.send w "CreateOrUpdate" ctx [resourceGroupName]
        [("Location", location)] with
    | .error err => return (none, some err)
    | .ok resourceGroupResp => return (some resourceGroupResp, none)

def cleanup (w : World) (subscriptionID : String) (ctx : Context) (cred : Cred) :
    Act (Option Error) := do
  match Client.newE w "armresources.ResourceGroupsClient" subscriptionID cred with
  | .error err => return some err
  | .ok resourceGroupClient =>
    match ← resourceGroupClient.beginDelete w "BeginDelete" ctx [resourceGroupName] with
    | .error err => return some err
    | .ok pollerResp =>
      match ← pollerResp.PollUntilDone ctx none with
      | .error err => return some err
      | .ok _ => return none

def main (w : World) : Act Unit := do
  let subscriptionID ← os.Getenv w "AZURE_SUBSCRIPTION_ID"
  if subscriptionID.length = 0 then
    log.Fatal "AZURE_SUBSCRIPTION_ID is not set."
  match ← azidentity.NewDefaultAzureCredential w with
  | .error err => log.Fatal err.msg
  | .ok cred =>
    let ctx := context.Background
    let (resourceGroup, err) ← createResourceGroup w subscriptionID ctx cred
    if let some err := err then
      log.Fatal err.msg
    log.Println ["resources group:", ← deref (← deref resourceGroup).ID]
    let (service, err) ← createSpringCloudService w subscriptionID ctx cred
    if let some err := err then
      log.Fatal err.msg
    log.Println ["app platform service:", ← deref (← deref service).ID]
    let (app, err) ← createAPP w subscriptionID ctx cred
    if let some err := err then
      log.Fatal err.msg
    log.Println ["spring cloud app:", ← deref (← deref app).ID]
    let (app, err) ← getAppResource w subscriptionID ctx cred
    if let some err := err then
      log.Fatal err.msg
    log.Println ["get spring cloud app:", ← deref (← deref app).ID]
    let (uploadURL, err) ← getAppResourceUploadURL w subscriptionID ctx cred
    if let some err := err then
      log.Fatal err.msg
    log.Println ["app resource upload url:", ← deref (← deref uploadURL).RelativePath,
      ← deref (← deref uploadURL).UploadURL]
    let (domain, err) ← validateDomain w subscriptionID ctx cred
    if let some err := err then
      log.Fatal err.msg
    log.Println ["validate domain:", toString (← deref (← deref domain).IsValid),
      ← deref (← deref domain).Message]
    let keepResource ← os.Getenv w "KEEP_RESOURCE"
    if keepResource.length = 0 then
      let err ← cleanup w subscriptionID ctx cred
      if let some err := err then
        log.Fatal err.msg
      log.Println ["cleaned up successfully."]

end Apps

/-! ## postgresql/server_key/main.go -/

namespace ServerKey

def location : String := "eastus"
def resourceGroupName : String := "sample-resource-group"
def serverName : String := "sampleXserver"
def vaultName : String := "sample2vault123"
def keyName : String := "sample2key123"
def serverKeyName : String := "sample-postgresql-key"

def createServer (w : World) (subscriptionID : String) (ctx : Context) (conn : Conn) :
    Act (Option Resource × Option Error) := do
  let serversClient := Client.new "armpostgresql.ServersClient" conn subscriptionID
  match ← serversClient.begin w "BeginCreate" ctx [resourceGroupName, serverName]
      [("Location", location),
       ("Properties.ServerPropertiesForCreate.CreateMode", "CreateModeDefault"),
       ("Properties.ServerPropertiesForCreate.InfrastructureEncryption",
        "InfrastructureEncryptionDisabled"),
       ("Properties.ServerPropertiesForCreate.PublicNetworkAccess",
        "PublicNetworkAccessEnumEnabled"),
       ("Properties.ServerPropertiesForCreate.Version", "ServerVersionEleven"),
       ("Properties.AdministratorLogin", "dummylogin"),
       ("Properties.AdministratorLoginPassword", "QWE123!@#"),
       ("SKU.Name", "B_Gen5_1")] with
  | .error err => return (none, some err)
  | .ok pollerResp =>
    match ← pollerResp.PollUntilDone ctx (some 10) with
    | .error err => return (none, some err)
    | .ok resp => return (some resp, none)

def createVault (w : World) (subscriptionID TenantID ObjectID : String) (ctx : Context)
    (conn : Conn) : Act (Option Resource × Option Error) := do
  let vaultsClient := Client.new "armkeyvault.VaultsClient" conn subscriptionID
  match ← vaultsClient.begin w "BeginCreateOrUpdate" ctx [resourceGroupName, vaultName]
      [("Location", location),
       ("Properties.SKU.Family", "SKUFamilyA"),
       ("Properties.SKU.Name", "SKUNameStandard"),
       ("Properties.TenantID", TenantID),
       ("Properties.AccessPolicies[0].TenantID", TenantID),
       ("Properties.AccessPolicies[0].ObjectID", ObjectID),
       ("Properties.AccessPolicies[0].Permissions.Keys[0]", "KeyPermissionsGet"),
       ("Properties.AccessPolicies[0].Permissions.Keys[1]", "KeyPermissionsList"),
       ("Properties.AccessPolicies[0].Permissions.Keys[2]", "KeyPermissionsCreate"),
       ("Properties.AccessPolicies[0].Permissions.Secrets[0]", "SecretPermissionsGet"),
       ("Properties.AccessPolicies[0].Permissions.Secrets[1]", "SecretPermissionsList"),
       ("Properties.AccessPolicies[0].Permissions.Certificates[0]", "CertificatePermissionsGet"),
       ("Properties.AccessPolicies[0].Permissions.Certificates[1]", "CertificatePermissionsList"),
       ("Properties.AccessPolicies[0].Permissions.Certificates[2]",
        "CertificatePermissionsCreate"),
       ("Properties.AccessPolicies[0].Permissions.Storage[0]", "StoragePermissionsGet"),
       ("Properties.AccessPolicies[0].Permissions.Storage[1]", "StoragePermissionsList"),
       ("Properties.AccessPolicies[0].Permissions.Storage[2]", "StoragePermissionsDelete"),
       ("Properties.AccessPolicies[0].Permissions.Storage[3]", "StoragePermissionsSet"),
       ("Properties.EnabledForDiskEncryption", "true"),
       ("Properties.EnableSoftDelete", "true"),
       ("Properties.SoftDeleteRetentionInDays", "90"),
       ("Properties.NetworkACLs.Bypass", "NetworkRuleBypassOptionsAzureServices"),
       ("Properties.NetworkACLs.DefaultAction", "NetworkRuleActionAllow"),
       ("Properties.NetworkACLs.IPRules", "[]"),
       ("Properties.NetworkACLs.VirtualNetworkRules", "[]")] with
  | .error err => return (none, some err)
  | .ok pollerResp =>
    match ← pollerResp.PollUntilDone ctx (some 10) with
    | .error err => return (none, some err)
    | .ok resp => return (some resp, none)

def createKey (w : World) (subscriptionID : String) (ctx : Context) (conn : Conn) :
    Act (Option Resource × Option Error) := do
  let keysClient := Client.new "armkeyvault.KeysClient" conn subscriptionID
  match ← keysClient.send w "CreateIfNotExist" ctx [resourceGroupName, vaultName, keyName]
      [("Properties.Attributes.Enabled", "true"),
       ("Properties.KeySize", "2048"),
       ("Properties.KeyOps[0]", "JSONWebKeyOperationEncrypt"),
       ("Properties.KeyOps[1]", "JSONWebKeyOperationDecrypt"),
       ("Properties.Kty", "JSONWebKeyTypeRSA")] with
  | .error err => return (none, some err)
  | .ok secretResp => return (some secretResp, none)

def createServerKey (w : World) (subscriptionID : String) (ctx : Context) (conn : Conn)
    (keyID : String) : Act (Option Resource × Option Error) := do
  let serverKeysClient := Client.new "armpostgresql.ServerKeysClient" conn subscriptionID
  match ← serverKeysClient.begin w "BeginCreateOrUpdate" ctx
      [serverName, serverKeyName, resourceGroupName]
      [("Properties.ServerKeyType", "ServerKeyTypeAzureKeyVault"),
       ("Properties.URI", keyID)] with
  | .error err => return (none, some err)
  | .ok pollerResp =>
    match ← pollerResp.PollUntilDone ctx (some 10) with
    | .error err => return (none, some err)
    | .ok resp => return (some resp, none)

def createResourceGroup (w : World) (subscriptionID : String) (ctx : Context) (conn : Conn) :
    Act (Option Resource × Option Error) := do
  let resourceGroupClient := Client.new "armresources.ResourceGroupsClient" conn subscriptionID
  match ← resourceGroupClient.send w "CreateOrUpdate" ctx [resourceGroupName]
      [("Location", location)] with
  | .error err => return (none, some err)
  | .ok resourceGroupResp => return (some resourceGroupResp, none)

def cleanup (w : World) (subscriptionID : String) (ctx : Context) (conn : Conn) :
    Act (Option HttpResponse × Option Error) := do
  let resourceGroupClient := Client.new "armresources.ResourceGroupsClient" conn subscriptionID
  match ← resourceGroupClient.beginDelete w "BeginDelete" ctx [resourceGroupName] with
  | .error err => return (none, some err)
  | .ok pollerResp =>
    match ← pollerResp.PollUntilDone ctx (some 10) with
    | .error err => return (none, some err)
    | .ok resp => return (resp, none)

def main (w : World) : Act Unit := do
  let subscriptionID ← os.Getenv w "AZURE_SUBSCRIPTION_ID"
  if subscriptionID.length = 0 then
    log.Fatal "AZURE_SUBSCRIPTION_ID is not set."
  let TenantID ← os.Getenv w "AZURE_TENANT_ID"
  if TenantID.length = 0 then
    log.Fatal "AZURE_TENANT_ID is not set."
  let ObjectID ← os.Getenv w "AZURE_OBJECT_ID"
  if ObjectID.length = 0 then
    log.Fatal "AZURE_OBJECT_ID is not set."
  match ← azidentity.NewDefaultAzureCredential w with
  | .error err => log.Fatal err.msg
  | .ok cred =>
    let conn := arm.NewDefaultConnection cred true
    let ctx := context.Background
    let (resourceGroup, err) ← createResourceGroup w subscriptionID ctx conn
    if let some err := err then
      log.Fatal err.msg
    log.Println ["resources group:", ← deref (← deref resourceGroup).ID]
    let (server, err) ← createServer w subscriptionID ctx conn
    if let some err := err then
      log.Fatal err.msg
    log.Println ["postgresql server:", ← deref (← deref server).ID]
    let (vault, err) ← createVault w subscriptionID TenantID ObjectID ctx conn
    if let some err := err then
      log.Fatal err.msg
    log.Println ["vault:", ← deref (← deref vault).ID]
    let (key, err) ← createKey w subscriptionID ctx conn
    if let some err := err then
      log.Fatal err.msg
    log.Println ["key:", ← deref (← deref key).ID]
    let (serverKey, err) ←
      createServerKey w subscriptionID ctx conn (← deref (← deref key).ID)
    if let some err := err then
      log.Fatal err.msg
    log.Println ["postgresql server key:", ← deref (← deref serverKey).ID]
    let keepResource ← os.Getenv w "KEEP_RESOURCE"
    if keepResource.length = 0 then
      let (_, err) ← cleanup w subscriptionID ctx conn
      if let some err := err then
        log.Fatal err.msg
      log.Println ["cleaned up successfully."]

end ServerKey

/-! ## The common shape of the samples

Every `main` above is the same script: a setup (environment, credential,
connection or client factories), a sequence of helper calls each followed by
`if err != nil { log.Fatal(err) }` and a `log.Println` of the result, and a
final clean-up guarded by `KEEP_RESOURCE`.  `Script.run` is that shape as one
function; `Sample.main_eq_run` proves that each `main` is an instance of it. -/

/-- What a helper returns besides its error. -/
inductive Ret where
  | resource (r : Option Resource)
  | list (l : Slice (Option Resource))
  | sizes (l : Option ListResult)
  | response (r : Option HttpResponse)
  | nothing
  deriving DecidableEq, Repr

/-- How a helper talks to the service. -/
inductive Kind where
  | sync
  | syncPtr
  | syncList
  | async
  | pager
  | delete
  deriving DecidableEq, Repr

/-- What `main` has in hand once its setup is done. -/
structure Args where
  subscriptionID : String
  TenantID : String
  ObjectID : String
  ctx : Context
  conn : Conn

/-- One helper call of a `main`: the helper, the SDK operation it uses (client
type and method), the client constructor it checks for an error when it has
one, the argument `main` computes from the previous result, and the logging
that follows a successful return. -/
structure Step where
  name : String
  kind : Kind
  ctor : Option String
  client : String
  method : String
  arg : Option Resource → Act String
  helper : World → String → Act (Ret × Option Error)
  report : Ret → Act (Option Resource)

/-- A sample as a script. -/
structure Script where
  setup : World → Act Args
  steps : Args → List Step
  cleanup : Args → Step

/-- Run helper calls in order, then continue with `k`: after each call
`if err != nil { log.Fatal(err) }`, then the logging. -/
def runSteps (w : World) (k : Act Unit) : Option Resource → List Step → Act Unit
  | _, [] => k
  | prev, s :: rest => do
    let d ← s.arg prev
    let (ret, err) ← s.helper w d
    if let some err := err then
      log.Fatal err.msg
    let r ← s.report ret
    runSteps w k r rest

/-- The end of every `main`: clean up unless `KEEP_RESOURCE` is set. -/
def Script.finish (sc : Script) (w : World) (args : Args) : Act Unit := do
  let keepResource ← os.Getenv w "KEEP_RESOURCE"
  if keepResource.length = 0 then
    runSteps w (pure ()) none [sc.cleanup args]

/-- The whole script. -/
def Script.run (sc : Script) (w : World) : Act Unit := do
  let args ← sc.setup w
  runSteps w (sc.finish w args) none (sc.steps args)

/-- The helper calls of a script in the order `main` makes them, the clean-up
last. -/
def Script.sequence (sc : Script) (a : Args) : List Step := sc.steps a ++ [sc.cleanup a]

def asResource (x : Act (Option Resource × Option Error)) : Act (Ret × Option Error) := do
  let r ← x
  return (.resource r.1, r.2)

def asSizes (x : Act (Option ListResult × Option Error)) : Act (Ret × Option Error) := do
  let r ← x
  return (.sizes r.1, r.2)

def asList (x : Act (Slice (Option Resource))) : Act (Ret × Option Error) := do
  let r ← x
  return (.list r, none)

def asResponse (x : Act (Option HttpResponse × Option Error)) : Act (Ret × Option Error) := do
  let r ← x
  return (.response r.1, r.2)

def asNothing (x : Act (Option Error)) : Act (Ret × Option Error) := do
  let r ← x
  return (.nothing, r)

/-- No argument is taken from the previous result. -/
def noArg (_ : Option Resource) : Act String := pure ""

/-- The argument `*prev.ID` of the previous result. -/
def idArg (prev : Option Resource) : Act String := do
  deref (← deref prev).ID

/-- The logging `log.Println(label, *r.ID)`. -/
def reportID (label : String) : Ret → Act (Option Resource)
  | .resource r => do
    log.Println [label, ← deref (← deref r).ID]
    return r
  | _ => pure none

/-- The logging `log.Println("cleaned up successfully.")`. -/
def reportCleaned (_ : Ret) : Act (Option Resource) := do
  log.Println ["cleaned up successfully."]
  return none

/-- The setup shared by most samples: `AZURE_SUBSCRIPTION_ID`, then the
credential; `IncludeBody` is the logging option of the connection, false where
the sample builds none. -/
def setupWith (IncludeBody : Bool) (w : World) : Act Args := do
  let subscriptionID ← os.Getenv w "AZURE_SUBSCRIPTION_ID"
  if subscriptionID.length = 0 then
    log.Fatal "AZURE_SUBSCRIPTION_ID is not set."
  match ← azidentity.NewDefaultAzureCredential w with
  | .error err => log.Fatal err.msg
  | .ok cred => return ⟨subscriptionID, "", "", context.Background, ⟨cred, IncludeBody⟩⟩

/-- The setup of the samples that build two client factories. -/
def setupFactories (second : String) (w : World) : Act Args := do
  let subscriptionID ← os.Getenv w "AZURE_SUBSCRIPTION_ID"
  if subscriptionID.length = 0 then
    log.Fatal "AZURE_SUBSCRIPTION_ID is not set."
  match ← azidentity.NewDefaultAzureCredential w with
  | .error err => log.Fatal err.msg
  | .ok cred =>
    match ClientFactory.new w "armresources.ClientFactory" subscriptionID cred with
    | .error err => log.Fatal err.msg
    | .ok _ =>
      match ClientFactory.new w second subscriptionID cred with
      | .error err => log.Fatal err.msg
      | .ok _ => return ⟨subscriptionID, "", "", context.Background, ⟨cred, false⟩⟩

/-- The client a factory of `name` hands out for the arguments of a script. -/
def Args.client (a : Args) (factory name : String) : Client :=
  ClientFactory.client ⟨factory, a.subscriptionID, a.conn.cred⟩ name

namespace AvailabilitySet

def script : Script where
  setup := setupWith true
  steps a := [
    ⟨"createResourceGroup", .syncPtr, none, "armresources.ResourceGroupsClient", "CreateOrUpdate",
      noArg, fun w _ => asResource (createResourceGroup w a.subscriptionID a.ctx a.conn),
      reportID "resources group:"⟩,
    ⟨"createAvailabilitySet", .syncPtr, none, "armcompute.AvailabilitySetsClient",
      "CreateOrUpdate",
      noArg, fun w _ => asResource (createAvailabilitySet w a.subscriptionID a.ctx a.conn),
      reportID "availability set:"⟩,
    ⟨"listAvailabilitySet", .pager, none, "armcompute.AvailabilitySetsClient", "List",
      noArg, fun w _ => asList (listAvailabilitySet w a.subscriptionID a.ctx a.conn),
      fun ret =>
        match ret with
        | .list availabilitySetList => do
          forRange (fun i a => do log.Println [toString i, ← deref (← deref a).ID]) 0
            availabilitySetList.toList
          return none
        | _ => pure none⟩,
    ⟨"listAvailabilitySizes", .syncList, none, "armcompute.AvailabilitySetsClient",
      "ListAvailableSizes",
      noArg, fun w _ => asSizes (listAvailabilitySizes w a.subscriptionID a.ctx a.conn),
      fun ret =>
        match ret with
        | .sizes availabilitySetSizes => do
          log.Println ["list availability size:",
            toString (← deref availabilitySetSizes).Value.toList.length]
          forRange (fun i v => do log.Println [toString i, ← deref (← deref v).Name]) 0
            (← deref availabilitySetSizes).Value.toList
          return none
        | _ => pure none⟩]
  cleanup a :=
    ⟨"cleanup", .delete, none, "armresources.ResourceGroupsClient", "BeginDelete",
      noArg, fun w _ => asResponse (cleanup w a.subscriptionID a.ctx a.conn), reportCleaned⟩

end AvailabilitySet

namespace ActionGroup

def script : Script where
  setup := setupWith true
  steps a := [
    ⟨"createResourceGroup", .sync, none, "armresources.ResourceGroupsClient", "CreateOrUpdate",
      noArg, fun w _ => asResource (createResourceGroup w a.subscriptionID a.ctx a.conn),
      reportID "resources group:"⟩,
    ⟨"createActionGroup", .sync, none, "armmonitor.ActionGroupsClient", "CreateOrUpdate",
      noArg, fun w _ => asResource (createActionGroup w a.subscriptionID a.ctx a.conn),
      reportID "action group:"⟩,
    ⟨"getActionGroup", .sync, none, "armmonitor.ActionGroupsClient", "Get",
      noArg, fun w _ => asResource (getActionGroup w a.subscriptionID a.ctx a.conn),
      reportID "get action group:"⟩]
  cleanup a :=
    ⟨"cleanup", .delete, none, "armresources.ResourceGroupsClient", "BeginDelete",
      noArg, fun w _ => asResponse (cleanup w a.subscriptionID a.ctx a.conn), reportCleaned⟩

end ActionGroup

namespace ApimanagementService

def script : Script where
  setup := setupWith true
  steps a := [
    ⟨"createResourceGroup", .sync, none, "armresources.ResourceGroupsClient", "CreateOrUpdate",
      noArg, fun w _ => asResource (createResourceGroup w a.subscriptionID a.ctx a.conn),
      reportID "resources group:"⟩,
    ⟨"createApiManagementService", .async, none, "armapimanagement.APIManagementServiceClient",
      "BeginCreateOrUpdate",
      noArg, fun w _ => asResource (createApiManagementService w a.subscriptionID a.ctx a.conn),
      reportID "api management service:"⟩,
    ⟨"getApiManagementService", .sync, none, "armapimanagement.APIManagementServiceClient",
      "Get",
      noArg, fun w _ => asResource (getApiManagementService w a.subscriptionID a.ctx a.conn),
      reportID "get api management service:"⟩,
    ⟨"getSsoToken", .sync, none, "armapimanagement.APIManagementServiceClient", "GetSsoToken",
      noArg, fun w _ => asResource (getSsoToken w a.subscriptionID a.ctx a.conn),
      fun ret =>
        match ret with
        | .resource ssoToken => do
          log.Println ["ssoToken:", ← deref (← deref ssoToken).RedirectURI]
          return ssoToken
        | _ => pure none⟩,
    ⟨"getDomainOwnershipIdentifier", .sync, none, "armapimanagement.APIManagementServiceClient",
      "GetDomainOwnershipIdentifier",
      noArg, fun w _ => asResource (getDomainOwnershipIdentifier w a.subscriptionID a.ctx a.conn),
      fun ret =>
        match ret with
        | .resource domainOwnershipIdentifier => do
          log.Println ["domain owner ship Identifier:",
            ← deref (← deref domainOwnershipIdentifier).DomainOwnershipIdentifier]
          return domainOwnershipIdentifier
        | _ => pure none⟩]
  cleanup a :=
    ⟨"cleanup", .delete, none, "armresources.ResourceGroupsClient", "BeginDelete",
      noArg, fun w _ => asResponse (cleanup w a.subscriptionID a.ctx a.conn), reportCleaned⟩

end ApimanagementService

namespace TaskRun

def script : Script where
  setup := setupWith true
  steps a := [
    ⟨"createResourceGroup", .sync, none, "armresources.ResourceGroupsClient", "CreateOrUpdate",
      noArg, fun w _ => asResource (createResourceGroup w a.subscriptionID a.ctx a.conn),
      reportID "resources group:"⟩,
    ⟨"createRegistry", .async, none, "armcontainerregistry.RegistriesClient", "BeginCreate",
      noArg, fun w _ => asResource (createRegistry w a.subscriptionID a.ctx a.conn),
      reportID "registry:"⟩,
    ⟨"createTaskRun", .async, none, "armcontainerregistry.TaskRunsClient", "BeginCreate",
      noArg, fun w _ => asResource (createTaskRun w a.subscriptionID a.ctx a.conn),
      reportID "task run:"⟩,
    ⟨"getTaskRun", .sync, none, "armcontainerregistry.TaskRunsClient", "Get",
      noArg, fun w _ => asResource (getTaskRun w a.subscriptionID a.ctx a.conn),
      reportID "get task run:"⟩]
  cleanup a :=
    ⟨"cleanup", .delete, none, "armresources.ResourceGroupsClient", "BeginDelete",
      noArg, fun w _ => asResponse (cleanup w a.subscriptionID a.ctx a.conn), reportCleaned⟩

end TaskRun

namespace EventhubNamespace

def script : Script where
  setup := setupWith false
  steps a := [
    ⟨"createResourceGroup", .sync, none, "armresources.ResourceGroupsClient", "CreateOrUpdate",
      noArg, fun w _ => asResource (createResourceGroup w a.subscriptionID a.ctx a.conn.cred),
      reportID "resources group:"⟩,
    ⟨"createNamespace", .async, none, "armeventhub.NamespacesClient", "BeginCreateOrUpdate",
      noArg, fun w _ => asResource (createNamespace w a.subscriptionID a.ctx a.conn.cred),
      reportID "eventhub namespace:"⟩,
    ⟨"getNamespace", .sync, none, "armeventhub.NamespacesClient", "Get",
      noArg, fun w _ => asResource (getNamespace w a.subscriptionID a.ctx a.conn.cred),
      reportID "get eventhub namespace:"⟩]
  cleanup a :=
    ⟨"cleanup", .delete, none, "armresources.ResourceGroupsClient", "BeginDelete",
      noArg, fun w _ => asResponse (cleanup w a.subscriptionID a.ctx a.conn.cred), reportCleaned⟩

end EventhubNamespace

namespace Cassandra

def script : Script where
  setup := setupFactories "armcosmos.ClientFactory"
  steps a := [
    ⟨"createResourceGroup", .sync, none, "armresources.ResourceGroupsClient", "CreateOrUpdate",
      noArg, fun w _ => asResource (createResourceGroup w
        (a.client "armresources.ClientFactory" "armresources.ResourceGroupsClient") a.ctx),
      reportID "resources group:"⟩,
    ⟨"createDatabaseAccount", .async, none, "armcosmos.DatabaseAccountsClient",
      "BeginCreateOrUpdate",
      noArg, fun w _ => asResource (createDatabaseAccount w
        (a.client "armcosmos.ClientFactory" "armcosmos.DatabaseAccountsClient") a.ctx),
      reportID "cosmos database account:"⟩,
    ⟨"createCassandraKeyspace", .async, none, "armcosmos.CassandraResourcesClient",
      "BeginCreateUpdateCassandraKeyspace",
      noArg, fun w _ => asResource (createCassandraKeyspace w
        (a.client "armcosmos.ClientFactory" "armcosmos.CassandraResourcesClient") a.ctx),
      reportID "cosmos cassandra keyspace:"⟩,
    ⟨"createCassandraTable", .async, none, "armcosmos.CassandraResourcesClient",
      "BeginCreateUpdateCassandraTable",
      noArg, fun w _ => asResource (createCassandraTable w
        (a.client "armcosmos.ClientFactory" "armcosmos.CassandraResourcesClient") a.ctx),
      reportID "cosmos cassandra table:"⟩]
  cleanup a :=
    ⟨"cleanup", .delete, none, "armresources.ResourceGroupsClient", "BeginDelete",
      noArg, fun w _ => asNothing (cleanup w
        (a.client "armresources.ClientFactory" "armresources.ResourceGroupsClient") a.ctx),
      reportCleaned⟩

end Cassandra

namespace ApiTagDescription

def script : Script where
  setup := setupFactories "armapimanagement.ClientFactory"
  steps a := [
    ⟨"createResourceGroup", .sync, none, "armresources.ResourceGroupsClient", "CreateOrUpdate",
      noArg, fun w _ => asResource (createResourceGroup w
        (a.client "armresources.ClientFactory" "armresources.ResourceGroupsClient") a.ctx),
      reportID "resources group:"⟩,
    ⟨"createApiManagementService", .async, none, "armapimanagement.ServiceClient",
      "BeginCreateOrUpdate",
      noArg, fun w _ => asResource (createApiManagementService w
        (a.client "armapimanagement.ClientFactory" "armapimanagement.ServiceClient") a.ctx),
      reportID "api management service:"⟩,
    ⟨"createApi", .async, none, "armapimanagement.APIClient", "BeginCreateOrUpdate",
      noArg, fun w _ => asResource (createApi w
        (a.client "armapimanagement.ClientFactory" "armapimanagement.APIClient") a.ctx),
      reportID "api:"⟩,
    ⟨"createTag", .sync, none, "armapimanagement.TagClient", "CreateOrUpdate",
      noArg, fun w _ => asResource (createTag w
        (a.client "armapimanagement.ClientFactory" "armapimanagement.TagClient") a.ctx),
      reportID "tag:"⟩,
    ⟨"createApiTagDescription", .sync, none, "armapimanagement.APITagDescriptionClient",
      "CreateOrUpdate",
      noArg, fun w _ => asResource (createApiTagDescription w
        (a.client "armapimanagement.ClientFactory" "armapimanagement.APITagDescriptionClient")
        a.ctx),
      reportID "api tag description:"⟩]
  cleanup a :=
    ⟨"cleanup", .delete, none, "armresources.ResourceGroupsClient", "BeginDelete",
      noArg, fun w _ => asNothing (cleanup w
        (a.client "armresources.ClientFactory" "armresources.ResourceGroupsClient") a.ctx),
      reportCleaned⟩

end ApiTagDescription

namespace VirtualNetworkRule

def script : Script where
  setup := setupWith false
  steps a := [
    ⟨"createResourceGroup", .sync, some "armresources.ResourceGroupsClient",
      "armresources.ResourceGroupsClient", "CreateOrUpdate",
      noArg, fun w _ => asResource (createResourceGroup w a.subscriptionID a.ctx a.conn.cred),
      reportID "resources group:"⟩,
    ⟨"createServer", .async, some "armpostgresql.ServersClient",
      "armpostgresql.ServersClient", "BeginCreate",
      noArg, fun w _ => asResource (createServer w a.subscriptionID a.ctx a.conn.cred),
      reportID "postgresql server:"⟩,
    ⟨"createVirtualNetwork", .async, some "armnetwork.VirtualNetworksClient",
      "armnetwork.VirtualNetworksClient", "BeginCreateOrUpdate",
      noArg, fun w _ => asResource (createVirtualNetwork w a.subscriptionID a.ctx a.conn.cred),
      reportID "virtual network:"⟩,
    ⟨"createSubnet", .async, some "armnetwork.SubnetsClient",
      "armnetwork.SubnetsClient", "BeginCreateOrUpdate",
      noArg, fun w _ => asResource (createSubnet w a.subscriptionID a.ctx a.conn.cred),
      reportID "subnet:"⟩,
    ⟨"createVirtualNetworkRule", .async, some "armpostgresql.VirtualNetworkRulesClient",
      "armpostgresql.VirtualNetworkRulesClient", "BeginCreateOrUpdate",
      idArg, fun w subnetID =>
        asResource (createVirtualNetworkRule w a.subscriptionID a.ctx a.conn.cred subnetID),
      reportID "virtualN network rule:"⟩]
  cleanup a :=
    ⟨"cleanup", .delete, some "armresources.ResourceGroupsClient",
      "armresources.ResourceGroupsClient", "BeginDelete",
      noArg, fun w _ => asNothing (cleanup w a.subscriptionID a.ctx a.conn.cred), reportCleaned⟩

end VirtualNetworkRule

namespace Apps

def script : Script where
  setup := setupWith false
  steps a := [
    ⟨"createResourceGroup", .sync, some "armresources.ResourceGroupsClient",
      "armresources.ResourceGroupsClient", "CreateOrUpdate",
      noArg, fun w _ => asResource (createResourceGroup w a.subscriptionID a.ctx a.conn.cred),
      reportID "resources group:"⟩,
    ⟨"createSpringCloudService", .async, some "armappplatform.ServicesClient",
      "armappplatform.ServicesClient", "BeginCreateOrUpdate",
      noArg, fun w _ =>
        asResource (createSpringCloudService w a.subscriptionID a.ctx a.conn.cred),
      reportID "app platform service:"⟩,
    ⟨"createAPP", .async, some "armappplatform.AppsClient",
      "armappplatform.AppsClient", "BeginCreateOrUpdate",
      noArg, fun w _ => asResource (createAPP w a.subscriptionID a.ctx a.conn.cred),
      reportID "spring cloud app:"⟩,
    ⟨"getAppResource", .sync, some "armappplatform.AppsClient",
      "armappplatform.AppsClient", "Get",
      noArg, fun w _ => asResource (getAppResource w a.subscriptionID a.ctx a.conn.cred),
      reportID "get spring cloud app:"⟩,
    ⟨"getAppResourceUploadURL", .sync, some "armappplatform.AppsClient",
      "armappplatform.AppsClient", "GetResourceUploadURL",
      noArg, fun w _ =>
        asResource (getAppResourceUploadURL w a.subscriptionID a.ctx a.conn.cred),
      fun ret =>
        match ret with
        | .resource uploadURL => do
          log.Println ["app resource upload url:", ← deref (← deref uploadURL).RelativePath,
            ← deref (← deref uploadURL).UploadURL]
          return uploadURL
        | _ => pure none⟩,
    ⟨"validateDomain", .sync, some "armappplatform.AppsClient",
      "armappplatform.AppsClient", "ValidateDomain",
      noArg, fun w _ => asResource (validateDomain w a.subscriptionID a.ctx a.conn.cred),
      fun ret =>
        match ret with
        | .resource domain => do
          log.Println ["validate domain:", toString (← deref (← deref domain).IsValid),
            ← deref (← deref domain).Message]
          return domain
        | _ => pure none⟩]
  cleanup a :=
    ⟨"cleanup", .delete, some "armresources.ResourceGroupsClient",
      "armresources.ResourceGroupsClient", "BeginDelete",
      noArg, fun w _ => asNothing (cleanup w a.subscriptionID a.ctx a.conn.cred), reportCleaned⟩

end Apps

namespace ServerKey

def setup (w : World) : Act Args := do
  let subscriptionID ← os.Getenv w "AZURE_SUBSCRIPTION_ID"
  if subscriptionID.length = 0 then
    log.Fatal "AZURE_SUBSCRIPTION_ID is not set."
  let TenantID ← os.Getenv w "AZURE_TENANT_ID"
  if TenantID.length = 0 then
    log.Fatal "AZURE_TENANT_ID is not set."
  let ObjectID ← os.Getenv w "AZURE_OBJECT_ID"
  if ObjectID.length = 0 then
    log.Fatal "AZURE_OBJECT_ID is not set."
  match ← azidentity.NewDefaultAzureCredential w with
  | .error err => log.Fatal err.msg
  | .ok cred => return ⟨subscriptionID, TenantID, ObjectID, context.Background, ⟨cred, true⟩⟩

def script : Script where
  setup := setup
  steps a := [
    ⟨"createResourceGroup", .sync, none, "armresources.ResourceGroupsClient", "CreateOrUpdate",
      noArg, fun w _ => asResource (createResourceGroup w a.subscriptionID a.ctx a.conn),
      reportID "resources group:"⟩,
    ⟨"createServer", .async, none, "armpostgresql.ServersClient", "BeginCreate",
      noArg, fun w _ => asResource (createServer w a.subscriptionID a.ctx a.conn),
      reportID "postgresql server:"⟩,
    ⟨"createVault", .async, none, "armkeyvault.VaultsClient", "BeginCreateOrUpdate",
      noArg, fun w _ =>
        asResource (createVault w a.subscriptionID a.TenantID a.ObjectID a.ctx a.conn),
      reportID "vault:"⟩,
    ⟨"createKey", .sync, none, "armkeyvault.KeysClient", "CreateIfNotExist",
      noArg, fun w _ => asResource (createKey w a.subscriptionID a.ctx a.conn),
      reportID "key:"⟩,
    ⟨"createServerKey", .async, none, "armpostgresql.ServerKeysClient", "BeginCreateOrUpdate",
      idArg, fun w keyID => asResource (createServerKey w a.subscriptionID a.ctx a.conn keyID),
      reportID "postgresql server key:"⟩]
  cleanup a :=
    ⟨"cleanup", .delete, none, "armresources.ResourceGroupsClient", "BeginDelete",
      noArg, fun w _ => asResponse (cleanup w a.subscriptionID a.ctx a.conn), reportCleaned⟩

end ServerKey

/-- The ten sample programs. -/
inductive Sample where
  | availabilityset
  | action_group
  | apimanagement_service
  | task_run
  | eventhub_namespace
  | cassandra
  | apitagdescription
  | virtual_network_rule
  | apps
  | server_key
  deriving DecidableEq, Repr

/-- The `main` of a sample. -/
def Sample.main : Sample → World → Act Unit
  | .availabilityset => AvailabilitySet.main
  | .action_group => ActionGroup.main
  | .apimanagement_service => ApimanagementService.main
  | .task_run => TaskRun.main
  | .eventhub_namespace => EventhubNamespace.main
  | .cassandra => Cassandra.main
  | .apitagdescription => ApiTagDescription.main
  | .virtual_network_rule => VirtualNetworkRule.main
  | .apps => Apps.main
  | .server_key => ServerKey.main

/-- The script of a sample. -/
def Sample.script : Sample → Script
  | .availabilityset => AvailabilitySet.script
  | .action_group => ActionGroup.script
  | .apimanagement_service => ApimanagementService.script
  | .task_run => TaskRun.script
  | .eventhub_namespace => EventhubNamespace.script
  | .cassandra => Cassandra.script
  | .apitagdescription => ApiTagDescription.script
  | .virtual_network_rule => VirtualNetworkRule.script
  | .apps => Apps.script
  | .server_key => ServerKey.script

/-! ## Vocabulary of the claims -/

/-- The SDK operation (client type, method) an event belongs to; local events
have none. -/
def Event.op? : Event → Option (String × String)
  | .call c m _ _ _ => some (c.name, m)
  | .poll c m _ _ => some (c, m)
  | .query c m => some (c, m)
  | .nextPage c m _ => some (c.name, m)
  | _ => none

/-- A client method call: a synchronous call or a `Begin...` call. -/
def Event.isCall : Event → Bool
  | .call _ _ _ _ _ => true
  | _ => false

/-- A `PollUntilDone` call. -/
def Event.isPoll : Event → Bool
  | .poll _ _ _ _ => true
  | _ => false

/-- The SDK operation of a step. -/
def Step.op (A : Step) : String × String := (A.client, A.method)

/-- The helper of a step returns an error in world `w`. -/
def Step.fails (A : Step) (w : World) : Prop :=
  ∃ d ret e, (A.helper w d).out = .ok (ret, some e)

/-- The event of the final log line. -/
def cleanedUp : Event := .println ["cleaned up successfully."]

/-- The event of reading the keep-resources flag. -/
def keepFlag : Event := .getenv "KEEP_RESOURCE"

/-- The error of the client constructor of a step, if the step has a
constructor that can fail and it does in `w`. -/
def ctorError (w : World) (ctor : Option String) : Option Error := ctor.bind w.construct

/-- What a synchronous helper does: check the constructor, issue one call,
return the resource embedded in the response or the error. -/
def syncForm (w : World) (ctor : Option String) (c : Client) (method : String) (ctx : Context)
    (args : List String) (payload : Payload) : Act (Ret × Option Error) :=
  match ctorError w ctor with
  | some e => ⟨[], .ok (.resource none, some e)⟩
  | none =>
    ⟨[.call c method ctx args payload],
      .ok (match w.send c.name method with
        | .error e => (.resource none, some e)
        | .ok r => (.resource (some r), none))⟩

/-- What a synchronous helper of the oldest SDK generation does: the response
holds a pointer, which is returned as it is. -/
def syncPtrForm (w : World) (c : Client) (method : String) (ctx : Context)
    (args : List String) (payload : Payload) : Act (Ret × Option Error) :=
  ⟨[.call c method ctx args payload],
    .ok (match w.sendPtr c.name method with
      | .error e => (.resource none, some e)
      | .ok r => (.resource r, none))⟩

/-- What `listAvailabilitySizes` does. -/
def syncListForm (w : World) (c : Client) (method : String) (ctx : Context)
    (args : List String) (payload : Payload) : Act (Ret × Option Error) :=
  ⟨[.call c method ctx args payload],
    .ok (match w.sendList c.name method with
      | .error e => (.sizes none, some e)
      | .ok r => (.sizes r, none))⟩

/-- What an asynchronous create helper does: check the constructor, issue the
`Begin...` call, and on success poll until done. -/
def asyncForm (w : World) (ctor : Option String) (c : Client) (method : String) (ctx : Context)
    (frequency : Option Nat) (args : List String) (payload : Payload) :
    Act (Ret × Option Error) :=
  match ctorError w ctor with
  | some e => ⟨[], .ok (.resource none, some e)⟩
  | none =>
    match w.begin c.name method with
    | .error e => ⟨[.call c method ctx args payload], .ok (.resource none, some e)⟩
    | .ok statuses =>
      let p : Poller Resource := ⟨c.name, method, statuses, none⟩
      ⟨.call c method ctx args payload :: (p.pollState ctx frequency).1,
        .ok (match (p.pollState ctx frequency).2.1 with
          | .error e => (.resource none, some e)
          | .ok r => (.resource (some r), none))⟩

/-- What `cleanup` does; `raw` says whether the helper returns the raw HTTP
response besides the error. -/
def deleteForm (w : World) (raw : Bool) (ctor : Option String) (c : Client) (method : String)
    (ctx : Context) (frequency : Option Nat) (args : List String) : Act (Ret × Option Error) :=
  match ctorError w ctor with
  | some e => ⟨[], .ok (if raw then .response none else .nothing, some e)⟩
  | none =>
    match w.beginDelete c.name method with
    | .error e =>
      ⟨[.call c method ctx args []], .ok (if raw then .response none else .nothing, some e)⟩
    | .ok statuses =>
      let p : Poller (Option HttpResponse) := ⟨c.name, method, statuses, none⟩
      ⟨.call c method ctx args [] :: (p.pollState ctx frequency).1,
        .ok (match (p.pollState ctx frequency).2.1 with
          | .error e => (if raw then .response none else .nothing, some e)
          | .ok r => (if raw then .response r else .nothing, none))⟩

/-- What `listAvailabilitySet` does. -/
def pagerForm (w : World) (c : Client) (ctx : Context) : Act (Ret × Option Error) :=
  asList (AvailabilitySet.listAvailabilitySet.loop c ctx (w.pages c.name "List").err
    (w.pages c.name "List").pages Slice.make)

/-- The helper of a step has the form its kind announces, on the step's own
operation, with the context `ctx`, and polls at 10 seconds or at the default. -/
def Step.Formed (A : Step) (ctx : Context) : Prop :=
  ∀ d, ∃ (c : Client) (frequency : Option Nat) (args : List String) (payload : Payload)
      (raw : Bool),
    c.name = A.client ∧ (frequency = some 10 ∨ frequency = none) ∧
    (A.kind = .pager → A.method = "List") ∧
    ∀ w, A.helper w d =
      match A.kind with
      | .sync => syncForm w A.ctor c A.method ctx args payload
      | .syncPtr => syncPtrForm w c A.method ctx args payload
      | .syncList => syncListForm w c A.method ctx args payload
      | .async => asyncForm w A.ctor c A.method ctx frequency args payload
      | .pager => pagerForm w c ctx
      | .delete => deleteForm w raw A.ctor c A.method ctx frequency args

/-- The parts of a step around its helper: the argument is none or the ID of
the previous result, and the logging only prints, the final log line being
left to the clean-up. -/
structure Step.Plain (A : Step) : Prop where
  arg : A.arg = noArg ∨ A.arg = idArg
  report_println : ∀ ret, ∀ ev ∈ (A.report ret).trace, ∃ args, ev = .println args
  report_modest : A.kind ≠ .delete → ∀ ret, cleanedUp ∉ (A.report ret).trace
  report_safe : ∀ ret m, (A.report ret).out ≠ .error (.fatal m)

/-- What the generic results need from a script. -/
structure Script.WF (sc : Script) : Prop where
  setup_events : ∀ w, ∀ ev ∈ (sc.setup w).trace,
    (∃ n, ev = .getenv n ∧ n ≠ "KEEP_RESOURCE") ∨ ev = .credential ∨ ∃ m, ev = .fatal m
  setup_safe : ∀ w, (sc.setup w).out ≠ .error .panic
  setup_ctx : ∀ w a, (sc.setup w).out = .ok a → a.ctx = context.Background
  formed : ∀ a, ∀ A ∈ sc.sequence a, A.Formed a.ctx
  plain : ∀ a, ∀ A ∈ sc.sequence a, A.Plain
  distinct : ∀ a, ((sc.sequence a).map Step.op).Nodup
  first : ∀ a, ∃ A rest, sc.steps a = A :: rest ∧ A.name = "createResourceGroup" ∧
    A.kind ≠ .pager
  creates : ∀ a, ∀ A ∈ sc.steps a, A.kind ≠ .delete
  deletes : ∀ a, (sc.cleanup a).kind = .delete

/-- An action that only prints, never the final log line, and never calls
`log.Fatal`. -/
def Act.Prints {α : Type} (x : Act α) : Prop :=
  (∀ ev ∈ x.trace, ∃ args, ev = .println args ∧ ev ≠ cleanedUp) ∧
    ∀ m, x.out ≠ .error (.fatal m)

/-- Modelled from the spec: the terminal result `pollUntilDone` reaches for an
operation whose successive statuses are `statuses`, polled at 10 seconds. -/
def pollResult {α : Type} (client method : String) (ctx : Context)
    (statuses : List (OperationStatus α)) : Except Error α :=
  ((⟨client, method, statuses, none⟩ : Poller α).pollState ctx (some 10)).2.1

/-- The error of an `Except`, if any. -/
def errorOf {α : Type} : Except Error α → Option Error
  | .error e => some e
  | .ok _ => none

/-- The error the helper of a step returns in world `w`, read off the world:
the constructor's error, else the error of the call, else the error of the
poll. -/
def Step.error (A : Step) (ctx : Context) (w : World) : Option Error :=
  match A.kind with
  | .sync => (ctorError w A.ctor).orElse fun _ => errorOf (w.send A.client A.method)
  | .syncPtr => errorOf (w.sendPtr A.client A.method)
  | .syncList => errorOf (w.sendList A.client A.method)
  | .async =>
    (ctorError w A.ctor).orElse fun _ =>
      match w.begin A.client A.method with
      | .error e => some e
      | .ok statuses => errorOf (pollResult A.client A.method ctx statuses)
  | .pager => none
  | .delete =>
    (ctorError w A.ctor).orElse fun _ =>
      match w.beginDelete A.client A.method with
      | .error e => some e
      | .ok statuses => errorOf (pollResult A.client A.method ctx statuses)

/-- An event a step can leave in the trace of a run: an event of its own
operation, a wait between polls, a line of its logging, or the `log.Fatal` of
its error. -/
def Step.Leaves (S : Step) (ev : Event) : Prop :=
  ev.op? = some S.op ∨ (∃ n, ev = .wait n) ∨
    (∃ args, ev = .println args ∧ (S.kind ≠ .delete → ev ≠ cleanedUp)) ∨ ∃ m, ev = .fatal m

/-- An event a step leaves in the trace when it runs after a previous result
`p` in world `w`: besides `Leaves`, an event of an SDK operation comes from the
helper, called with the argument computed from `p`. -/
def Step.LeavesAt (S : Step) (w : World) (p : Option Resource) (ev : Event) : Prop :=
  S.Leaves ev ∧ ∀ o, ev.op? = some o → ∃ d, (S.arg p).out = .ok d ∧ ev ∈ (S.helper w d).trace

/-- In the trace `t`, every event that satisfies `Q` comes after an event that
satisfies `P`. -/
def Precedes (P Q : Event → Prop) (t : List Event) : Prop :=
  ∀ xs ev ys, t = xs ++ ev :: ys → Q ev → ∃ ev' ∈ xs, P ev'

/-- An event a step leaves in the trace of a run in world `w`: besides
`Leaves`, an event of an SDK operation comes from the helper of the step. -/
def Step.LeavesIn (S : Step) (w : World) (ev : Event) : Prop :=
  S.Leaves ev ∧ ∀ o, ev.op? = some o → ∃ d, ev ∈ (S.helper w d).trace

/-- The step can issue the SDK operation `o`: in some world, for some argument,
its helper produces an event of `o`. -/
def Step.issues (B : Step) (o : String × String) : Prop :=
  ∃ w d, ∃ ev ∈ (B.helper w d).trace, ev.op? = some o

/-- The step at position `i` of the main sequence of a script (the clean-up
beyond the end). -/
def Script.stepAt (sc : Script) (a : Args) (i : Nat) : Step :=
  ((sc.sequence a).drop i).headD (sc.cleanup a)

/-! ## The order of the steps and what they depend on -/

/-- The names of the helper calls of each `main`, in order. -/
def Sample.names : Sample → List String
  | .availabilityset => ["createResourceGroup", "createAvailabilitySet", "listAvailabilitySet",
      "listAvailabilitySizes", "cleanup"]
  | .action_group => ["createResourceGroup", "createActionGroup", "getActionGroup", "cleanup"]
  | .apimanagement_service => ["createResourceGroup", "createApiManagementService",
      "getApiManagementService", "getSsoToken", "getDomainOwnershipIdentifier", "cleanup"]
  | .task_run => ["createResourceGroup", "createRegistry", "createTaskRun", "getTaskRun",
      "cleanup"]
  | .eventhub_namespace => ["createResourceGroup", "createNamespace", "getNamespace", "cleanup"]
  | .cassandra => ["createResourceGroup", "createDatabaseAccount", "createCassandraKeyspace",
      "createCassandraTable", "cleanup"]
  | .apitagdescription => ["createResourceGroup", "createApiManagementService", "createApi",
      "createTag", "createApiTagDescription", "cleanup"]
  | .virtual_network_rule => ["createResourceGroup", "createServer", "createVirtualNetwork",
      "createSubnet", "createVirtualNetworkRule", "cleanup"]
  | .apps => ["createResourceGroup", "createSpringCloudService", "createAPP", "getAppResource",
      "getAppResourceUploadURL", "validateDomain", "cleanup"]
  | .server_key => ["createResourceGroup", "createServer", "createVault", "createKey",
      "createServerKey", "cleanup"]

/-- The dependencies of each sample as pairs (dependent step, step it depends
on): a step depends on the steps whose resource it names in its call (the
resource group, a parent resource, an ID taken from a result) and on the steps
those depend on; the subnet of the virtual-network-rule sample is listed after
the server as well, and the clean-up depends on the creation of the resource
group. -/
def dependsOn : Sample → List (String × String)
  | .availabilityset => [("createAvailabilitySet", "createResourceGroup"),
      ("listAvailabilitySet", "createResourceGroup"),
      ("listAvailabilitySizes", "createResourceGroup"),
      ("listAvailabilitySizes", "createAvailabilitySet"), ("cleanup", "createResourceGroup")]
  | .action_group => [("createActionGroup", "createResourceGroup"),
      ("getActionGroup", "createResourceGroup"), ("getActionGroup", "createActionGroup"),
      ("cleanup", "createResourceGroup")]
  | .apimanagement_service => [("createApiManagementService", "createResourceGroup"),
      ("getApiManagementService", "createResourceGroup"),
      ("getApiManagementService", "createApiManagementService"),
      ("getSsoToken", "createResourceGroup"), ("getSsoToken", "createApiManagementService"),
      ("cleanup", "createResourceGroup")]
  | .task_run => [("createRegistry", "createResourceGroup"),
      ("createTaskRun", "createResourceGroup"), ("createTaskRun", "createRegistry"),
      ("getTaskRun", "createResourceGroup"), ("getTaskRun", "createRegistry"),
      ("getTaskRun", "createTaskRun"), ("cleanup", "createResourceGroup")]
  | .eventhub_namespace => [("createNamespace", "createResourceGroup"),
      ("getNamespace", "createResourceGroup"), ("getNamespace", "createNamespace"),
      ("cleanup", "createResourceGroup")]
  | .cassandra => [("createDatabaseAccount", "createResourceGroup"),
      ("createCassandraKeyspace", "createResourceGroup"),
      ("createCassandraKeyspace", "createDatabaseAccount"),
      ("createCassandraTable", "createResourceGroup"),
      ("createCassandraTable", "createDatabaseAccount"),
      ("createCassandraTable", "createCassandraKeyspace"), ("cleanup", "createResourceGroup")]
  | .apitagdescription => [("createApiManagementService", "createResourceGroup"),
      ("createApi", "createResourceGroup"), ("createApi", "createApiManagementService"),
      ("createTag", "createResourceGroup"), ("createTag", "createApiManagementService"),
      ("createApiTagDescription", "createResourceGroup"),
      ("createApiTagDescription", "createApiManagementService"),
      ("createApiTagDescription", "createApi"), ("createApiTagDescription", "createTag"),
      ("cleanup", "createResourceGroup")]
  | .virtual_network_rule => [("createServer", "createResourceGroup"),
      ("createVirtualNetwork", "createResourceGroup"), ("createSubnet", "createResourceGroup"),
      ("createSubnet", "createServer"), ("createSubnet", "createVirtualNetwork"),
      ("createVirtualNetworkRule", "createResourceGroup"),
      ("createVirtualNetworkRule", "createServer"),
      ("createVirtualNetworkRule", "createVirtualNetwork"),
      ("createVirtualNetworkRule", "createSubnet"), ("cleanup", "createResourceGroup")]
  | .apps => [("createSpringCloudService", "createResourceGroup"),
      ("createAPP", "createResourceGroup"), ("createAPP", "createSpringCloudService"),
      ("getAppResource", "createResourceGroup"), ("getAppResource", "createSpringCloudService"),
      ("getAppResource", "createAPP"), ("getAppResourceUploadURL", "createResourceGroup"),
      ("getAppResourceUploadURL", "createSpringCloudService"),
      ("getAppResourceUploadURL", "createAPP"), ("validateDomain", "createResourceGroup"),
      ("validateDomain", "createSpringCloudService"), ("validateDomain", "createAPP"),
      ("cleanup", "createResourceGroup")]
  | .server_key => [("createServer", "createResourceGroup"),
      ("createVault", "createResourceGroup"), ("createKey", "createResourceGroup"),
      ("createKey", "createVault"), ("createServerKey", "createResourceGroup"),
      ("createServerKey", "createServer"), ("createServerKey", "createVault"),
      ("createServerKey", "createKey"), ("cleanup", "createResourceGroup")]

/-! ## Worlds used as concrete inputs -/

/-- A resource whose fields are all set. -/
def okResource : Resource :=
  { ID := some "id", Name := some "name", RedirectURI := some "uri",
    DomainOwnershipIdentifier := some "doi", RelativePath := some "path",
    UploadURL := some "url", IsValid := some true, Message := some "msg" }

/-- A world in which every call succeeds at once and `KEEP_RESOURCE` is not
set. -/
def happyWorld : World where
  env := fun n => if n = "KEEP_RESOURCE" then "" else "x"
  credential := .ok ⟨1⟩
  construct := fun _ => none
  send := fun _ _ => .ok okResource
  sendPtr := fun _ _ => .ok (some okResource)
  sendList := fun _ _ => .ok (some ⟨some [some okResource]⟩)
  begin := fun _ _ => .ok [.Succeeded okResource]
  beginDelete := fun _ _ => .ok [.Succeeded none]
  pages := fun _ _ => ⟨[some ⟨some [some okResource]⟩], none⟩

/-- The happy world, except that the service rejects every `Begin...` call of
a create operation. -/
def rejectingWorld : World :=
  { happyWorld with begin := fun _ _ => .error ⟨"RemoteRejected"⟩ }

/-- What the setup of most samples hands to the steps in the worlds above. -/
def args0 (IncludeBody : Bool) : Args :=
  ⟨"x", "", "", context.Background, ⟨⟨1⟩, IncludeBody⟩⟩

/-- The happy world, except that every fallible client constructor reports an
error. -/
def brokenClientWorld : World :=
  { happyWorld with construct := fun _ => some ⟨"InvalidClientOptions"⟩ }

/-- The happy world, except that every create operation is reported as running
by the first two status queries and as succeeded by the third. -/
def slowWorld : World :=
  { happyWorld with begin := fun _ _ => .ok [.Running none, .Running none, .Succeeded okResource] }

/-- What the setup of the server-key sample hands to the steps in the happy
world. -/
def args1 : Args :=
  ⟨"x", "x", "x", context.Background, ⟨⟨1⟩, true⟩⟩

/-- The Begin call of `createServerKey` in the happy world. -/
def serverKeyBegin : Event :=
  .call ⟨"armpostgresql.ServerKeysClient", "x", ⟨⟨1⟩, true⟩⟩ "BeginCreateOrUpdate"
    context.Background
    [ServerKey.serverName, ServerKey.serverKeyName, ServerKey.resourceGroupName]
    [("Properties.ServerKeyType", "ServerKeyTypeAzureKeyVault"), ("Properties.URI", "id")]

/-! ## Vocabulary of the teardown, logging and paging claims -/

/-- The claim's words for the result of `listAvailabilitySet`: the `Value` lists
of the pages, one after the other in page order. -/
def concatPages : List ListResult → List (Option Resource)
  | [] => []
  | page :: rest => page.Value.toList ++ concatPages rest

/-- The happy world, except that the pager of availability sets yields two
pages, of two and of one availability set. -/
def twoPagesWorld : World :=
  { happyWorld with
    pages := fun _ _ =>
      ⟨[some ⟨some [some { okResource with ID := some "a" }, some { okResource with ID := some "b" }]⟩,
        some ⟨some [some { okResource with ID := some "c" }]⟩], none⟩ }

/-- The happy world, except that the responses of the oldest SDK generation
hold no resource: their pointer field is nil. -/
def nilPointerWorld : World :=
  { happyWorld with sendPtr := fun _ _ => .ok none, sendList := fun _ _ => .ok none }

/-- The error with which the service answers a request on a resource that does
not exist. -/
def errNotFound : Error := ⟨"NotFound"⟩

/-- The happy world, except that the service rejects the delete of the resource
group: it reports that the group does not exist. -/
def notFoundWorld : World :=
  { happyWorld with beginDelete := fun _ _ => .error errNotFound }

/-- The name of the resource group of a sample (the package-level
`resourceGroupName` of its `main.go`). -/
def Sample.resourceGroupName : Sample → String
  | .availabilityset => AvailabilitySet.resourceGroupName
  | .action_group => ActionGroup.resourceGroupName
  | .apimanagement_service => ApimanagementService.resourceGroupName
  | .task_run => TaskRun.resourceGroupName
  | .eventhub_namespace => EventhubNamespace.resourceGroupName
  | .cassandra => Cassandra.resourceGroupName
  | .apitagdescription => ApiTagDescription.resourceGroupName
  | .virtual_network_rule => VirtualNetworkRule.resourceGroupName
  | .apps => Apps.resourceGroupName
  | .server_key => ServerKey.resourceGroupName

/-- A delete call: a call of `BeginDelete`, the only delete method the samples
use. -/
def Event.isDelete : Event → Bool
  | .call _ m _ _ _ => m = "BeginDelete"
  | _ => false

/-- The delete calls of a trace, in order. -/
def deletes (t : List Event) : List Event := t.filter Event.isDelete

/-- The delete call of the resource group in the eventhub sample. -/
def groupDelete : Event :=
  .call ⟨"armresources.ResourceGroupsClient", "x", ⟨⟨1⟩, false⟩⟩ "BeginDelete"
    context.Background [EventhubNamespace.resourceGroupName] []

/-- The context an event was given: calls, polls and page fetches take one. -/
def Event.ctx? : Event → Option Context
  | .call _ _ ctx _ _ => some ctx
  | .poll _ _ ctx _ => some ctx
  | .nextPage _ _ ctx => some ctx
  | _ => none

/-- The traces of the steps of a run, one after the other. -/
def flat : List (List Event) → List Event
  | [] => []
  | seg :: rest => seg ++ flat rest

/-- What a step that succeeds adds to the trace of a run in world `w`: the
events of its helper, which returns a result and no error, followed by its
logging.  When the helper returns a resource and the logging is that of an ID,
the logging is one line: the label and the ID of that resource. -/
def Step.Segment (S : Step) (w : World) (seg : List Event) : Prop :=
  ∃ d ret r, (S.helper w d).out = .ok (ret, none) ∧ (S.report ret).out = .ok r ∧
    seg = (S.helper w d).trace ++ (S.report ret).trace ∧
    ∀ label x, S.report = reportID label → ret = .resource x →
      ∃ y id, x = some y ∧ y.ID = some id ∧ (S.report ret).trace = [.println [label, id]]

/-- A log line. -/
def Event.isLog : Event → Bool
  | .println _ => true
  | _ => false

/-- The log lines of a trace, in order. -/
def logs (t : List Event) : List Event := t.filter Event.isLog

/-! ## Vocabulary of the environment, dereference and read claims -/

/-- The happy world, except that the pager of availability sets yields one page
and then fails to fetch the next one. -/
def pageFailsWorld : World :=
  { happyWorld with
    pages := fun _ _ => ⟨[some ⟨some [some okResource]⟩], some ⟨"TransportError"⟩⟩ }

/-- The environment values a sample requires, in the order `main` reads and
checks them. -/
def Sample.requiredEnv : Sample → List String
  | .server_key => ["AZURE_SUBSCRIPTION_ID", "AZURE_TENANT_ID", "AZURE_OBJECT_ID"]
  | _ => ["AZURE_SUBSCRIPTION_ID"]

/-- The happy world, except that `AZURE_TENANT_ID` is not set. -/
def noTenantWorld : World :=
  { happyWorld with env := fun n => if n = "AZURE_SUBSCRIPTION_ID" then "x" else "" }

/-- The pointer fields of a result that some `main` dereferences. -/
inductive LogField where
  | ID
  | Name
  | RedirectURI
  | DomainOwnershipIdentifier
  | RelativePath
  | UploadURL
  | IsValid
  | Message
  deriving DecidableEq, Repr

/-- The field of the resource is set: its pointer is not nil. -/
def Resource.has (r : Resource) : LogField → Bool
  | .ID => r.ID.isSome
  | .Name => r.Name.isSome
  | .RedirectURI => r.RedirectURI.isSome
  | .DomainOwnershipIdentifier => r.DomainOwnershipIdentifier.isSome
  | .RelativePath => r.RelativePath.isSome
  | .UploadURL => r.UploadURL.isSome
  | .IsValid => r.IsValid.isSome
  | .Message => r.Message.isSome

/-- The fields of its result that `main` dereferences after the step of the
given name, to log them or to feed the next step: the ID, except for the steps
whose log line prints something else (for the list steps, the fields of every
item of the list); the result of the clean-up is not used. -/
def loggedFields : String → List LogField
  | "getSsoToken" => [.RedirectURI]
  | "getDomainOwnershipIdentifier" => [.DomainOwnershipIdentifier]
  | "getAppResourceUploadURL" => [.RelativePath, .UploadURL]
  | "validateDomain" => [.IsValid, .Message]
  | "listAvailabilitySizes" => [.Name]
  | "cleanup" => []
  | _ => [.ID]

/-- The precondition of the claim on dereferences, for one step in world `w`:
a successful response of the operation of the step carries a resource that is
not nil, with the logged fields set; for the list steps, a list result that is
not nil whose items are not nil and have the logged fields set. -/
def Step.Sound (S : Step) (w : World) : Prop :=
  match S.kind with
  | .sync => ∀ r, w.send S.client S.method = .ok r →
      ∀ f ∈ loggedFields S.name, r.has f = true
  | .syncPtr => ∀ r, w.sendPtr S.client S.method = .ok r →
      ∃ x, r = some x ∧ ∀ f ∈ loggedFields S.name, x.has f = true
  | .syncList => ∀ l, w.sendList S.client S.method = .ok l →
      ∃ x, l = some x ∧ ∀ v ∈ x.Value.toList,
        ∃ y, v = some y ∧ ∀ f ∈ loggedFields S.name, y.has f = true
  | .async => ∀ statuses r, w.begin S.client S.method = .ok statuses →
      .Succeeded r ∈ statuses → ∀ f ∈ loggedFields S.name, r.has f = true
  | .pager => ∀ page ∈ (w.pages S.client S.method).pages,
      ∃ x, page = some x ∧ ∀ v ∈ x.Value.toList,
        ∃ y, v = some y ∧ ∀ f ∈ loggedFields S.name, y.has f = true
  | .delete => True

/-- A step that cannot dereference nil in world `w`: its helper does not, and
when the helper returns no error its logging does not either; a step that
logs the ID of a resource hands that resource, with its ID, to the next
step. -/
def Step.Safe (S : Step) (w : World) : Prop :=
  (∀ d, (S.helper w d).out ≠ .error .panic) ∧
    ∀ d ret, (S.helper w d).out = .ok (ret, none) →
      ∃ r, (S.report ret).out = .ok r ∧
        (LogField.ID ∈ loggedFields S.name →
          S.kind = .sync ∨ S.kind = .syncPtr ∨ S.kind = .async →
          ∃ x id, r = some x ∧ x.ID = some id)

/-- The argument of a step is available from the step before it: it takes none,
or it takes the ID of the result of a step that logs the ID of a resource. -/
def Step.Feeds (S T : Step) : Prop :=
  T.arg = noArg ∨
    (T.arg = idArg ∧ LogField.ID ∈ loggedFields S.name ∧
      (S.kind = .sync ∨ S.kind = .syncPtr ∨ S.kind = .async))

/-- The identifiers a call passes: the names before the payload. -/
def Event.args : Event → List String
  | .call _ _ _ args _ => args
  | _ => []

/-- The read steps of each sample that fetch a resource, each with the step
that creates that resource, as pairs (read step, create step). -/
def readsOf : Sample → List (String × String)
  | .action_group => [("getActionGroup", "createActionGroup")]
  | .apimanagement_service => [("getApiManagementService", "createApiManagementService")]
  | .task_run => [("getTaskRun", "createTaskRun")]
  | .eventhub_namespace => [("getNamespace", "createNamespace")]
  | .apps => [("getAppResource", "createAPP")]
  | _ => []

/-! ## The monad laws and the scripts of the samples -/

theorem Act.ext {α : Type} {x y : Act α} (h1 : x.trace = y.trace) (h2 : x.out = y.out) :
    x = y := by
  cases x; cases y; simp_all

theorem Act.id_map_law {α : Type} (x : Act α) : id <$> x = x := by
  rcases x with ⟨t, o⟩
  cases o <;> simp [Functor.map, Act.bind]

theorem Act.pure_bind_law {α β : Type} (a : α) (f : α → Act β) : pure a >>= f = f a := by
  show Act.bind (pure a) f = f a
  simp [pure, Act.bind]

theorem Act.bind_assoc_law {α β γ : Type} (x : Act α) (f : α → Act β) (g : β → Act γ) :
    x >>= f >>= g = x >>= fun a => f a >>= g := by
  show Act.bind (Act.bind x f) g = Act.bind x (fun a => Act.bind (f a) g)
  rcases x with ⟨t, o⟩
  cases o with
  | error h => simp [Act.bind]
  | ok a =>
    simp only [Act.bind]
    cases hf : (f a).out <;> simp [hf]

instance : LawfulMonad Act :=
  LawfulMonad.mk' Act (fun x => Act.id_map_law x) (fun a f => Act.pure_bind_law a f)
    (fun x f g => Act.bind_assoc_law x f g)

theorem log.Fatal_bind {α β : Type} (msg : String) (f : α → Act β) :
    (log.Fatal msg >>= f) = log.Fatal msg := rfl

theorem Act.bind_eq {α β : Type} (x : Act α) (f : α → Act β) : x >>= f = Act.bind x f := rfl

theorem Act.bind_trace {α β : Type} (x : Act α) (f : α → Act β) :
    (x >>= f).trace = x.trace ++ (match x.out with | .ok a => (f a).trace | .error _ => []) := by
  rcases x with ⟨t, o⟩
  cases o <;> simp [Act.bind_eq, Act.bind]

theorem Act.mem_bind_trace {α β : Type} {x : Act α} {f : α → Act β} {ev : Event} :
    ev ∈ (x >>= f).trace ↔ ev ∈ x.trace ∨ ∃ a, x.out = .ok a ∧ ev ∈ (f a).trace := by
  rcases x with ⟨t, o⟩
  cases o <;> simp [Act.bind_eq, Act.bind]

theorem Act.bind_out_ok {α β : Type} {x : Act α} {f : α → Act β} {b : β} :
    (x >>= f).out = .ok b ↔ ∃ a, x.out = .ok a ∧ (f a).out = .ok b := by
  rcases x with ⟨t, o⟩
  cases o <;> simp [Act.bind_eq, Act.bind]

theorem Act.bind_out_error {α β : Type} {x : Act α} {f : α → Act β} {h : Halt} :
    (x >>= f).out = .error h ↔ x.out = .error h ∨ ∃ a, x.out = .ok a ∧ (f a).out = .error h := by
  rcases x with ⟨t, o⟩
  cases o <;> simp [Act.bind_eq, Act.bind]

theorem Act.bind_of_ok {α β : Type} {x : Act α} {f : α → Act β} {a : α} (h : x.out = .ok a) :
    x >>= f = ⟨x.trace ++ (f a).trace, (f a).out⟩ := by
  rcases x with ⟨t, o⟩
  cases o <;> simp_all [Act.bind_eq, Act.bind]

theorem Act.bind_of_error {α β : Type} {x : Act α} {f : α → Act β} {e : Halt}
    (h : x.out = .error e) : x >>= f = ⟨x.trace, .error e⟩ := by
  rcases x with ⟨t, o⟩
  cases o <;> simp_all [Act.bind_eq, Act.bind]

/-- One step of `runSteps`, written with projections. -/
theorem runSteps_cons (w : World) (k : Act Unit) (p : Option Resource) (s : Step)
    (rest : List Step) :
    runSteps w k p (s :: rest) =
      (s.arg p >>= fun d => s.helper w d >>= fun x =>
        match x.2 with
        | some e => log.Fatal e.msg
        | none => s.report x.1 >>= fun r => runSteps w k r rest) := by
  simp only [runSteps, bind_assoc, log.Fatal_bind]
  refine congrArg _ (funext fun d => ?_)
  refine congrArg _ (funext fun x => ?_)
  rcases x with ⟨ret, _ | e⟩ <;> rfl

theorem EventhubNamespace.main_eq_eventhub_namespace (w : World) : main w = script.run w := by
  simp only [main, script, setupWith, Script.run, Script.finish, runSteps, asResource, asResponse,
    reportID, reportCleaned, noArg, bind_assoc, pure_bind, log.Fatal_bind]
  refine congrArg _ (funext fun sub => ?_)
  split
  · rfl
  · simp only [bind_assoc]
    refine congrArg _ (funext fun r => ?_)
    cases r <;> rfl

theorem ActionGroup.main_eq_action_group (w : World) : main w = script.run w := by
  simp only [main, script, setupWith, Script.run, Script.finish, runSteps, asResource, asResponse,
    reportID, reportCleaned, noArg, bind_assoc, pure_bind, log.Fatal_bind]
  refine congrArg _ (funext fun sub => ?_)
  split
  · rfl
  · simp only [bind_assoc]
    refine congrArg _ (funext fun r => ?_)
    cases r <;> rfl

theorem ApimanagementService.main_eq_apimanagement_service (w : World) : main w = script.run w := by
  simp only [main, script, setupWith, Script.run, Script.finish, runSteps, asResource, asResponse,
    reportID, reportCleaned, noArg, bind_assoc, pure_bind, log.Fatal_bind]
  refine congrArg _ (funext fun sub => ?_)
  split
  · rfl
  · simp only [bind_assoc]
    refine congrArg _ (funext fun r => ?_)
    cases r <;> rfl

theorem TaskRun.main_eq_task_run (w : World) : main w = script.run w := by
  simp only [main, script, setupWith, Script.run, Script.finish, runSteps, asResource, asResponse,
    reportID, reportCleaned, noArg, bind_assoc, pure_bind, log.Fatal_bind]
  refine congrArg _ (funext fun sub => ?_)
  split
  · rfl
  · simp only [bind_assoc]
    refine congrArg _ (funext fun r => ?_)
    cases r <;> rfl

theorem AvailabilitySet.main_eq_availabilityset (w : World) : main w = script.run w := by
  simp only [main, script, setupWith, Script.run, Script.finish, runSteps, asResource, asResponse,
    asList, asSizes, reportID, reportCleaned, noArg, bind_assoc, pure_bind, log.Fatal_bind]
  refine congrArg _ (funext fun sub => ?_)
  split
  · rfl
  · simp only [bind_assoc]
    refine congrArg _ (funext fun r => ?_)
    cases r <;> rfl

theorem VirtualNetworkRule.main_eq_virtual_network_rule (w : World) : main w = script.run w := by
  simp only [main, script, setupWith, Script.run, Script.finish, runSteps, asResource, asNothing,
    reportID, reportCleaned, noArg, idArg, bind_assoc, pure_bind, log.Fatal_bind]
  refine congrArg _ (funext fun sub => ?_)
  split
  · rfl
  · simp only [bind_assoc]
    refine congrArg _ (funext fun r => ?_)
    cases r <;> rfl

theorem Apps.main_eq_apps (w : World) : main w = script.run w := by
  simp only [main, script, setupWith, Script.run, Script.finish, runSteps, asResource, asNothing,
    reportID, reportCleaned, noArg, bind_assoc, pure_bind, log.Fatal_bind]
  refine congrArg _ (funext fun sub => ?_)
  split
  · rfl
  · simp only [bind_assoc]
    refine congrArg _ (funext fun r => ?_)
    cases r <;> rfl

theorem ServerKey.main_eq_server_key (w : World) : main w = script.run w := by
  simp only [main, script, setup, Script.run, Script.finish, runSteps, asResource, asResponse,
    reportID, reportCleaned, noArg, idArg, bind_assoc, pure_bind, log.Fatal_bind]
  refine congrArg _ (funext fun sub => ?_)
  split
  · rfl
  · simp only [bind_assoc]
    refine congrArg _ (funext fun tenant => ?_)
    split
    · rfl
    · simp only [bind_assoc]
      refine congrArg _ (funext fun object => ?_)
      split
      · rfl
      · simp only [bind_assoc]
        refine congrArg _ (funext fun r => ?_)
        cases r <;> rfl

theorem Cassandra.main_eq_cassandra (w : World) : main w = script.run w := by
  simp only [main, script, setupFactories, Script.run, Script.finish, runSteps, asResource,
    asNothing, reportID, reportCleaned, noArg, bind_assoc, pure_bind, log.Fatal_bind]
  refine congrArg _ (funext fun sub => ?_)
  split
  · rfl
  · simp only [bind_assoc]
    refine congrArg _ (funext fun r => ?_)
    cases r with
    | error e => rfl
    | ok cred =>
      simp only [ClientFactory.new]
      cases w.construct "armresources.ClientFactory" with
      | some e => rfl
      | none =>
        cases w.construct "armcosmos.ClientFactory" with
        | some e => rfl
        | none => rfl

theorem ApiTagDescription.main_eq_apitagdescription (w : World) : main w = script.run w := by
  simp only [main, script, setupFactories, Script.run, Script.finish, runSteps, asResource,
    asNothing, reportID, reportCleaned, noArg, bind_assoc, pure_bind, log.Fatal_bind]
  refine congrArg _ (funext fun sub => ?_)
  split
  · rfl
  · simp only [bind_assoc]
    refine congrArg _ (funext fun r => ?_)
    cases r with
    | error e => rfl
    | ok cred =>
      simp only [ClientFactory.new]
      cases w.construct "armresources.ClientFactory" with
      | some e => rfl
      | none =>
        cases w.construct "armapimanagement.ClientFactory" with
        | some e => rfl
        | none => rfl

/-- Every `main` is its script run by `Script.run`. -/
theorem Sample.main_eq_run (s : Sample) (w : World) : s.main w = s.script.run w := by
  cases s
  · exact AvailabilitySet.main_eq_availabilityset w
  · exact ActionGroup.main_eq_action_group w
  · exact ApimanagementService.main_eq_apimanagement_service w
  · exact TaskRun.main_eq_task_run w
  · exact EventhubNamespace.main_eq_eventhub_namespace w
  · exact Cassandra.main_eq_cassandra w
  · exact ApiTagDescription.main_eq_apitagdescription w
  · exact VirtualNetworkRule.main_eq_virtual_network_rule w
  · exact Apps.main_eq_apps w
  · exact ServerKey.main_eq_server_key w

/-! ## Logging, setup and the form of every helper -/

theorem Act.pure_eq {α : Type} (a : α) : (pure a : Act α) = ⟨[], .ok a⟩ := rfl

theorem deref_trace {α : Type} (x : Option α) : (deref x).trace = [] := by
  cases x <;> rfl

theorem deref_out_ok {α : Type} {x : Option α} {a : α} : (deref x).out = .ok a ↔ x = some a := by
  cases x <;> simp [deref]

theorem deref_out_error {α : Type} {x : Option α} {h : Halt} :
    (deref x).out = .error h ↔ x = none ∧ h = .panic := by
  cases x <;> simp [deref, eq_comm]

theorem Println_trace (args : List String) : (log.Println args).trace = [.println args] := rfl

theorem Println_out (args : List String) : (log.Println args).out = .ok () := rfl

theorem Fatal_trace {α : Type} (msg : String) : (log.Fatal msg : Act α).trace = [.fatal msg] := rfl

theorem Fatal_out {α : Type} (msg : String) :
    (log.Fatal msg : Act α).out = .error (.fatal msg) := rfl

theorem Getenv_trace (w : World) (n : String) : (os.Getenv w n).trace = [.getenv n] := rfl

theorem Getenv_out (w : World) (n : String) : (os.Getenv w n).out = .ok (w.env n) := rfl

theorem forRange_trace {α : Type} (body : Nat → α → Act Unit) (l : List α) (i : Nat)
    (ev : Event) (h : ev ∈ (forRange body i l).trace) : ∃ j x, ev ∈ (body j x).trace := by
  induction l generalizing i with
  | nil => simp [forRange, Act.pure_eq] at h
  | cons x xs ih =>
    simp only [forRange, Act.mem_bind_trace] at h
    rcases h with h | ⟨_, _, h⟩
    · exact ⟨i, x, h⟩
    · exact ih _ h

theorem forRange_out_error {α : Type} (body : Nat → α → Act Unit) (l : List α) (i : Nat)
    (e : Halt) (h : (forRange body i l).out = .error e) : ∃ j x, (body j x).out = .error e := by
  induction l generalizing i with
  | nil => simp [forRange, Act.pure_eq] at h
  | cons x xs ih =>
    simp only [forRange, Act.bind_out_error] at h
    rcases h with h | ⟨_, _, h⟩
    · exact ⟨i, x, h⟩
    · exact ih _ h

theorem reportID_plain (label : String) (ret : Ret) :
    (∀ ev ∈ (reportID label ret).trace, ∃ id, ev = .println [label, id]) ∧
    (∀ m, (reportID label ret).out ≠ .error (.fatal m)) := by
  cases ret <;>
    simp [reportID, Act.mem_bind_trace, Act.bind_out_error, deref_trace, deref_out_ok,
      deref_out_error, Println_trace, Println_out, Act.pure_eq]
  intro ev x _ id _ h
  exact ⟨id, h⟩

theorem Step.plain_of_reportID (A : Step) (label : String)
    (ha : A.arg = noArg ∨ A.arg = idArg) (hr : A.report = reportID label) : A.Plain := by
  refine ⟨ha, ?_, ?_, ?_⟩
  · intro ret ev hev
    rw [hr] at hev
    obtain ⟨id, h⟩ := (reportID_plain label ret).1 ev hev
    exact ⟨_, h⟩
  · intro _ ret hev
    rw [hr] at hev
    obtain ⟨id, h⟩ := (reportID_plain label ret).1 _ hev
    simp [cleanedUp] at h
  · intro ret m
    rw [hr]
    exact (reportID_plain label ret).2 m

theorem Step.plain_of_reportCleaned (A : Step) (hk : A.kind = .delete)
    (ha : A.arg = noArg ∨ A.arg = idArg) (hr : A.report = reportCleaned) : A.Plain := by
  refine ⟨ha, ?_, ?_, ?_⟩
  · intro ret ev hev
    rw [hr] at hev
    simp [reportCleaned, Act.mem_bind_trace, Println_trace, Println_out, Act.pure_eq] at hev
    exact ⟨_, hev⟩
  · intro h
    exact absurd hk h
  · intro ret m
    rw [hr]
    simp [reportCleaned, Act.bind_out_error, Println_out, Act.pure_eq]

theorem setupWith_events (b : Bool) (w : World) :
    (∀ ev ∈ (setupWith b w).trace,
      (∃ n, ev = .getenv n ∧ n ≠ "KEEP_RESOURCE") ∨ ev = .credential ∨ ∃ m, ev = .fatal m) ∧
    (setupWith b w).out ≠ .error .panic ∧
    ∀ a, (setupWith b w).out = .ok a → a.ctx = context.Background := by
  simp only [setupWith, Act.bind_eq, Act.bind, os.Getenv, azidentity.NewDefaultAzureCredential,
    log.Fatal, Act.pure_eq]
  split
  · simp
  · cases w.credential <;> simp

theorem setupFactories_events (second : String) (w : World) :
    (∀ ev ∈ (setupFactories second w).trace,
      (∃ n, ev = .getenv n ∧ n ≠ "KEEP_RESOURCE") ∨ ev = .credential ∨ ∃ m, ev = .fatal m) ∧
    (setupFactories second w).out ≠ .error .panic ∧
    ∀ a, (setupFactories second w).out = .ok a → a.ctx = context.Background := by
  simp only [setupFactories, ClientFactory.new, Act.bind_eq, Act.bind, os.Getenv,
    azidentity.NewDefaultAzureCredential, log.Fatal, Act.pure_eq]
  split
  · simp
  · cases w.credential with
    | error e => simp
    | ok c =>
      cases w.construct "armresources.ClientFactory" with
      | some e => simp
      | none =>
        cases w.construct second with
        | some e => simp
        | none => simp

theorem ServerKey.setup_events (w : World) :
    (∀ ev ∈ (setup w).trace,
      (∃ n, ev = .getenv n ∧ n ≠ "KEEP_RESOURCE") ∨ ev = .credential ∨ ∃ m, ev = .fatal m) ∧
    (setup w).out ≠ .error .panic ∧
    ∀ a, (setup w).out = .ok a → a.ctx = context.Background := by
  simp only [setup, Act.bind_eq, Act.bind, os.Getenv, azidentity.NewDefaultAzureCredential,
    log.Fatal, Act.pure_eq]
  split
  · simp
  · split
    · simp
    · split
      · simp
      · cases w.credential <;> simp

theorem Act.Prints.pure {α : Type} (a : α) : (Pure.pure a : Act α).Prints := by
  simp [Act.Prints, Act.pure_eq]

theorem Act.Prints.deref {α : Type} (x : Option α) : (AzureSamples.deref x).Prints := by
  simp [Act.Prints, deref_trace, deref_out_error]

theorem Act.Prints.println (args : List String) (h : args ≠ ["cleaned up successfully."]) :
    (log.Println args).Prints := by
  simp [Act.Prints, Println_trace, Println_out, cleanedUp, h]

theorem Act.Prints.bind {α β : Type} {x : Act α} {f : α → Act β} (hx : x.Prints)
    (hf : ∀ a, (f a).Prints) : (x >>= f).Prints := by
  constructor
  · intro ev hev
    rcases Act.mem_bind_trace.1 hev with h | ⟨a, _, h⟩
    · exact hx.1 ev h
    · exact (hf a).1 ev h
  · intro m hm
    rcases Act.bind_out_error.1 hm with h | ⟨a, _, h⟩
    · exact hx.2 m h
    · exact (hf a).2 m h

theorem Act.Prints.forRange {α : Type} {body : Nat → α → Act Unit}
    (hb : ∀ j x, (body j x).Prints) (i : Nat) (l : List α) :
    (AzureSamples.forRange body i l).Prints := by
  induction l generalizing i with
  | nil => exact Act.Prints.pure ()
  | cons x xs ih =>
    simp only [AzureSamples.forRange]
    exact Act.Prints.bind (hb i x) fun _ => ih _

theorem Step.plain_of_prints (A : Step) (ha : A.arg = noArg ∨ A.arg = idArg)
    (hr : ∀ ret, (A.report ret).Prints) : A.Plain := by
  refine ⟨ha, ?_, ?_, ?_⟩
  · intro ret ev hev
    obtain ⟨args, h, _⟩ := (hr ret).1 ev hev
    exact ⟨args, h⟩
  · intro _ ret hev
    obtain ⟨args, _, h⟩ := (hr ret).1 _ hev
    exact h rfl
  · intro ret m
    exact (hr ret).2 m

theorem reportID_prints (label : String) (ret : Ret) : (reportID label ret).Prints := by
  cases ret
  case resource r =>
    simp only [reportID]
    refine Act.Prints.bind (Act.Prints.deref _) fun _ => ?_
    refine Act.Prints.bind (Act.Prints.deref _) fun _ => ?_
    refine Act.Prints.bind (Act.Prints.println _ (by simp)) fun _ => ?_
    exact Act.Prints.pure _
  all_goals exact Act.Prints.pure _


theorem AvailabilitySet.script_formed_availabilityset (a : Args) : ∀ A ∈ script.sequence a, A.Formed a.ctx := by
  intro A hA
  simp only [Script.sequence, script, List.cons_append, List.nil_append, List.mem_cons,
    List.mem_singleton, List.not_mem_nil, or_false] at hA
  rcases hA with rfl | rfl | rfl | rfl | rfl
  · intro d
    refine ⟨⟨"armresources.ResourceGroupsClient", a.subscriptionID, a.conn⟩, none, ?_⟩
    apply Exists.intro
    apply Exists.intro
    refine ⟨false, rfl, Or.inr rfl, (by simp), fun w => ?_⟩
    simp only [createResourceGroup, asResource, syncForm, syncPtrForm, syncListForm, asyncForm, deleteForm, pagerForm, ctorError, Client.send, Client.sendPtr, Client.sendList, Client.begin, Client.beginDelete, Client.new, Client.ofCred, Client.newE, Client.NewListPager, Args.client, ClientFactory.client, Act.bind_eq, Act.bind, Option.bind, Poller.PollUntilDone]
    cases w.sendPtr "armresources.ResourceGroupsClient" "CreateOrUpdate" <;> rfl
  · intro d
    refine ⟨⟨"armcompute.AvailabilitySetsClient", a.subscriptionID, a.conn⟩, none, ?_⟩
    apply Exists.intro
    apply Exists.intro
    refine ⟨false, rfl, Or.inr rfl, (by simp), fun w => ?_⟩
    simp only [createAvailabilitySet, asResource, syncForm, syncPtrForm, syncListForm, asyncForm, deleteForm, pagerForm, ctorError, Client.send, Client.sendPtr, Client.sendList, Client.begin, Client.beginDelete, Client.new, Client.ofCred, Client.newE, Client.NewListPager, Args.client, ClientFactory.client, Act.bind_eq, Act.bind, Option.bind, Poller.PollUntilDone]
    cases w.sendPtr "armcompute.AvailabilitySetsClient" "CreateOrUpdate" <;> rfl
  · intro d
    refine ⟨⟨"armcompute.AvailabilitySetsClient", a.subscriptionID, a.conn⟩, none, ?_⟩
    apply Exists.intro
    apply Exists.intro
    refine ⟨false, rfl, Or.inr rfl, (by simp), fun w => ?_⟩
    simp only [listAvailabilitySet, asList, syncForm, syncPtrForm, syncListForm, asyncForm, deleteForm, pagerForm, ctorError, Client.send, Client.sendPtr, Client.sendList, Client.begin, Client.beginDelete, Client.new, Client.ofCred, Client.newE, Client.NewListPager, Args.client, ClientFactory.client, Act.bind_eq, Act.bind, Option.bind, Poller.PollUntilDone]
    all_goals first | rfl | exact []
  · intro d
    refine ⟨⟨"armcompute.AvailabilitySetsClient", a.subscriptionID, a.conn⟩, none, ?_⟩
    apply Exists.intro
    apply Exists.intro
    refine ⟨false, rfl, Or.inr rfl, (by simp), fun w => ?_⟩
    simp only [listAvailabilitySizes, asSizes, syncForm, syncPtrForm, syncListForm, asyncForm, deleteForm, pagerForm, ctorError, Client.send, Client.sendPtr, Client.sendList, Client.begin, Client.beginDelete, Client.new, Client.ofCred, Client.newE, Client.NewListPager, Args.client, ClientFactory.client, Act.bind_eq, Act.bind, Option.bind, Poller.PollUntilDone]
    cases w.sendList "armcompute.AvailabilitySetsClient" "ListAvailableSizes" <;> rfl
  · intro d
    refine ⟨⟨"armresources.ResourceGroupsClient", a.subscriptionID, a.conn⟩, some 10, ?_⟩
    apply Exists.intro
    apply Exists.intro
    refine ⟨true, rfl, Or.inl rfl, (by simp), fun w => ?_⟩
    simp only [cleanup, asResponse, syncForm, syncPtrForm, syncListForm, asyncForm, deleteForm, pagerForm, ctorError, Client.send, Client.sendPtr, Client.sendList, Client.begin, Client.beginDelete, Client.new, Client.ofCred, Client.newE, Client.NewListPager, Args.client, ClientFactory.client, Act.bind_eq, Act.bind, Option.bind, Poller.PollUntilDone]
    rcases w.beginDelete "armresources.ResourceGroupsClient" "BeginDelete" with e | sc
    · rfl
    · simp only [Except.map]
      generalize (Poller.pollState (⟨"armresources.ResourceGroupsClient", "BeginDelete", sc, none⟩ : Poller (Option HttpResponse)) a.ctx (some 10)) = r
      rcases r with ⟨t, _ | _, p⟩ <;> simp [Act.pure_eq]
    all_goals exact []

theorem ActionGroup.script_formed_action_group (a : Args) : ∀ A ∈ script.sequence a, A.Formed a.ctx := by
  intro A hA
  simp only [Script.sequence, script, List.cons_append, List.nil_append, List.mem_cons,
    List.mem_singleton, List.not_mem_nil, or_false] at hA
  rcases hA with rfl | rfl | rfl | rfl
  · intro d
    refine ⟨⟨"armresources.ResourceGroupsClient", a.subscriptionID, a.conn⟩, none, ?_⟩
    apply Exists.intro
    apply Exists.intro
    refine ⟨false, rfl, Or.inr rfl, (by simp), fun w => ?_⟩
    simp only [createResourceGroup, asResource, syncForm, syncPtrForm, syncListForm, asyncForm, deleteForm, pagerForm, ctorError, Client.send, Client.sendPtr, Client.sendList, Client.begin, Client.beginDelete, Client.new, Client.ofCred, Client.newE, Client.NewListPager, Args.client, ClientFactory.client, Act.bind_eq, Act.bind, Option.bind, Poller.PollUntilDone]
    cases w.send "armresources.ResourceGroupsClient" "CreateOrUpdate" <;> rfl
  · intro d
    refine ⟨⟨"armmonitor.ActionGroupsClient", a.subscriptionID, a.conn⟩, none, ?_⟩
    apply Exists.intro
    apply Exists.intro
    refine ⟨false, rfl, Or.inr rfl, (by simp), fun w => ?_⟩
    simp only [createActionGroup, asResource, syncForm, syncPtrForm, syncListForm, asyncForm, deleteForm, pagerForm, ctorError, Client.send, Client.sendPtr, Client.sendList, Client.begin, Client.beginDelete, Client.new, Client.ofCred, Client.newE, Client.NewListPager, Args.client, ClientFactory.client, Act.bind_eq, Act.bind, Option.bind, Poller.PollUntilDone]
    cases w.send "armmonitor.ActionGroupsClient" "CreateOrUpdate" <;> rfl
  · intro d
    refine ⟨⟨"armmonitor.ActionGroupsClient", a.subscriptionID, a.conn⟩, none, ?_⟩
    apply Exists.intro
    apply Exists.intro
    refine ⟨false, rfl, Or.inr rfl, (by simp), fun w => ?_⟩
    simp only [getActionGroup, asResource, syncForm, syncPtrForm, syncListForm, asyncForm, deleteForm, pagerForm, ctorError, Client.send, Client.sendPtr, Client.sendList, Client.begin, Client.beginDelete, Client.new, Client.ofCred, Client.newE, Client.NewListPager, Args.client, ClientFactory.client, Act.bind_eq, Act.bind, Option.bind, Poller.PollUntilDone]
    cases w.send "armmonitor.ActionGroupsClient" "Get" <;> rfl
  · intro d
    refine ⟨⟨"armresources.ResourceGroupsClient", a.subscriptionID, a.conn⟩, some 10, ?_⟩
    apply Exists.intro
    apply Exists.intro
    refine ⟨true, rfl, Or.inl rfl, (by simp), fun w => ?_⟩
    simp only [cleanup, asResponse, syncForm, syncPtrForm, syncListForm, asyncForm, deleteForm, pagerForm, ctorError, Client.send, Client.sendPtr, Client.sendList, Client.begin, Client.beginDelete, Client.new, Client.ofCred, Client.newE, Client.NewListPager, Args.client, ClientFactory.client, Act.bind_eq, Act.bind, Option.bind, Poller.PollUntilDone]
    rcases w.beginDelete "armresources.ResourceGroupsClient" "BeginDelete" with e | sc
    · rfl
    · simp only [Except.map]
      generalize (Poller.pollState (⟨"armresources.ResourceGroupsClient", "BeginDelete", sc, none⟩ : Poller (Option HttpResponse)) a.ctx (some 10)) = r
      rcases r with ⟨t, _ | _, p⟩ <;> simp [Act.pure_eq]
    all_goals exact []

theorem ApimanagementService.script_formed_apimanagement_service (a : Args) : ∀ A ∈ script.sequence a, A.Formed a.ctx := by
  intro A hA
  simp only [Script.sequence, script, List.cons_append, List.nil_append, List.mem_cons,
    List.mem_singleton, List.not_mem_nil, or_false] at hA
  rcases hA with rfl | rfl | rfl | rfl | rfl | rfl
  · intro d
    refine ⟨⟨"armresources.ResourceGroupsClient", a.subscriptionID, a.conn⟩, none, ?_⟩
    apply Exists.intro
    apply Exists.intro
    refine ⟨false, rfl, Or.inr rfl, (by simp), fun w => ?_⟩
    simp only [createResourceGroup, asResource, syncForm, syncPtrForm, syncListForm, asyncForm, deleteForm, pagerForm, ctorError, Client.send, Client.sendPtr, Client.sendList, Client.begin, Client.beginDelete, Client.new, Client.ofCred, Client.newE, Client.NewListPager, Args.client, ClientFactory.client, Act.bind_eq, Act.bind, Option.bind, Poller.PollUntilDone]
    cases w.send "armresources.ResourceGroupsClient" "CreateOrUpdate" <;> rfl
  · intro d
    refine ⟨⟨"armapimanagement.APIManagementServiceClient", a.subscriptionID, a.conn⟩, some 10, ?_⟩
    apply Exists.intro
    apply Exists.intro
    refine ⟨false, rfl, Or.inl rfl, (by simp), fun w => ?_⟩
    simp only [createApiManagementService, asResource, syncForm, syncPtrForm, syncListForm, asyncForm, deleteForm, pagerForm, ctorError, Client.send, Client.sendPtr, Client.sendList, Client.begin, Client.beginDelete, Client.new, Client.ofCred, Client.newE, Client.NewListPager, Args.client, ClientFactory.client, Act.bind_eq, Act.bind, Option.bind, Poller.PollUntilDone]
    rcases w.begin "armapimanagement.APIManagementServiceClient" "BeginCreateOrUpdate" with e | sc
    · rfl
    · simp only [Except.map]
      generalize (Poller.pollState (⟨"armapimanagement.APIManagementServiceClient", "BeginCreateOrUpdate", sc, none⟩ : Poller Resource) a.ctx (some 10)) = r
      rcases r with ⟨t, _ | _, p⟩ <;> simp [Act.pure_eq]
  · intro d
    refine ⟨⟨"armapimanagement.APIManagementServiceClient", a.subscriptionID, a.conn⟩, none, ?_⟩
    apply Exists.intro
    apply Exists.intro
    refine ⟨false, rfl, Or.inr rfl, (by simp), fun w => ?_⟩
    simp only [getApiManagementService, asResource, syncForm, syncPtrForm, syncListForm, asyncForm, deleteForm, pagerForm, ctorError, Client.send, Client.sendPtr, Client.sendList, Client.begin, Client.beginDelete, Client.new, Client.ofCred, Client.newE, Client.NewListPager, Args.client, ClientFactory.client, Act.bind_eq, Act.bind, Option.bind, Poller.PollUntilDone]
    cases w.send "armapimanagement.APIManagementServiceClient" "Get" <;> rfl
  · intro d
    refine ⟨⟨"armapimanagement.APIManagementServiceClient", a.subscriptionID, a.conn⟩, none, ?_⟩
    apply Exists.intro
    apply Exists.intro
    refine ⟨false, rfl, Or.inr rfl, (by simp), fun w => ?_⟩
    simp only [getSsoToken, asResource, syncForm, syncPtrForm, syncListForm, asyncForm, deleteForm, pagerForm, ctorError, Client.send, Client.sendPtr, Client.sendList, Client.begin, Client.beginDelete, Client.new, Client.ofCred, Client.newE, Client.NewListPager, Args.client, ClientFactory.client, Act.bind_eq, Act.bind, Option.bind, Poller.PollUntilDone]
    cases w.send "armapimanagement.APIManagementServiceClient" "GetSsoToken" <;> rfl
  · intro d
    refine ⟨⟨"armapimanagement.APIManagementServiceClient", a.subscriptionID, a.conn⟩, none, ?_⟩
    apply Exists.intro
    apply Exists.intro
    refine ⟨false, rfl, Or.inr rfl, (by simp), fun w => ?_⟩
    simp only [getDomainOwnershipIdentifier, asResource, syncForm, syncPtrForm, syncListForm, asyncForm, deleteForm, pagerForm, ctorError, Client.send, Client.sendPtr, Client.sendList, Client.begin, Client.beginDelete, Client.new, Client.ofCred, Client.newE, Client.NewListPager, Args.client, ClientFactory.client, Act.bind_eq, Act.bind, Option.bind, Poller.PollUntilDone]
    cases w.send "armapimanagement.APIManagementServiceClient" "GetDomainOwnershipIdentifier" <;> rfl
  · intro d
    refine ⟨⟨"armresources.ResourceGroupsClient", a.subscriptionID, a.conn⟩, some 10, ?_⟩
    apply Exists.intro
    apply Exists.intro
    refine ⟨true, rfl, Or.inl rfl, (by simp), fun w => ?_⟩
    simp only [cleanup, asResponse, syncForm, syncPtrForm, syncListForm, asyncForm, deleteForm, pagerForm, ctorError, Client.send, Client.sendPtr, Client.sendList, Client.begin, Client.beginDelete, Client.new, Client.ofCred, Client.newE, Client.NewListPager, Args.client, ClientFactory.client, Act.bind_eq, Act.bind, Option.bind, Poller.PollUntilDone]
    rcases w.beginDelete "armresources.ResourceGroupsClient" "BeginDelete" with e | sc
    · rfl
    · simp only [Except.map]
      generalize (Poller.pollState (⟨"armresources.ResourceGroupsClient", "BeginDelete", sc, none⟩ : Poller (Option HttpResponse)) a.ctx (some 10)) = r
      rcases r with ⟨t, _ | _, p⟩ <;> simp [Act.pure_eq]
    all_goals exact []

theorem TaskRun.script_formed_task_run (a : Args) : ∀ A ∈ script.sequence a, A.Formed a.ctx := by
  intro A hA
  simp only [Script.sequence, script, List.cons_append, List.nil_append, List.mem_cons,
    List.mem_singleton, List.not_mem_nil, or_false] at hA
  rcases hA with rfl | rfl | rfl | rfl | rfl
  · intro d
    refine ⟨⟨"armresources.ResourceGroupsClient", a.subscriptionID, a.conn⟩, none, ?_⟩
    apply Exists.intro
    apply Exists.intro
    refine ⟨false, rfl, Or.inr rfl, (by simp), fun w => ?_⟩
    simp only [createResourceGroup, asResource, syncForm, syncPtrForm, syncListForm, asyncForm, deleteForm, pagerForm, ctorError, Client.send, Client.sendPtr, Client.sendList, Client.begin, Client.beginDelete, Client.new, Client.ofCred, Client.newE, Client.NewListPager, Args.client, ClientFactory.client, Act.bind_eq, Act.bind, Option.bind, Poller.PollUntilDone]
    cases w.send "armresources.ResourceGroupsClient" "CreateOrUpdate" <;> rfl
  · intro d
    refine ⟨⟨"armcontainerregistry.RegistriesClient", a.subscriptionID, a.conn⟩, some 10, ?_⟩
    apply Exists.intro
    apply Exists.intro
    refine ⟨false, rfl, Or.inl rfl, (by simp), fun w => ?_⟩
    simp only [createRegistry, asResource, syncForm, syncPtrForm, syncListForm, asyncForm, deleteForm, pagerForm, ctorError, Client.send, Client.sendPtr, Client.sendList, Client.begin, Client.beginDelete, Client.new, Client.ofCred, Client.newE, Client.NewListPager, Args.client, ClientFactory.client, Act.bind_eq, Act.bind, Option.bind, Poller.PollUntilDone]
    rcases w.begin "armcontainerregistry.RegistriesClient" "BeginCreate" with e | sc
    · rfl
    · simp only [Except.map]
      generalize (Poller.pollState (⟨"armcontainerregistry.RegistriesClient", "BeginCreate", sc, none⟩ : Poller Resource) a.ctx (some 10)) = r
      rcases r with ⟨t, _ | _, p⟩ <;> simp [Act.pure_eq]
  · intro d
    refine ⟨⟨"armcontainerregistry.TaskRunsClient", a.subscriptionID, a.conn⟩, some 10, ?_⟩
    apply Exists.intro
    apply Exists.intro
    refine ⟨false, rfl, Or.inl rfl, (by simp), fun w => ?_⟩
    simp only [createTaskRun, asResource, syncForm, syncPtrForm, syncListForm, asyncForm, deleteForm, pagerForm, ctorError, Client.send, Client.sendPtr, Client.sendList, Client.begin, Client.beginDelete, Client.new, Client.ofCred, Client.newE, Client.NewListPager, Args.client, ClientFactory.client, Act.bind_eq, Act.bind, Option.bind, Poller.PollUntilDone]
    rcases w.begin "armcontainerregistry.TaskRunsClient" "BeginCreate" with e | sc
    · rfl
    · simp only [Except.map]
      generalize (Poller.pollState (⟨"armcontainerregistry.TaskRunsClient", "BeginCreate", sc, none⟩ : Poller Resource) a.ctx (some 10)) = r
      rcases r with ⟨t, _ | _, p⟩ <;> simp [Act.pure_eq]
  · intro d
    refine ⟨⟨"armcontainerregistry.TaskRunsClient", a.subscriptionID, a.conn⟩, none, ?_⟩
    apply Exists.intro
    apply Exists.intro
    refine ⟨false, rfl, Or.inr rfl, (by simp), fun w => ?_⟩
    simp only [getTaskRun, asResource, syncForm, syncPtrForm, syncListForm, asyncForm, deleteForm, pagerForm, ctorError, Client.send, Client.sendPtr, Client.sendList, Client.begin, Client.beginDelete, Client.new, Client.ofCred, Client.newE, Client.NewListPager, Args.client, ClientFactory.client, Act.bind_eq, Act.bind, Option.bind, Poller.PollUntilDone]
    cases w.send "armcontainerregistry.TaskRunsClient" "Get" <;> rfl
  · intro d
    refine ⟨⟨"armresources.ResourceGroupsClient", a.subscriptionID, a.conn⟩, some 10, ?_⟩
    apply Exists.intro
    apply Exists.intro
    refine ⟨true, rfl, Or.inl rfl, (by simp), fun w => ?_⟩
    simp only [cleanup, asResponse, syncForm, syncPtrForm, syncListForm, asyncForm, deleteForm, pagerForm, ctorError, Client.send, Client.sendPtr, Client.sendList, Client.begin, Client.beginDelete, Client.new, Client.ofCred, Client.newE, Client.NewListPager, Args.client, ClientFactory.client, Act.bind_eq, Act.bind, Option.bind, Poller.PollUntilDone]
    rcases w.beginDelete "armresources.ResourceGroupsClient" "BeginDelete" with e | sc
    · rfl
    · simp only [Except.map]
      generalize (Poller.pollState (⟨"armresources.ResourceGroupsClient", "BeginDelete", sc, none⟩ : Poller (Option HttpResponse)) a.ctx (some 10)) = r
      rcases r with ⟨t, _ | _, p⟩ <;> simp [Act.pure_eq]
    all_goals exact []

theorem EventhubNamespace.script_formed_eventhub_namespace (a : Args) : ∀ A ∈ script.sequence a, A.Formed a.ctx := by
  intro A hA
  simp only [Script.sequence, script, List.cons_append, List.nil_append, List.mem_cons,
    List.mem_singleton, List.not_mem_nil, or_false] at hA
  rcases hA with rfl | rfl | rfl | rfl
  · intro d
    refine ⟨⟨"armresources.ResourceGroupsClient", a.subscriptionID, ⟨a.conn.cred, false⟩⟩, none, ?_⟩
    apply Exists.intro
    apply Exists.intro
    refine ⟨false, rfl, Or.inr rfl, (by simp), fun w => ?_⟩
    simp only [createResourceGroup, asResource, syncForm, syncPtrForm, syncListForm, asyncForm, deleteForm, pagerForm, ctorError, Client.send, Client.sendPtr, Client.sendList, Client.begin, Client.beginDelete, Client.new, Client.ofCred, Client.newE, Client.NewListPager, Args.client, ClientFactory.client, Act.bind_eq, Act.bind, Option.bind, Poller.PollUntilDone]
    cases w.send "armresources.ResourceGroupsClient" "CreateOrUpdate" <;> rfl
  · intro d
    refine ⟨⟨"armeventhub.NamespacesClient", a.subscriptionID, ⟨a.conn.cred, false⟩⟩, some 10, ?_⟩
    apply Exists.intro
    apply Exists.intro
    refine ⟨false, rfl, Or.inl rfl, (by simp), fun w => ?_⟩
    simp only [createNamespace, asResource, syncForm, syncPtrForm, syncListForm, asyncForm, deleteForm, pagerForm, ctorError, Client.send, Client.sendPtr, Client.sendList, Client.begin, Client.beginDelete, Client.new, Client.ofCred, Client.newE, Client.NewListPager, Args.client, ClientFactory.client, Act.bind_eq, Act.bind, Option.bind, Poller.PollUntilDone]
    rcases w.begin "armeventhub.NamespacesClient" "BeginCreateOrUpdate" with e | sc
    · rfl
    · simp only [Except.map]
      generalize (Poller.pollState (⟨"armeventhub.NamespacesClient", "BeginCreateOrUpdate", sc, none⟩ : Poller Resource) a.ctx (some 10)) = r
      rcases r with ⟨t, _ | _, p⟩ <;> simp [Act.pure_eq]
  · intro d
    refine ⟨⟨"armeventhub.NamespacesClient", a.subscriptionID, ⟨a.conn.cred, false⟩⟩, none, ?_⟩
    apply Exists.intro
    apply Exists.intro
    refine ⟨false, rfl, Or.inr rfl, (by simp), fun w => ?_⟩
    simp only [getNamespace, asResource, syncForm, syncPtrForm, syncListForm, asyncForm, deleteForm, pagerForm, ctorError, Client.send, Client.sendPtr, Client.sendList, Client.begin, Client.beginDelete, Client.new, Client.ofCred, Client.newE, Client.NewListPager, Args.client, ClientFactory.client, Act.bind_eq, Act.bind, Option.bind, Poller.PollUntilDone]
    cases w.send "armeventhub.NamespacesClient" "Get" <;> rfl
  · intro d
    refine ⟨⟨"armresources.ResourceGroupsClient", a.subscriptionID, ⟨a.conn.cred, false⟩⟩, some 10, ?_⟩
    apply Exists.intro
    apply Exists.intro
    refine ⟨true, rfl, Or.inl rfl, (by simp), fun w => ?_⟩
    simp only [cleanup, asResponse, syncForm, syncPtrForm, syncListForm, asyncForm, deleteForm, pagerForm, ctorError, Client.send, Client.sendPtr, Client.sendList, Client.begin, Client.beginDelete, Client.new, Client.ofCred, Client.newE, Client.NewListPager, Args.client, ClientFactory.client, Act.bind_eq, Act.bind, Option.bind, Poller.PollUntilDone]
    rcases w.beginDelete "armresources.ResourceGroupsClient" "BeginDelete" with e | sc
    · rfl
    · simp only [Except.map]
      generalize (Poller.pollState (⟨"armresources.ResourceGroupsClient", "BeginDelete", sc, none⟩ : Poller (Option HttpResponse)) a.ctx (some 10)) = r
      rcases r with ⟨t, _ | _, p⟩ <;> simp [Act.pure_eq]
    all_goals exact []

theorem Cassandra.script_formed_cassandra (a : Args) : ∀ A ∈ script.sequence a, A.Formed a.ctx := by
  intro A hA
  simp only [Script.sequence, script, List.cons_append, List.nil_append, List.mem_cons,
    List.mem_singleton, List.not_mem_nil, or_false] at hA
  rcases hA with rfl | rfl | rfl | rfl | rfl
  · intro d
    refine ⟨⟨"armresources.ResourceGroupsClient", a.subscriptionID, ⟨a.conn.cred, false⟩⟩, none, ?_⟩
    apply Exists.intro
    apply Exists.intro
    refine ⟨false, rfl, Or.inr rfl, (by simp), fun w => ?_⟩
    simp only [createResourceGroup, asResource, syncForm, syncPtrForm, syncListForm, asyncForm, deleteForm, pagerForm, ctorError, Client.send, Client.sendPtr, Client.sendList, Client.begin, Client.beginDelete, Client.new, Client.ofCred, Client.newE, Client.NewListPager, Args.client, ClientFactory.client, Act.bind_eq, Act.bind, Option.bind, Poller.PollUntilDone]
    cases w.send "armresources.ResourceGroupsClient" "CreateOrUpdate" <;> rfl
  · intro d
    refine ⟨⟨"armcosmos.DatabaseAccountsClient", a.subscriptionID, ⟨a.conn.cred, false⟩⟩, none, ?_⟩
    apply Exists.intro
    apply Exists.intro
    refine ⟨false, rfl, Or.inr rfl, (by simp), fun w => ?_⟩
    simp only [createDatabaseAccount, asResource, syncForm, syncPtrForm, syncListForm, asyncForm, deleteForm, pagerForm, ctorError, Client.send, Client.sendPtr, Client.sendList, Client.begin, Client.beginDelete, Client.new, Client.ofCred, Client.newE, Client.NewListPager, Args.client, ClientFactory.client, Act.bind_eq, Act.bind, Option.bind, Poller.PollUntilDone]
    rcases w.begin "armcosmos.DatabaseAccountsClient" "BeginCreateOrUpdate" with e | sc
    · rfl
    · simp only [Except.map]
      generalize (Poller.pollState (⟨"armcosmos.DatabaseAccountsClient", "BeginCreateOrUpdate", sc, none⟩ : Poller Resource) a.ctx (none)) = r
      rcases r with ⟨t, _ | _, p⟩ <;> simp [Act.pure_eq]
  · intro d
    refine ⟨⟨"armcosmos.CassandraResourcesClient", a.subscriptionID, ⟨a.conn.cred, false⟩⟩, none, ?_⟩
    apply Exists.intro
    apply Exists.intro
    refine ⟨false, rfl, Or.inr rfl, (by simp), fun w => ?_⟩
    simp only [createCassandraKeyspace, asResource, syncForm, syncPtrForm, syncListForm, asyncForm, deleteForm, pagerForm, ctorError, Client.send, Client.sendPtr, Client.sendList, Client.begin, Client.beginDelete, Client.new, Client.ofCred, Client.newE, Client.NewListPager, Args.client, ClientFactory.client, Act.bind_eq, Act.bind, Option.bind, Poller.PollUntilDone]
    rcases w.begin "armcosmos.CassandraResourcesClient" "BeginCreateUpdateCassandraKeyspace" with e | sc
    · rfl
    · simp only [Except.map]
      generalize (Poller.pollState (⟨"armcosmos.CassandraResourcesClient", "BeginCreateUpdateCassandraKeyspace", sc, none⟩ : Poller Resource) a.ctx (none)) = r
      rcases r with ⟨t, _ | _, p⟩ <;> simp [Act.pure_eq]
  · intro d
    refine ⟨⟨"armcosmos.CassandraResourcesClient", a.subscriptionID, ⟨a.conn.cred, false⟩⟩, none, ?_⟩
    apply Exists.intro
    apply Exists.intro
    refine ⟨false, rfl, Or.inr rfl, (by simp), fun w => ?_⟩
    simp only [createCassandraTable, asResource, syncForm, syncPtrForm, syncListForm, asyncForm, deleteForm, pagerForm, ctorError, Client.send, Client.sendPtr, Client.sendList, Client.begin, Client.beginDelete, Client.new, Client.ofCred, Client.newE, Client.NewListPager, Args.client, ClientFactory.client, Act.bind_eq, Act.bind, Option.bind, Poller.PollUntilDone]
    rcases w.begin "armcosmos.CassandraResourcesClient" "BeginCreateUpdateCassandraTable" with e | sc
    · rfl
    · simp only [Except.map]
      generalize (Poller.pollState (⟨"armcosmos.CassandraResourcesClient", "BeginCreateUpdateCassandraTable", sc, none⟩ : Poller Resource) a.ctx (none)) = r
      rcases r with ⟨t, _ | _, p⟩ <;> simp [Act.pure_eq]
  · intro d
    refine ⟨⟨"armresources.ResourceGroupsClient", a.subscriptionID, ⟨a.conn.cred, false⟩⟩, none, ?_⟩
    apply Exists.intro
    apply Exists.intro
    refine ⟨false, rfl, Or.inr rfl, (by simp), fun w => ?_⟩
    simp only [cleanup, asNothing, syncForm, syncPtrForm, syncListForm, asyncForm, deleteForm, pagerForm, ctorError, Client.send, Client.sendPtr, Client.sendList, Client.begin, Client.beginDelete, Client.new, Client.ofCred, Client.newE, Client.NewListPager, Args.client, ClientFactory.client, Act.bind_eq, Act.bind, Option.bind, Poller.PollUntilDone]
    rcases w.beginDelete "armresources.ResourceGroupsClient" "BeginDelete" with e | sc
    · rfl
    · simp only [Except.map]
      generalize (Poller.pollState (⟨"armresources.ResourceGroupsClient", "BeginDelete", sc, none⟩ : Poller (Option HttpResponse)) a.ctx (none)) = r
      rcases r with ⟨t, _ | _, p⟩ <;> simp [Act.pure_eq]
    all_goals exact []

theorem ApiTagDescription.script_formed_apitagdescription (a : Args) : ∀ A ∈ script.sequence a, A.Formed a.ctx := by
  intro A hA
  simp only [Script.sequence, script, List.cons_append, List.nil_append, List.mem_cons,
    List.mem_singleton, List.not_mem_nil, or_false] at hA
  rcases hA with rfl | rfl | rfl | rfl | rfl | rfl
  · intro d
    refine ⟨⟨"armresources.ResourceGroupsClient", a.subscriptionID, ⟨a.conn.cred, false⟩⟩, none, ?_⟩
    apply Exists.intro
    apply Exists.intro
    refine ⟨false, rfl, Or.inr rfl, (by simp), fun w => ?_⟩
    simp only [createResourceGroup, asResource, syncForm, syncPtrForm, syncListForm, asyncForm, deleteForm, pagerForm, ctorError, Client.send, Client.sendPtr, Client.sendList, Client.begin, Client.beginDelete, Client.new, Client.ofCred, Client.newE, Client.NewListPager, Args.client, ClientFactory.client, Act.bind_eq, Act.bind, Option.bind, Poller.PollUntilDone]
    cases w.send "armresources.ResourceGroupsClient" "CreateOrUpdate" <;> rfl
  · intro d
    refine ⟨⟨"armapimanagement.ServiceClient", a.subscriptionID, ⟨a.conn.cred, false⟩⟩, none, ?_⟩
    apply Exists.intro
    apply Exists.intro
    refine ⟨false, rfl, Or.inr rfl, (by simp), fun w => ?_⟩
    simp only [createApiManagementService, asResource, syncForm, syncPtrForm, syncListForm, asyncForm, deleteForm, pagerForm, ctorError, Client.send, Client.sendPtr, Client.sendList, Client.begin, Client.beginDelete, Client.new, Client.ofCred, Client.newE, Client.NewListPager, Args.client, ClientFactory.client, Act.bind_eq, Act.bind, Option.bind, Poller.PollUntilDone]
    rcases w.begin "armapimanagement.ServiceClient" "BeginCreateOrUpdate" with e | sc
    · rfl
    · simp only [Except.map]
      generalize (Poller.pollState (⟨"armapimanagement.ServiceClient", "BeginCreateOrUpdate", sc, none⟩ : Poller Resource) a.ctx (none)) = r
      rcases r with ⟨t, _ | _, p⟩ <;> simp [Act.pure_eq]
  · intro d
    refine ⟨⟨"armapimanagement.APIClient", a.subscriptionID, ⟨a.conn.cred, false⟩⟩, none, ?_⟩
    apply Exists.intro
    apply Exists.intro
    refine ⟨false, rfl, Or.inr rfl, (by simp), fun w => ?_⟩
    simp only [createApi, asResource, syncForm, syncPtrForm, syncListForm, asyncForm, deleteForm, pagerForm, ctorError, Client.send, Client.sendPtr, Client.sendList, Client.begin, Client.beginDelete, Client.new, Client.ofCred, Client.newE, Client.NewListPager, Args.client, ClientFactory.client, Act.bind_eq, Act.bind, Option.bind, Poller.PollUntilDone]
    rcases w.begin "armapimanagement.APIClient" "BeginCreateOrUpdate" with e | sc
    · rfl
    · simp only [Except.map]
      generalize (Poller.pollState (⟨"armapimanagement.APIClient", "BeginCreateOrUpdate", sc, none⟩ : Poller Resource) a.ctx (none)) = r
      rcases r with ⟨t, _ | _, p⟩ <;> simp [Act.pure_eq]
  · intro d
    refine ⟨⟨"armapimanagement.TagClient", a.subscriptionID, ⟨a.conn.cred, false⟩⟩, none, ?_⟩
    apply Exists.intro
    apply Exists.intro
    refine ⟨false, rfl, Or.inr rfl, (by simp), fun w => ?_⟩
    simp only [createTag, asResource, syncForm, syncPtrForm, syncListForm, asyncForm, deleteForm, pagerForm, ctorError, Client.send, Client.sendPtr, Client.sendList, Client.begin, Client.beginDelete, Client.new, Client.ofCred, Client.newE, Client.NewListPager, Args.client, ClientFactory.client, Act.bind_eq, Act.bind, Option.bind, Poller.PollUntilDone]
    cases w.send "armapimanagement.TagClient" "CreateOrUpdate" <;> rfl
  · intro d
    refine ⟨⟨"armapimanagement.APITagDescriptionClient", a.subscriptionID, ⟨a.conn.cred, false⟩⟩, none, ?_⟩
    apply Exists.intro
    apply Exists.intro
    refine ⟨false, rfl, Or.inr rfl, (by simp), fun w => ?_⟩
    simp only [createApiTagDescription, asResource, syncForm, syncPtrForm, syncListForm, asyncForm, deleteForm, pagerForm, ctorError, Client.send, Client.sendPtr, Client.sendList, Client.begin, Client.beginDelete, Client.new, Client.ofCred, Client.newE, Client.NewListPager, Args.client, ClientFactory.client, Act.bind_eq, Act.bind, Option.bind, Poller.PollUntilDone]
    cases w.send "armapimanagement.APITagDescriptionClient" "CreateOrUpdate" <;> rfl
  · intro d
    refine ⟨⟨"armresources.ResourceGroupsClient", a.subscriptionID, ⟨a.conn.cred, false⟩⟩, none, ?_⟩
    apply Exists.intro
    apply Exists.intro
    refine ⟨false, rfl, Or.inr rfl, (by simp), fun w => ?_⟩
    simp only [cleanup, asNothing, syncForm, syncPtrForm, syncListForm, asyncForm, deleteForm, pagerForm, ctorError, Client.send, Client.sendPtr, Client.sendList, Client.begin, Client.beginDelete, Client.new, Client.ofCred, Client.newE, Client.NewListPager, Args.client, ClientFactory.client, Act.bind_eq, Act.bind, Option.bind, Poller.PollUntilDone]
    rcases w.beginDelete "armresources.ResourceGroupsClient" "BeginDelete" with e | sc
    · rfl
    · simp only [Except.map]
      generalize (Poller.pollState (⟨"armresources.ResourceGroupsClient", "BeginDelete", sc, none⟩ : Poller (Option HttpResponse)) a.ctx (none)) = r
      rcases r with ⟨t, _ | _, p⟩ <;> simp [Act.pure_eq]
    all_goals exact []

theorem VirtualNetworkRule.script_formed_virtual_network_rule (a : Args) : ∀ A ∈ script.sequence a, A.Formed a.ctx := by
  intro A hA
  simp only [Script.sequence, script, List.cons_append, List.nil_append, List.mem_cons,
    List.mem_singleton, List.not_mem_nil, or_false] at hA
  rcases hA with rfl | rfl | rfl | rfl | rfl | rfl
  · intro d
    refine ⟨⟨"armresources.ResourceGroupsClient", a.subscriptionID, ⟨a.conn.cred, false⟩⟩, none, ?_⟩
    apply Exists.intro
    apply Exists.intro
    refine ⟨false, rfl, Or.inr rfl, (by simp), fun w => ?_⟩
    simp only [createResourceGroup, asResource, syncForm, syncPtrForm, syncListForm, asyncForm, deleteForm, pagerForm, ctorError, Client.send, Client.sendPtr, Client.sendList, Client.begin, Client.beginDelete, Client.new, Client.ofCred, Client.newE, Client.NewListPager, Args.client, ClientFactory.client, Act.bind_eq, Act.bind, Option.bind, Poller.PollUntilDone]
    rcases w.construct "armresources.ResourceGroupsClient" with _ | e
    · dsimp only
      cases w.send "armresources.ResourceGroupsClient" "CreateOrUpdate" <;> rfl
    · rfl
  · intro d
    refine ⟨⟨"armpostgresql.ServersClient", a.subscriptionID, ⟨a.conn.cred, false⟩⟩, none, ?_⟩
    apply Exists.intro
    apply Exists.intro
    refine ⟨false, rfl, Or.inr rfl, (by simp), fun w => ?_⟩
    simp only [createServer, asResource, syncForm, syncPtrForm, syncListForm, asyncForm, deleteForm, pagerForm, ctorError, Client.send, Client.sendPtr, Client.sendList, Client.begin, Client.beginDelete, Client.new, Client.ofCred, Client.newE, Client.NewListPager, Args.client, ClientFactory.client, Act.bind_eq, Act.bind, Option.bind, Poller.PollUntilDone]
    rcases w.construct "armpostgresql.ServersClient" with _ | e
    · dsimp only
      rcases w.begin "armpostgresql.ServersClient" "BeginCreate" with e | sc
      · rfl
      · simp only [Except.map]
        generalize (Poller.pollState (⟨"armpostgresql.ServersClient", "BeginCreate", sc, none⟩ : Poller Resource) a.ctx (none)) = r
        rcases r with ⟨t, _ | _, p⟩ <;> simp [Act.pure_eq]
    · rfl
  · intro d
    refine ⟨⟨"armnetwork.VirtualNetworksClient", a.subscriptionID, ⟨a.conn.cred, false⟩⟩, none, ?_⟩
    apply Exists.intro
    apply Exists.intro
    refine ⟨false, rfl, Or.inr rfl, (by simp), fun w => ?_⟩
    simp only [createVirtualNetwork, asResource, syncForm, syncPtrForm, syncListForm, asyncForm, deleteForm, pagerForm, ctorError, Client.send, Client.sendPtr, Client.sendList, Client.begin, Client.beginDelete, Client.new, Client.ofCred, Client.newE, Client.NewListPager, Args.client, ClientFactory.client, Act.bind_eq, Act.bind, Option.bind, Poller.PollUntilDone]
    rcases w.construct "armnetwork.VirtualNetworksClient" with _ | e
    · dsimp only
      rcases w.begin "armnetwork.VirtualNetworksClient" "BeginCreateOrUpdate" with e | sc
      · rfl
      · simp only [Except.map]
        generalize (Poller.pollState (⟨"armnetwork.VirtualNetworksClient", "BeginCreateOrUpdate", sc, none⟩ : Poller Resource) a.ctx (none)) = r
        rcases r with ⟨t, _ | _, p⟩ <;> simp [Act.pure_eq]
    · rfl
  · intro d
    refine ⟨⟨"armnetwork.SubnetsClient", a.subscriptionID, ⟨a.conn.cred, false⟩⟩, none, ?_⟩
    apply Exists.intro
    apply Exists.intro
    refine ⟨false, rfl, Or.inr rfl, (by simp), fun w => ?_⟩
    simp only [createSubnet, asResource, syncForm, syncPtrForm, syncListForm, asyncForm, deleteForm, pagerForm, ctorError, Client.send, Client.sendPtr, Client.sendList, Client.begin, Client.beginDelete, Client.new, Client.ofCred, Client.newE, Client.NewListPager, Args.client, ClientFactory.client, Act.bind_eq, Act.bind, Option.bind, Poller.PollUntilDone]
    rcases w.construct "armnetwork.SubnetsClient" with _ | e
    · dsimp only
      rcases w.begin "armnetwork.SubnetsClient" "BeginCreateOrUpdate" with e | sc
      · rfl
      · simp only [Except.map]
        generalize (Poller.pollState (⟨"armnetwork.SubnetsClient", "BeginCreateOrUpdate", sc, none⟩ : Poller Resource) a.ctx (none)) = r
        rcases r with ⟨t, _ | _, p⟩ <;> simp [Act.pure_eq]
    · rfl
  · intro d
    refine ⟨⟨"armpostgresql.VirtualNetworkRulesClient", a.subscriptionID, ⟨a.conn.cred, false⟩⟩, none, ?_⟩
    apply Exists.intro
    apply Exists.intro
    refine ⟨false, rfl, Or.inr rfl, (by simp), fun w => ?_⟩
    simp only [createVirtualNetworkRule, asResource, syncForm, syncPtrForm, syncListForm, asyncForm, deleteForm, pagerForm, ctorError, Client.send, Client.sendPtr, Client.sendList, Client.begin, Client.beginDelete, Client.new, Client.ofCred, Client.newE, Client.NewListPager, Args.client, ClientFactory.client, Act.bind_eq, Act.bind, Option.bind, Poller.PollUntilDone]
    rcases w.construct "armpostgresql.VirtualNetworkRulesClient" with _ | e
    · dsimp only
      rcases w.begin "armpostgresql.VirtualNetworkRulesClient" "BeginCreateOrUpdate" with e | sc
      · rfl
      · simp only [Except.map]
        generalize (Poller.pollState (⟨"armpostgresql.VirtualNetworkRulesClient", "BeginCreateOrUpdate", sc, none⟩ : Poller Resource) a.ctx (none)) = r
        rcases r with ⟨t, _ | _, p⟩ <;> simp [Act.pure_eq]
    · rfl
  · intro d
    refine ⟨⟨"armresources.ResourceGroupsClient", a.subscriptionID, ⟨a.conn.cred, false⟩⟩, none, ?_⟩
    apply Exists.intro
    apply Exists.intro
    refine ⟨false, rfl, Or.inr rfl, (by simp), fun w => ?_⟩
    simp only [cleanup, asNothing, syncForm, syncPtrForm, syncListForm, asyncForm, deleteForm, pagerForm, ctorError, Client.send, Client.sendPtr, Client.sendList, Client.begin, Client.beginDelete, Client.new, Client.ofCred, Client.newE, Client.NewListPager, Args.client, ClientFactory.client, Act.bind_eq, Act.bind, Option.bind, Poller.PollUntilDone]
    rcases w.construct "armresources.ResourceGroupsClient" with _ | e
    · dsimp only
      rcases w.beginDelete "armresources.ResourceGroupsClient" "BeginDelete" with e | sc
      · rfl
      · simp only [Except.map]
        generalize (Poller.pollState (⟨"armresources.ResourceGroupsClient", "BeginDelete", sc, none⟩ : Poller (Option HttpResponse)) a.ctx (none)) = r
        rcases r with ⟨t, _ | _, p⟩ <;> simp [Act.pure_eq]
    · rfl
    all_goals exact []

theorem Apps.script_formed_apps (a : Args) : ∀ A ∈ script.sequence a, A.Formed a.ctx := by
  intro A hA
  simp only [Script.sequence, script, List.cons_append, List.nil_append, List.mem_cons,
    List.mem_singleton, List.not_mem_nil, or_false] at hA
  rcases hA with rfl | rfl | rfl | rfl | rfl | rfl | rfl
  · intro d
    refine ⟨⟨"armresources.ResourceGroupsClient", a.subscriptionID, ⟨a.conn.cred, false⟩⟩, none, ?_⟩
    apply Exists.intro
    apply Exists.intro
    refine ⟨false, rfl, Or.inr rfl, (by simp), fun w => ?_⟩
    simp only [createResourceGroup, asResource, syncForm, syncPtrForm, syncListForm, asyncForm, deleteForm, pagerForm, ctorError, Client.send, Client.sendPtr, Client.sendList, Client.begin, Client.beginDelete, Client.new, Client.ofCred, Client.newE, Client.NewListPager, Args.client, ClientFactory.client, Act.bind_eq, Act.bind, Option.bind, Poller.PollUntilDone]
    rcases w.construct "armresources.ResourceGroupsClient" with _ | e
    · dsimp only
      cases w.send "armresources.ResourceGroupsClient" "CreateOrUpdate" <;> rfl
    · rfl
  · intro d
    refine ⟨⟨"armappplatform.ServicesClient", a.subscriptionID, ⟨a.conn.cred, false⟩⟩, none, ?_⟩
    apply Exists.intro
    apply Exists.intro
    refine ⟨false, rfl, Or.inr rfl, (by simp), fun w => ?_⟩
    simp only [createSpringCloudService, asResource, syncForm, syncPtrForm, syncListForm, asyncForm, deleteForm, pagerForm, ctorError, Client.send, Client.sendPtr, Client.sendList, Client.begin, Client.beginDelete, Client.new, Client.ofCred, Client.newE, Client.NewListPager, Args.client, ClientFactory.client, Act.bind_eq, Act.bind, Option.bind, Poller.PollUntilDone]
    rcases w.construct "armappplatform.ServicesClient" with _ | e
    · dsimp only
      rcases w.begin "armappplatform.ServicesClient" "BeginCreateOrUpdate" with e | sc
      · rfl
      · simp only [Except.map]
        generalize (Poller.pollState (⟨"armappplatform.ServicesClient", "BeginCreateOrUpdate", sc, none⟩ : Poller Resource) a.ctx (none)) = r
        rcases r with ⟨t, _ | _, p⟩ <;> simp [Act.pure_eq]
    · rfl
  · intro d
    refine ⟨⟨"armappplatform.AppsClient", a.subscriptionID, ⟨a.conn.cred, false⟩⟩, none, ?_⟩
    apply Exists.intro
    apply Exists.intro
    refine ⟨false, rfl, Or.inr rfl, (by simp), fun w => ?_⟩
    simp only [createAPP, asResource, syncForm, syncPtrForm, syncListForm, asyncForm, deleteForm, pagerForm, ctorError, Client.send, Client.sendPtr, Client.sendList, Client.begin, Client.beginDelete, Client.new, Client.ofCred, Client.newE, Client.NewListPager, Args.client, ClientFactory.client, Act.bind_eq, Act.bind, Option.bind, Poller.PollUntilDone]
    rcases w.construct "armappplatform.AppsClient" with _ | e
    · dsimp only
      rcases w.begin "armappplatform.AppsClient" "BeginCreateOrUpdate" with e | sc
      · rfl
      · simp only [Except.map]
        generalize (Poller.pollState (⟨"armappplatform.AppsClient", "BeginCreateOrUpdate", sc, none⟩ : Poller Resource) a.ctx (none)) = r
        rcases r with ⟨t, _ | _, p⟩ <;> simp [Act.pure_eq]
    · rfl
  · intro d
    refine ⟨⟨"armappplatform.AppsClient", a.subscriptionID, ⟨a.conn.cred, false⟩⟩, none, ?_⟩
    apply Exists.intro
    apply Exists.intro
    refine ⟨false, rfl, Or.inr rfl, (by simp), fun w => ?_⟩
    simp only [getAppResource, asResource, syncForm, syncPtrForm, syncListForm, asyncForm, deleteForm, pagerForm, ctorError, Client.send, Client.sendPtr, Client.sendList, Client.begin, Client.beginDelete, Client.new, Client.ofCred, Client.newE, Client.NewListPager, Args.client, ClientFactory.client, Act.bind_eq, Act.bind, Option.bind, Poller.PollUntilDone]
    rcases w.construct "armappplatform.AppsClient" with _ | e
    · dsimp only
      cases w.send "armappplatform.AppsClient" "Get" <;> rfl
    · rfl
  · intro d
    refine ⟨⟨"armappplatform.AppsClient", a.subscriptionID, ⟨a.conn.cred, false⟩⟩, none, ?_⟩
    apply Exists.intro
    apply Exists.intro
    refine ⟨false, rfl, Or.inr rfl, (by simp), fun w => ?_⟩
    simp only [getAppResourceUploadURL, asResource, syncForm, syncPtrForm, syncListForm, asyncForm, deleteForm, pagerForm, ctorError, Client.send, Client.sendPtr, Client.sendList, Client.begin, Client.beginDelete, Client.new, Client.ofCred, Client.newE, Client.NewListPager, Args.client, ClientFactory.client, Act.bind_eq, Act.bind, Option.bind, Poller.PollUntilDone]
    rcases w.construct "armappplatform.AppsClient" with _ | e
    · dsimp only
      cases w.send "armappplatform.AppsClient" "GetResourceUploadURL" <;> rfl
    · rfl
  · intro d
    refine ⟨⟨"armappplatform.AppsClient", a.subscriptionID, ⟨a.conn.cred, false⟩⟩, none, ?_⟩
    apply Exists.intro
    apply Exists.intro
    refine ⟨false, rfl, Or.inr rfl, (by simp), fun w => ?_⟩
    simp only [validateDomain, asResource, syncForm, syncPtrForm, syncListForm, asyncForm, deleteForm, pagerForm, ctorError, Client.send, Client.sendPtr, Client.sendList, Client.begin, Client.beginDelete, Client.new, Client.ofCred, Client.newE, Client.NewListPager, Args.client, ClientFactory.client, Act.bind_eq, Act.bind, Option.bind, Poller.PollUntilDone]
    rcases w.construct "armappplatform.AppsClient" with _ | e
    · dsimp only
      cases w.send "armappplatform.AppsClient" "ValidateDomain" <;> rfl
    · rfl
  · intro d
    refine ⟨⟨"armresources.ResourceGroupsClient", a.subscriptionID, ⟨a.conn.cred, false⟩⟩, none, ?_⟩
    apply Exists.intro
    apply Exists.intro
    refine ⟨false, rfl, Or.inr rfl, (by simp), fun w => ?_⟩
    simp only [cleanup, asNothing, syncForm, syncPtrForm, syncListForm, asyncForm, deleteForm, pagerForm, ctorError, Client.send, Client.sendPtr, Client.sendList, Client.begin, Client.beginDelete, Client.new, Client.ofCred, Client.newE, Client.NewListPager, Args.client, ClientFactory.client, Act.bind_eq, Act.bind, Option.bind, Poller.PollUntilDone]
    rcases w.construct "armresources.ResourceGroupsClient" with _ | e
    · dsimp only
      rcases w.beginDelete "armresources.ResourceGroupsClient" "BeginDelete" with e | sc
      · rfl
      · simp only [Except.map]
        generalize (Poller.pollState (⟨"armresources.ResourceGroupsClient", "BeginDelete", sc, none⟩ : Poller (Option HttpResponse)) a.ctx (none)) = r
        rcases r with ⟨t, _ | _, p⟩ <;> simp [Act.pure_eq]
    · rfl
    all_goals exact []

theorem ServerKey.script_formed_server_key (a : Args) : ∀ A ∈ script.sequence a, A.Formed a.ctx := by
  intro A hA
  simp only [Script.sequence, script, List.cons_append, List.nil_append, List.mem_cons,
    List.mem_singleton, List.not_mem_nil, or_false] at hA
  rcases hA with rfl | rfl | rfl | rfl | rfl | rfl
  · intro d
    refine ⟨⟨"armresources.ResourceGroupsClient", a.subscriptionID, a.conn⟩, none, ?_⟩
    apply Exists.intro
    apply Exists.intro
    refine ⟨false, rfl, Or.inr rfl, (by simp), fun w => ?_⟩
    simp only [createResourceGroup, asResource, syncForm, syncPtrForm, syncListForm, asyncForm, deleteForm, pagerForm, ctorError, Client.send, Client.sendPtr, Client.sendList, Client.begin, Client.beginDelete, Client.new, Client.ofCred, Client.newE, Client.NewListPager, Args.client, ClientFactory.client, Act.bind_eq, Act.bind, Option.bind, Poller.PollUntilDone]
    cases w.send "armresources.ResourceGroupsClient" "CreateOrUpdate" <;> rfl
  · intro d
    refine ⟨⟨"armpostgresql.ServersClient", a.subscriptionID, a.conn⟩, some 10, ?_⟩
    apply Exists.intro
    apply Exists.intro
    refine ⟨false, rfl, Or.inl rfl, (by simp), fun w => ?_⟩
    simp only [createServer, asResource, syncForm, syncPtrForm, syncListForm, asyncForm, deleteForm, pagerForm, ctorError, Client.send, Client.sendPtr, Client.sendList, Client.begin, Client.beginDelete, Client.new, Client.ofCred, Client.newE, Client.NewListPager, Args.client, ClientFactory.client, Act.bind_eq, Act.bind, Option.bind, Poller.PollUntilDone]
    rcases w.begin "armpostgresql.ServersClient" "BeginCreate" with e | sc
    · rfl
    · simp only [Except.map]
      generalize (Poller.pollState (⟨"armpostgresql.ServersClient", "BeginCreate", sc, none⟩ : Poller Resource) a.ctx (some 10)) = r
      rcases r with ⟨t, _ | _, p⟩ <;> simp [Act.pure_eq]
  · intro d
    refine ⟨⟨"armkeyvault.VaultsClient", a.subscriptionID, a.conn⟩, some 10, ?_⟩
    apply Exists.intro
    apply Exists.intro
    refine ⟨false, rfl, Or.inl rfl, (by simp), fun w => ?_⟩
    simp only [createVault, asResource, syncForm, syncPtrForm, syncListForm, asyncForm, deleteForm, pagerForm, ctorError, Client.send, Client.sendPtr, Client.sendList, Client.begin, Client.beginDelete, Client.new, Client.ofCred, Client.newE, Client.NewListPager, Args.client, ClientFactory.client, Act.bind_eq, Act.bind, Option.bind, Poller.PollUntilDone]
    rcases w.begin "armkeyvault.VaultsClient" "BeginCreateOrUpdate" with e | sc
    · rfl
    · simp only [Except.map]
      generalize (Poller.pollState (⟨"armkeyvault.VaultsClient", "BeginCreateOrUpdate", sc, none⟩ : Poller Resource) a.ctx (some 10)) = r
      rcases r with ⟨t, _ | _, p⟩ <;> simp [Act.pure_eq]
  · intro d
    refine ⟨⟨"armkeyvault.KeysClient", a.subscriptionID, a.conn⟩, none, ?_⟩
    apply Exists.intro
    apply Exists.intro
    refine ⟨false, rfl, Or.inr rfl, (by simp), fun w => ?_⟩
    simp only [createKey, asResource, syncForm, syncPtrForm, syncListForm, asyncForm, deleteForm, pagerForm, ctorError, Client.send, Client.sendPtr, Client.sendList, Client.begin, Client.beginDelete, Client.new, Client.ofCred, Client.newE, Client.NewListPager, Args.client, ClientFactory.client, Act.bind_eq, Act.bind, Option.bind, Poller.PollUntilDone]
    cases w.send "armkeyvault.KeysClient" "CreateIfNotExist" <;> rfl
  · intro d
    refine ⟨⟨"armpostgresql.ServerKeysClient", a.subscriptionID, a.conn⟩, some 10, ?_⟩
    apply Exists.intro
    apply Exists.intro
    refine ⟨false, rfl, Or.inl rfl, (by simp), fun w => ?_⟩
    simp only [createServerKey, asResource, syncForm, syncPtrForm, syncListForm, asyncForm, deleteForm, pagerForm, ctorError, Client.send, Client.sendPtr, Client.sendList, Client.begin, Client.beginDelete, Client.new, Client.ofCred, Client.newE, Client.NewListPager, Args.client, ClientFactory.client, Act.bind_eq, Act.bind, Option.bind, Poller.PollUntilDone]
    rcases w.begin "armpostgresql.ServerKeysClient" "BeginCreateOrUpdate" with e | sc
    · rfl
    · simp only [Except.map]
      generalize (Poller.pollState (⟨"armpostgresql.ServerKeysClient", "BeginCreateOrUpdate", sc, none⟩ : Poller Resource) a.ctx (some 10)) = r
      rcases r with ⟨t, _ | _, p⟩ <;> simp [Act.pure_eq]
  · intro d
    refine ⟨⟨"armresources.ResourceGroupsClient", a.subscriptionID, a.conn⟩, some 10, ?_⟩
    apply Exists.intro
    apply Exists.intro
    refine ⟨true, rfl, Or.inl rfl, (by simp), fun w => ?_⟩
    simp only [cleanup, asResponse, syncForm, syncPtrForm, syncListForm, asyncForm, deleteForm, pagerForm, ctorError, Client.send, Client.sendPtr, Client.sendList, Client.begin, Client.beginDelete, Client.new, Client.ofCred, Client.newE, Client.NewListPager, Args.client, ClientFactory.client, Act.bind_eq, Act.bind, Option.bind, Poller.PollUntilDone]
    rcases w.beginDelete "armresources.ResourceGroupsClient" "BeginDelete" with e | sc
    · rfl
    · simp only [Except.map]
      generalize (Poller.pollState (⟨"armresources.ResourceGroupsClient", "BeginDelete", sc, none⟩ : Poller (Option HttpResponse)) a.ctx (some 10)) = r
      rcases r with ⟨t, _ | _, p⟩ <;> simp [Act.pure_eq]
    all_goals exact []

theorem AvailabilitySet.script_plain_availabilityset (a : Args) : ∀ A ∈ script.sequence a, A.Plain := by
  intro A hA
  simp only [Script.sequence, script, List.cons_append, List.nil_append, List.mem_cons,
    List.mem_singleton, List.not_mem_nil, or_false] at hA
  rcases hA with rfl | rfl | rfl | rfl | rfl
  · refine Step.plain_of_prints _ (Or.inl rfl) fun ret => ?_
    cases ret <;> dsimp only [reportID] <;>
      repeat (first
        | exact Act.Prints.pure _
        | exact Act.Prints.deref _
        | exact Act.Prints.println _ (by simp)
        | refine Act.Prints.forRange (fun _ _ => ?_) _ _
        | refine Act.Prints.bind ?_ fun _ => ?_)
  · refine Step.plain_of_prints _ (Or.inl rfl) fun ret => ?_
    cases ret <;> dsimp only [reportID] <;>
      repeat (first
        | exact Act.Prints.pure _
        | exact Act.Prints.deref _
        | exact Act.Prints.println _ (by simp)
        | refine Act.Prints.forRange (fun _ _ => ?_) _ _
        | refine Act.Prints.bind ?_ fun _ => ?_)
  · refine Step.plain_of_prints _ (Or.inl rfl) fun ret => ?_
    cases ret <;> dsimp only [reportID] <;>
      repeat (first
        | exact Act.Prints.pure _
        | exact Act.Prints.deref _
        | exact Act.Prints.println _ (by simp)
        | refine Act.Prints.forRange (fun _ _ => ?_) _ _
        | refine Act.Prints.bind ?_ fun _ => ?_)
  · refine Step.plain_of_prints _ (Or.inl rfl) fun ret => ?_
    cases ret <;> dsimp only [reportID] <;>
      repeat (first
        | exact Act.Prints.pure _
        | exact Act.Prints.deref _
        | exact Act.Prints.println _ (by simp)
        | refine Act.Prints.forRange (fun _ _ => ?_) _ _
        | refine Act.Prints.bind ?_ fun _ => ?_)
  · exact Step.plain_of_reportCleaned _ rfl (Or.inl rfl) rfl

theorem AvailabilitySet.script_wf_availabilityset : script.WF where
  setup_events w := (setupWith_events _ w).1
  setup_safe w := (setupWith_events _ w).2.1
  setup_ctx w := (setupWith_events _ w).2.2
  formed := script_formed_availabilityset
  plain := script_plain_availabilityset
  distinct := by
    intro a
    simp [Script.sequence, script, Step.op]
  first := fun _ => ⟨_, _, rfl, rfl, by simp⟩
  creates := by
    intro a A hA
    simp only [script, List.mem_cons, List.mem_singleton, List.not_mem_nil, or_false] at hA
    rcases hA with rfl | rfl | rfl | rfl <;> simp
  deletes := fun _ => rfl

theorem ActionGroup.script_plain_action_group (a : Args) : ∀ A ∈ script.sequence a, A.Plain := by
  intro A hA
  simp only [Script.sequence, script, List.cons_append, List.nil_append, List.mem_cons,
    List.mem_singleton, List.not_mem_nil, or_false] at hA
  rcases hA with rfl | rfl | rfl | rfl
  · refine Step.plain_of_prints _ (Or.inl rfl) fun ret => ?_
    cases ret <;> dsimp only [reportID] <;>
      repeat (first
        | exact Act.Prints.pure _
        | exact Act.Prints.deref _
        | exact Act.Prints.println _ (by simp)
        | refine Act.Prints.forRange (fun _ _ => ?_) _ _
        | refine Act.Prints.bind ?_ fun _ => ?_)
  · refine Step.plain_of_prints _ (Or.inl rfl) fun ret => ?_
    cases ret <;> dsimp only [reportID] <;>
      repeat (first
        | exact Act.Prints.pure _
        | exact Act.Prints.deref _
        | exact Act.Prints.println _ (by simp)
        | refine Act.Prints.forRange (fun _ _ => ?_) _ _
        | refine Act.Prints.bind ?_ fun _ => ?_)
  · refine Step.plain_of_prints _ (Or.inl rfl) fun ret => ?_
    cases ret <;> dsimp only [reportID] <;>
      repeat (first
        | exact Act.Prints.pure _
        | exact Act.Prints.deref _
        | exact Act.Prints.println _ (by simp)
        | refine Act.Prints.forRange (fun _ _ => ?_) _ _
        | refine Act.Prints.bind ?_ fun _ => ?_)
  · exact Step.plain_of_reportCleaned _ rfl (Or.inl rfl) rfl

theorem ActionGroup.script_wf_action_group : script.WF where
  setup_events w := (setupWith_events _ w).1
  setup_safe w := (setupWith_events _ w).2.1
  setup_ctx w := (setupWith_events _ w).2.2
  formed := script_formed_action_group
  plain := script_plain_action_group
  distinct := by
    intro a
    simp [Script.sequence, script, Step.op]
  first := fun _ => ⟨_, _, rfl, rfl, by simp⟩
  creates := by
    intro a A hA
    simp only [script, List.mem_cons, List.mem_singleton, List.not_mem_nil, or_false] at hA
    rcases hA with rfl | rfl | rfl <;> simp
  deletes := fun _ => rfl

theorem ApimanagementService.script_plain_apimanagement_service (a : Args) : ∀ A ∈ script.sequence a, A.Plain := by
  intro A hA
  simp only [Script.sequence, script, List.cons_append, List.nil_append, List.mem_cons,
    List.mem_singleton, List.not_mem_nil, or_false] at hA
  rcases hA with rfl | rfl | rfl | rfl | rfl | rfl
  · refine Step.plain_of_prints _ (Or.inl rfl) fun ret => ?_
    cases ret <;> dsimp only [reportID] <;>
      repeat (first
        | exact Act.Prints.pure _
        | exact Act.Prints.deref _
        | exact Act.Prints.println _ (by simp)
        | refine Act.Prints.forRange (fun _ _ => ?_) _ _
        | refine Act.Prints.bind ?_ fun _ => ?_)
  · refine Step.plain_of_prints _ (Or.inl rfl) fun ret => ?_
    cases ret <;> dsimp only [reportID] <;>
      repeat (first
        | exact Act.Prints.pure _
        | exact Act.Prints.deref _
        | exact Act.Prints.println _ (by simp)
        | refine Act.Prints.forRange (fun _ _ => ?_) _ _
        | refine Act.Prints.bind ?_ fun _ => ?_)
  · refine Step.plain_of_prints _ (Or.inl rfl) fun ret => ?_
    cases ret <;> dsimp only [reportID] <;>
      repeat (first
        | exact Act.Prints.pure _
        | exact Act.Prints.deref _
        | exact Act.Prints.println _ (by simp)
        | refine Act.Prints.forRange (fun _ _ => ?_) _ _
        | refine Act.Prints.bind ?_ fun _ => ?_)
  · refine Step.plain_of_prints _ (Or.inl rfl) fun ret => ?_
    cases ret <;> dsimp only [reportID] <;>
      repeat (first
        | exact Act.Prints.pure _
        | exact Act.Prints.deref _
        | exact Act.Prints.println _ (by simp)
        | refine Act.Prints.forRange (fun _ _ => ?_) _ _
        | refine Act.Prints.bind ?_ fun _ => ?_)
  · refine Step.plain_of_prints _ (Or.inl rfl) fun ret => ?_
    cases ret <;> dsimp only [reportID] <;>
      repeat (first
        | exact Act.Prints.pure _
        | exact Act.Prints.deref _
        | exact Act.Prints.println _ (by simp)
        | refine Act.Prints.forRange (fun _ _ => ?_) _ _
        | refine Act.Prints.bind ?_ fun _ => ?_)
  · exact Step.plain_of_reportCleaned _ rfl (Or.inl rfl) rfl

theorem ApimanagementService.script_wf_apimanagement_service : script.WF where
  setup_events w := (setupWith_events _ w).1
  setup_safe w := (setupWith_events _ w).2.1
  setup_ctx w := (setupWith_events _ w).2.2
  formed := script_formed_apimanagement_service
  plain := script_plain_apimanagement_service
  distinct := by
    intro a
    simp [Script.sequence, script, Step.op]
  first := fun _ => ⟨_, _, rfl, rfl, by simp⟩
  creates := by
    intro a A hA
    simp only [script, List.mem_cons, List.mem_singleton, List.not_mem_nil, or_false] at hA
    rcases hA with rfl | rfl | rfl | rfl | rfl <;> simp
  deletes := fun _ => rfl

theorem TaskRun.script_plain_task_run (a : Args) : ∀ A ∈ script.sequence a, A.Plain := by
  intro A hA
  simp only [Script.sequence, script, List.cons_append, List.nil_append, List.mem_cons,
    List.mem_singleton, List.not_mem_nil, or_false] at hA
  rcases hA with rfl | rfl | rfl | rfl | rfl
  · refine Step.plain_of_prints _ (Or.inl rfl) fun ret => ?_
    cases ret <;> dsimp only [reportID] <;>
      repeat (first
        | exact Act.Prints.pure _
        | exact Act.Prints.deref _
        | exact Act.Prints.println _ (by simp)
        | refine Act.Prints.forRange (fun _ _ => ?_) _ _
        | refine Act.Prints.bind ?_ fun _ => ?_)
  · refine Step.plain_of_prints _ (Or.inl rfl) fun ret => ?_
    cases ret <;> dsimp only [reportID] <;>
      repeat (first
        | exact Act.Prints.pure _
        | exact Act.Prints.deref _
        | exact Act.Prints.println _ (by simp)
        | refine Act.Prints.forRange (fun _ _ => ?_) _ _
        | refine Act.Prints.bind ?_ fun _ => ?_)
  · refine Step.plain_of_prints _ (Or.inl rfl) fun ret => ?_
    cases ret <;> dsimp only [reportID] <;>
      repeat (first
        | exact Act.Prints.pure _
        | exact Act.Prints.deref _
        | exact Act.Prints.println _ (by simp)
        | refine Act.Prints.forRange (fun _ _ => ?_) _ _
        | refine Act.Prints.bind ?_ fun _ => ?_)
  · refine Step.plain_of_prints _ (Or.inl rfl) fun ret => ?_
    cases ret <;> dsimp only [reportID] <;>
      repeat (first
        | exact Act.Prints.pure _
        | exact Act.Prints.deref _
        | exact Act.Prints.println _ (by simp)
        | refine Act.Prints.forRange (fun _ _ => ?_) _ _
        | refine Act.Prints.bind ?_ fun _ => ?_)
  · exact Step.plain_of_reportCleaned _ rfl (Or.inl rfl) rfl

theorem TaskRun.script_wf_task_run : script.WF where
  setup_events w := (setupWith_events _ w).1
  setup_safe w := (setupWith_events _ w).2.1
  setup_ctx w := (setupWith_events _ w).2.2
  formed := script_formed_task_run
  plain := script_plain_task_run
  distinct := by
    intro a
    simp [Script.sequence, script, Step.op]
  first := fun _ => ⟨_, _, rfl, rfl, by simp⟩
  creates := by
    intro a A hA
    simp only [script, List.mem_cons, List.mem_singleton, List.not_mem_nil, or_false] at hA
    rcases hA with rfl | rfl | rfl | rfl <;> simp
  deletes := fun _ => rfl

theorem EventhubNamespace.script_plain_eventhub_namespace (a : Args) : ∀ A ∈ script.sequence a, A.Plain := by
  intro A hA
  simp only [Script.sequence, script, List.cons_append, List.nil_append, List.mem_cons,
    List.mem_singleton, List.not_mem_nil, or_false] at hA
  rcases hA with rfl | rfl | rfl | rfl
  · refine Step.plain_of_prints _ (Or.inl rfl) fun ret => ?_
    cases ret <;> dsimp only [reportID] <;>
      repeat (first
        | exact Act.Prints.pure _
        | exact Act.Prints.deref _
        | exact Act.Prints.println _ (by simp)
        | refine Act.Prints.forRange (fun _ _ => ?_) _ _
        | refine Act.Prints.bind ?_ fun _ => ?_)
  · refine Step.plain_of_prints _ (Or.inl rfl) fun ret => ?_
    cases ret <;> dsimp only [reportID] <;>
      repeat (first
        | exact Act.Prints.pure _
        | exact Act.Prints.deref _
        | exact Act.Prints.println _ (by simp)
        | refine Act.Prints.forRange (fun _ _ => ?_) _ _
        | refine Act.Prints.bind ?_ fun _ => ?_)
  · refine Step.plain_of_prints _ (Or.inl rfl) fun ret => ?_
    cases ret <;> dsimp only [reportID] <;>
      repeat (first
        | exact Act.Prints.pure _
        | exact Act.Prints.deref _
        | exact Act.Prints.println _ (by simp)
        | refine Act.Prints.forRange (fun _ _ => ?_) _ _
        | refine Act.Prints.bind ?_ fun _ => ?_)
  · exact Step.plain_of_reportCleaned _ rfl (Or.inl rfl) rfl

theorem EventhubNamespace.script_wf_eventhub_namespace : script.WF where
  setup_events w := (setupWith_events _ w).1
  setup_safe w := (setupWith_events _ w).2.1
  setup_ctx w := (setupWith_events _ w).2.2
  formed := script_formed_eventhub_namespace
  plain := script_plain_eventhub_namespace
  distinct := by
    intro a
    simp [Script.sequence, script, Step.op]
  first := fun _ => ⟨_, _, rfl, rfl, by simp⟩
  creates := by
    intro a A hA
    simp only [script, List.mem_cons, List.mem_singleton, List.not_mem_nil, or_false] at hA
    rcases hA with rfl | rfl | rfl <;> simp
  deletes := fun _ => rfl

theorem Cassandra.script_plain_cassandra (a : Args) : ∀ A ∈ script.sequence a, A.Plain := by
  intro A hA
  simp only [Script.sequence, script, List.cons_append, List.nil_append, List.mem_cons,
    List.mem_singleton, List.not_mem_nil, or_false] at hA
  rcases hA with rfl | rfl | rfl | rfl | rfl
  · refine Step.plain_of_prints _ (Or.inl rfl) fun ret => ?_
    cases ret <;> dsimp only [reportID] <;>
      repeat (first
        | exact Act.Prints.pure _
        | exact Act.Prints.deref _
        | exact Act.Prints.println _ (by simp)
        | refine Act.Prints.forRange (fun _ _ => ?_) _ _
        | refine Act.Prints.bind ?_ fun _ => ?_)
  · refine Step.plain_of_prints _ (Or.inl rfl) fun ret => ?_
    cases ret <;> dsimp only [reportID] <;>
      repeat (first
        | exact Act.Prints.pure _
        | exact Act.Prints.deref _
        | exact Act.Prints.println _ (by simp)
        | refine Act.Prints.forRange (fun _ _ => ?_) _ _
        | refine Act.Prints.bind ?_ fun _ => ?_)
  · refine Step.plain_of_prints _ (Or.inl rfl) fun ret => ?_
    cases ret <;> dsimp only [reportID] <;>
      repeat (first
        | exact Act.Prints.pure _
        | exact Act.Prints.deref _
        | exact Act.Prints.println _ (by simp)
        | refine Act.Prints.forRange (fun _ _ => ?_) _ _
        | refine Act.Prints.bind ?_ fun _ => ?_)
  · refine Step.plain_of_prints _ (Or.inl rfl) fun ret => ?_
    cases ret <;> dsimp only [reportID] <;>
      repeat (first
        | exact Act.Prints.pure _
        | exact Act.Prints.deref _
        | exact Act.Prints.println _ (by simp)
        | refine Act.Prints.forRange (fun _ _ => ?_) _ _
        | refine Act.Prints.bind ?_ fun _ => ?_)
  · exact Step.plain_of_reportCleaned _ rfl (Or.inl rfl) rfl

theorem Cassandra.script_wf_cassandra : script.WF where
  setup_events w := (setupFactories_events _ w).1
  setup_safe w := (setupFactories_events _ w).2.1
  setup_ctx w := (setupFactories_events _ w).2.2
  formed := script_formed_cassandra
  plain := script_plain_cassandra
  distinct := by
    intro a
    simp [Script.sequence, script, Step.op]
  first := fun _ => ⟨_, _, rfl, rfl, by simp⟩
  creates := by
    intro a A hA
    simp only [script, List.mem_cons, List.mem_singleton, List.not_mem_nil, or_false] at hA
    rcases hA with rfl | rfl | rfl | rfl <;> simp
  deletes := fun _ => rfl

theorem ApiTagDescription.script_plain_apitagdescription (a : Args) : ∀ A ∈ script.sequence a, A.Plain := by
  intro A hA
  simp only [Script.sequence, script, List.cons_append, List.nil_append, List.mem_cons,
    List.mem_singleton, List.not_mem_nil, or_false] at hA
  rcases hA with rfl | rfl | rfl | rfl | rfl | rfl
  · refine Step.plain_of_prints _ (Or.inl rfl) fun ret => ?_
    cases ret <;> dsimp only [reportID] <;>
      repeat (first
        | exact Act.Prints.pure _
        | exact Act.Prints.deref _
        | exact Act.Prints.println _ (by simp)
        | refine Act.Prints.forRange (fun _ _ => ?_) _ _
        | refine Act.Prints.bind ?_ fun _ => ?_)
  · refine Step.plain_of_prints _ (Or.inl rfl) fun ret => ?_
    cases ret <;> dsimp only [reportID] <;>
      repeat (first
        | exact Act.Prints.pure _
        | exact Act.Prints.deref _
        | exact Act.Prints.println _ (by simp)
        | refine Act.Prints.forRange (fun _ _ => ?_) _ _
        | refine Act.Prints.bind ?_ fun _ => ?_)
  · refine Step.plain_of_prints _ (Or.inl rfl) fun ret => ?_
    cases ret <;> dsimp only [reportID] <;>
      repeat (first
        | exact Act.Prints.pure _
        | exact Act.Prints.deref _
        | exact Act.Prints.println _ (by simp)
        | refine Act.Prints.forRange (fun _ _ => ?_) _ _
        | refine Act.Prints.bind ?_ fun _ => ?_)
  · refine Step.plain_of_prints _ (Or.inl rfl) fun ret => ?_
    cases ret <;> dsimp only [reportID] <;>
      repeat (first
        | exact Act.Prints.pure _
        | exact Act.Prints.deref _
        | exact Act.Prints.println _ (by simp)
        | refine Act.Prints.forRange (fun _ _ => ?_) _ _
        | refine Act.Prints.bind ?_ fun _ => ?_)
  · refine Step.plain_of_prints _ (Or.inl rfl) fun ret => ?_
    cases ret <;> dsimp only [reportID] <;>
      repeat (first
        | exact Act.Prints.pure _
        | exact Act.Prints.deref _
        | exact Act.Prints.println _ (by simp)
        | refine Act.Prints.forRange (fun _ _ => ?_) _ _
        | refine Act.Prints.bind ?_ fun _ => ?_)
  · exact Step.plain_of_reportCleaned _ rfl (Or.inl rfl) rfl

theorem ApiTagDescription.script_wf_apitagdescription : script.WF where
  setup_events w := (setupFactories_events _ w).1
  setup_safe w := (setupFactories_events _ w).2.1
  setup_ctx w := (setupFactories_events _ w).2.2
  formed := script_formed_apitagdescription
  plain := script_plain_apitagdescription
  distinct := by
    intro a
    simp [Script.sequence, script, Step.op]
  first := fun _ => ⟨_, _, rfl, rfl, by simp⟩
  creates := by
    intro a A hA
    simp only [script, List.mem_cons, List.mem_singleton, List.not_mem_nil, or_false] at hA
    rcases hA with rfl | rfl | rfl | rfl | rfl <;> simp
  deletes := fun _ => rfl

theorem VirtualNetworkRule.script_plain_virtual_network_rule (a : Args) : ∀ A ∈ script.sequence a, A.Plain := by
  intro A hA
  simp only [Script.sequence, script, List.cons_append, List.nil_append, List.mem_cons,
    List.mem_singleton, List.not_mem_nil, or_false] at hA
  rcases hA with rfl | rfl | rfl | rfl | rfl | rfl
  · refine Step.plain_of_prints _ (Or.inl rfl) fun ret => ?_
    cases ret <;> dsimp only [reportID] <;>
      repeat (first
        | exact Act.Prints.pure _
        | exact Act.Prints.deref _
        | exact Act.Prints.println _ (by simp)
        | refine Act.Prints.forRange (fun _ _ => ?_) _ _
        | refine Act.Prints.bind ?_ fun _ => ?_)
  · refine Step.plain_of_prints _ (Or.inl rfl) fun ret => ?_
    cases ret <;> dsimp only [reportID] <;>
      repeat (first
        | exact Act.Prints.pure _
        | exact Act.Prints.deref _
        | exact Act.Prints.println _ (by simp)
        | refine Act.Prints.forRange (fun _ _ => ?_) _ _
        | refine Act.Prints.bind ?_ fun _ => ?_)
  · refine Step.plain_of_prints _ (Or.inl rfl) fun ret => ?_
    cases ret <;> dsimp only [reportID] <;>
      repeat (first
        | exact Act.Prints.pure _
        | exact Act.Prints.deref _
        | exact Act.Prints.println _ (by simp)
        | refine Act.Prints.forRange (fun _ _ => ?_) _ _
        | refine Act.Prints.bind ?_ fun _ => ?_)
  · refine Step.plain_of_prints _ (Or.inl rfl) fun ret => ?_
    cases ret <;> dsimp only [reportID] <;>
      repeat (first
        | exact Act.Prints.pure _
        | exact Act.Prints.deref _
        | exact Act.Prints.println _ (by simp)
        | refine Act.Prints.forRange (fun _ _ => ?_) _ _
        | refine Act.Prints.bind ?_ fun _ => ?_)
  · refine Step.plain_of_prints _ (Or.inr rfl) fun ret => ?_
    cases ret <;> dsimp only [reportID] <;>
      repeat (first
        | exact Act.Prints.pure _
        | exact Act.Prints.deref _
        | exact Act.Prints.println _ (by simp)
        | refine Act.Prints.forRange (fun _ _ => ?_) _ _
        | refine Act.Prints.bind ?_ fun _ => ?_)
  · exact Step.plain_of_reportCleaned _ rfl (Or.inl rfl) rfl

theorem VirtualNetworkRule.script_wf_virtual_network_rule : script.WF where
  setup_events w := (setupWith_events _ w).1
  setup_safe w := (setupWith_events _ w).2.1
  setup_ctx w := (setupWith_events _ w).2.2
  formed := script_formed_virtual_network_rule
  plain := script_plain_virtual_network_rule
  distinct := by
    intro a
    simp [Script.sequence, script, Step.op]
  first := fun _ => ⟨_, _, rfl, rfl, by simp⟩
  creates := by
    intro a A hA
    simp only [script, List.mem_cons, List.mem_singleton, List.not_mem_nil, or_false] at hA
    rcases hA with rfl | rfl | rfl | rfl | rfl <;> simp
  deletes := fun _ => rfl

theorem Apps.script_plain_apps (a : Args) : ∀ A ∈ script.sequence a, A.Plain := by
  intro A hA
  simp only [Script.sequence, script, List.cons_append, List.nil_append, List.mem_cons,
    List.mem_singleton, List.not_mem_nil, or_false] at hA
  rcases hA with rfl | rfl | rfl | rfl | rfl | rfl | rfl
  · refine Step.plain_of_prints _ (Or.inl rfl) fun ret => ?_
    cases ret <;> dsimp only [reportID] <;>
      repeat (first
        | exact Act.Prints.pure _
        | exact Act.Prints.deref _
        | exact Act.Prints.println _ (by simp)
        | refine Act.Prints.forRange (fun _ _ => ?_) _ _
        | refine Act.Prints.bind ?_ fun _ => ?_)
  · refine Step.plain_of_prints _ (Or.inl rfl) fun ret => ?_
    cases ret <;> dsimp only [reportID] <;>
      repeat (first
        | exact Act.Prints.pure _
        | exact Act.Prints.deref _
        | exact Act.Prints.println _ (by simp)
        | refine Act.Prints.forRange (fun _ _ => ?_) _ _
        | refine Act.Prints.bind ?_ fun _ => ?_)
  · refine Step.plain_of_prints _ (Or.inl rfl) fun ret => ?_
    cases ret <;> dsimp only [reportID] <;>
      repeat (first
        | exact Act.Prints.pure _
        | exact Act.Prints.deref _
        | exact Act.Prints.println _ (by simp)
        | refine Act.Prints.forRange (fun _ _ => ?_) _ _
        | refine Act.Prints.bind ?_ fun _ => ?_)
  · refine Step.plain_of_prints _ (Or.inl rfl) fun ret => ?_
    cases ret <;> dsimp only [reportID] <;>
      repeat (first
        | exact Act.Prints.pure _
        | exact Act.Prints.deref _
        | exact Act.Prints.println _ (by simp)
        | refine Act.Prints.forRange (fun _ _ => ?_) _ _
        | refine Act.Prints.bind ?_ fun _ => ?_)
  · refine Step.plain_of_prints _ (Or.inl rfl) fun ret => ?_
    cases ret <;> dsimp only [reportID] <;>
      repeat (first
        | exact Act.Prints.pure _
        | exact Act.Prints.deref _
        | exact Act.Prints.println _ (by simp)
        | refine Act.Prints.forRange (fun _ _ => ?_) _ _
        | refine Act.Prints.bind ?_ fun _ => ?_)
  · refine Step.plain_of_prints _ (Or.inl rfl) fun ret => ?_
    cases ret <;> dsimp only [reportID] <;>
      repeat (first
        | exact Act.Prints.pure _
        | exact Act.Prints.deref _
        | exact Act.Prints.println _ (by simp)
        | refine Act.Prints.forRange (fun _ _ => ?_) _ _
        | refine Act.Prints.bind ?_ fun _ => ?_)
  · exact Step.plain_of_reportCleaned _ rfl (Or.inl rfl) rfl

theorem Apps.script_wf_apps : script.WF where
  setup_events w := (setupWith_events _ w).1
  setup_safe w := (setupWith_events _ w).2.1
  setup_ctx w := (setupWith_events _ w).2.2
  formed := script_formed_apps
  plain := script_plain_apps
  distinct := by
    intro a
    simp [Script.sequence, script, Step.op]
  first := fun _ => ⟨_, _, rfl, rfl, by simp⟩
  creates := by
    intro a A hA
    simp only [script, List.mem_cons, List.mem_singleton, List.not_mem_nil, or_false] at hA
    rcases hA with rfl | rfl | rfl | rfl | rfl | rfl <;> simp
  deletes := fun _ => rfl

theorem ServerKey.script_plain_server_key (a : Args) : ∀ A ∈ script.sequence a, A.Plain := by
  intro A hA
  simp only [Script.sequence, script, List.cons_append, List.nil_append, List.mem_cons,
    List.mem_singleton, List.not_mem_nil, or_false] at hA
  rcases hA with rfl | rfl | rfl | rfl | rfl | rfl
  · refine Step.plain_of_prints _ (Or.inl rfl) fun ret => ?_
    cases ret <;> dsimp only [reportID] <;>
      repeat (first
        | exact Act.Prints.pure _
        | exact Act.Prints.deref _
        | exact Act.Prints.println _ (by simp)
        | refine Act.Prints.forRange (fun _ _ => ?_) _ _
        | refine Act.Prints.bind ?_ fun _ => ?_)
  · refine Step.plain_of_prints _ (Or.inl rfl) fun ret => ?_
    cases ret <;> dsimp only [reportID] <;>
      repeat (first
        | exact Act.Prints.pure _
        | exact Act.Prints.deref _
        | exact Act.Prints.println _ (by simp)
        | refine Act.Prints.forRange (fun _ _ => ?_) _ _
        | refine Act.Prints.bind ?_ fun _ => ?_)
  · refine Step.plain_of_prints _ (Or.inl rfl) fun ret => ?_
    cases ret <;> dsimp only [reportID] <;>
      repeat (first
        | exact Act.Prints.pure _
        | exact Act.Prints.deref _
        | exact Act.Prints.println _ (by simp)
        | refine Act.Prints.forRange (fun _ _ => ?_) _ _
        | refine Act.Prints.bind ?_ fun _ => ?_)
  · refine Step.plain_of_prints _ (Or.inl rfl) fun ret => ?_
    cases ret <;> dsimp only [reportID] <;>
      repeat (first
        | exact Act.Prints.pure _
        | exact Act.Prints.deref _
        | exact Act.Prints.println _ (by simp)
        | refine Act.Prints.forRange (fun _ _ => ?_) _ _
        | refine Act.Prints.bind ?_ fun _ => ?_)
  · refine Step.plain_of_prints _ (Or.inr rfl) fun ret => ?_
    cases ret <;> dsimp only [reportID] <;>
      repeat (first
        | exact Act.Prints.pure _
        | exact Act.Prints.deref _
        | exact Act.Prints.println _ (by simp)
        | refine Act.Prints.forRange (fun _ _ => ?_) _ _
        | refine Act.Prints.bind ?_ fun _ => ?_)
  · exact Step.plain_of_reportCleaned _ rfl (Or.inl rfl) rfl

theorem ServerKey.script_wf_server_key : script.WF where
  setup_events w := (setup_events w).1
  setup_safe w := (setup_events w).2.1
  setup_ctx w := (setup_events w).2.2
  formed := script_formed_server_key
  plain := script_plain_server_key
  distinct := by
    intro a
    simp [Script.sequence, script, Step.op]
  first := fun _ => ⟨_, _, rfl, rfl, by simp⟩
  creates := by
    intro a A hA
    simp only [script, List.mem_cons, List.mem_singleton, List.not_mem_nil, or_false] at hA
    rcases hA with rfl | rfl | rfl | rfl | rfl <;> simp
  deletes := fun _ => rfl

/-- Every script is well formed. -/
theorem Sample.wf (s : Sample) : s.script.WF := by
  cases s
  · exact AvailabilitySet.script_wf_availabilityset
  · exact ActionGroup.script_wf_action_group
  · exact ApimanagementService.script_wf_apimanagement_service
  · exact TaskRun.script_wf_task_run
  · exact EventhubNamespace.script_wf_eventhub_namespace
  · exact Cassandra.script_wf_cassandra
  · exact ApiTagDescription.script_wf_apitagdescription
  · exact VirtualNetworkRule.script_wf_virtual_network_rule
  · exact Apps.script_wf_apps
  · exact ServerKey.script_wf_server_key

/-! ## What a helper of a given form does -/

theorem pollLoop_events {α : Type} (c m : String) (i : Nat) (b : Option Nat)
    (sc : List (OperationStatus α)) :
    ∀ ev ∈ (pollLoop c m i b sc).1, ev = .query c m ∨ ∃ n, ev = .wait n := by
  induction sc generalizing b with
  | nil => intro ev h; cases b <;> simp [pollLoop] at h
  | cons s rest ih =>
    intro ev h
    cases s with
    | Running hint =>
      cases b with
      | none =>
        simp only [pollLoop, List.mem_cons] at h
        rcases h with h | h | h
        · exact Or.inl h
        · exact Or.inr ⟨_, h⟩
        · exact ih _ _ h
      | some b =>
        simp only [pollLoop] at h
        split at h
        · simp only [List.mem_cons, List.mem_singleton, List.not_mem_nil, or_false] at h
          rcases h with h | h
          · exact Or.inl h
          · exact Or.inr ⟨_, h⟩
        · simp only [List.mem_cons] at h
          rcases h with h | h | h
          · exact Or.inl h
          · exact Or.inr ⟨_, h⟩
          · exact ih _ _ h
    | Succeeded r => cases b <;> simp [pollLoop] at h <;> exact Or.inl h
    | Failed e => cases b <;> simp [pollLoop] at h <;> exact Or.inl h
    | Canceled => cases b <;> simp [pollLoop] at h <;> exact Or.inl h

theorem pollState_events {α : Type} (p : Poller α) (ctx : Context) (f : Option Nat) :
    ∀ ev ∈ (p.pollState ctx f).1,
      ev = .poll p.client p.method ctx f ∨ ev = .query p.client p.method ∨ ∃ n, ev = .wait n := by
  intro ev h
  unfold Poller.pollState at h
  split at h
  · simp at h; exact Or.inl h
  · split at h
    · simp at h; exact Or.inl h
    · simp only [List.mem_cons] at h
      rcases h with h | h
      · exact Or.inl h
      · exact Or.inr (pollLoop_events _ _ _ _ _ ev h)

theorem pollState_head {α : Type} (p : Poller α) (ctx : Context) (f : Option Nat) :
    ∃ t, (p.pollState ctx f).1 = .poll p.client p.method ctx f :: t := by
  unfold Poller.pollState
  split
  · exact ⟨_, rfl⟩
  · split
    · exact ⟨_, rfl⟩
    · exact ⟨_, rfl⟩

theorem listLoop_events (c : Client) (ctx : Context) (err : Option Error)
    (pages : List (Option ListResult)) (acc : Slice (Option Resource)) :
    (∀ ev ∈ (AvailabilitySet.listAvailabilitySet.loop c ctx err pages acc).trace,
      ev = .nextPage c "List" ctx) ∧
    ∀ m, (AvailabilitySet.listAvailabilitySet.loop c ctx err pages acc).out ≠ .error (.fatal m) := by
  induction pages generalizing acc with
  | nil =>
    cases err <;> simp [AvailabilitySet.listAvailabilitySet.loop]
  | cons resp rest ih =>
    simp only [AvailabilitySet.listAvailabilitySet.loop]
    constructor
    · intro ev h
      simp only [Act.mem_bind_trace, emit, List.mem_singleton, deref_trace, List.not_mem_nil,
        false_or] at h
      rcases h with h | ⟨_, _, _, _, h⟩
      · exact h
      · exact (ih _).1 ev h
    · intro m h
      simp only [Act.bind_out_error, emit, deref_out_error, reduceCtorEq, false_or] at h
      rcases h with ⟨_, _, h⟩
      rcases h with ⟨_, h⟩ | ⟨_, _, h⟩
      · cases h
      · exact (ih _).2 m h

/-- The events of a helper belong to its own operation, apart from waits. -/
theorem Step.Formed.owns {A : Step} {ctx : Context} (hF : A.Formed ctx) (w : World) (d : String) :
    ∀ ev ∈ (A.helper w d).trace, ev.op? = some A.op ∨ ∃ n, ev = .wait n := by
  obtain ⟨c, f, args, payload, raw, hc, hf, hp, hw⟩ := hF d
  intro ev hev
  rw [hw w] at hev
  cases hk : A.kind <;> simp only [hk] at hev
  · unfold syncForm at hev
    split at hev
    · simp at hev
    · simp at hev; subst hev; exact Or.inl (by simp [Event.op?, Step.op, hc])
  · simp [syncPtrForm] at hev; subst hev; exact Or.inl (by simp [Event.op?, Step.op, hc])
  · simp [syncListForm] at hev; subst hev; exact Or.inl (by simp [Event.op?, Step.op, hc])
  · unfold asyncForm at hev
    split at hev
    · simp at hev
    · split at hev
      · simp at hev; subst hev; exact Or.inl (by simp [Event.op?, Step.op, hc])
      · simp only [List.mem_cons] at hev
        rcases hev with h | h
        · subst h; exact Or.inl (by simp [Event.op?, Step.op, hc])
        · rcases pollState_events _ _ _ ev h with h | h | h
          · subst h; exact Or.inl (by simp [Event.op?, Step.op, hc])
          · subst h; exact Or.inl (by simp [Event.op?, Step.op, hc])
          · exact Or.inr h
  · simp only [pagerForm, asList, Act.mem_bind_trace, Act.pure_eq, List.not_mem_nil, and_false,
      exists_false, or_false] at hev
    have := (listLoop_events _ _ _ _ _).1 ev hev
    subst this
    exact Or.inl (by simp [Event.op?, Step.op, hc, hp hk])
  · unfold deleteForm at hev
    split at hev
    · simp at hev
    · split at hev
      · simp at hev; subst hev; exact Or.inl (by simp [Event.op?, Step.op, hc])
      · simp only [List.mem_cons] at hev
        rcases hev with h | h
        · subst h; exact Or.inl (by simp [Event.op?, Step.op, hc])
        · rcases pollState_events _ _ _ ev h with h | h | h
          · subst h; exact Or.inl (by simp [Event.op?, Step.op, hc])
          · subst h; exact Or.inl (by simp [Event.op?, Step.op, hc])
          · exact Or.inr h

theorem pollState_result {α : Type} (p : Poller α) (ctx : Context) (f : Option Nat)
    (hf : f = some 10 ∨ f = none) :
    (p.pollState ctx f).2.1 = (p.pollState ctx (some 10)).2.1 := by
  rcases hf with rfl | rfl
  · rfl
  · unfold Poller.pollState
    cases p.cached with
    | some r => rfl
    | none =>
      simp only [defaultPollInterval, Option.getD]
      split <;> rfl

/-- A helper returns the error that `Step.error` reads off the world, except
that the pager helper may panic. -/
theorem Step.Formed.out {A : Step} {ctx : Context} (hF : A.Formed ctx) (w : World) (d : String) :
    (∃ ret, (A.helper w d).out = .ok (ret, A.error ctx w)) ∨
      (A.kind = .pager ∧ (A.helper w d).out = .error .panic) := by
  obtain ⟨c, f, args, payload, raw, hc, hf, hp, hw⟩ := hF d
  rw [hw w]
  cases hk : A.kind <;> simp only [hk, Step.error]
  · unfold syncForm
    cases ctorError w A.ctor with
    | some e => exact Or.inl ⟨_, rfl⟩
    | none =>
      rw [hc]
      cases w.send A.client A.method <;> exact Or.inl ⟨_, rfl⟩
  · unfold syncPtrForm
    rw [hc]
    cases w.sendPtr A.client A.method <;> exact Or.inl ⟨_, rfl⟩
  · unfold syncListForm
    rw [hc]
    cases w.sendList A.client A.method <;> exact Or.inl ⟨_, rfl⟩
  · unfold asyncForm
    cases ctorError w A.ctor with
    | some e => exact Or.inl ⟨_, rfl⟩
    | none =>
      rw [hc]
      cases w.begin A.client A.method with
      | error e => exact Or.inl ⟨_, rfl⟩
      | ok sc =>
        simp only [pollResult, Option.orElse, ← pollState_result _ ctx f hf]
        cases (Poller.pollState (⟨A.client, A.method, sc, none⟩ : Poller Resource) ctx f).2.1 <;>
          exact Or.inl ⟨_, rfl⟩
  · simp only [pagerForm, asList, Act.bind_out_ok, Act.bind_out_error, Act.pure_eq,
      Except.ok.injEq, Prod.mk.injEq, reduceCtorEq, and_false, exists_false, or_false]
    cases h : (AvailabilitySet.listAvailabilitySet.loop c ctx (w.pages c.name "List").err
      (w.pages c.name "List").pages Slice.make).out with
    | ok l => exact Or.inl ⟨.list l, l, rfl, rfl, trivial⟩
    | error e =>
      cases e with
      | fatal m => exact absurd h ((listLoop_events _ _ _ _ _).2 m)
      | panic => exact Or.inr ⟨trivial, rfl⟩
  · unfold deleteForm
    cases ctorError w A.ctor with
    | some e => exact Or.inl ⟨_, rfl⟩
    | none =>
      rw [hc]
      cases w.beginDelete A.client A.method with
      | error e => exact Or.inl ⟨_, rfl⟩
      | ok sc =>
        simp only [pollResult, Option.orElse, ← pollState_result _ ctx f hf]
        cases (Poller.pollState (⟨A.client, A.method, sc, none⟩ : Poller (Option HttpResponse))
          ctx f).2.1 <;> exact Or.inl ⟨_, rfl⟩

/-- A helper never calls `log.Fatal`. -/
theorem Step.Formed.safe {A : Step} {ctx : Context} (hF : A.Formed ctx) (w : World) (d : String)
    (m : String) : (A.helper w d).out ≠ .error (.fatal m) := by
  rcases hF.out w d with ⟨ret, h⟩ | ⟨_, h⟩ <;> simp [h]

/-- A helper returns an error exactly when `Step.error` reads one off the
world. -/
theorem Step.Formed.fails_iff {A : Step} {ctx : Context} (hF : A.Formed ctx) (w : World) :
    A.fails w ↔ ∃ e, A.error ctx w = some e := by
  constructor
  · rintro ⟨d, ret, e, h⟩
    rcases hF.out w d with ⟨ret', h'⟩ | ⟨_, h'⟩
    · rw [h] at h'
      simp only [Except.ok.injEq, Prod.mk.injEq] at h'
      exact ⟨e, h'.2.symm⟩
    · rw [h] at h'; cases h'
  · rintro ⟨e, he⟩
    rcases hF.out w "" with ⟨ret', h'⟩ | ⟨hk, _⟩
    · exact ⟨"", ret', e, by rw [h', he]⟩
    · simp [Step.error, hk] at he

/-- A helper other than the pager one that returns no error has issued its
call, and its call is its first event. -/
theorem Step.Formed.calls {A : Step} {ctx : Context} (hF : A.Formed ctx) (hk : A.kind ≠ .pager)
    (w : World) (d : String) (h : A.error ctx w = none) :
    ∃ ev t, (A.helper w d).trace = ev :: t ∧ ev.isCall = true ∧ ev.op? = some A.op := by
  obtain ⟨c, f, args, payload, raw, hc, hf, hp, hw⟩ := hF d
  rw [hw w]
  cases hk' : A.kind <;> simp only [hk', Step.error] at h ⊢
  · unfold syncForm
    cases hcE : ctorError w A.ctor with
    | some e => simp [hcE, Option.orElse] at h
    | none => exact ⟨_, _, rfl, rfl, by simp [Event.op?, Step.op, hc]⟩
  · exact ⟨_, _, rfl, rfl, by simp [Event.op?, Step.op, hc]⟩
  · exact ⟨_, _, rfl, rfl, by simp [Event.op?, Step.op, hc]⟩
  · unfold asyncForm
    cases hcE : ctorError w A.ctor with
    | some e => simp [hcE, Option.orElse] at h
    | none =>
      simp only
      split
      · exact ⟨_, _, rfl, rfl, by simp [Event.op?, Step.op, hc]⟩
      · exact ⟨_, _, rfl, rfl, by simp [Event.op?, Step.op, hc]⟩
  · exact absurd hk' hk
  · unfold deleteForm
    cases hcE : ctorError w A.ctor with
    | some e => simp [hcE, Option.orElse] at h
    | none =>
      simp only
      split
      · exact ⟨_, _, rfl, rfl, by simp [Event.op?, Step.op, hc]⟩
      · exact ⟨_, _, rfl, rfl, by simp [Event.op?, Step.op, hc]⟩

/-! ## Runs of a list of steps -/

theorem arg_cases {S : Step} (hP : S.Plain) (p : Option Resource) :
    (S.arg p).trace = [] ∧ ((∃ d, (S.arg p).out = .ok d) ∨ (S.arg p).out = .error .panic) := by
  rcases hP.arg with h | h <;> rw [h]
  · exact ⟨rfl, Or.inl ⟨_, rfl⟩⟩
  · rcases p with _ | r
    · exact ⟨rfl, Or.inr rfl⟩
    · rcases hr : r.ID with _ | id
      · simp [idArg, deref, Act.bind_eq, Act.bind, hr]
      · simp [idArg, deref, Act.bind_eq, Act.bind, hr]

/-- One step of a run: either the process stops in this step, on a panic or on
the `log.Fatal` of the error the helper returned, or the helper returned no
error, the logging went through, and the run goes on with the next steps. -/
theorem runSteps_cons_cases {S : Step} {ctx : Context} (hF : S.Formed ctx) (hP : S.Plain)
    (w : World) (k : Act Unit) (p : Option Resource) (rest : List Step) :
    (∃ T h, runSteps w k p (S :: rest) = ⟨T, .error h⟩ ∧ (∀ ev ∈ T, S.LeavesAt w p ev) ∧
        (h = .panic ∨ ∃ e, S.error ctx w = some e ∧ h = .fatal e.msg)) ∨
    (∃ d ret r, S.error ctx w = none ∧ (S.arg p).out = .ok d ∧
        (S.helper w d).out = .ok (ret, none) ∧ (S.report ret).out = .ok r ∧
        (∀ ev ∈ (S.helper w d).trace ++ (S.report ret).trace, S.LeavesAt w p ev) ∧
        runSteps w k p (S :: rest) =
          ⟨(S.helper w d).trace ++ (S.report ret).trace ++ (runSteps w k r rest).trace,
            (runSteps w k r rest).out⟩) := by
  rw [runSteps_cons]
  obtain ⟨hat, hao⟩ := arg_cases hP p
  have hown : ∀ d, (S.arg p).out = .ok d → ∀ ev ∈ (S.helper w d).trace, S.LeavesAt w p ev := by
    intro d hd ev hev
    refine ⟨?_, fun o _ => ⟨d, hd, hev⟩⟩
    rcases hF.owns w d ev hev with h | h
    · exact Or.inl h
    · exact Or.inr (Or.inl h)
  have hrep : ∀ ret, ∀ ev ∈ (S.report ret).trace, S.LeavesAt w p ev := by
    intro ret ev hev
    obtain ⟨args, h⟩ := hP.report_println ret ev hev
    refine ⟨Or.inr (Or.inr (Or.inl ⟨args, h, fun hk hc => ?_⟩)), fun o ho => ?_⟩
    · exact hP.report_modest hk ret (hc ▸ hev)
    · rw [h] at ho; cases ho
  have hfat : ∀ m, S.LeavesAt w p (.fatal m) :=
    fun m => ⟨Or.inr (Or.inr (Or.inr ⟨m, rfl⟩)), fun o ho => by cases ho⟩
  rcases hao with ⟨d, hd⟩ | hpanic
  · rw [Act.bind_of_ok hd, hat]
    rcases hF.out w d with ⟨ret, hret⟩ | ⟨_, hh⟩
    · rw [Act.bind_of_ok hret]
      rcases he : S.error ctx w with _ | e
      · rw [he] at hret
        simp only
        rcases hro : (S.report ret).out with h | r
        · left
          rw [Act.bind_of_error hro]
          refine ⟨_, h, rfl, ?_, Or.inl ?_⟩
          · intro ev hev
            simp only [List.nil_append, List.mem_append] at hev
            rcases hev with hev | hev
            · exact hown d hd ev hev
            · exact hrep ret ev hev
          · cases h with
            | panic => rfl
            | fatal m => exact absurd hro (hP.report_safe ret m)
        · right
          rw [Act.bind_of_ok hro]
          refine ⟨d, ret, r, (by first | rfl | trivial), hd, hret, hro, ?_, ?_⟩
          · intro ev hev
            rcases List.mem_append.1 hev with hev | hev
            · exact hown d hd ev hev
            · exact hrep ret ev hev
          · simp
      · left
        rw [he] at hret
        refine ⟨_, _, rfl, ?_, Or.inr ⟨e, rfl, rfl⟩⟩
        intro ev hev
        simp only [List.nil_append, List.mem_append, Fatal_trace, List.mem_singleton] at hev
        rcases hev with hev | hev
        · exact hown d hd ev hev
        · exact hev ▸ hfat _
    · left
      rw [Act.bind_of_error hh]
      refine ⟨_, _, rfl, ?_, Or.inl rfl⟩
      intro ev hev
      simp only [List.nil_append] at hev
      exact hown d hd ev hev
  · left
    rw [Act.bind_of_error hpanic, hat]
    exact ⟨_, _, rfl, by simp, Or.inl rfl⟩

theorem Step.Leaves.op_eq {S : Step} {ev : Event} (h : S.Leaves ev) {o : String × String}
    (ho : ev.op? = some o) : o = S.op := by
  rcases h with h | ⟨n, rfl⟩ | ⟨args, rfl, _⟩ | ⟨m, rfl⟩
  · rw [h] at ho; exact (Option.some.inj ho).symm
  · cases ho
  · cases ho
  · cases ho

theorem Step.LeavesAt.leavesIn {S : Step} {w : World} {p : Option Resource} {ev : Event}
    (h : S.LeavesAt w p ev) : S.LeavesIn w ev :=
  ⟨h.1, fun o ho => let ⟨d, _, hd⟩ := h.2 o ho; ⟨d, hd⟩⟩

theorem Precedes.of_not {P Q : Event → Prop} {t : List Event} (h : ∀ ev ∈ t, ¬ Q ev) :
    Precedes P Q t := by
  intro xs ev ys ht hq
  exact absurd hq (h ev (by rw [ht]; simp))

theorem Precedes.append_right {P Q : Event → Prop} {t1 t2 : List Event}
    (h1 : ∀ ev ∈ t1, ¬ Q ev) (h2 : Precedes P Q t2) : Precedes P Q (t1 ++ t2) := by
  intro xs ev ys ht hq
  rcases List.append_eq_append_iff.1 ht with ⟨as, rfl, h⟩ | ⟨bs, rfl, h⟩
  · obtain ⟨ev', hev', hp⟩ := h2 as ev ys h hq
    exact ⟨ev', by simp [hev'], hp⟩
  · rcases bs with _ | ⟨b, bs⟩
    · simp only [List.nil_append, List.append_nil] at h ⊢
      obtain ⟨ev', hev', hp⟩ := h2 [] ev ys h.symm hq
      cases hev'
    · simp only [List.cons_append, List.cons.injEq] at h
      exact absurd hq (h1 ev (by rw [← h.1]; simp))

theorem Precedes.append_left {P Q : Event → Prop} {t1 t2 : List Event}
    (h1 : ∀ ev ∈ t1, ¬ Q ev) (h2 : ∃ ev ∈ t1, P ev) : Precedes P Q (t1 ++ t2) := by
  intro xs ev ys ht hq
  rcases List.append_eq_append_iff.1 ht with ⟨as, rfl, h⟩ | ⟨bs, rfl, h⟩
  · obtain ⟨ev', hev', hp⟩ := h2
    exact ⟨ev', by simp [hev'], hp⟩
  · rcases bs with _ | ⟨b, bs⟩
    · simpa using h2
    · simp only [List.cons_append, List.cons.injEq] at h
      exact absurd hq (h1 ev (by rw [← h.1]; simp))

/-- A run of steps either stops in one of them, or goes through all of them
and continues with `k`; in the second case no helper returned an error and
every helper other than the pager one has issued its call. -/
theorem runSteps_cases {ctx : Context} (w : World) (k : Act Unit) (steps : List Step)
    (hF : ∀ S ∈ steps, S.Formed ctx) (hP : ∀ S ∈ steps, S.Plain) (p : Option Resource) :
    (∃ T h, runSteps w k p steps = ⟨T, .error h⟩ ∧ (∀ ev ∈ T, ∃ S ∈ steps, S.LeavesIn w ev) ∧
        (h = .panic ∨ ∃ S ∈ steps, ∃ e, S.error ctx w = some e ∧ h = .fatal e.msg)) ∨
    (∃ T, (∀ S ∈ steps, S.error ctx w = none) ∧ (∀ ev ∈ T, ∃ S ∈ steps, S.LeavesIn w ev) ∧
        (∀ S ∈ steps, S.kind ≠ .pager → ∃ ev ∈ T, ev.isCall = true ∧ ev.op? = some S.op) ∧
        runSteps w k p steps = ⟨T ++ k.trace, k.out⟩) := by
  induction steps generalizing p with
  | nil =>
    right
    exact ⟨[], by simp, by simp, by simp, by simp [runSteps]⟩
  | cons S rest ih =>
    have hFS := hF S (List.mem_cons_self _ _)
    have hPS := hP S (List.mem_cons_self _ _)
    rcases runSteps_cons_cases hFS hPS w k p rest with
      ⟨T, h, hrun, hT, hh⟩ | ⟨d, ret, r, herr, hd, hret, hro, hT, hrun⟩
    · left
      refine ⟨T, h, hrun, fun ev hev => ⟨S, List.mem_cons_self _ _, (hT ev hev).leavesIn⟩, ?_⟩
      rcases hh with hh | ⟨e, he, hh⟩
      · exact Or.inl hh
      · exact Or.inr ⟨S, List.mem_cons_self _ _, e, he, hh⟩
    · have hFr : ∀ S ∈ rest, S.Formed ctx := fun S' h => hF S' (List.mem_cons_of_mem _ h)
      have hPr : ∀ S ∈ rest, S.Plain := fun S' h => hP S' (List.mem_cons_of_mem _ h)
      have hTS : ∀ ev ∈ (S.helper w d).trace ++ (S.report ret).trace,
          ∃ S' ∈ S :: rest, S'.LeavesIn w ev :=
        fun ev hev => ⟨S, List.mem_cons_self _ _, (hT ev hev).leavesIn⟩
      rcases ih hFr hPr r with ⟨T', h, hrun', hT', hh⟩ | ⟨T', herr', hT', hcalls, hrun'⟩
      · left
        refine ⟨(S.helper w d).trace ++ (S.report ret).trace ++ T', h, ?_, ?_, ?_⟩
        · rw [hrun, hrun']
        · intro ev hev
          rcases List.mem_append.1 hev with hev | hev
          · exact hTS ev hev
          · obtain ⟨S', hS', hl⟩ := hT' ev hev
            exact ⟨S', List.mem_cons_of_mem _ hS', hl⟩
        · rcases hh with hh | ⟨S', hS', e, he, hh⟩
          · exact Or.inl hh
          · exact Or.inr ⟨S', List.mem_cons_of_mem _ hS', e, he, hh⟩
      · right
        refine ⟨(S.helper w d).trace ++ (S.report ret).trace ++ T', ?_, ?_, ?_, ?_⟩
        · intro S' hS'
          rcases List.mem_cons.1 hS' with rfl | hS'
          · exact herr
          · exact herr' S' hS'
        · intro ev hev
          rcases List.mem_append.1 hev with hev | hev
          · exact hTS ev hev
          · obtain ⟨S', hS', hl⟩ := hT' ev hev
            exact ⟨S', List.mem_cons_of_mem _ hS', hl⟩
        · intro S' hS' hk
          rcases List.mem_cons.1 hS' with rfl | hS'
          · obtain ⟨ev, t, ht, hc⟩ := hFS.calls hk w d herr
            exact ⟨ev, by simp [ht], hc⟩
          · obtain ⟨ev, hev, hc⟩ := hcalls S' hS' hk
            exact ⟨ev, by simp [hev], hc⟩
        · rw [hrun, hrun']
          simp

/-- Every event of a run of steps is left by one of the steps or belongs to
the continuation. -/
theorem runSteps_events {ctx : Context} (w : World) (k : Act Unit) (steps : List Step)
    (hF : ∀ S ∈ steps, S.Formed ctx) (hP : ∀ S ∈ steps, S.Plain) (p : Option Resource) :
    ∀ ev ∈ (runSteps w k p steps).trace, (∃ S ∈ steps, S.LeavesIn w ev) ∨ ev ∈ k.trace := by
  intro ev hev
  rcases runSteps_cases w k steps hF hP p with ⟨T, h, hrun, hT, _⟩ | ⟨T, _, hT, _, hrun⟩
  · rw [hrun] at hev
    exact Or.inl (hT ev hev)
  · rw [hrun] at hev
    rcases List.mem_append.1 hev with hev | hev
    · exact Or.inl (hT ev hev)
    · exact Or.inr hev

/-- When the helper of a step returns an error, the run stops there: the
process ends on an error and the trace holds only what the steps up to that
one have left. -/
theorem runSteps_halts {ctx : Context} (w : World) (k : Act Unit) (pre : List Step) (A : Step)
    (post : List Step) (hF : ∀ S ∈ pre ++ A :: post, S.Formed ctx)
    (hP : ∀ S ∈ pre ++ A :: post, S.Plain) (hfail : ∃ e, A.error ctx w = some e)
    (p : Option Resource) :
    ∃ T h, runSteps w k p (pre ++ A :: post) = ⟨T, .error h⟩ ∧
      ∀ ev ∈ T, ∃ S ∈ pre ++ [A], S.LeavesIn w ev := by
  induction pre generalizing p with
  | nil =>
    have hFA := hF A (by simp)
    have hPA := hP A (by simp)
    rcases runSteps_cons_cases hFA hPA w k p post with
      ⟨T, h, hrun, hT, _⟩ | ⟨d, ret, r, herr, _⟩
    · exact ⟨T, h, hrun, fun ev hev => ⟨A, by simp, (hT ev hev).leavesIn⟩⟩
    · obtain ⟨e, he⟩ := hfail
      rw [herr] at he; cases he
  | cons S pre ih =>
    have hFS := hF S (by simp)
    have hPS := hP S (by simp)
    rcases runSteps_cons_cases hFS hPS w k p (pre ++ A :: post) with
      ⟨T, h, hrun, hT, _⟩ | ⟨d, ret, r, herr, hd, hret, hro, hT, hrun⟩
    · exact ⟨T, h, hrun, fun ev hev => ⟨S, by simp, (hT ev hev).leavesIn⟩⟩
    · obtain ⟨T', h, hrun', hT'⟩ := ih (fun S' h => hF S' (List.mem_cons_of_mem _ h))
        (fun S' h => hP S' (List.mem_cons_of_mem _ h)) r
      refine ⟨(S.helper w d).trace ++ (S.report ret).trace ++ T', h, ?_, ?_⟩
      · rw [List.cons_append, hrun, hrun']
      · intro ev hev
        rcases List.mem_append.1 hev with hev | hev
        · exact ⟨S, by simp, (hT ev hev).leavesIn⟩
        · obtain ⟨S', hS', hl⟩ := hT' ev hev
          exact ⟨S', List.mem_cons_of_mem _ hS', hl⟩

/-- Order: in a run of steps, whatever belongs to an operation that none of
the steps up to `A` owns comes after the call of `A`. -/
theorem runSteps_precedes {ctx : Context} (w : World) (k : Act Unit) (pre : List Step) (A : Step)
    (post : List Step) (hF : ∀ S ∈ pre ++ A :: post, S.Formed ctx)
    (hP : ∀ S ∈ pre ++ A :: post, S.Plain) (hk : A.kind ≠ .pager) (o : String × String)
    (ho : ∀ S ∈ pre ++ [A], S.op ≠ o) (p : Option Resource) :
    Precedes (fun ev => ev.isCall = true ∧ ev.op? = some A.op) (fun ev => ev.op? = some o)
      (runSteps w k p (pre ++ A :: post)).trace := by
  induction pre generalizing p with
  | nil =>
    have hFA := hF A (by simp)
    have hPA := hP A (by simp)
    have hoA : A.op ≠ o := ho A (by simp)
    rcases runSteps_cons_cases hFA hPA w k p post with
      ⟨T, h, hrun, hT, _⟩ | ⟨d, ret, r, herr, hd, hret, hro, hT, hrun⟩
    · rw [List.nil_append, hrun]
      exact Precedes.of_not fun ev hev hq => hoA ((hT ev hev).1.op_eq hq).symm
    · rw [List.nil_append, hrun]
      refine Precedes.append_left (fun ev hev hq => hoA ((hT ev hev).1.op_eq hq).symm) ?_
      obtain ⟨ev, t, ht, hc⟩ := hFA.calls hk w d herr
      exact ⟨ev, by simp [ht], hc⟩
  | cons S pre ih =>
    have hFS := hF S (by simp)
    have hPS := hP S (by simp)
    have hoS : S.op ≠ o := ho S (by simp)
    rcases runSteps_cons_cases hFS hPS w k p (pre ++ A :: post) with
      ⟨T, h, hrun, hT, _⟩ | ⟨d, ret, r, herr, hd, hret, hro, hT, hrun⟩
    · rw [List.cons_append, hrun]
      exact Precedes.of_not fun ev hev hq => hoS ((hT ev hev).1.op_eq hq).symm
    · rw [List.cons_append, hrun]
      refine Precedes.append_right (fun ev hev hq => hoS ((hT ev hev).1.op_eq hq).symm) ?_
      exact ih (fun S' h => hF S' (List.mem_cons_of_mem _ h))
        (fun S' h => hP S' (List.mem_cons_of_mem _ h))
        (fun S' h => ho S' (List.mem_cons_of_mem _ h)) r

/-! ## Runs of a script -/

theorem length_eq_zero_iff (s : String) : s.length = 0 ↔ s = "" := by
  rcases s with ⟨l⟩
  cases l with
  | nil => exact ⟨fun _ => rfl, fun _ => rfl⟩
  | cons c cs =>
    constructor
    · intro h; simp [String.length] at h
    · intro h
      have := congrArg String.length h
      simp [String.length] at this

/-- The end of a run: the flag is read; a non-empty value ends the run; an
empty one runs the clean-up as the only remaining step. -/
theorem Script.finish_eq (sc : Script) (w : World) (a : Args) :
    sc.finish w a =
      if w.env "KEEP_RESOURCE" = "" then
        ⟨keepFlag :: (runSteps w (pure ()) none [sc.cleanup a]).trace,
          (runSteps w (pure ()) none [sc.cleanup a]).out⟩
      else ⟨[keepFlag], .ok ()⟩ := by
  unfold Script.finish
  rw [Act.bind_of_ok (Getenv_out w _), Getenv_trace]
  by_cases h : w.env "KEEP_RESOURCE" = ""
  · simp only [h, if_true]
    rfl
  · have h' : ¬ (w.env "KEEP_RESOURCE").length = 0 := fun hl => h ((length_eq_zero_iff _).1 hl)
    simp only [h, h', if_false]
    rfl

/-- A run of a script: the setup stops the process with `log.Fatal`, or it
hands its result to the steps. -/
theorem Script.run_cases (sc : Script) (hwf : sc.WF) (w : World) :
    (∃ m, (sc.setup w).out = .error (.fatal m) ∧ sc.run w = ⟨(sc.setup w).trace, .error (.fatal m)⟩) ∨
    (∃ a, (sc.setup w).out = .ok a ∧
      sc.run w = ⟨(sc.setup w).trace ++ (runSteps w (sc.finish w a) none (sc.steps a)).trace,
        (runSteps w (sc.finish w a) none (sc.steps a)).out⟩) := by
  unfold Script.run
  rcases h : (sc.setup w).out with e | a
  · cases e with
    | fatal m => exact Or.inl ⟨m, rfl, Act.bind_of_error h⟩
    | panic => exact absurd h (hwf.setup_safe w)
  · exact Or.inr ⟨a, rfl, Act.bind_of_ok h⟩

theorem Script.setup_op (sc : Script) (hwf : sc.WF) (w : World) :
    ∀ ev ∈ (sc.setup w).trace, ev.op? = none ∧ ev ≠ keepFlag ∧ ev ≠ cleanedUp := by
  intro ev hev
  rcases hwf.setup_events w ev hev with ⟨n, rfl, hn⟩ | rfl | ⟨m, rfl⟩
  · refine ⟨rfl, ?_, by simp [cleanedUp]⟩
    simp [keepFlag, hn]
  · exact ⟨rfl, by simp [keepFlag], by simp [cleanedUp]⟩
  · exact ⟨rfl, by simp [keepFlag], by simp [cleanedUp]⟩

theorem Script.formed_steps (sc : Script) (hwf : sc.WF) (a : Args) :
    (∀ S ∈ sc.steps a, S.Formed a.ctx) ∧ (∀ S ∈ sc.steps a, S.Plain) ∧
    (∀ S ∈ [sc.cleanup a], S.Formed a.ctx) ∧ (∀ S ∈ [sc.cleanup a], S.Plain) := by
  refine ⟨fun S h => hwf.formed a S ?_, fun S h => hwf.plain a S ?_,
    fun S h => hwf.formed a S ?_, fun S h => hwf.plain a S ?_⟩ <;>
  simp_all [Script.sequence]

theorem Step.Leaves.not_keepFlag {S : Step} {ev : Event} (h : S.Leaves ev) : ev ≠ keepFlag := by
  rintro rfl
  rcases h with h | ⟨n, h⟩ | ⟨args, h, _⟩ | ⟨m, h⟩
  · cases h
  · cases h
  · cases h
  · cases h

theorem Step.Leaves.not_cleanedUp {S : Step} {ev : Event} (h : S.Leaves ev)
    (hk : S.kind ≠ .delete) : ev ≠ cleanedUp := by
  rintro rfl
  rcases h with h | ⟨n, h⟩ | ⟨args, _, h⟩ | ⟨m, h⟩
  · cases h
  · cases h
  · exact h hk rfl
  · cases h

/-- A run in which the helper of a step returns an error stops there: the
process ends on an error, and after the setup the trace holds only what the
steps up to that one have left. -/
theorem Script.run_halts (sc : Script) (hwf : sc.WF) (w : World) (a : Args)
    (hsetup : (sc.setup w).out = .ok a) (pre : List Step) (A : Step) (post : List Step)
    (hsteps : sc.steps a = pre ++ A :: post) (hfail : A.fails w) :
    ∃ T h, sc.run w = ⟨(sc.setup w).trace ++ T, .error h⟩ ∧
      ∀ ev ∈ T, ∃ S ∈ pre ++ [A], S.LeavesIn w ev := by
  obtain ⟨hF, hP, _, _⟩ := sc.formed_steps hwf a
  rcases sc.run_cases hwf w with ⟨m, hm, _⟩ | ⟨a', ha', hrun⟩
  · rw [hsetup] at hm; cases hm
  · rw [hsetup] at ha'
    cases ha'
    rw [hsteps] at hF hP hrun
    have hA : ∃ e, A.error a.ctx w = some e := (hF A (by simp)).fails_iff w |>.1 hfail
    obtain ⟨T, h, hT, hev⟩ := runSteps_halts w (sc.finish w a) pre A post hF hP hA none
    exact ⟨T, h, by rw [hrun, hT], hev⟩

/-- Order, in general: in a run of steps, whatever the steps up to `A` cannot
leave comes after the call of `A`. -/
theorem runSteps_precedes_of {ctx : Context} (w : World) (k : Act Unit) (pre : List Step)
    (A : Step) (post : List Step) (hF : ∀ S ∈ pre ++ A :: post, S.Formed ctx)
    (hP : ∀ S ∈ pre ++ A :: post, S.Plain) (hk : A.kind ≠ .pager) (Q : Event → Prop)
    (hQ : ∀ S ∈ pre ++ [A], ∀ ev, S.Leaves ev → ¬ Q ev) (p : Option Resource) :
    Precedes (fun ev => ev.isCall = true ∧ ev.op? = some A.op) Q
      (runSteps w k p (pre ++ A :: post)).trace := by
  induction pre generalizing p with
  | nil =>
    have hFA := hF A (by simp)
    have hPA := hP A (by simp)
    have hQA := hQ A (by simp)
    rcases runSteps_cons_cases hFA hPA w k p post with
      ⟨T, h, hrun, hT, _⟩ | ⟨d, ret, r, herr, hd, hret, hro, hT, hrun⟩
    · rw [List.nil_append, hrun]
      exact Precedes.of_not fun ev hev => hQA ev (hT ev hev).1
    · rw [List.nil_append, hrun]
      refine Precedes.append_left (fun ev hev => hQA ev (hT ev hev).1) ?_
      obtain ⟨ev, t, ht, hc⟩ := hFA.calls hk w d herr
      exact ⟨ev, by simp [ht], hc⟩
  | cons S pre ih =>
    have hFS := hF S (by simp)
    have hPS := hP S (by simp)
    have hQS := hQ S (by simp)
    rcases runSteps_cons_cases hFS hPS w k p (pre ++ A :: post) with
      ⟨T, h, hrun, hT, _⟩ | ⟨d, ret, r, herr, hd, hret, hro, hT, hrun⟩
    · rw [List.cons_append, hrun]
      exact Precedes.of_not fun ev hev => hQS ev (hT ev hev).1
    · rw [List.cons_append, hrun]
      refine Precedes.append_right (fun ev hev => hQS ev (hT ev hev).1) ?_
      exact ih (fun S' h => hF S' (List.mem_cons_of_mem _ h))
        (fun S' h => hP S' (List.mem_cons_of_mem _ h))
        (fun S' h => hQ S' (List.mem_cons_of_mem _ h)) r

/-- The first event of a helper other than the pager one, if it has any, is its
call. -/
theorem Step.Formed.head {A : Step} {ctx : Context} (hF : A.Formed ctx) (hk : A.kind ≠ .pager)
    (w : World) (d : String) :
    (A.helper w d).trace = [] ∨
      ∃ ev t, (A.helper w d).trace = ev :: t ∧ ev.isCall = true ∧ ev.op? = some A.op := by
  obtain ⟨c, f, args, payload, raw, hc, hf, hp, hw⟩ := hF d
  rw [hw w]
  cases hk' : A.kind <;> simp only [hk']
  · unfold syncForm
    split
    · exact Or.inl rfl
    · exact Or.inr ⟨_, _, rfl, rfl, by simp [Event.op?, Step.op, hc]⟩
  · exact Or.inr ⟨_, _, rfl, rfl, by simp [Event.op?, Step.op, hc]⟩
  · exact Or.inr ⟨_, _, rfl, rfl, by simp [Event.op?, Step.op, hc]⟩
  · unfold asyncForm
    split
    · exact Or.inl rfl
    · split
      · exact Or.inr ⟨_, _, rfl, rfl, by simp [Event.op?, Step.op, hc]⟩
      · exact Or.inr ⟨_, _, rfl, rfl, by simp [Event.op?, Step.op, hc]⟩
  · exact absurd hk' hk
  · unfold deleteForm
    split
    · exact Or.inl rfl
    · split
      · exact Or.inr ⟨_, _, rfl, rfl, by simp [Event.op?, Step.op, hc]⟩
      · exact Or.inr ⟨_, _, rfl, rfl, by simp [Event.op?, Step.op, hc]⟩

/-- The trace of a run that starts with a step other than the pager one is
empty, or a single `log.Fatal`, or starts with the call of that step. -/
theorem runSteps_first {A : Step} {ctx : Context} (hF : A.Formed ctx) (hP : A.Plain)
    (hk : A.kind ≠ .pager) (w : World) (k : Act Unit) (p : Option Resource) (rest : List Step) :
    (runSteps w k p (A :: rest)).trace = [] ∨
      (∃ m, (runSteps w k p (A :: rest)).trace = [.fatal m]) ∨
      ∃ ev t, (runSteps w k p (A :: rest)).trace = ev :: t ∧ ev.isCall = true ∧
        ev.op? = some A.op := by
  rw [runSteps_cons]
  obtain ⟨hat, hao⟩ := arg_cases hP p
  rcases hao with ⟨d, hd⟩ | hpanic
  · rw [Act.bind_of_ok hd, hat]
    rcases hF.out w d with ⟨ret, hret⟩ | ⟨hpg, _⟩
    · rw [Act.bind_of_ok hret]
      rcases hF.head hk w d with hnil | ⟨ev, t, ht, hc⟩
      · rcases he : A.error ctx w with _ | e
        · obtain ⟨ev, t, ht, _⟩ := hF.calls hk w d he
          rw [hnil] at ht; cases ht
        · right; left
          exact ⟨e.msg, by simp [hnil, Fatal_trace]⟩
      · right; right
        exact ⟨ev, _, by simp only [ht, List.nil_append, List.cons_append]; rfl, hc⟩
    · exact absurd hpg hk
  · left
    rw [Act.bind_of_error hpanic, hat]

theorem first_unique {P : Event → Prop} {xs ys xs' ys' : List Event} {ev ev' : Event}
    (h : xs ++ ev :: ys = xs' ++ ev' :: ys') (hx : ∀ e ∈ xs, ¬ P e) (he : P ev)
    (hx' : ∀ e ∈ xs', ¬ P e) (he' : P ev') : xs = xs' ∧ ev = ev' := by
  induction xs generalizing xs' with
  | nil =>
    cases xs' with
    | nil => simp at h; exact ⟨rfl, h.1⟩
    | cons x xs' =>
      simp at h
      exact absurd (h.1 ▸ he) (hx' x (by simp))
  | cons x xs ih =>
    cases xs' with
    | nil =>
      simp at h
      exact absurd (h.1 ▸ he') (hx x (by simp))
    | cons x' xs' =>
      simp only [List.cons_append, List.cons.injEq] at h
      obtain ⟨h1, h2⟩ := ih h.2 (fun e he => hx e (by simp [he])) (fun e he => hx' e (by simp [he]))
      exact ⟨by rw [h.1, h1], h2⟩

/-- Data flow between neighbours: whatever a run holds of the operation of `B`
was produced by the helper of `B`, called with the argument computed from what
the step `A` just before it reported, and the helper of `A` had returned no
error. -/
theorem runSteps_dataflow {ctx : Context} (w : World) (k : Act Unit) (pre : List Step)
    (A B : Step) (post : List Step) (hF : ∀ S ∈ pre ++ A :: B :: post, S.Formed ctx)
    (hP : ∀ S ∈ pre ++ A :: B :: post, S.Plain)
    (hne : ∀ S ∈ pre ++ A :: post, S.op ≠ B.op) (hk : ∀ ev ∈ k.trace, ev.op? ≠ some B.op)
    (p : Option Resource) :
    ∀ ev ∈ (runSteps w k p (pre ++ A :: B :: post)).trace, ev.op? = some B.op →
      ∃ dA ret r d, A.error ctx w = none ∧ (A.helper w dA).out = .ok (ret, none) ∧
        (A.report ret).out = .ok r ∧ (B.arg r).out = .ok d ∧ ev ∈ (B.helper w d).trace := by
  induction pre generalizing p with
  | nil =>
    intro ev hev ho
    have hFA := hF A (by simp)
    have hPA := hP A (by simp)
    have hFB := hF B (by simp)
    have hPB := hP B (by simp)
    have hAB : A.op ≠ B.op := hne A (by simp)
    rw [List.nil_append] at hev
    rcases runSteps_cons_cases hFA hPA w k p (B :: post) with
      ⟨T, h, hrun, hT, _⟩ | ⟨d, ret, r, herr, hd, hret, hro, hT, hrun⟩
    · rw [hrun] at hev
      exact absurd ((hT ev hev).1.op_eq ho).symm hAB
    · rw [hrun] at hev
      rcases List.mem_append.1 hev with hev | hev
      · exact absurd ((hT ev hev).1.op_eq ho).symm hAB
      · refine ⟨d, ret, r, ?_⟩
        rcases runSteps_cons_cases hFB hPB w k r post with
          ⟨T', h', hrun', hT', _⟩ | ⟨d', ret', r', herr', hd', hret', hro', hT', hrun'⟩
        · rw [hrun'] at hev
          obtain ⟨dB, hdB, hevB⟩ := (hT' ev hev).2 _ ho
          exact ⟨dB, herr, hret, hro, hdB, hevB⟩
        · rw [hrun'] at hev
          rcases List.mem_append.1 hev with hev | hev
          · obtain ⟨dB, hdB, hevB⟩ := (hT' ev hev).2 _ ho
            exact ⟨dB, herr, hret, hro, hdB, hevB⟩
          · rcases runSteps_events w k post (fun S h => hF S (by simp [h]))
              (fun S h => hP S (by simp [h])) r' ev hev with ⟨S, hS, hl⟩ | hk'
            · exact absurd (hl.1.op_eq ho).symm (hne S (by simp [hS]))
            · exact absurd ho (hk ev hk')
  | cons S pre ih =>
    intro ev hev ho
    have hFS := hF S (by simp)
    have hPS := hP S (by simp)
    have hSB : S.op ≠ B.op := hne S (by simp)
    rw [List.cons_append] at hev
    rcases runSteps_cons_cases hFS hPS w k p (pre ++ A :: B :: post) with
      ⟨T, h, hrun, hT, _⟩ | ⟨d, ret, r, herr, hd, hret, hro, hT, hrun⟩
    · rw [hrun] at hev
      exact absurd ((hT ev hev).1.op_eq ho).symm hSB
    · rw [hrun] at hev
      rcases List.mem_append.1 hev with hev | hev
      · exact absurd ((hT ev hev).1.op_eq ho).symm hSB
      · exact ih (fun S' h => hF S' (List.mem_cons_of_mem _ h))
          (fun S' h => hP S' (List.mem_cons_of_mem _ h))
          (fun S' h => hne S' (List.mem_cons_of_mem _ h)) r ev hev ho

theorem split_last {α : Type} {l : List α} {c : α} {pre : List α} {A : α} {rest : List α}
    (h : l ++ [c] = pre ++ A :: rest) (hne : rest ≠ []) :
    ∃ rest', rest = rest' ++ [c] ∧ l = pre ++ A :: rest' := by
  have hr := List.dropLast_append_getLast hne
  rw [← hr, ← List.cons_append, ← List.append_assoc] at h
  have := List.append_inj' h rfl
  refine ⟨rest.dropLast, ?_, this.1⟩
  rw [this.2]
  exact hr.symm

theorem nodup_split {α β : Type} {f : α → β} {l pre mid post : List α} {A B : α}
    (hn : (l.map f).Nodup) (hl : l = pre ++ A :: (mid ++ B :: post)) :
    ∀ S ∈ pre ++ [A], f S ≠ f B := by
  intro S hS heq
  have hl' : l = (pre ++ [A]) ++ (mid ++ B :: post) := by rw [hl]; simp
  rw [hl', List.map_append] at hn
  have hd := (List.nodup_append.1 hn).2.2
  exact hd (List.mem_map_of_mem f hS) (heq ▸ List.mem_map_of_mem f (by simp))

theorem Step.Formed.issues_op {B : Step} {ctx : Context} (hF : B.Formed ctx)
    {o : String × String} (h : B.issues o) : o = B.op := by
  obtain ⟨w, d, ev, hev, ho⟩ := h
  rcases hF.owns w d ev hev with h | ⟨n, rfl⟩
  · rw [h] at ho; exact (Option.some.inj ho).symm
  · cases ho

/-- The provisioning steps of a script when a later step exists. -/
theorem Script.steps_of_sequence (sc : Script) (a : Args) {pre mid post : List Step}
    {A B : Step} (hseq : sc.sequence a = pre ++ A :: (mid ++ B :: post)) :
    ∃ post', sc.steps a = pre ++ A :: post' := by
  obtain ⟨rest', _, h⟩ := split_last (l := sc.steps a) (c := sc.cleanup a) hseq (by simp)
  exact ⟨rest', h⟩

/-- C1. For every sample and every pair of steps A before B in its main
sequence: if the helper of A returns an error, then the run issues nothing that
belongs to an SDK operation B can issue, the process ends on an error, and
"cleaned up successfully." is never logged. -/
theorem step_error_stops_run (s : Sample) (w : World) (a : Args) (pre mid post : List Step)
    (A B : Step) (hsetup : (s.script.setup w).out = .ok a)
    (hseq : s.script.sequence a = pre ++ A :: (mid ++ B :: post)) (hfail : A.fails w) :
    (∀ ev ∈ (s.main w).trace, ∀ o, ev.op? = some o → ¬ B.issues o) ∧
      (∃ h, (s.main w).out = .error h) ∧ cleanedUp ∉ (s.main w).trace := by
  have hwf := s.wf
  rw [s.main_eq_run]
  obtain ⟨post', hsteps⟩ := s.script.steps_of_sequence a hseq
  obtain ⟨T, h, hrun, hT⟩ := s.script.run_halts hwf w a hsetup pre A post' hsteps hfail
  have hBF : B.Formed a.ctx := hwf.formed a B (by rw [hseq]; simp)
  have hne := nodup_split (hwf.distinct a) hseq
  have hmem : ∀ S ∈ pre ++ [A], S ∈ s.script.steps a := by
    intro S hS
    rw [hsteps]
    simp only [List.mem_append, List.mem_singleton, List.mem_cons] at hS ⊢
    tauto
  rw [hrun]
  refine ⟨?_, ⟨h, rfl⟩, ?_⟩
  · intro ev hev o ho hB
    have hoB := hBF.issues_op hB
    rcases List.mem_append.1 hev with hev | hev
    · rw [(s.script.setup_op hwf w ev hev).1] at ho; cases ho
    · obtain ⟨S, hS, hl⟩ := hT ev hev
      exact hne S hS ((hl.1.op_eq ho).symm.trans hoB)
  · intro hev
    rcases List.mem_append.1 hev with hev | hev
    · exact (s.script.setup_op hwf w _ hev).2.2 rfl
    · obtain ⟨S, hS, hl⟩ := hT _ hev
      exact hl.1.not_cleanedUp (hwf.creates a S (hmem S hS)) rfl

/-- Witness of C1: eventhub sample, the service rejects `createNamespace`; the
later step is `getNamespace`. -/
theorem step_error_stops_run_witness :
    (EventhubNamespace.script.setup rejectingWorld).out = .ok (args0 false) ∧
      (EventhubNamespace.script.stepAt (args0 false) 1).fails rejectingWorld ∧
      (∀ ev ∈ (Sample.main .eventhub_namespace rejectingWorld).trace, ∀ o, ev.op? = some o →
        ¬ (EventhubNamespace.script.stepAt (args0 false) 2).issues o) ∧
      (∃ h, (Sample.main .eventhub_namespace rejectingWorld).out = .error h) ∧
      cleanedUp ∉ (Sample.main .eventhub_namespace rejectingWorld).trace :=
  ⟨rfl, ⟨"", .resource none, ⟨"RemoteRejected"⟩, rfl⟩,
    step_error_stops_run .eventhub_namespace rejectingWorld (args0 false)
      [EventhubNamespace.script.stepAt (args0 false) 0] [] [EventhubNamespace.script.stepAt (args0 false) 3]
      (EventhubNamespace.script.stepAt (args0 false) 1) (EventhubNamespace.script.stepAt (args0 false) 2)
      rfl rfl ⟨"", .resource none, ⟨"RemoteRejected"⟩, rfl⟩⟩

/-! ## Teardown after a failure (C2) -/

/-- C2, counterexample: eventhub sample, `KEEP_RESOURCE` not set, the resource
group is created, then the service rejects `createNamespace`.  The process
ends on `log.Fatal` and no `BeginDelete` of the resource group is issued. -/
theorem teardown_after_failure_counterexample :
    rejectingWorld.env "KEEP_RESOURCE" = "" ∧
      (EventhubNamespace.createResourceGroup rejectingWorld "x" context.Background ⟨1⟩).out =
        .ok (some okResource, none) ∧
      (EventhubNamespace.createNamespace rejectingWorld "x" context.Background ⟨1⟩).out =
        .ok (none, some ⟨"RemoteRejected"⟩) ∧
      (Sample.main .eventhub_namespace rejectingWorld).out = .error (.fatal "RemoteRejected") ∧
      ∀ ev ∈ (Sample.main .eventhub_namespace rejectingWorld).trace,
        ev.op? ≠ some ("armresources.ResourceGroupsClient", "BeginDelete") := by
  refine ⟨rfl, rfl, rfl, rfl, ?_⟩
  decide

/-- C2 (amended). In every sample run in which the helper of a provisioning or
read step returns an error, the process ends on an error and no teardown is
attempted: nothing of the clean-up operation (the delete of the resource group)
is issued, whatever `KEEP_RESOURCE` holds. -/
theorem step_error_skips_teardown (s : Sample) (w : World) (a : Args) (pre post : List Step)
    (A : Step) (hsetup : (s.script.setup w).out = .ok a)
    (hsteps : s.script.steps a = pre ++ A :: post) (hfail : A.fails w) :
    (∃ h, (s.main w).out = .error h) ∧
      ∀ ev ∈ (s.main w).trace, ev.op? ≠ some (s.script.cleanup a).op := by
  have hwf := s.wf
  rw [s.main_eq_run]
  obtain ⟨T, h, hrun, hT⟩ := s.script.run_halts hwf w a hsetup pre A post hsteps hfail
  have hseq : s.script.sequence a = pre ++ A :: (post ++ s.script.cleanup a :: []) := by
    simp [Script.sequence, hsteps]
  have hne := nodup_split (hwf.distinct a) hseq
  rw [hrun]
  refine ⟨⟨h, rfl⟩, ?_⟩
  intro ev hev ho
  rcases List.mem_append.1 hev with hev | hev
  · rw [(s.script.setup_op hwf w ev hev).1] at ho; cases ho
  · obtain ⟨S, hS, hl⟩ := hT ev hev
    exact hne S hS (hl.1.op_eq ho).symm

/-- Witness of C2 (amended): eventhub sample, the service rejects
`createNamespace`. -/
theorem step_error_skips_teardown_witness :
    (EventhubNamespace.script.setup rejectingWorld).out = .ok (args0 false) ∧
      (EventhubNamespace.script.stepAt (args0 false) 1).fails rejectingWorld ∧
      (∃ h, (Sample.main .eventhub_namespace rejectingWorld).out = .error h) ∧
      ∀ ev ∈ (Sample.main .eventhub_namespace rejectingWorld).trace,
        ev.op? ≠ some (EventhubNamespace.script.cleanup (args0 false)).op :=
  ⟨rfl, ⟨"", .resource none, ⟨"RemoteRejected"⟩, rfl⟩,
    step_error_skips_teardown .eventhub_namespace rejectingWorld (args0 false)
      [EventhubNamespace.script.stepAt (args0 false) 0]
      [EventhubNamespace.script.stepAt (args0 false) 2]
      (EventhubNamespace.script.stepAt (args0 false) 1)
      rfl rfl ⟨"", .resource none, ⟨"RemoteRejected"⟩, rfl⟩⟩

/-! ## The keep-resources flag (C3) -/

/-- The clean-up of a sample builds its client without a fallible constructor,
or with the constructor its first step has already used. -/
theorem Sample.cleanup_ctor (s : Sample) (a : Args) :
    (s.script.cleanup a).ctor = none ∨
      ∃ A ∈ s.script.steps a, A.kind = .sync ∧ A.ctor = (s.script.cleanup a).ctor := by
  cases s <;> first
    | exact Or.inl rfl
    | exact Or.inr ⟨_, List.mem_cons_self _ _, rfl, rfl⟩

/-- A helper whose constructor reports no error starts with its call. -/
theorem Step.Formed.head_of_ctor {A : Step} {ctx : Context} (hF : A.Formed ctx)
    (hk : A.kind ≠ .pager) (w : World) (d : String) (hc : ctorError w A.ctor = none) :
    ∃ ev t, (A.helper w d).trace = ev :: t ∧ ev.isCall = true ∧ ev.op? = some A.op := by
  rcases hF.head hk w d with hnil | h
  · exfalso
    obtain ⟨c, f, args, payload, raw, hc', hf, hp, hw⟩ := hF d
    rw [hw w] at hnil
    cases hk' : A.kind <;> simp only [hk'] at hnil
    · simp [syncForm, hc] at hnil
    · simp [syncPtrForm] at hnil
    · simp [syncListForm] at hnil
    · unfold asyncForm at hnil
      simp only [hc] at hnil
      split at hnil <;> simp at hnil
    · exact hk hk'
    · unfold deleteForm at hnil
      simp only [hc] at hnil
      split at hnil <;> simp at hnil
  · exact h

theorem Step.error_sync_ctor {A : Step} {ctx : Context} {w : World} (hk : A.kind = .sync)
    (h : A.error ctx w = none) : ctorError w A.ctor = none := by
  simp only [Step.error, hk] at h
  cases hc : ctorError w A.ctor with
  | none => rfl
  | some e => simp [hc, Option.orElse] at h

/-- The trace of a run that starts with a step whose argument does not panic
starts with the trace of the helper. -/
theorem runSteps_cons_trace (w : World) (k : Act Unit) (p : Option Resource) (S : Step)
    (rest : List Step) (hP : S.Plain) :
    (runSteps w k p (S :: rest)).out = .error .panic ∨
      ∃ d t, (runSteps w k p (S :: rest)).trace = (S.helper w d).trace ++ t := by
  rw [runSteps_cons]
  obtain ⟨hat, hao⟩ := arg_cases hP p
  rcases hao with ⟨d, hd⟩ | hpanic
  · right
    rw [Act.bind_of_ok hd, hat, Act.bind_trace]
    exact ⟨d, _, rfl⟩
  · left
    rw [Act.bind_of_error hpanic]

/-- C3. For every sample whose setup went through: the keep-resources flag is
read only when no helper has returned an error; when every helper succeeds and
nothing panics, the flag is read and the delete of the resource group is
called if and only if the value of `KEEP_RESOURCE` is the empty string; every
call of a step comes before the flag is read, and the delete comes after. -/
theorem keep_resource_decides_cleanup (s : Sample) (w : World) (a : Args)
    (hsetup : (s.script.setup w).out = .ok a) :
    (keepFlag ∈ (s.main w).trace → ∀ A ∈ s.script.steps a, ¬ A.fails w) ∧
      ((∀ A ∈ s.script.steps a, ¬ A.fails w) → (s.main w).out ≠ .error .panic →
        keepFlag ∈ (s.main w).trace ∧
          ((∃ ev ∈ (s.main w).trace, ev.isCall = true ∧ ev.op? = some (s.script.cleanup a).op) ↔
            w.env "KEEP_RESOURCE" = "")) ∧
      (∀ A ∈ s.script.steps a, A.kind ≠ .pager →
        Precedes (fun ev => ev.isCall = true ∧ ev.op? = some A.op) (fun ev => ev = keepFlag)
          (s.main w).trace) ∧
      Precedes (fun ev => ev = keepFlag) (fun ev => ev.op? = some (s.script.cleanup a).op)
        (s.main w).trace := by
  have hwf := s.wf
  rw [s.main_eq_run]
  obtain ⟨hF, hP, hFc, hPc⟩ := s.script.formed_steps hwf a
  have hFc := hFc _ (List.mem_singleton_self _)
  have hPc := hPc _ (List.mem_singleton_self _)
  have hkc : (s.script.cleanup a).kind ≠ .pager := by rw [hwf.deletes a]; simp
  have hrun : s.script.run w =
      ⟨(s.script.setup w).trace ++ (runSteps w (s.script.finish w a) none (s.script.steps a)).trace,
        (runSteps w (s.script.finish w a) none (s.script.steps a)).out⟩ := by
    rcases s.script.run_cases hwf w with ⟨m, hm, _⟩ | ⟨a', ha', hrun⟩
    · rw [hsetup] at hm; cases hm
    · rw [hsetup] at ha'; cases ha'; exact hrun
  have hsetupev := s.script.setup_op hwf w
  have hcl : ∀ S ∈ s.script.steps a, S.op ≠ (s.script.cleanup a).op := by
    intro S hS
    obtain ⟨pre, post, hsp⟩ := List.append_of_mem hS
    have hseq : s.script.sequence a = pre ++ S :: (post ++ s.script.cleanup a :: []) := by
      simp [Script.sequence, hsp]
    exact nodup_split (hwf.distinct a) hseq S (by simp)
  have hTnoc : ∀ T : List Event, (∀ ev ∈ T, ∃ S ∈ s.script.steps a, S.LeavesIn w ev) →
      ∀ ev ∈ T, ev.op? ≠ some (s.script.cleanup a).op := by
    intro T hT ev hev ho
    obtain ⟨S, hS, hl⟩ := hT ev hev
    exact hcl S hS (hl.1.op_eq ho).symm
  have hTnok : ∀ T : List Event, (∀ ev ∈ T, ∃ S ∈ s.script.steps a, S.LeavesIn w ev) →
      ∀ ev ∈ T, ev ≠ keepFlag := by
    intro T hT ev hev
    obtain ⟨S, hS, hl⟩ := hT ev hev
    exact hl.1.not_keepFlag
  rw [hrun]
  have hfin := s.script.finish_eq w a
  rcases runSteps_cases w (s.script.finish w a) (s.script.steps a) hF hP none with
    ⟨T, h, hR, hT, hh⟩ | ⟨T, herr, hT, hcalls, hR⟩
  · -- the run stops in a step
    rw [hR]
    refine ⟨?_, ?_, ?_, ?_⟩
    · intro hk
      rcases List.mem_append.1 hk with hk | hk
      · exact absurd rfl (hsetupev _ hk).2.1
      · exact absurd rfl (hTnok T hT _ hk)
    · intro hok hnp
      rcases hh with rfl | ⟨S, hS, e, he, _⟩
      · exact absurd rfl hnp
      · exact absurd ((hF S hS).fails_iff w |>.2 ⟨e, he⟩) (hok S hS)
    · intro A hA hkA
      refine Precedes.of_not fun ev hev hq => ?_
      rcases List.mem_append.1 hev with hev | hev
      · exact (hsetupev _ hev).2.1 hq
      · exact hTnok T hT _ hev hq
    · refine Precedes.of_not fun ev hev hq => ?_
      rcases List.mem_append.1 hev with hev | hev
      · rw [(hsetupev _ hev).1] at hq; cases hq
      · exact hTnoc T hT _ hev hq
  · -- the run goes through every step and reaches the flag
    rw [hR]
    have hno : ∀ A ∈ s.script.steps a, ¬ A.fails w := by
      intro A hA hf
      obtain ⟨e, he⟩ := (hF A hA).fails_iff w |>.1 hf
      rw [herr A hA] at he; cases he
    have hkin : keepFlag ∈ (s.script.finish w a).trace := by
      rw [hfin]; split <;> simp
    refine ⟨fun _ => hno, ?_, ?_, ?_⟩
    · intro hok hnp
      refine ⟨by simp [hkin], ?_⟩
      have hctor : ctorError w (s.script.cleanup a).ctor = none := by
        rcases s.cleanup_ctor a with hc | ⟨A, hA, hkA, hcA⟩
        · rw [hc]; rfl
        · rw [← hcA]; exact Step.error_sync_ctor hkA (herr A hA)
      constructor
      · rintro ⟨ev, hev, hcall, ho⟩
        by_contra hkeep
        rw [hfin, if_neg hkeep] at hev
        simp only [List.mem_append, List.mem_singleton] at hev
        rcases hev with hev | hev | hev
        · rw [(hsetupev _ hev).1] at ho; cases ho
        · exact hTnoc T hT _ hev ho
        · rw [hev] at ho; cases ho
      · intro hkeep
        rw [hfin, if_pos hkeep] at hnp ⊢
        rcases runSteps_cons_trace w (pure ()) none (s.script.cleanup a) [] hPc with hp | ⟨d, t, ht⟩
        · exact absurd hp hnp
        · obtain ⟨ev, t', ht', hc⟩ := hFc.head_of_ctor hkc w d hctor
          refine ⟨ev, ?_, hc⟩
          simp [ht, ht']
    · intro A hA hkA
      obtain ⟨pre, post, hsp⟩ := List.append_of_mem hA
      rw [← hR]
      refine Precedes.append_right (fun ev hev => (hsetupev _ hev).2.1) ?_
      rw [hsp] at hF hP ⊢
      refine runSteps_precedes_of w _ pre A post hF hP hkA _ ?_ none
      intro S _ ev hl
      exact hl.not_keepFlag
    · refine Precedes.append_right (fun ev hev hq => ?_) (Precedes.append_right (hTnoc T hT) ?_)
      · rw [(hsetupev _ hev).1] at hq; cases hq
      · rw [hfin]
        split
        · exact @Precedes.append_left _ _ [keepFlag] _ (fun ev hev hq => by
            simp at hev; subst hev; cases hq) ⟨keepFlag, by simp, rfl⟩
        · exact Precedes.of_not fun ev hev hq => by
            simp at hev; subst hev; cases hq

/-- Witness of C3: eventhub sample in the happy world, where `KEEP_RESOURCE` is
not set. -/
theorem keep_resource_decides_cleanup_witness :
    (EventhubNamespace.script.setup happyWorld).out = .ok (args0 false) ∧
      keepFlag ∈ (Sample.main .eventhub_namespace happyWorld).trace ∧
      ∀ A ∈ EventhubNamespace.script.steps (args0 false), ¬ A.fails happyWorld :=
  ⟨rfl, by decide,
    (keep_resource_decides_cleanup .eventhub_namespace happyWorld (args0 false) rfl).1 (by decide)⟩

/-! ## Asynchronous helpers (C4, C5, C6) -/

/-- C4, counterexample: `createServer` of the virtual-network-rule sample in a
world where the constructor of the servers client reports an error.  The
helper returns that error although the Begin call and the poll would both
succeed; it issues neither. -/
theorem async_error_sources_counterexample :
    (VirtualNetworkRule.createServer brokenClientWorld "x" context.Background ⟨1⟩).out =
        .ok (none, some ⟨"InvalidClientOptions"⟩) ∧
      (VirtualNetworkRule.createServer brokenClientWorld "x" context.Background ⟨1⟩).trace = [] ∧
      brokenClientWorld.begin "armpostgresql.ServersClient" "BeginCreate" =
        .ok [.Succeeded okResource] ∧
      pollResult "armpostgresql.ServersClient" "BeginCreate" context.Background
        [.Succeeded okResource] = .ok okResource := by
  refine ⟨rfl, rfl, rfl, rfl⟩

/-- C4 (amended). For every asynchronous create helper of every sample: when
the client constructor of the helper reports an error, the helper returns that
error and does nothing else; otherwise, when the Begin call fails, it returns
that error after the one call, without polling; otherwise, when the poll until
done fails, it returns that error; otherwise it returns the polled resource
and no error. -/
theorem async_helper_error_sources (s : Sample) (a : Args) (A : Step)
    (hA : A ∈ s.script.steps a) (hk : A.kind = .async) (w : World) (d : String) :
    (∀ e, ctorError w A.ctor = some e →
      A.helper w d = ⟨[], .ok (.resource none, some e)⟩) ∧
    (∀ e, ctorError w A.ctor = none → w.begin A.client A.method = .error e →
      (A.helper w d).out = .ok (.resource none, some e) ∧
        ∃ ev, (A.helper w d).trace = [ev] ∧ ev.isCall = true ∧ ev.op? = some A.op) ∧
    (∀ statuses e, ctorError w A.ctor = none → w.begin A.client A.method = .ok statuses →
      pollResult A.client A.method a.ctx statuses = .error e →
      (A.helper w d).out = .ok (.resource none, some e)) ∧
    (∀ statuses r, ctorError w A.ctor = none → w.begin A.client A.method = .ok statuses →
      pollResult A.client A.method a.ctx statuses = .ok r →
      (A.helper w d).out = .ok (.resource (some r), none)) := by
  have hF := s.wf.formed a A (by simp [Script.sequence, hA])
  obtain ⟨c, f, args, payload, raw, hc, hf, hp, hw⟩ := hF d
  rw [hw w]
  simp only [hk, asyncForm, hc]
  refine ⟨?_, ?_, ?_, ?_⟩
  · intro e he
    simp only [he]
  · intro e he hb
    simp only [he, hb]
    exact ⟨trivial, _, rfl, rfl, by simp [Event.op?, Step.op, hc]⟩
  · intro st e he hb hpoll
    simp only [he, hb]
    rw [pollState_result _ a.ctx f hf]
    simp only [pollResult] at hpoll
    rw [hpoll]
  · intro st r he hb hpoll
    simp only [he, hb]
    rw [pollState_result _ a.ctx f hf]
    simp only [pollResult] at hpoll
    rw [hpoll]

/-- Witness of C4 (amended): `createServer` of the virtual-network-rule
sample. -/
theorem async_helper_error_sources_witness :
    VirtualNetworkRule.script.stepAt (args0 false) 1 ∈
        (Sample.script .virtual_network_rule).steps (args0 false) ∧
      (VirtualNetworkRule.script.stepAt (args0 false) 1).kind = .async ∧
      (VirtualNetworkRule.script.stepAt (args0 false) 1).helper brokenClientWorld "" =
        ⟨[], .ok (.resource none, some ⟨"InvalidClientOptions"⟩)⟩ :=
  ⟨by simp [Script.stepAt, Script.sequence, Sample.script, VirtualNetworkRule.script], rfl,
    (async_helper_error_sources .virtual_network_rule (args0 false)
      (VirtualNetworkRule.script.stepAt (args0 false) 1)
      (by simp [Script.stepAt, Script.sequence, Sample.script, VirtualNetworkRule.script]) rfl
      brokenClientWorld "").1 ⟨"InvalidClientOptions"⟩ rfl⟩

/-- Every event of a run comes from the setup, is the read of the
keep-resources flag, or is left by a step of the main sequence. -/
theorem Script.run_events (sc : Script) (hwf : sc.WF) (w : World) :
    ∀ ev ∈ (sc.run w).trace, ev ∈ (sc.setup w).trace ∨ ev = keepFlag ∨
      ∃ a, (sc.setup w).out = .ok a ∧ ∃ S ∈ sc.sequence a, S.LeavesIn w ev := by
  intro ev hev
  rcases sc.run_cases hwf w with ⟨m, hm, hrun⟩ | ⟨a, ha, hrun⟩
  · rw [hrun] at hev; exact Or.inl hev
  · rw [hrun] at hev
    obtain ⟨hF, hP, hFc, hPc⟩ := sc.formed_steps hwf a
    rcases List.mem_append.1 hev with hev | hev
    · exact Or.inl hev
    · rcases runSteps_events w (sc.finish w a) (sc.steps a) hF hP none ev hev with
        ⟨S, hS, hl⟩ | hk
      · exact Or.inr (Or.inr ⟨a, ha, S, by simp [Script.sequence, hS], hl⟩)
      · rw [sc.finish_eq w a] at hk
        split at hk
        · simp only [List.mem_cons] at hk
          rcases hk with hk | hk
          · exact Or.inr (Or.inl hk)
          · rcases runSteps_events w (pure ()) [sc.cleanup a] hFc hPc none ev hk with
              ⟨S, hS, hl⟩ | hk
            · exact Or.inr (Or.inr ⟨a, ha, S, by
                simp only [List.mem_singleton] at hS
                simp [Script.sequence, hS], hl⟩)
            · simp [Act.pure_eq] at hk
        · simp only [List.mem_singleton] at hk
          exact Or.inr (Or.inl hk)

/-- The polls of a helper are on the context of the helper, at the frequency of
its form. -/
theorem Step.Formed.polls {A : Step} {ctx : Context} (hF : A.Formed ctx) (w : World)
    (d : String) :
    ∀ ev ∈ (A.helper w d).trace, ∀ c m ctx1 f, ev = .poll c m ctx1 f →
      ctx1 = ctx ∧ (f = some 10 ∨ f = none) := by
  obtain ⟨c, f, args, payload, raw, hc, hf, hp, hw⟩ := hF d
  intro ev hev c1 m1 ctx1 f1 he
  subst he
  rw [hw w] at hev
  cases hk : A.kind <;> simp only [hk] at hev
  · unfold syncForm at hev
    split at hev <;> simp at hev
  · simp [syncPtrForm] at hev
  · simp [syncListForm] at hev
  · unfold asyncForm at hev
    split at hev
    · simp at hev
    · split at hev
      · simp at hev
      · simp only [List.mem_cons, reduceCtorEq, false_or] at hev
        rcases pollState_events _ _ _ _ hev with h | h | ⟨n, h⟩
        · simp only [Event.poll.injEq] at h
          exact ⟨h.2.2.1, h.2.2.2 ▸ hf⟩
        · cases h
        · cases h
  · simp only [pagerForm, asList, Act.mem_bind_trace, Act.pure_eq, List.not_mem_nil, and_false,
      exists_false, or_false] at hev
    have := (listLoop_events _ _ _ _ _).1 _ hev
    cases this
  · unfold deleteForm at hev
    split at hev
    · simp at hev
    · split at hev
      · simp at hev
      · simp only [List.mem_cons, reduceCtorEq, false_or] at hev
        rcases pollState_events _ _ _ _ hev with h | h | ⟨n, h⟩
        · simp only [Event.poll.injEq] at h
          exact ⟨h.2.2.1, h.2.2.2 ▸ hf⟩
        · cases h
        · cases h

/-- C5. In a run of a sample whose setup went through, for an asynchronous
create helper whose operation the service reports as running, running, then
succeeded with resource `r`: the helper issues its Begin call and the poll,
queries the status three times with a wait of 10 seconds after each of the
first two queries, returns only then, and returns `r` (the result of the third
query) and no error. -/
theorem async_helper_three_polls (s : Sample) (w : World) (a : Args) (A : Step) (r : Resource)
    (d : String) (hsetup : (s.script.setup w).out = .ok a) (hA : A ∈ s.script.steps a)
    (hk : A.kind = .async) (hctor : ctorError w A.ctor = none)
    (hbegin : w.begin A.client A.method = .ok [.Running none, .Running none, .Succeeded r]) :
    (∃ ev f, ev.isCall = true ∧ ev.op? = some A.op ∧
      (A.helper w d).trace =
        [ev, .poll A.client A.method context.Background f,
          .query A.client A.method, .wait 10,
          .query A.client A.method, .wait 10,
          .query A.client A.method]) ∧
      (A.helper w d).out = .ok (.resource (some r), none) := by
  have hwf := s.wf
  have hctx := hwf.setup_ctx w a hsetup
  have hF := hwf.formed a A (by simp [Script.sequence, hA])
  obtain ⟨c, f, args, payload, raw, hc, hf, hp, hw⟩ := hF d
  rw [hw w]
  simp only [hk, asyncForm, hctor, hc, hbegin, hctx]
  rcases hf with rfl | rfl
  · refine ⟨⟨_, _, ?_, ?_, rfl⟩, rfl⟩
    · rfl
    · simp [Event.op?, Step.op, hc]
  · refine ⟨⟨_, _, ?_, ?_, rfl⟩, rfl⟩
    · rfl
    · simp [Event.op?, Step.op, hc]

/-- Witness of C5: `createNamespace` of the eventhub sample, which polls at 10
seconds, in the slow world. -/
theorem async_helper_three_polls_witness :
    (EventhubNamespace.script.setup slowWorld).out = .ok (args0 false) ∧
      slowWorld.begin "armeventhub.NamespacesClient" "BeginCreateOrUpdate" =
        .ok [.Running none, .Running none, .Succeeded okResource] ∧
      (asResource (EventhubNamespace.createNamespace slowWorld "x" context.Background ⟨1⟩)).out =
        .ok (.resource (some okResource), none) :=
  ⟨rfl, rfl,
    (async_helper_three_polls .eventhub_namespace slowWorld (args0 false)
      (EventhubNamespace.script.stepAt (args0 false) 1) okResource "" rfl
      (by simp [Script.stepAt, Script.sequence, Sample.script, EventhubNamespace.script])
      rfl rfl rfl).2⟩

/-- C6. Every poll-until-done call in every run of every sample passes either
10 seconds or no interval, and the interval in use is 10 seconds in both
cases (with the default of the poller when none is passed). -/
theorem poll_interval_ten (s : Sample) (w : World) :
    ∀ ev ∈ (s.main w).trace, ∀ c m ctx f, ev = .poll c m ctx f →
      (f = some 10 ∨ f = none) ∧ f.getD defaultPollInterval = 10 := by
  intro ev hev c m ctx f he
  rw [s.main_eq_run] at hev
  have hwf := s.wf
  have hfreq : f = some 10 ∨ f = none := by
    rcases s.script.run_events hwf w ev hev with h | h | ⟨a, ha, S, hS, hl⟩
    · have := (s.script.setup_op hwf w ev h).1
      rw [he] at this; cases this
    · rw [he] at h; cases h
    · obtain ⟨d, hd⟩ := hl.2 (c, m) (by rw [he]; rfl)
      exact ((hwf.formed a S hS).polls w d ev hd c m ctx f he).2
  refine ⟨hfreq, ?_⟩
  rcases hfreq with rfl | rfl <;> rfl

/-- Witness of C6: the poll of `createNamespace` in the eventhub sample, which
passes 10 seconds. -/
theorem poll_interval_ten_witness :
    Event.poll "armeventhub.NamespacesClient" "BeginCreateOrUpdate" context.Background (some 10) ∈
        (Sample.main .eventhub_namespace happyWorld).trace ∧
      (some 10 : Option Nat).getD defaultPollInterval = 10 :=
  ⟨by decide,
    (poll_interval_ten .eventhub_namespace happyWorld
      (.poll "armeventhub.NamespacesClient" "BeginCreateOrUpdate" context.Background (some 10))
      (by decide) "armeventhub.NamespacesClient" "BeginCreateOrUpdate" context.Background
      (some 10) rfl).2⟩

/-! ## Synchronous helpers (C7) -/

/-- C7, counterexample: the get helper `getAppResource` of the apps sample in a
world where the constructor of the apps client reports an error.  The helper
returns that error and issues no client call at all, although the call would
succeed. -/
theorem sync_helper_one_call_counterexample :
    (Apps.getAppResource brokenClientWorld "x" context.Background ⟨1⟩).trace = [] ∧
      (Apps.getAppResource brokenClientWorld "x" context.Background ⟨1⟩).out =
        .ok (none, some ⟨"InvalidClientOptions"⟩) ∧
      brokenClientWorld.send "armappplatform.AppsClient" "Get" = .ok okResource := by
  refine ⟨rfl, rfl, rfl⟩

/-- C7 (amended). For every synchronous helper of every sample: when the
client constructor of the helper reports an error, the helper returns a nil
resource with that error and issues no call; otherwise it issues exactly one
client call, on its own operation, and no poll, and returns the resource
carried by the response with a nil error when the call succeeds, a nil
resource with the error of the call when it fails.  The helpers of the oldest
SDK generation have no fallible constructor and return the pointer held by
the response. -/
theorem sync_helper_one_call (s : Sample) (a : Args) (A : Step) (hA : A ∈ s.script.steps a)
    (w : World) (d : String) :
    (A.kind = .sync →
      (∀ e, ctorError w A.ctor = some e →
        A.helper w d = ⟨[], .ok (.resource none, some e)⟩) ∧
      (ctorError w A.ctor = none →
        (∃ ev, (A.helper w d).trace = [ev] ∧ ev.isCall = true ∧ ev.op? = some A.op) ∧
        (∀ r, w.send A.client A.method = .ok r →
          (A.helper w d).out = .ok (.resource (some r), none)) ∧
        (∀ e, w.send A.client A.method = .error e →
          (A.helper w d).out = .ok (.resource none, some e)))) ∧
    (A.kind = .syncPtr →
      (∃ ev, (A.helper w d).trace = [ev] ∧ ev.isCall = true ∧ ev.op? = some A.op) ∧
      (∀ r, w.sendPtr A.client A.method = .ok r →
        (A.helper w d).out = .ok (.resource r, none)) ∧
      (∀ e, w.sendPtr A.client A.method = .error e →
        (A.helper w d).out = .ok (.resource none, some e))) ∧
    (A.kind = .syncList →
      (∃ ev, (A.helper w d).trace = [ev] ∧ ev.isCall = true ∧ ev.op? = some A.op) ∧
      (∀ r, w.sendList A.client A.method = .ok r →
        (A.helper w d).out = .ok (.sizes r, none)) ∧
      (∀ e, w.sendList A.client A.method = .error e →
        (A.helper w d).out = .ok (.sizes none, some e))) := by
  have hF := s.wf.formed a A (by simp [Script.sequence, hA])
  obtain ⟨c, f, args, payload, raw, hc, hf, hp, hw⟩ := hF d
  rw [hw w]
  refine ⟨?_, ?_, ?_⟩
  · intro hk
    simp only [hk, syncForm, hc]
    constructor
    · intro e he
      simp only [he]
    · intro he
      simp only [he]
      refine ⟨⟨_, rfl, rfl, by simp [Event.op?, Step.op, hc]⟩, ?_, ?_⟩
      · intro r hr; rw [hr]
      · intro e hr; rw [hr]
  · intro hk
    simp only [hk, syncPtrForm, hc]
    refine ⟨⟨_, rfl, rfl, by simp [Event.op?, Step.op, hc]⟩, ?_, ?_⟩
    · intro r hr; rw [hr]
    · intro e hr; rw [hr]
  · intro hk
    simp only [hk, syncListForm, hc]
    refine ⟨⟨_, rfl, rfl, by simp [Event.op?, Step.op, hc]⟩, ?_, ?_⟩
    · intro r hr; rw [hr]
    · intro e hr; rw [hr]

/-- Witness of C7 (amended): `getAppResource` of the apps sample, with a
constructor that reports an error. -/
theorem sync_helper_one_call_witness :
    Apps.script.stepAt (args0 false) 3 ∈ (Sample.script .apps).steps (args0 false) ∧
      (Apps.script.stepAt (args0 false) 3).kind = .sync ∧
      ctorError brokenClientWorld (Apps.script.stepAt (args0 false) 3).ctor =
        some ⟨"InvalidClientOptions"⟩ ∧
      (Apps.script.stepAt (args0 false) 3).helper brokenClientWorld "" =
        ⟨[], .ok (.resource none, some ⟨"InvalidClientOptions"⟩)⟩ :=
  ⟨by simp [Script.stepAt, Script.sequence, Sample.script, Apps.script], rfl, rfl,
    ((sync_helper_one_call .apps (args0 false) (Apps.script.stepAt (args0 false) 3)
      (by simp [Script.stepAt, Script.sequence, Sample.script, Apps.script])
      brokenClientWorld "").1 rfl).1 ⟨"InvalidClientOptions"⟩ rfl⟩

/-! ## The order of the steps (C8) -/

theorem Sample.names_eq (s : Sample) (a : Args) :
    (s.script.sequence a).map Step.name = s.names := by
  cases s <;> rfl

theorem Sample.dependsOn_ordered (s : Sample) :
    ∀ cp ∈ dependsOn s, s.names.indexOf cp.2 < s.names.indexOf cp.1 ∧
      s.names.indexOf cp.1 < s.names.length ∧
      s.names.getD (s.names.indexOf cp.2) "" = cp.2 ∧
      s.names.getD (s.names.indexOf cp.1) "" = cp.1 := by
  cases s <;> decide

theorem Sample.dependsOn_kind (s : Sample) (a : Args) :
    ∀ cp ∈ dependsOn s, (s.script.stepAt a (s.names.indexOf cp.2)).kind ≠ .pager := by
  cases s <;> simp [dependsOn, Sample.names, Script.stepAt, Script.sequence, Sample.script,
    AvailabilitySet.script, ActionGroup.script, ApimanagementService.script, TaskRun.script,
    EventhubNamespace.script, Cassandra.script, ApiTagDescription.script,
    VirtualNetworkRule.script, Apps.script, ServerKey.script, List.indexOf_cons]

theorem Script.stepAt_eq (sc : Script) (a : Args) (i : Nat) (hi : i < (sc.sequence a).length) :
    sc.stepAt a i = (sc.sequence a)[i] := by
  unfold Script.stepAt
  rw [List.drop_eq_getElem_cons hi]
  rfl

theorem Sample.stepAt_name (s : Sample) (a : Args) (i : Nat) (hi : i < s.names.length) :
    (s.script.stepAt a i).name = s.names.getD i "" := by
  have hlen : (s.script.sequence a).length = s.names.length := by
    rw [← s.names_eq a, List.length_map]
  rw [s.script.stepAt_eq a i (hlen ▸ hi)]
  simp only [← s.names_eq a]
  rw [List.getD_eq_getElem _ _ (by simpa using hlen ▸ hi)]
  simp

/-- Two positions of a list split it around their elements. -/
theorem split_at_two {α : Type} (l : List α) (i j : Nat) (hij : i < j) (hj : j < l.length) :
    ∃ pre mid post, l = pre ++ l[i] :: (mid ++ l[j] :: post) := by
  refine ⟨l.take i, (l.drop (i + 1)).take (j - (i + 1)), l.drop (j + 1), ?_⟩
  have h1 : l = l.take i ++ l.drop i := (List.take_append_drop i l).symm
  have h2 : l.drop i = l[i] :: l.drop (i + 1) := List.drop_eq_getElem_cons (by omega)
  have h3 : l.drop (i + 1) =
      (l.drop (i + 1)).take (j - (i + 1)) ++ (l.drop (i + 1)).drop (j - (i + 1)) :=
    (List.take_append_drop _ _).symm
  have h4 : (l.drop (i + 1)).drop (j - (i + 1)) = l.drop j := by
    rw [List.drop_drop]
    congr 1
    omega
  have h5 : l.drop j = l[j] :: l.drop (j + 1) := List.drop_eq_getElem_cons hj
  rw [h4, h5] at h3
  rw [h2] at h1
  conv_lhs => rw [h1]
  rw [← h3]

/-- In a run whose setup went through, the call of a step that is not the pager
step comes before every event of the operation of a later step of the main
sequence. -/
theorem Script.precedes_stepAt (sc : Script) (hwf : sc.WF) (w : World) (a : Args)
    (hsetup : (sc.setup w).out = .ok a) (i j : Nat) (hij : i < j)
    (hj : j < (sc.sequence a).length) (hk : (sc.stepAt a i).kind ≠ .pager) :
    Precedes (fun ev => ev.isCall = true ∧ ev.op? = some (sc.stepAt a i).op)
      (fun ev => ev.op? = some (sc.stepAt a j).op) (sc.run w).trace := by
  rw [sc.stepAt_eq a i (by omega), sc.stepAt_eq a j hj] at *
  obtain ⟨pre, mid, post, hseq⟩ := split_at_two (sc.sequence a) i j hij hj
  generalize (sc.sequence a)[i] = A at hseq hk ⊢
  generalize (sc.sequence a)[j] = B at hseq ⊢
  obtain ⟨post1, hsteps⟩ := sc.steps_of_sequence a hseq
  have hne := nodup_split (hwf.distinct a) hseq
  obtain ⟨hF, hP, _, _⟩ := sc.formed_steps hwf a
  rcases sc.run_cases hwf w with ⟨m, hm, _⟩ | ⟨a1, ha1, hrun⟩
  · rw [hsetup] at hm; cases hm
  · rw [hsetup] at ha1; cases ha1
    rw [hrun]
    refine Precedes.append_right (fun ev hev hq => ?_) ?_
    · rw [(sc.setup_op hwf w ev hev).1] at hq; cases hq
    · rw [hsteps] at hF hP ⊢
      refine runSteps_precedes_of w _ pre A post1 hF hP hk _ ?_ none
      intro S hS ev hl hq
      exact hne S hS (hl.op_eq hq).symm

/-- C8. In every run of every sample whose setup went through: the first
remote event is the call that creates the resource group, and for every
dependency of the sample (a step and a step it depends on, by name) both steps
are in the main sequence and every remote event of the dependent step comes
after the call of the step it depends on. -/
theorem steps_follow_dependencies (s : Sample) (w : World) (a : Args)
    (hsetup : (s.script.setup w).out = .ok a) :
    (s.script.stepAt a 0).name = "createResourceGroup" ∧
      (∀ xs ev ys, (s.main w).trace = xs ++ ev :: ys → (∀ e ∈ xs, e.op? = none) →
        ev.op? ≠ none → ev.isCall = true ∧ ev.op? = some (s.script.stepAt a 0).op) ∧
      ∀ cp ∈ dependsOn s,
        (s.script.stepAt a (s.names.indexOf cp.2)).name = cp.2 ∧
        (s.script.stepAt a (s.names.indexOf cp.1)).name = cp.1 ∧
        Precedes
          (fun ev => ev.isCall = true ∧
            ev.op? = some (s.script.stepAt a (s.names.indexOf cp.2)).op)
          (fun ev => ev.op? = some (s.script.stepAt a (s.names.indexOf cp.1)).op)
          (s.main w).trace := by
  have hwf := s.wf
  rw [s.main_eq_run]
  have hlen : (s.script.sequence a).length = s.names.length := by
    rw [← s.names_eq a, List.length_map]
  obtain ⟨A, rest, hsteps, hname, hkA⟩ := hwf.first a
  have h0 : s.script.stepAt a 0 = A := by
    simp [Script.stepAt, Script.sequence, hsteps]
  refine ⟨by rw [h0, hname], ?_, ?_⟩
  · intro xs ev ys ht hxs hev
    rw [h0]
    obtain ⟨hF, hP, _, _⟩ := s.script.formed_steps hwf a
    rcases s.script.run_cases hwf w with ⟨m, hm, _⟩ | ⟨a1, ha1, hrun⟩
    · rw [hsetup] at hm; cases hm
    · rw [hsetup] at ha1; cases ha1
      rw [hrun] at ht
      dsimp only at ht
      have hset : ∀ e ∈ (s.script.setup w).trace, ¬ e.op? ≠ none :=
        fun e he => not_not.2 (s.script.setup_op hwf w e he).1
      rw [hsteps] at ht hF hP
      rcases runSteps_first (hF A (List.mem_cons_self _ _)) (hP A (List.mem_cons_self _ _)) hkA w
          (s.script.finish w a) none rest with h | ⟨m, h⟩ | ⟨ev0, t, h, hc, ho⟩
      · rw [h, List.append_nil] at ht
        exact absurd hev (hset ev (by rw [ht]; simp))
      · rw [h] at ht
        have hmem : ev ∈ (s.script.setup w).trace ++ [Event.fatal m] := by rw [ht]; simp
        rcases List.mem_append.1 hmem with h1 | h1
        · exact absurd hev (hset ev h1)
        · simp only [List.mem_singleton] at h1
          rw [h1] at hev
          exact absurd rfl hev
      · rw [h] at ht
        have hP0 : (fun e : Event => e.op? ≠ none) ev0 := by simp [ho]
        obtain ⟨_, he⟩ := first_unique (P := fun e : Event => e.op? ≠ none) ht hset hP0
          (fun e he => not_not.2 (hxs e he)) hev
        rw [← he]
        exact ⟨hc, ho⟩
  · intro cp hcp
    obtain ⟨hij, hj, hn2, hn1⟩ := s.dependsOn_ordered cp hcp
    refine ⟨?_, ?_, ?_⟩
    · rw [s.stepAt_name a _ (by omega), hn2]
    · rw [s.stepAt_name a _ hj, hn1]
    · exact s.script.precedes_stepAt hwf w a hsetup _ _ hij (hlen ▸ hj) (s.dependsOn_kind a cp hcp)

/-- Witness of C8: the cassandra sample in the happy world; the keyspace is
created after the database account. -/
theorem steps_follow_dependencies_witness :
    (Cassandra.script.setup happyWorld).out = .ok (args0 false) ∧
      ("createCassandraKeyspace", "createDatabaseAccount") ∈ dependsOn .cassandra ∧
      Precedes
        (fun ev => ev.isCall = true ∧
          ev.op? = some ("armcosmos.DatabaseAccountsClient", "BeginCreateOrUpdate"))
        (fun ev => ev.op? = some ("armcosmos.CassandraResourcesClient",
          "BeginCreateUpdateCassandraKeyspace"))
        (Sample.main .cassandra happyWorld).trace :=
  ⟨rfl, by decide,
    ((steps_follow_dependencies .cassandra happyWorld (args0 false) rfl).2.2
      ("createCassandraKeyspace", "createDatabaseAccount") (by decide)).2.2⟩

/-! ## What a dependent step receives (C9) -/

/-- In a run whose setup went through, every event of the operation of a step
that directly follows another one comes from its helper, called with the
argument computed from the logged result of that other step, whose helper
returned no error. -/
theorem Script.dataflow (sc : Script) (hwf : sc.WF) (w : World) (a : Args)
    (hsetup : (sc.setup w).out = .ok a) (pre : List Step) (A B : Step) (post : List Step)
    (hsteps : sc.steps a = pre ++ A :: B :: post) :
    ∀ ev ∈ (sc.run w).trace, ev.op? = some B.op →
      ∃ dA ret r d, A.error a.ctx w = none ∧ (A.helper w dA).out = .ok (ret, none) ∧
        (A.report ret).out = .ok r ∧ (B.arg r).out = .ok d ∧ ev ∈ (B.helper w d).trace := by
  intro ev hev ho
  obtain ⟨hF, hP, hFc, hPc⟩ := sc.formed_steps hwf a
  have hn := hwf.distinct a
  have hseq : sc.sequence a = pre ++ A :: B :: (post ++ [sc.cleanup a]) := by
    simp [Script.sequence, hsteps]
  rw [hseq] at hn
  simp only [List.map_append, List.map_cons, List.map_nil] at hn
  have hn1 : ∀ S ∈ pre ++ A :: post, S.op ≠ B.op := by
    intro S hS hop
    rw [List.nodup_append] at hn
    obtain ⟨_, hn2, hn3⟩ := hn
    simp only [List.mem_append, List.mem_cons] at hS
    rcases hS with hS | rfl | hS
    · exact hn3 (List.mem_map_of_mem _ hS) (by simp [hop])
    · simp only [List.nodup_cons, List.mem_cons, List.mem_append, List.mem_map,
        List.mem_singleton, not_or] at hn2
      exact hn2.1.1 hop
    · simp only [List.nodup_cons, List.mem_cons, List.mem_append, List.mem_map,
        List.mem_singleton, not_or, not_exists, not_and] at hn2
      exact hn2.2.1.1 S hS hop
  have hnc : (sc.cleanup a).op ≠ B.op := by
    intro hop
    rw [List.nodup_append] at hn
    obtain ⟨_, hn2, _⟩ := hn
    simp only [List.nodup_cons, List.mem_cons, List.mem_append, List.mem_map,
      List.mem_singleton, not_or] at hn2
    exact hn2.2.1.2.1 hop.symm
  rcases sc.run_cases hwf w with ⟨m, hm, _⟩ | ⟨a1, ha1, hrun⟩
  · rw [hsetup] at hm; cases hm
  · rw [hsetup] at ha1; cases ha1
    rw [hrun] at hev
    rcases List.mem_append.1 hev with hev | hev
    · rw [(sc.setup_op hwf w ev hev).1] at ho; cases ho
    · rw [hsteps] at hev hF hP
      refine runSteps_dataflow w (sc.finish w a) pre A B post hF hP hn1 ?_ none ev hev ho
      intro e he hoe
      rw [sc.finish_eq w a] at he
      split at he
      · simp only [List.mem_cons] at he
        rcases he with he | he
        · rw [he] at hoe; cases hoe
        · rcases runSteps_events w (pure ()) [sc.cleanup a] hFc hPc none e he with
            ⟨S, hS, hl⟩ | hk
          · simp only [List.mem_singleton] at hS
            subst hS
            exact hnc (hl.1.op_eq hoe).symm
          · simp [Act.pure_eq] at hk
      · simp only [List.mem_singleton] at he
        rw [he] at hoe; cases hoe

/-- A synchronous helper that returns no error returns the resource of the
response of its call. -/
theorem Step.Formed.sync_ok {A : Step} {ctx : Context} (hF : A.Formed ctx) (hk : A.kind = .sync)
    {w : World} {d : String} {ret : Ret} (h : (A.helper w d).out = .ok (ret, none)) :
    ∃ r, w.send A.client A.method = .ok r ∧ ret = .resource (some r) := by
  obtain ⟨c, f, args, payload, raw, hc, hf, hp, hw⟩ := hF d
  rw [hw w] at h
  simp only [hk, syncForm, hc] at h
  split at h
  · simp at h
  · cases hs : w.send A.client A.method with
    | error e => simp [hs] at h
    | ok r =>
      simp only [hs, Except.ok.injEq, Prod.mk.injEq, and_true] at h
      exact ⟨r, rfl, h.symm⟩

/-- An asynchronous helper that returns no error returns the terminal result of
the poll of the operation its call began. -/
theorem Step.Formed.async_ok {A : Step} {ctx : Context} (hF : A.Formed ctx)
    (hk : A.kind = .async) {w : World} {d : String} {ret : Ret}
    (h : (A.helper w d).out = .ok (ret, none)) :
    ∃ statuses r, ctorError w A.ctor = none ∧ w.begin A.client A.method = .ok statuses ∧
      pollResult A.client A.method ctx statuses = .ok r ∧ ret = .resource (some r) := by
  obtain ⟨c, f, args, payload, raw, hc, hf, hp, hw⟩ := hF d
  rw [hw w] at h
  simp only [hk, asyncForm, hc] at h
  cases hctor : ctorError w A.ctor with
  | some e => simp [hctor] at h
  | none =>
    simp only [hctor] at h
    cases hb : w.begin A.client A.method with
    | error e => simp [hb] at h
    | ok statuses =>
      simp only [hb] at h
      rw [pollState_result _ ctx f hf] at h
      cases hr : pollResult A.client A.method ctx statuses with
      | error e =>
        simp only [pollResult] at hr
        simp [hr] at h
      | ok r =>
        have hr1 := hr
        simp only [pollResult] at hr1
        simp only [hr1, Except.ok.injEq, Prod.mk.injEq, and_true] at h
        exact ⟨statuses, r, rfl, rfl, hr, h.symm⟩

/-- The only call of an asynchronous helper is its Begin call. -/
theorem asyncForm_calls (w : World) (ctor : Option String) (c : Client) (method : String)
    (ctx : Context) (f : Option Nat) (args : List String) (payload : Payload) :
    ∀ ev ∈ (asyncForm w ctor c method ctx f args payload).trace, ev.isCall = true →
      ev = .call c method ctx args payload := by
  intro ev hev hcall
  unfold asyncForm at hev
  split at hev
  · simp at hev
  · split at hev
    · simpa using hev
    · simp only [List.mem_cons] at hev
      rcases hev with h | h
      · exact h
      · rcases pollState_events _ _ _ ev h with h | h | ⟨n, h⟩ <;> rw [h] at hcall <;> cases hcall

/-- The logging of a result and the argument taken from it: the result is a
resource and the argument is its ID. -/
theorem reportID_idArg {label : String} {ret : Ret} {r : Option Resource} {d : String}
    (h1 : (reportID label ret).out = .ok r) (h2 : (idArg r).out = .ok d) :
    ∃ x, ret = .resource (some x) ∧ x.ID = some d := by
  rcases r with _ | x
  · simp [idArg, deref, Act.bind_eq, Act.bind] at h2
  · cases hx : x.ID with
    | none => simp [idArg, deref, Act.bind_eq, Act.bind, hx] at h2
    | some i =>
      simp [idArg, deref, Act.bind_eq, Act.bind, hx] at h2
      subst h2
      cases ret with
      | resource r0 =>
        rcases r0 with _ | y
        · simp [reportID, deref, Act.bind_eq, Act.bind] at h1
        · cases hy : y.ID with
          | none => simp [reportID, deref, Act.bind_eq, Act.bind, hy] at h1
          | some j =>
            simp [reportID, deref, Act.bind_eq, Act.bind, hy, log.Println, emit,
              Act.pure_eq] at h1
            subst h1
            exact ⟨y, rfl, hx⟩
      | _ => simp [reportID, Act.pure_eq] at h1

theorem ServerKey.createServerKey_form (w : World) (a : Args) (keyID : String) :
    asResource (createServerKey w a.subscriptionID a.ctx a.conn keyID) =
      asyncForm w none ⟨"armpostgresql.ServerKeysClient", a.subscriptionID, a.conn⟩
        "BeginCreateOrUpdate" a.ctx (some 10) [serverName, serverKeyName, resourceGroupName]
        [("Properties.ServerKeyType", "ServerKeyTypeAzureKeyVault"),
         ("Properties.URI", keyID)] := by
  simp only [createServerKey, asResource, asyncForm, ctorError, Client.begin, Client.new,
    Act.bind_eq, Act.bind, Option.bind, Poller.PollUntilDone]
  rcases w.begin "armpostgresql.ServerKeysClient" "BeginCreateOrUpdate" with e | sc
  · rfl
  · simp only [Except.map]
    generalize (Poller.pollState (⟨"armpostgresql.ServerKeysClient", "BeginCreateOrUpdate", sc,
      none⟩ : Poller Resource) a.ctx (some 10)) = r
    rcases r with ⟨t, _ | _, p⟩ <;> simp [Act.pure_eq]

theorem VirtualNetworkRule.createVirtualNetworkRule_form (w : World) (a : Args)
    (subnetID : String) :
    asResource (createVirtualNetworkRule w a.subscriptionID a.ctx a.conn.cred subnetID) =
      asyncForm w (some "armpostgresql.VirtualNetworkRulesClient")
        ⟨"armpostgresql.VirtualNetworkRulesClient", a.subscriptionID, ⟨a.conn.cred, false⟩⟩
        "BeginCreateOrUpdate" a.ctx none [resourceGroupName, serverName, virtualNetworkRuleName]
        [("Properties.VirtualNetworkSubnetID", subnetID),
         ("Properties.IgnoreMissingVnetServiceEndpoint", "true")] := by
  simp only [createVirtualNetworkRule, asResource, asyncForm, ctorError, Client.begin,
    Client.newE, Act.bind_eq, Act.bind, Option.bind, Poller.PollUntilDone]
  rcases w.construct "armpostgresql.VirtualNetworkRulesClient" with _ | e
  · dsimp only
    rcases w.begin "armpostgresql.VirtualNetworkRulesClient" "BeginCreateOrUpdate" with e | sc
    · rfl
    · simp only [Except.map]
      generalize (Poller.pollState (⟨"armpostgresql.VirtualNetworkRulesClient",
        "BeginCreateOrUpdate", sc, none⟩ : Poller Resource) a.ctx none) = r
      rcases r with ⟨t, _ | _, p⟩ <;> simp [Act.pure_eq]
  · rfl

theorem asResource_out {y : Act (Option Resource × Option Error)} {r : Option Resource}
    {e : Option Error} (h : (asResource y).out = .ok (.resource r, e)) : y.out = .ok (r, e) := by
  rcases y with ⟨t, _ | ⟨r1, e1⟩⟩
  · simp [asResource, Act.bind_eq, Act.bind] at h
  · simp only [asResource, Act.bind_eq, Act.bind, Act.pure_eq, Except.ok.injEq, Prod.mk.injEq,
      Ret.resource.injEq] at h
    rw [h.1, h.2]

/-- C9. In a run of the server-key sample whose setup went through, every event
of the create-server-key operation comes after `createKey` returned a key
without an error, the key being the response of its call, and the Begin call
carries the ID of that key as the URI of its payload; when `createKey` returns
an error the operation is not issued at all.  Likewise in the
virtual-network-rule sample: every event of the create-rule operation comes
after `createSubnet` returned the terminal result of its poll without an
error, the Begin call carries the ID of that subnet as
VirtualNetworkSubnetID, and when `createSubnet` returns an error the operation
is not issued at all. -/
theorem dependent_step_gets_terminal_result (w : World) (a : Args) :
    ((ServerKey.script.setup w).out = .ok a →
      (∀ ev ∈ (ServerKey.main w).trace,
        ev.op? = some ("armpostgresql.ServerKeysClient", "BeginCreateOrUpdate") →
        ∃ key id, w.send "armkeyvault.KeysClient" "CreateIfNotExist" = .ok key ∧
          (ServerKey.createKey w a.subscriptionID a.ctx a.conn).out = .ok (some key, none) ∧
          key.ID = some id ∧
          (ev.isCall = true → ∃ c ctx args, ev = .call c "BeginCreateOrUpdate" ctx args
            [("Properties.ServerKeyType", "ServerKeyTypeAzureKeyVault"),
             ("Properties.URI", id)])) ∧
      (∀ r e, (ServerKey.createKey w a.subscriptionID a.ctx a.conn).out = .ok (r, some e) →
        ∀ ev ∈ (ServerKey.main w).trace,
          ev.op? ≠ some ("armpostgresql.ServerKeysClient", "BeginCreateOrUpdate"))) ∧
    ((VirtualNetworkRule.script.setup w).out = .ok a →
      (∀ ev ∈ (VirtualNetworkRule.main w).trace,
        ev.op? = some ("armpostgresql.VirtualNetworkRulesClient", "BeginCreateOrUpdate") →
        ∃ statuses subnet id,
          w.begin "armnetwork.SubnetsClient" "BeginCreateOrUpdate" = .ok statuses ∧
          pollResult "armnetwork.SubnetsClient" "BeginCreateOrUpdate" context.Background
            statuses = .ok subnet ∧
          (VirtualNetworkRule.createSubnet w a.subscriptionID a.ctx a.conn.cred).out =
            .ok (some subnet, none) ∧
          subnet.ID = some id ∧
          (ev.isCall = true → ∃ c ctx args, ev = .call c "BeginCreateOrUpdate" ctx args
            [("Properties.VirtualNetworkSubnetID", id),
             ("Properties.IgnoreMissingVnetServiceEndpoint", "true")])) ∧
      (∀ r e,
        (VirtualNetworkRule.createSubnet w a.subscriptionID a.ctx a.conn.cred).out =
          .ok (r, some e) →
        ∀ ev ∈ (VirtualNetworkRule.main w).trace,
          ev.op? ≠ some ("armpostgresql.VirtualNetworkRulesClient", "BeginCreateOrUpdate"))) := by
  constructor
  · intro hsetup
    have hwf : ServerKey.script.WF := Sample.wf .server_key
    have hm : ServerKey.main w = ServerKey.script.run w := Sample.main_eq_run .server_key w
    have hFA : (ServerKey.script.stepAt a 3).Formed a.ctx :=
      hwf.formed a _ (by simp [Script.stepAt, Script.sequence, ServerKey.script])
    have hflow := ServerKey.script.dataflow hwf w a hsetup
      [ServerKey.script.stepAt a 0, ServerKey.script.stepAt a 1, ServerKey.script.stepAt a 2]
      (ServerKey.script.stepAt a 3) (ServerKey.script.stepAt a 4) [] rfl
    have main1 : ∀ ev ∈ (ServerKey.main w).trace,
        ev.op? = some ("armpostgresql.ServerKeysClient", "BeginCreateOrUpdate") →
        ∃ key id, w.send "armkeyvault.KeysClient" "CreateIfNotExist" = .ok key ∧
          (ServerKey.createKey w a.subscriptionID a.ctx a.conn).out = .ok (some key, none) ∧
          key.ID = some id ∧
          (ev.isCall = true → ∃ c ctx args, ev = .call c "BeginCreateOrUpdate" ctx args
            [("Properties.ServerKeyType", "ServerKeyTypeAzureKeyVault"),
             ("Properties.URI", id)]) := by
      intro ev hev ho
      rw [hm] at hev
      obtain ⟨dA, ret, r, d, _, hout, hrep, harg, hmem⟩ := hflow ev hev ho
      obtain ⟨x, hret, hx⟩ := reportID_idArg hrep harg
      obtain ⟨r0, hsend, hret0⟩ := hFA.sync_ok rfl hout
      rw [hret] at hret0 hout
      simp only [Ret.resource.injEq, Option.some.injEq] at hret0
      subst hret0
      refine ⟨x, d, hsend, asResource_out hout, hx, fun hcall => ?_⟩
      have hmem1 : ev ∈ (asResource (ServerKey.createServerKey w a.subscriptionID a.ctx a.conn
        d)).trace := hmem
      rw [ServerKey.createServerKey_form] at hmem1
      exact ⟨_, _, _, asyncForm_calls _ _ _ _ _ _ _ _ ev hmem1 hcall⟩
    refine ⟨main1, ?_⟩
    intro r e hfail ev hev ho
    obtain ⟨key, id, _, hok, _⟩ := main1 ev hev ho
    rw [hok] at hfail
    cases hfail
  · intro hsetup
    have hwf : VirtualNetworkRule.script.WF := Sample.wf .virtual_network_rule
    have hctx := hwf.setup_ctx w a hsetup
    have hm : VirtualNetworkRule.main w = VirtualNetworkRule.script.run w :=
      Sample.main_eq_run .virtual_network_rule w
    have hFA : (VirtualNetworkRule.script.stepAt a 3).Formed a.ctx :=
      hwf.formed a _ (by simp [Script.stepAt, Script.sequence, VirtualNetworkRule.script])
    have hflow := VirtualNetworkRule.script.dataflow hwf w a hsetup
      [VirtualNetworkRule.script.stepAt a 0, VirtualNetworkRule.script.stepAt a 1,
        VirtualNetworkRule.script.stepAt a 2]
      (VirtualNetworkRule.script.stepAt a 3) (VirtualNetworkRule.script.stepAt a 4) [] rfl
    have main1 : ∀ ev ∈ (VirtualNetworkRule.main w).trace,
        ev.op? = some ("armpostgresql.VirtualNetworkRulesClient", "BeginCreateOrUpdate") →
        ∃ statuses subnet id,
          w.begin "armnetwork.SubnetsClient" "BeginCreateOrUpdate" = .ok statuses ∧
          pollResult "armnetwork.SubnetsClient" "BeginCreateOrUpdate" context.Background
            statuses = .ok subnet ∧
          (VirtualNetworkRule.createSubnet w a.subscriptionID a.ctx a.conn.cred).out =
            .ok (some subnet, none) ∧
          subnet.ID = some id ∧
          (ev.isCall = true → ∃ c ctx args, ev = .call c "BeginCreateOrUpdate" ctx args
            [("Properties.VirtualNetworkSubnetID", id),
             ("Properties.IgnoreMissingVnetServiceEndpoint", "true")]) := by
      intro ev hev ho
      rw [hm] at hev
      obtain ⟨dA, ret, r, d, _, hout, hrep, harg, hmem⟩ := hflow ev hev ho
      obtain ⟨x, hret, hx⟩ := reportID_idArg hrep harg
      obtain ⟨statuses, r0, _, hbegin, hpoll, hret0⟩ := hFA.async_ok rfl hout
      rw [hret] at hret0 hout
      simp only [Ret.resource.injEq, Option.some.injEq] at hret0
      subst hret0
      rw [hctx] at hpoll
      refine ⟨statuses, x, d, hbegin, hpoll, asResource_out hout, hx, fun hcall => ?_⟩
      have hmem1 : ev ∈ (asResource (VirtualNetworkRule.createVirtualNetworkRule w
        a.subscriptionID a.ctx a.conn.cred d)).trace := hmem
      rw [VirtualNetworkRule.createVirtualNetworkRule_form] at hmem1
      exact ⟨_, _, _, asyncForm_calls _ _ _ _ _ _ _ _ ev hmem1 hcall⟩
    refine ⟨main1, ?_⟩
    intro r e hfail ev hev ho
    obtain ⟨_, _, _, _, _, hok, _⟩ := main1 ev hev ho
    rw [hok] at hfail
    cases hfail

/-- Witness of C9: the server-key sample in the happy world; the Begin call of
the server key is in the trace, so `createKey` returned a key without an
error. -/
theorem dependent_step_gets_terminal_result_witness :
    (ServerKey.script.setup happyWorld).out = .ok args1 ∧
      serverKeyBegin ∈ (ServerKey.main happyWorld).trace ∧
      ∃ key id, happyWorld.send "armkeyvault.KeysClient" "CreateIfNotExist" = .ok key ∧
        (ServerKey.createKey happyWorld args1.subscriptionID args1.ctx args1.conn).out =
          .ok (some key, none) ∧
        key.ID = some id ∧
        (serverKeyBegin.isCall = true →
          ∃ c ctx args, serverKeyBegin = .call c "BeginCreateOrUpdate" ctx args
            [("Properties.ServerKeyType", "ServerKeyTypeAzureKeyVault"),
             ("Properties.URI", id)]) :=
  ⟨rfl, by decide,
    ((dependent_step_gets_terminal_result happyWorld args1).1 rfl).1 serverKeyBegin
      (by decide) rfl⟩

/-! ## Teardown (C10) -/

theorem Sample.cleanup_op (s : Sample) (a : Args) :
    (s.script.cleanup a).op = ("armresources.ResourceGroupsClient", "BeginDelete") := by
  cases s <;> rfl

theorem Sample.steps_not_delete (s : Sample) (a : Args) :
    ∀ A ∈ s.script.steps a, A.method ≠ "BeginDelete" := by
  cases s <;> simp [Sample.script, AvailabilitySet.script, ActionGroup.script,
    ApimanagementService.script, TaskRun.script, EventhubNamespace.script, Cassandra.script,
    ApiTagDescription.script, VirtualNetworkRule.script, Apps.script, ServerKey.script]

/-- No step before the clean-up works on the operation of the clean-up. -/
theorem Script.steps_ne_cleanup (sc : Script) (hwf : sc.WF) (a : Args) :
    ∀ S ∈ sc.steps a, S.op ≠ (sc.cleanup a).op := by
  intro S hS
  obtain ⟨pre, post, hsp⟩ := List.append_of_mem hS
  have hseq : sc.sequence a = pre ++ S :: (post ++ sc.cleanup a :: []) := by
    simp [Script.sequence, hsp]
  exact nodup_split (hwf.distinct a) hseq S (by simp)

/-- In a run whose setup went through, an event of the operation of the
clean-up shows that no helper before it returned an error. -/
theorem Script.cleanup_after_success (sc : Script) (hwf : sc.WF) (w : World) (a : Args)
    (hsetup : (sc.setup w).out = .ok a)
    (h : ∃ ev ∈ (sc.run w).trace, ev.op? = some (sc.cleanup a).op) :
    ∀ A ∈ sc.steps a, ¬ A.fails w := by
  obtain ⟨ev, hev, ho⟩ := h
  obtain ⟨hF, hP, _, _⟩ := sc.formed_steps hwf a
  rcases sc.run_cases hwf w with ⟨m, hm, _⟩ | ⟨a1, ha1, hrun⟩
  · rw [hsetup] at hm; cases hm
  · rw [hsetup] at ha1; cases ha1
    rw [hrun] at hev
    rcases runSteps_cases w (sc.finish w a) (sc.steps a) hF hP none with
      ⟨T, h, hR, hT, _⟩ | ⟨T, herr, _, _, _⟩
    · rw [hR] at hev
      rcases List.mem_append.1 hev with hev | hev
      · rw [(sc.setup_op hwf w ev hev).1] at ho; cases ho
      · obtain ⟨S, hS, hl⟩ := hT ev hev
        exact absurd (hl.1.op_eq ho).symm (sc.steps_ne_cleanup hwf a S hS)
    · intro A hA hf
      obtain ⟨e, he⟩ := (hF A hA).fails_iff w |>.1 hf
      rw [herr A hA] at he; cases he

/-- In a run whose setup went through, the call of every step other than the
pager step comes before every event of the operation of the clean-up. -/
theorem Script.calls_precede_cleanup (sc : Script) (hwf : sc.WF) (w : World) (a : Args)
    (hsetup : (sc.setup w).out = .ok a) (A : Step) (hA : A ∈ sc.steps a)
    (hk : A.kind ≠ .pager) :
    Precedes (fun ev => ev.isCall = true ∧ ev.op? = some A.op)
      (fun ev => ev.op? = some (sc.cleanup a).op) (sc.run w).trace := by
  obtain ⟨hF, hP, _, _⟩ := sc.formed_steps hwf a
  rcases sc.run_cases hwf w with ⟨m, hm, _⟩ | ⟨a1, ha1, hrun⟩
  · rw [hsetup] at hm; cases hm
  · rw [hsetup] at ha1; cases ha1
    rw [hrun]
    obtain ⟨pre, post, hsp⟩ := List.append_of_mem hA
    refine Precedes.append_right (fun ev hev hq => ?_) ?_
    · rw [(sc.setup_op hwf w ev hev).1] at hq; cases hq
    · have hne := sc.steps_ne_cleanup hwf a
      rw [hsp] at hF hP hne ⊢
      refine runSteps_precedes_of w _ pre A post hF hP hk _ ?_ none
      intro S hS ev hl hq
      refine hne S ?_ (hl.op_eq hq).symm
      simp only [List.mem_append, List.mem_singleton, List.mem_cons] at hS ⊢
      tauto

/-- C10. In every run of every sample whose setup went through: the only
delete operation of the sample is the delete of the resource group by the
clean-up (no step before it has a delete method, and every delete event in the
trace is on the resource-groups client); when a delete event is in the trace,
no helper before the clean-up returned an error in that run; and the call of
every step (the pager step apart, which issues none) comes before every delete
event. -/
theorem teardown_only_after_success (s : Sample) (w : World) (a : Args)
    (hsetup : (s.script.setup w).out = .ok a) :
    (∀ A ∈ s.script.steps a, A.method ≠ "BeginDelete") ∧
      (s.script.cleanup a).op = ("armresources.ResourceGroupsClient", "BeginDelete") ∧
      (∀ ev ∈ (s.main w).trace, ∀ c, ev.op? = some (c, "BeginDelete") →
        c = "armresources.ResourceGroupsClient") ∧
      ((∃ ev ∈ (s.main w).trace, ∃ c, ev.op? = some (c, "BeginDelete")) →
        ∀ A ∈ s.script.steps a, ¬ A.fails w) ∧
      ∀ A ∈ s.script.steps a, A.kind ≠ .pager →
        Precedes (fun ev => ev.isCall = true ∧ ev.op? = some A.op)
          (fun ev => ∃ c, ev.op? = some (c, "BeginDelete")) (s.main w).trace := by
  have hwf := s.wf
  rw [s.main_eq_run]
  have hdel : ∀ ev ∈ (s.script.run w).trace, ∀ c, ev.op? = some (c, "BeginDelete") →
      ev.op? = some (s.script.cleanup a).op := by
    intro ev hev c ho
    rcases s.script.run_events hwf w ev hev with h | h | ⟨a1, ha1, S, hS, hl⟩
    · rw [(s.script.setup_op hwf w ev h).1] at ho; cases ho
    · rw [h] at ho; cases ho
    · rw [hsetup] at ha1; cases ha1
      have hop := hl.1.op_eq ho
      simp only [Script.sequence, List.mem_append, List.mem_singleton] at hS
      rcases hS with hS | hS
      · exact absurd (congrArg Prod.snd hop).symm (s.steps_not_delete a S hS)
      · rw [ho, hop, hS]
  refine ⟨s.steps_not_delete a, s.cleanup_op a, ?_, ?_, ?_⟩
  · intro ev hev c ho
    have h := hdel ev hev c ho
    rw [ho, s.cleanup_op a] at h
    exact congrArg Prod.fst (Option.some.inj h)
  · rintro ⟨ev, hev, c, ho⟩
    exact s.script.cleanup_after_success hwf w a hsetup ⟨ev, hev, hdel ev hev c ho⟩
  · intro A hA hk xs ev ys ht hq
    obtain ⟨c, ho⟩ := hq
    have hev : ev ∈ (s.script.run w).trace := by rw [ht]; simp
    exact s.script.calls_precede_cleanup hwf w a hsetup A hA hk xs ev ys ht (hdel ev hev c ho)

/-- Witness of C10: the eventhub sample in the happy world, where the resource
group is deleted. -/
theorem teardown_only_after_success_witness :
    (EventhubNamespace.script.setup happyWorld).out = .ok (args0 false) ∧
      (∃ ev ∈ (Sample.main .eventhub_namespace happyWorld).trace,
        ∃ c, ev.op? = some (c, "BeginDelete")) ∧
      ∀ A ∈ EventhubNamespace.script.steps (args0 false), ¬ A.fails happyWorld :=
  ⟨rfl, ⟨.poll "armresources.ResourceGroupsClient" "BeginDelete" context.Background (some 10),
      by decide, _, rfl⟩,
    (teardown_only_after_success .eventhub_namespace happyWorld (args0 false) rfl).2.2.2.1
      ⟨.poll "armresources.ResourceGroupsClient" "BeginDelete" context.Background (some 10),
        by decide, _, rfl⟩⟩

/-! ## Failures of the teardown (C11, C12) -/

theorem Sample.cleanup_shape (s : Sample) (a : Args) :
    (s.script.cleanup a).arg = noArg ∧ (s.script.cleanup a).report = reportCleaned := by
  cases s <;> exact ⟨rfl, rfl⟩

/-- A status script whose polling loop ends in a result holds that result as a
`Succeeded` status. -/
theorem pollLoop_ok {α : Type} (c m : String) (i : Nat) (b : Option Nat)
    (sc : List (OperationStatus α)) (r : α) (h : (pollLoop c m i b sc).2 = .ok r) :
    .Succeeded r ∈ sc := by
  induction sc generalizing b with
  | nil => cases b <;> simp [pollLoop] at h
  | cons st rest ih =>
    cases st with
    | Running hint =>
      cases b with
      | none =>
        simp only [pollLoop] at h
        exact List.mem_cons_of_mem _ (ih _ h)
      | some b =>
        simp only [pollLoop] at h
        split at h
        · cases h
        · exact List.mem_cons_of_mem _ (ih _ h)
    | Succeeded r1 =>
      cases b <;> simp only [pollLoop, Except.ok.injEq] at h <;> subst h <;>
        exact List.mem_cons_self _ _
    | Failed e => cases b <;> simp [pollLoop] at h
    | Canceled => cases b <;> simp [pollLoop] at h

theorem pollResult_ok {α : Type} (c m : String) (ctx : Context) (sc : List (OperationStatus α))
    (r : α) (h : pollResult c m ctx sc = .ok r) : .Succeeded r ∈ sc := by
  simp only [pollResult, Poller.pollState] at h
  split at h
  · cases h
  · exact pollLoop_ok _ _ _ _ _ _ h

/-- The run of the clean-up alone: the events of its helper, then either the
`log.Fatal` of its error or the final log line. -/
theorem runSteps_cleanup {C : Step} {ctx : Context} (hF : C.Formed ctx) (hk : C.kind = .delete)
    (harg : C.arg = noArg) (hrep : C.report = reportCleaned) (w : World) :
    runSteps w (pure ()) none [C] =
      match C.error ctx w with
      | some e => ⟨(C.helper w "").trace ++ [.fatal e.msg], .error (.fatal e.msg)⟩
      | none => ⟨(C.helper w "").trace ++ [cleanedUp], .ok ()⟩ := by
  rw [runSteps_cons, harg, hrep]
  have harg0 : (noArg none).out = .ok "" := rfl
  rw [Act.bind_of_ok harg0]
  rcases hF.out w "" with ⟨ret, hret⟩ | ⟨hp, _⟩
  · rw [Act.bind_of_ok hret]
    cases he : C.error ctx w with
    | some e => simp [noArg, Act.pure_eq, log.Fatal]
    | none =>
      simp [noArg, Act.pure_eq, reportCleaned, log.Println, emit, runSteps, Act.bind_eq, Act.bind,
        cleanedUp]
  · rw [hk] at hp; cases hp

/-- A run that reads the keep-resources flag has gone through every step
without an error, and ends with the end of the script. -/
theorem Script.run_reaches (sc : Script) (hwf : sc.WF) (w : World) (a : Args)
    (hsetup : (sc.setup w).out = .ok a) (hflag : keepFlag ∈ (sc.run w).trace) :
    ∃ T, (∀ S ∈ sc.steps a, S.error a.ctx w = none) ∧
      (∀ ev ∈ T, ∃ S ∈ sc.steps a, S.LeavesIn w ev) ∧
      sc.run w = ⟨(sc.setup w).trace ++ (T ++ (sc.finish w a).trace), (sc.finish w a).out⟩ := by
  obtain ⟨hF, hP, _, _⟩ := sc.formed_steps hwf a
  rcases sc.run_cases hwf w with ⟨m, hm, _⟩ | ⟨a1, ha1, hrun⟩
  · rw [hsetup] at hm; cases hm
  · rw [hsetup] at ha1; cases ha1
    rcases runSteps_cases w (sc.finish w a) (sc.steps a) hF hP none with
      ⟨T, h, hR, hT, _⟩ | ⟨T, herr, hT, _, hR⟩
    · exfalso
      rw [hrun, hR] at hflag
      rcases List.mem_append.1 hflag with hk | hk
      · exact (sc.setup_op hwf w _ hk).2.1 rfl
      · obtain ⟨S, _, hl⟩ := hT _ hk
        exact hl.1.not_keepFlag rfl
    · exact ⟨T, herr, hT, by rw [hrun, hR]⟩

/-- The error of the clean-up read off the world, case by case. -/
theorem Step.error_delete {C : Step} (hk : C.kind = .delete) (ctx : Context) (w : World) :
    (∀ e, ctorError w C.ctor = some e → C.error ctx w = some e) ∧
    (∀ e, ctorError w C.ctor = none → w.beginDelete C.client C.method = .error e →
      C.error ctx w = some e) ∧
    (∀ statuses e, ctorError w C.ctor = none → w.beginDelete C.client C.method = .ok statuses →
      pollResult C.client C.method ctx statuses = .error e → C.error ctx w = some e) ∧
    (C.error ctx w = none → ∃ statuses r, ctorError w C.ctor = none ∧
      w.beginDelete C.client C.method = .ok statuses ∧
      pollResult C.client C.method ctx statuses = .ok r) := by
  simp only [Step.error, hk]
  refine ⟨?_, ?_, ?_, ?_⟩
  · intro e he; simp [he, Option.orElse]
  · intro e he hb; simp [he, hb, Option.orElse]
  · intro st e he hb hp; simp [he, hb, hp, Option.orElse, errorOf]
  · intro h
    cases he : ctorError w C.ctor with
    | some e => simp [he, Option.orElse] at h
    | none =>
      simp only [he, Option.orElse] at h
      cases hb : w.beginDelete C.client C.method with
      | error e => simp [hb] at h
      | ok st =>
        simp only [hb] at h
        cases hp : pollResult C.client C.method ctx st with
        | error e => simp [hp, errorOf] at h
        | ok r => exact ⟨st, r, rfl, rfl, hp⟩

/-- The events of the helper of a step are not the final log line. -/
theorem Step.Formed.helper_quiet {A : Step} {ctx : Context} (hF : A.Formed ctx) (w : World)
    (d : String) : cleanedUp ∉ (A.helper w d).trace := by
  intro h
  rcases hF.owns w d _ h with h1 | ⟨n, h1⟩
  · cases h1
  · cases h1

/-- The helper of the clean-up returns the error read off the world. -/
theorem Step.Formed.delete_out {C : Step} {ctx : Context} (hF : C.Formed ctx)
    (hk : C.kind = .delete) (w : World) (d : String) :
    ∃ ret, (C.helper w d).out = .ok (ret, C.error ctx w) := by
  rcases hF.out w d with h | ⟨hp, _⟩
  · exact h
  · rw [hk] at hp; cases hp

/-- A run that reaches the clean-up with `KEEP_RESOURCE` not set, and whose
clean-up returns an error, ends on `log.Fatal` of that error, as its last
event, without the final log line. -/
theorem Script.cleanup_fails (sc : Script) (hwf : sc.WF) (w : World) (a : Args)
    (hsetup : (sc.setup w).out = .ok a) (harg : (sc.cleanup a).arg = noArg)
    (hrep : (sc.cleanup a).report = reportCleaned) (hflag : keepFlag ∈ (sc.run w).trace)
    (henv : w.env "KEEP_RESOURCE" = "") (e : Error)
    (he : (sc.cleanup a).error a.ctx w = some e) :
    (sc.run w).out = .error (.fatal e.msg) ∧
      (sc.run w).trace.getLast? = some (.fatal e.msg) ∧ cleanedUp ∉ (sc.run w).trace := by
  obtain ⟨hF, hP, hFc, hPc⟩ := sc.formed_steps hwf a
  have hFc := hFc _ (List.mem_singleton_self _)
  have hkc := hwf.deletes a
  obtain ⟨T, _, hT, hrun⟩ := sc.run_reaches hwf w a hsetup hflag
  have hfin : sc.finish w a =
      ⟨keepFlag :: ((sc.cleanup a).helper w "").trace ++ [.fatal e.msg],
        .error (.fatal e.msg)⟩ := by
    rw [sc.finish_eq w a, if_pos henv, runSteps_cleanup hFc hkc harg hrep w, he]
    rfl
  rw [hrun, hfin]
  refine ⟨rfl, ?_, ?_⟩
  · simp only [List.cons_append, ← List.append_assoc]
    rw [← List.cons_append, ← List.append_assoc, List.getLast?_append]
    simp
  · intro hmem
    simp only [List.mem_append, List.mem_cons, List.mem_singleton] at hmem
    have h1 : cleanedUp ≠ keepFlag := by intro h; cases h
    have h2 : cleanedUp ≠ Event.fatal e.msg := by intro h; cases h
    have h3 := hFc.helper_quiet w ""
    have h4 : cleanedUp ∉ T := by
      intro hmem
      obtain ⟨S, hS, hl⟩ := hT _ hmem
      exact hl.1.not_cleanedUp (hwf.creates a S hS) rfl
    have h5 : cleanedUp ∉ (sc.setup w).trace := fun h => (sc.setup_op hwf w _ h).2.2 rfl
    tauto

/-- A run that logs the final line has gone through every step and through the
clean-up without an error, with `KEEP_RESOURCE` not set. -/
theorem Script.cleaned_success (sc : Script) (hwf : sc.WF) (w : World) (a : Args)
    (hsetup : (sc.setup w).out = .ok a) (harg : (sc.cleanup a).arg = noArg)
    (hrep : (sc.cleanup a).report = reportCleaned) (hmem : cleanedUp ∈ (sc.run w).trace) :
    (∀ S ∈ sc.sequence a, S.error a.ctx w = none) ∧ w.env "KEEP_RESOURCE" = "" ∧
      ∃ T, (∀ ev ∈ T, ∃ S ∈ sc.steps a, S.LeavesIn w ev) ∧
        sc.run w = ⟨(sc.setup w).trace ++
          (T ++ (keepFlag :: ((sc.cleanup a).helper w "").trace ++ [cleanedUp])), .ok ()⟩ := by
  obtain ⟨hF, hP, hFc, hPc⟩ := sc.formed_steps hwf a
  have hFc := hFc _ (List.mem_singleton_self _)
  have hkc := hwf.deletes a
  have hsteps_nc : ∀ T : List Event, (∀ ev ∈ T, ∃ S ∈ sc.steps a, S.LeavesIn w ev) →
      cleanedUp ∉ T := by
    intro T hT hmem
    obtain ⟨S, hS, hl⟩ := hT _ hmem
    exact hl.1.not_cleanedUp (hwf.creates a S hS) rfl
  have hsetup_nc : cleanedUp ∉ (sc.setup w).trace :=
    fun h => (sc.setup_op hwf w _ h).2.2 rfl
  have h1 : cleanedUp ≠ keepFlag := by intro h; cases h
  have h3 := hFc.helper_quiet w ""
  have hflag : keepFlag ∈ (sc.run w).trace := by
    by_contra hno
    rcases sc.run_cases hwf w with ⟨m, hm, _⟩ | ⟨a1, ha1, hrun⟩
    · rw [hsetup] at hm; cases hm
    · rw [hsetup] at ha1; cases ha1
      rcases runSteps_cases w (sc.finish w a) (sc.steps a) hF hP none with
        ⟨T, h, hR, hT, _⟩ | ⟨T, herr, hT, _, hR⟩
      · rw [hrun, hR] at hmem
        rcases List.mem_append.1 hmem with h | h
        · exact hsetup_nc h
        · exact hsteps_nc T hT h
      · apply hno
        rw [hrun, hR, sc.finish_eq w a]
        split <;> simp
  obtain ⟨T, herr, hT, hrun⟩ := sc.run_reaches hwf w a hsetup hflag
  have h4 := hsteps_nc T hT
  rw [hrun, sc.finish_eq w a] at hmem
  rw [hrun, sc.finish_eq w a]
  by_cases henv : w.env "KEEP_RESOURCE" = ""
  · rw [if_pos henv, runSteps_cleanup hFc hkc harg hrep w] at hmem ⊢
    cases he : (sc.cleanup a).error a.ctx w with
    | some e =>
      exfalso
      rw [he] at hmem
      simp only [List.mem_append, List.mem_cons, List.mem_singleton] at hmem
      have h2 : cleanedUp ≠ Event.fatal e.msg := by intro h; cases h
      tauto
    | none =>
      refine ⟨?_, henv, T, hT, by simp⟩
      intro S hS
      simp only [Script.sequence, List.mem_append, List.mem_singleton] at hS
      rcases hS with hS | hS
      · exact herr S hS
      · rw [hS]; exact he
  · exfalso
    rw [if_neg henv] at hmem
    simp only [List.mem_append, List.mem_singleton] at hmem
    tauto

theorem Event.isDelete_op {ev : Event} (h : ev.isDelete = true) :
    ev.isCall = true ∧ ∃ c, ev.op? = some (c, "BeginDelete") := by
  cases ev <;> simp only [Event.isDelete, Bool.false_eq_true, decide_eq_true_eq] at h
  subst h
  exact ⟨rfl, _, rfl⟩

/-- The helper of the clean-up issues at most one delete call. -/
theorem Step.Formed.delete_calls {C : Step} {ctx : Context} (hF : C.Formed ctx)
    (hk : C.kind = .delete) (w : World) (d : String) :
    (deletes (C.helper w d).trace).length ≤ 1 := by
  obtain ⟨c, f, args, payload, raw, hc, hf, hp, hw⟩ := hF d
  rw [hw w]
  simp only [hk, deleteForm]
  split
  · simp [deletes]
  · split
    · simp only [deletes, List.filter_cons, List.filter_nil]
      split <;> simp
    · have hnil : ∀ l : List Event,
          (∀ ev ∈ l, ev.isCall = false) → l.filter Event.isDelete = [] := by
        intro l hl
        rw [List.filter_eq_nil_iff]
        intro ev hev hd
        have := (Event.isDelete_op hd).1
        rw [hl ev hev] at this
        cases this
      simp only [deletes, List.filter_cons]
      rw [hnil]
      · split <;> simp
      · intro ev hev
        rcases pollState_events _ _ _ ev hev with h | h | ⟨n, h⟩ <;> rw [h] <;> rfl

/-- C11. In a run of a sample whose setup went through, with `C` the clean-up:
when the BeginDelete call returns an error, or the poll of the delete does, the
helper of the clean-up returns that error; when the run reaches the clean-up
and its helper returns an error, `main` ends on `log.Fatal` of that error, the
`log.Fatal` is the last event, and "cleaned up successfully." is not logged;
and whenever "cleaned up successfully." is logged, the BeginDelete call
succeeded and the poll of the delete ended in a `Succeeded` status. -/
theorem teardown_failure_reported (s : Sample) (w : World) (a : Args)
    (hsetup : (s.script.setup w).out = .ok a) :
    (∀ d e, ctorError w (s.script.cleanup a).ctor = none →
      w.beginDelete (s.script.cleanup a).client (s.script.cleanup a).method = .error e →
      ∃ ret, ((s.script.cleanup a).helper w d).out = .ok (ret, some e)) ∧
    (∀ d statuses e, ctorError w (s.script.cleanup a).ctor = none →
      w.beginDelete (s.script.cleanup a).client (s.script.cleanup a).method = .ok statuses →
      pollResult (s.script.cleanup a).client (s.script.cleanup a).method a.ctx statuses =
        .error e →
      ∃ ret, ((s.script.cleanup a).helper w d).out = .ok (ret, some e)) ∧
    (∀ d ret e, keepFlag ∈ (s.main w).trace → w.env "KEEP_RESOURCE" = "" →
      ((s.script.cleanup a).helper w d).out = .ok (ret, some e) →
      (s.main w).out = .error (.fatal e.msg) ∧
        (s.main w).trace.getLast? = some (.fatal e.msg) ∧ cleanedUp ∉ (s.main w).trace) ∧
    (cleanedUp ∈ (s.main w).trace →
      ∃ statuses r, ctorError w (s.script.cleanup a).ctor = none ∧
        w.beginDelete (s.script.cleanup a).client (s.script.cleanup a).method = .ok statuses ∧
        pollResult (s.script.cleanup a).client (s.script.cleanup a).method a.ctx statuses =
          .ok r ∧
        .Succeeded r ∈ statuses) := by
  have hwf := s.wf
  rw [s.main_eq_run]
  have hFc : (s.script.cleanup a).Formed a.ctx := hwf.formed a _ (by simp [Script.sequence])
  have hkc := hwf.deletes a
  obtain ⟨harg, hrep⟩ := s.cleanup_shape a
  obtain ⟨_, herr1, herr2, herr3⟩ := Step.error_delete hkc a.ctx w
  refine ⟨?_, ?_, ?_, ?_⟩
  · intro d e hc hb
    obtain ⟨ret, h⟩ := hFc.delete_out hkc w d
    exact ⟨ret, by rw [h, herr1 e hc hb]⟩
  · intro d st e hc hb hp
    obtain ⟨ret, h⟩ := hFc.delete_out hkc w d
    exact ⟨ret, by rw [h, herr2 st e hc hb hp]⟩
  · intro d ret e hflag henv hfail
    obtain ⟨ret1, h1⟩ := hFc.delete_out hkc w d
    rw [hfail] at h1
    simp only [Except.ok.injEq, Prod.mk.injEq] at h1
    exact s.script.cleanup_fails hwf w a hsetup harg hrep hflag henv e h1.2.symm
  · intro hmem
    obtain ⟨herr, _, _⟩ := s.script.cleaned_success hwf w a hsetup harg hrep hmem
    obtain ⟨st, r, hc, hb, hp⟩ := herr3 (herr _ (by simp [Script.sequence]))
    exact ⟨st, r, hc, hb, hp, pollResult_ok _ _ _ _ _ hp⟩

/-- Witness of C11: the eventhub sample in a world where the service rejects
the delete of the resource group. -/
theorem teardown_failure_reported_witness :
    (EventhubNamespace.script.setup notFoundWorld).out = .ok (args0 false) ∧
      keepFlag ∈ (Sample.main .eventhub_namespace notFoundWorld).trace ∧
      notFoundWorld.env "KEEP_RESOURCE" = "" ∧
      ((EventhubNamespace.script.cleanup (args0 false)).helper notFoundWorld "").out =
        .ok (.response none, some ⟨"NotFound"⟩) ∧
      (Sample.main .eventhub_namespace notFoundWorld).out = .error (.fatal "NotFound") ∧
      (Sample.main .eventhub_namespace notFoundWorld).trace.getLast? =
        some (.fatal "NotFound") ∧
      cleanedUp ∉ (Sample.main .eventhub_namespace notFoundWorld).trace :=
  ⟨rfl, by decide, rfl, rfl,
    (teardown_failure_reported .eventhub_namespace notFoundWorld (args0 false) rfl).2.2.1
      "" (.response none) ⟨"NotFound"⟩ (by decide) rfl rfl⟩

/-- C12, counterexample: `cleanup` of the apps sample and of the action-group
sample in a world where the resource group is absent and the delete reports
NotFound.  Both return the NotFound error, and `main` of the apps sample ends
on `log.Fatal` of it without the final log line. -/
theorem delete_absent_group_counterexample :
    notFoundWorld.beginDelete "armresources.ResourceGroupsClient" "BeginDelete" =
        .error errNotFound ∧
      (Apps.cleanup notFoundWorld "x" context.Background ⟨1⟩).out = .ok (some errNotFound) ∧
      (ActionGroup.cleanup notFoundWorld "x" context.Background ⟨⟨1⟩, true⟩).out =
        .ok (none, some errNotFound) ∧
      (Apps.main notFoundWorld).out = .error (.fatal "NotFound") ∧
      cleanedUp ∉ (Apps.main notFoundWorld).trace := by
  refine ⟨rfl, rfl, rfl, rfl, ?_⟩
  decide

/-- C12 (amended). For every sample, when the delete of the resource group
reports NotFound, in the answer to the BeginDelete call or as the outcome of
its poll, the helper of the clean-up returns that NotFound error: an absent
resource group is not turned into a success.  A run that reaches the clean-up
then ends on `log.Fatal` of NotFound and does not log "cleaned up
successfully.". -/
theorem delete_absent_group_is_error (s : Sample) (w : World) (a : Args)
    (hsetup : (s.script.setup w).out = .ok a)
    (hctor : ctorError w (s.script.cleanup a).ctor = none)
    (hnf : w.beginDelete (s.script.cleanup a).client (s.script.cleanup a).method =
        .error errNotFound ∨
      ∃ statuses,
        w.beginDelete (s.script.cleanup a).client (s.script.cleanup a).method = .ok statuses ∧
        pollResult (s.script.cleanup a).client (s.script.cleanup a).method a.ctx statuses =
          .error errNotFound) :
    (∀ d, ∃ ret, ((s.script.cleanup a).helper w d).out = .ok (ret, some errNotFound)) ∧
      (keepFlag ∈ (s.main w).trace → w.env "KEEP_RESOURCE" = "" →
        (s.main w).out = .error (.fatal errNotFound.msg) ∧ cleanedUp ∉ (s.main w).trace) := by
  have hwf := s.wf
  rw [s.main_eq_run]
  have hFc : (s.script.cleanup a).Formed a.ctx := hwf.formed a _ (by simp [Script.sequence])
  have hkc := hwf.deletes a
  obtain ⟨harg, hrep⟩ := s.cleanup_shape a
  obtain ⟨_, herr1, herr2, _⟩ := Step.error_delete hkc a.ctx w
  have he : (s.script.cleanup a).error a.ctx w = some errNotFound := by
    rcases hnf with h | ⟨st, hb, hp⟩
    · exact herr1 _ hctor h
    · exact herr2 st _ hctor hb hp
  refine ⟨fun d => ?_, fun hflag henv => ?_⟩
  · obtain ⟨ret, h⟩ := hFc.delete_out hkc w d
    exact ⟨ret, by rw [h, he]⟩
  · obtain ⟨h1, _, h3⟩ := s.script.cleanup_fails hwf w a hsetup harg hrep hflag henv _ he
    exact ⟨h1, h3⟩

/-- Witness of C12 (amended): the apps sample with an absent resource group. -/
theorem delete_absent_group_is_error_witness :
    (Apps.script.setup notFoundWorld).out = .ok (args0 false) ∧
      ctorError notFoundWorld (Apps.script.cleanup (args0 false)).ctor = none ∧
      notFoundWorld.beginDelete (Apps.script.cleanup (args0 false)).client
        (Apps.script.cleanup (args0 false)).method = .error errNotFound ∧
      (∀ d, ∃ ret, ((Apps.script.cleanup (args0 false)).helper notFoundWorld d).out =
        .ok (ret, some errNotFound)) :=
  ⟨rfl, rfl, rfl,
    (delete_absent_group_is_error .apps notFoundWorld (args0 false) rfl rfl (Or.inl rfl)).1⟩

/-! ## The deletes of a run (C13) -/

theorem ctorError_happy (ctor : Option String) : ctorError happyWorld ctor = none := by
  cases ctor <;> rfl

/-- The call of a helper does not depend on the world: it is the first event of
the helper in the happy world.  The pager helper issues no call. -/
theorem Step.Formed.call_eq {A : Step} {ctx : Context} (hF : A.Formed ctx) (w : World)
    (d : String) :
    ∀ ev ∈ (A.helper w d).trace, ev.isCall = true →
      A.kind ≠ .pager ∧ (A.helper happyWorld d).trace.head? = some ev := by
  obtain ⟨c, f, args, payload, raw, hc, hf, hp, hw⟩ := hF d
  intro ev hev hcall
  rw [hw w] at hev
  rw [hw happyWorld]
  cases hk : A.kind <;> simp only [hk] at hev ⊢
  · unfold syncForm at hev ⊢
    rw [ctorError_happy]
    split at hev
    · simp at hev
    · simp only [List.mem_singleton] at hev
      subst hev
      exact ⟨by simp, rfl⟩
  · simp only [syncPtrForm, List.mem_singleton] at hev ⊢
    subst hev
    exact ⟨by simp, rfl⟩
  · simp only [syncListForm, List.mem_singleton] at hev ⊢
    subst hev
    exact ⟨by simp, rfl⟩
  · have hev1 := asyncForm_calls _ _ _ _ _ _ _ _ ev hev hcall
    subst hev1
    unfold asyncForm
    rw [ctorError_happy]
    exact ⟨by simp, rfl⟩
  · exfalso
    simp only [pagerForm, asList, Act.mem_bind_trace, Act.pure_eq, List.not_mem_nil, and_false,
      exists_false, or_false] at hev
    have := (listLoop_events _ _ _ _ _).1 ev hev
    rw [this] at hcall
    cases hcall
  · have hev1 : ev = .call c A.method ctx args [] := by
      unfold deleteForm at hev
      split at hev
      · simp at hev
      · split at hev
        · simpa using hev
        · simp only [List.mem_cons] at hev
          rcases hev with h | h
          · exact h
          · rcases pollState_events _ _ _ ev h with h | h | ⟨n, h⟩ <;> rw [h] at hcall <;>
              cases hcall
    subst hev1
    unfold deleteForm
    rw [ctorError_happy]
    exact ⟨by simp, rfl⟩

/-- The arguments of the call of every helper, read off the helper in the happy
world: every call names the resource group of the sample, apart from
`GetDomainOwnershipIdentifier`, which takes no argument, and the creation and
the delete of the resource group name nothing else. -/
theorem Sample.call_args (s : Sample) (a : Args) (hctx : a.ctx = context.Background) :
    ∀ A ∈ s.script.sequence a, A.kind ≠ .pager → ∀ d,
      ∃ c ctx args payload,
        (A.helper happyWorld d).trace.head? = some (.call c A.method ctx args payload) ∧
        (A.method ≠ "GetDomainOwnershipIdentifier" → s.resourceGroupName ∈ args) ∧
        (A.op = ("armresources.ResourceGroupsClient", "CreateOrUpdate") ∨
          A.op = ("armresources.ResourceGroupsClient", "BeginDelete") →
          args = [s.resourceGroupName]) ∧
        (A.kind = .delete → payload = []) := by
  rcases a with ⟨sub, ten, obj, ctx, conn⟩
  simp only at hctx
  subst hctx
  intro A hA hk d
  cases s <;>
    simp only [Sample.script, AvailabilitySet.script, ActionGroup.script,
      ApimanagementService.script, TaskRun.script, EventhubNamespace.script, Cassandra.script,
      ApiTagDescription.script, VirtualNetworkRule.script, Apps.script, ServerKey.script,
      Script.sequence, List.cons_append, List.nil_append, List.mem_cons, List.mem_singleton,
      List.not_mem_nil, or_false] at hA <;>
    rcases hA with rfl | rfl | rfl | rfl | rfl | rfl | rfl <;>
    first
      | exact absurd rfl hk
      | (refine ⟨_, _, _, _, rfl, ?_, ?_, ?_⟩ <;>
          simp [Sample.resourceGroupName, Step.op, AvailabilitySet.resourceGroupName,
            ActionGroup.resourceGroupName, ApimanagementService.resourceGroupName,
            TaskRun.resourceGroupName, EventhubNamespace.resourceGroupName,
            Cassandra.resourceGroupName, ApiTagDescription.resourceGroupName,
            VirtualNetworkRule.resourceGroupName, Apps.resourceGroupName,
            ServerKey.resourceGroupName])

/-- Every call of a run whose setup went through is the call of a step of the
main sequence: the first event of the helper of that step in the happy world. -/
theorem Script.call_provenance (sc : Script) (hwf : sc.WF) (w : World) (a : Args)
    (hsetup : (sc.setup w).out = .ok a) :
    ∀ ev ∈ (sc.run w).trace, ev.isCall = true →
      ∃ S ∈ sc.sequence a, S.kind ≠ .pager ∧ ev.op? = some S.op ∧
        ∃ d, (S.helper happyWorld d).trace.head? = some ev := by
  intro ev hev hcall
  rcases sc.run_events hwf w ev hev with h | h | ⟨a1, ha1, S, hS, hl⟩
  · rcases hwf.setup_events w ev h with ⟨n, h1, _⟩ | h1 | ⟨m, h1⟩ <;> rw [h1] at hcall <;>
      cases hcall
  · rw [h] at hcall; cases hcall
  · rw [hsetup] at ha1; cases ha1
    have hop : ∃ o, ev.op? = some o := by
      cases ev <;> first | exact ⟨_, rfl⟩ | cases hcall
    obtain ⟨o, ho⟩ := hop
    obtain ⟨d, hd⟩ := hl.2 o ho
    obtain ⟨hk, hhead⟩ := (hwf.formed a S hS).call_eq w d ev hd hcall
    exact ⟨S, hS, hk, by rw [ho, hl.1.op_eq ho], d, hhead⟩

/-- C13, counterexample: the eventhub sample in the happy world.  The run
creates the resource group and then the namespace, both with a result, and
issues one delete call only, of the resource group; no delete of the namespace
precedes it. -/
theorem reverse_teardown_counterexample :
    (EventhubNamespace.createResourceGroup happyWorld "x" context.Background ⟨1⟩).out =
        .ok (some okResource, none) ∧
      (EventhubNamespace.createNamespace happyWorld "x" context.Background ⟨1⟩).out =
        .ok (some okResource, none) ∧
      deletes (Sample.main .eventhub_namespace happyWorld).trace = [groupDelete] ∧
      (Sample.main .eventhub_namespace happyWorld).out = .ok () := by
  refine ⟨rfl, rfl, ?_, rfl⟩
  decide

/-- C13 (amended). In every run of every sample whose setup went through,
teardown issues at most one delete call, whatever number of steps produced a
result: the delete of the resource group of the sample, issued only after
every step has returned without an error, and exactly once in a run that logs
"cleaned up successfully.".  No delete is issued for the resource of any other
step. -/
theorem teardown_single_delete (s : Sample) (w : World) (a : Args)
    (hsetup : (s.script.setup w).out = .ok a) :
    (deletes (s.main w).trace).length ≤ 1 ∧
      (∀ ev ∈ deletes (s.main w).trace, ∃ c ctx,
        c.name = "armresources.ResourceGroupsClient" ∧
        ev = .call c "BeginDelete" ctx [s.resourceGroupName] []) ∧
      (deletes (s.main w).trace ≠ [] → ∀ A ∈ s.script.steps a, ¬ A.fails w) ∧
      (cleanedUp ∈ (s.main w).trace → (deletes (s.main w).trace).length = 1) := by
  have hwf := s.wf
  rw [s.main_eq_run]
  obtain ⟨hF, hP, hFc, hPc⟩ := s.script.formed_steps hwf a
  have hFc := hFc _ (List.mem_singleton_self _)
  have hkc := hwf.deletes a
  obtain ⟨harg, hrep⟩ := s.cleanup_shape a
  -- a delete call belongs to the clean-up
  have hdel : ∀ ev ∈ (s.script.run w).trace, ev.isDelete = true →
      ev.op? = some (s.script.cleanup a).op ∧ ∃ c ctx,
        c.name = "armresources.ResourceGroupsClient" ∧
        ev = .call c "BeginDelete" ctx [s.resourceGroupName] [] := by
    intro ev hev hd
    obtain ⟨hcall, c0, ho⟩ := Event.isDelete_op hd
    obtain ⟨S, hS, hk, hop, d, hhead⟩ := s.script.call_provenance hwf w a hsetup ev hev hcall
    obtain ⟨c1, ctx1, args1, payload1, hhead1, _, h2, h3⟩ :=
      s.call_args a (hwf.setup_ctx w a hsetup) S hS hk d
    have hSm : S.method = "BeginDelete" := by
      rw [ho] at hop
      exact (congrArg Prod.snd (Option.some.inj hop)).symm
    have hSc : S = s.script.cleanup a := by
      simp only [Script.sequence, List.mem_append, List.mem_singleton] at hS
      rcases hS with hS | hS
      · exact absurd hSm (s.steps_not_delete a S hS)
      · exact hS
    rw [hhead1] at hhead
    have hev := (Option.some.inj hhead).symm
    have hopc := s.cleanup_op a
    rw [← hSc] at hopc
    refine ⟨by rw [hop, hSc], c1, ctx1, ?_, ?_⟩
    · rw [hev] at hop
      simp only [Event.op?, Option.some.injEq] at hop
      rw [hopc] at hop
      exact congrArg Prod.fst hop
    · rw [hev, hSm, h2 (Or.inr hopc), h3 (hSc ▸ hkc)]
  have hnodel : ∀ T : List Event, (∀ ev ∈ T, ∃ S ∈ s.script.steps a, S.LeavesIn w ev) →
      deletes T = [] := by
    intro T hT
    simp only [deletes, List.filter_eq_nil_iff]
    intro ev hev hd
    obtain ⟨_, c0, ho⟩ := Event.isDelete_op hd
    obtain ⟨S, hS, hl⟩ := hT ev hev
    have := hl.1.op_eq ho
    exact s.steps_not_delete a S hS (congrArg Prod.snd this).symm
  have hsetup_nodel : deletes (s.script.setup w).trace = [] := by
    simp only [deletes, List.filter_eq_nil_iff]
    intro ev hev hd
    obtain ⟨_, c0, ho⟩ := Event.isDelete_op hd
    rw [(s.script.setup_op hwf w ev hev).1] at ho
    cases ho
  have hdel_app : ∀ l1 l2 : List Event, deletes (l1 ++ l2) = deletes l1 ++ deletes l2 :=
    fun l1 l2 => List.filter_append _ _
  refine ⟨?_, fun ev hev => ?_, fun hne => ?_, fun hclean => ?_⟩
  · rcases s.script.run_cases hwf w with ⟨m, hm, _⟩ | ⟨a1, ha1, hrun⟩
    · rw [hsetup] at hm; cases hm
    · rw [hsetup] at ha1; cases ha1
      rcases runSteps_cases w (s.script.finish w a) (s.script.steps a) hF hP none with
        ⟨T, h, hR, hT, _⟩ | ⟨T, herr, hT, _, hR⟩
      · rw [hrun, hR, hdel_app, hsetup_nodel, hnodel T hT]
        simp
      · rw [hrun, hR, hdel_app, hdel_app, hsetup_nodel, hnodel T hT, s.script.finish_eq w a]
        split
        · rw [runSteps_cleanup hFc hkc harg hrep w]
          have hone := hFc.delete_calls hkc w ""
          cases (s.script.cleanup a).error a.ctx w <;>
            simpa [deletes, List.filter_cons, List.filter_append, Event.isDelete, keepFlag,
              cleanedUp] using hone
        · simp [deletes, Event.isDelete, keepFlag]
  · have hev1 : ev ∈ (s.script.run w).trace := (List.mem_filter.1 hev).1
    exact (hdel ev hev1 (List.mem_filter.1 hev).2).2
  · obtain ⟨ev, hev⟩ := List.exists_mem_of_ne_nil _ hne
    have hev1 : ev ∈ (s.script.run w).trace := (List.mem_filter.1 hev).1
    exact s.script.cleanup_after_success hwf w a hsetup
      ⟨ev, hev1, (hdel ev hev1 (List.mem_filter.1 hev).2).1⟩
  · obtain ⟨herr, _, T, hT, hrun⟩ := s.script.cleaned_success hwf w a hsetup harg hrep hclean
    have hce := herr (s.script.cleanup a) (by simp [Script.sequence])
    obtain ⟨ev0, t, ht, hcall, hop⟩ := hFc.calls (by rw [hkc]; simp) w "" hce
    have hone := hFc.delete_calls hkc w ""
    have hd0 : ev0.isDelete = true := by
      rw [s.cleanup_op a] at hop
      cases ev0 with
      | call c m x args p =>
        simp only [Event.op?, Option.some.injEq, Prod.mk.injEq] at hop
        simp [Event.isDelete, hop.2]
      | _ => cases hcall
    rw [hrun]
    simp only [hdel_app, hsetup_nodel, hnodel T hT, List.nil_append]
    rw [ht] at hone ⊢
    simp only [deletes, List.filter_cons, hd0, if_true, List.length_cons] at hone ⊢
    have ht0 : (List.filter Event.isDelete t).length = 0 := by omega
    simp [List.filter_append, Event.isDelete, keepFlag, cleanedUp, ht0,
      List.length_eq_zero.1 ht0]

/-- Witness of C13 (amended): the eventhub sample in the happy world. -/
theorem teardown_single_delete_witness :
    (EventhubNamespace.script.setup happyWorld).out = .ok (args0 false) ∧
      cleanedUp ∈ (Sample.main .eventhub_namespace happyWorld).trace ∧
      (deletes (Sample.main .eventhub_namespace happyWorld).trace).length = 1 :=
  ⟨rfl, by decide,
    (teardown_single_delete .eventhub_namespace happyWorld (args0 false) rfl).2.2.2 (by decide)⟩

/-! ## The run in which everything succeeds (C14) -/

theorem reportID_ok {label : String} {x r : Option Resource}
    (h : (reportID label (.resource x)).out = .ok r) :
    ∃ y id, x = some y ∧ y.ID = some id ∧
      (reportID label (.resource x)).trace = [.println [label, id]] := by
  rcases x with _ | y
  · simp [reportID, deref, Act.bind_eq, Act.bind] at h
  · cases hy : y.ID with
    | none => simp [reportID, deref, Act.bind_eq, Act.bind, hy] at h
    | some j =>
      exact ⟨y, j, rfl, hy, by
        simp [reportID, deref, Act.bind_eq, Act.bind, hy, log.Println, emit, Act.pure_eq]⟩

/-- A run of steps none of which returns an error, and which does not panic,
adds the segment of each step to the trace, in order, and goes on with what
follows the steps. -/
theorem runSteps_ok {ctx : Context} (w : World) (k : Act Unit) (steps : List Step)
    (hF : ∀ S ∈ steps, S.Formed ctx) (hP : ∀ S ∈ steps, S.Plain)
    (herr : ∀ S ∈ steps, S.error ctx w = none) (p : Option Resource)
    (hnp : (runSteps w k p steps).out ≠ .error .panic) :
    ∃ segs, List.Forall₂ (fun S seg => S.Segment w seg) steps segs ∧
      runSteps w k p steps = ⟨flat segs ++ k.trace, k.out⟩ := by
  induction steps generalizing p with
  | nil => exact ⟨[], List.Forall₂.nil, by simp [runSteps, flat]⟩
  | cons S rest ih =>
    have hFS := hF S (List.mem_cons_self _ _)
    rcases runSteps_cons_cases hFS (hP S (List.mem_cons_self _ _)) w k p rest with
      ⟨T, h, hR, _, hh⟩ | ⟨d, ret, r, _, hd, hret, hrep, _, hR⟩
    · exfalso
      rcases hh with rfl | ⟨e, he, _⟩
      · exact hnp (by rw [hR])
      · rw [herr S (List.mem_cons_self _ _)] at he; cases he
    · rw [hR] at hnp
      obtain ⟨segs, hsegs, hrest⟩ := ih (fun S hS => hF S (List.mem_cons_of_mem _ hS))
        (fun S hS => hP S (List.mem_cons_of_mem _ hS))
        (fun S hS => herr S (List.mem_cons_of_mem _ hS)) r hnp
      refine ⟨((S.helper w d).trace ++ (S.report ret).trace) :: segs,
        List.Forall₂.cons ⟨d, ret, r, hret, hrep, rfl, ?_⟩ hsegs, ?_⟩
      · intro label x hl hx
        rw [hl, hx] at hrep ⊢
        exact reportID_ok hrep
      · rw [hR, hrest]
        simp [flat, List.append_assoc]

/-- The steps of the samples that log nothing but IDs. -/
theorem Sample.logs_ids (s : Sample) (a : Args) (h1 : s ≠ .availabilityset)
    (h2 : s ≠ .apimanagement_service) (h3 : s ≠ .apps) :
    ∀ A ∈ s.script.steps a, ∃ label, A.report = reportID label ∧
      (A.kind = .sync ∨ A.kind = .async) := by
  intro A hA
  cases s <;> first
    | exact absurd rfl h1
    | exact absurd rfl h2
    | exact absurd rfl h3
    | (simp only [Sample.script, ActionGroup.script, TaskRun.script, EventhubNamespace.script,
        Cassandra.script, ApiTagDescription.script, VirtualNetworkRule.script, ServerKey.script,
        List.mem_cons, List.mem_singleton, List.not_mem_nil, or_false] at hA
       rcases hA with rfl | rfl | rfl | rfl | rfl | rfl <;> exact ⟨_, rfl, by simp⟩)

/-- In the happy world no helper of the eventhub sample returns an error. -/
theorem happy_eventhub_ok :
    ∀ A ∈ EventhubNamespace.script.sequence (args0 false), ¬ A.fails happyWorld := by
  intro A hA hf
  have hF := (Sample.wf .eventhub_namespace).formed (args0 false) A hA
  obtain ⟨e, he⟩ := hF.fails_iff happyWorld |>.1 hf
  simp only [EventhubNamespace.script, Script.sequence, List.cons_append, List.nil_append,
    List.mem_cons, List.mem_singleton, List.not_mem_nil, or_false] at hA
  rcases hA with rfl | rfl | rfl | rfl <;> cases he

/-- C14, counterexample: the apimanagement-service sample in the happy world,
where every call succeeds and `KEEP_RESOURCE` is not set.  `getSsoToken`
returns a result whose ID is "id"; the run logs the redirect URI of that
result, not its ID. -/
theorem reports_ids_counterexample :
    happyWorld.env "KEEP_RESOURCE" = "" ∧
      (Sample.main .apimanagement_service happyWorld).out = .ok () ∧
      (ApimanagementService.getSsoToken happyWorld "x" context.Background ⟨⟨1⟩, true⟩).out =
        .ok (some okResource, none) ∧
      okResource.ID = some "id" ∧ okResource.RedirectURI = some "uri" ∧
      Event.println ["ssoToken:", "uri"] ∈ (Sample.main .apimanagement_service happyWorld).trace ∧
      Event.println ["ssoToken:", "id"] ∉ (Sample.main .apimanagement_service happyWorld).trace := by
  refine ⟨rfl, rfl, rfl, rfl, rfl, ?_, ?_⟩ <;> decide

/-- C14 (amended). In a run of a sample whose setup went through, in which no
helper returns an error, `KEEP_RESOURCE` is not set and nothing panics: the
trace is the setup, then one segment per step in declaration order (the events
of the helper of the step, then its logging), then the read of the flag, the
events of the clean-up and "cleaned up successfully." as the last event, and
the run ends normally.  The logging of a step is the line with the ID of its
result for every step that logs an ID; these are all the steps of the samples
other than availabilityset, apimanagement_service and apps, whose list, token
and upload steps log other fields of their result. -/
theorem happy_run_in_order (s : Sample) (w : World) (a : Args)
    (hsetup : (s.script.setup w).out = .ok a)
    (hok : ∀ A ∈ s.script.sequence a, ¬ A.fails w) (henv : w.env "KEEP_RESOURCE" = "")
    (hnp : (s.main w).out ≠ .error .panic) :
    (∃ segs, List.Forall₂ (fun S seg => S.Segment w seg) (s.script.steps a) segs ∧
      (s.main w).trace = (s.script.setup w).trace ++
        (flat segs ++ (keepFlag :: ((s.script.cleanup a).helper w "").trace ++ [cleanedUp]))) ∧
      (s.main w).out = .ok () ∧
      (s ≠ .availabilityset → s ≠ .apimanagement_service → s ≠ .apps →
        ∀ A ∈ s.script.steps a, ∃ label, A.report = reportID label ∧
          ∀ w d ret, (A.helper w d).out = .ok (ret, none) → ∃ x, ret = .resource (some x)) := by
  have hwf := s.wf
  rw [s.main_eq_run] at hnp ⊢
  obtain ⟨hF, hP, hFc, hPc⟩ := s.script.formed_steps hwf a
  have hFc := hFc _ (List.mem_singleton_self _)
  have hkc := hwf.deletes a
  obtain ⟨harg, hrep⟩ := s.cleanup_shape a
  have herr : ∀ A ∈ s.script.sequence a, A.error a.ctx w = none := by
    intro A hA
    by_contra hne
    obtain ⟨e, he⟩ := Option.ne_none_iff_exists'.1 hne
    exact hok A hA ((hwf.formed a A hA).fails_iff w |>.2 ⟨e, he⟩)
  have hrun : s.script.run w =
      ⟨(s.script.setup w).trace ++
          (runSteps w (s.script.finish w a) none (s.script.steps a)).trace,
        (runSteps w (s.script.finish w a) none (s.script.steps a)).out⟩ := by
    rcases s.script.run_cases hwf w with ⟨m, hm, _⟩ | ⟨a1, ha1, hrun⟩
    · rw [hsetup] at hm; cases hm
    · rw [hsetup] at ha1; cases ha1; exact hrun
  rw [hrun] at hnp ⊢
  obtain ⟨segs, hsegs, hR⟩ := runSteps_ok w (s.script.finish w a) (s.script.steps a) hF hP
    (fun S hS => herr S (by simp [Script.sequence, hS])) none hnp
  have hfin : s.script.finish w a =
      ⟨keepFlag :: ((s.script.cleanup a).helper w "").trace ++ [cleanedUp], .ok ()⟩ := by
    rw [s.script.finish_eq w a, if_pos henv, runSteps_cleanup hFc hkc harg hrep w,
      herr _ (by simp [Script.sequence])]
    rfl
  rw [hR, hfin]
  refine ⟨⟨segs, hsegs, rfl⟩, rfl, ?_⟩
  intro h1 h2 h3 A hA
  obtain ⟨label, hl, hk⟩ := s.logs_ids a h1 h2 h3 A hA
  refine ⟨label, hl, fun w1 d ret h => ?_⟩
  rcases hk with hk | hk
  · obtain ⟨r, _, hr⟩ := (hF A hA).sync_ok hk h
    exact ⟨r, hr⟩
  · obtain ⟨_, r, _, _, _, hr⟩ := (hF A hA).async_ok hk h
    exact ⟨r, hr⟩

/-- Witness of C14 (amended): the eventhub sample in the happy world, which
logs the IDs of the resource group, of the namespace and of the fetched
namespace, in that order, then the final line. -/
theorem happy_run_in_order_witness :
    (EventhubNamespace.script.setup happyWorld).out = .ok (args0 false) ∧
      (∀ A ∈ EventhubNamespace.script.sequence (args0 false), ¬ A.fails happyWorld) ∧
      happyWorld.env "KEEP_RESOURCE" = "" ∧
      (Sample.main .eventhub_namespace happyWorld).out = .ok () ∧
      logs (Sample.main .eventhub_namespace happyWorld).trace =
        [.println ["resources group:", "id"], .println ["eventhub namespace:", "id"],
          .println ["get eventhub namespace:", "id"], cleanedUp] :=
  ⟨rfl, happy_eventhub_ok, rfl,
    (happy_run_in_order .eventhub_namespace happyWorld (args0 false) rfl happy_eventhub_ok rfl
      (by
        have h2 : (Sample.main .eventhub_namespace happyWorld).out = .ok () := rfl
        rw [h2]
        simp)).2.1, by decide⟩

/-! ## The context of a run (C15) -/

/-- Every call, poll and page fetch of a helper is given the context of the
helper. -/
theorem Step.Formed.contexts {A : Step} {ctx : Context} (hF : A.Formed ctx) (w : World)
    (d : String) : ∀ ev ∈ (A.helper w d).trace, ∀ ctx1, ev.ctx? = some ctx1 → ctx1 = ctx := by
  obtain ⟨c, f, args, payload, raw, hc, hf, hp, hw⟩ := hF d
  intro ev hev ctx1 he
  rw [hw w] at hev
  have hpoll : ∀ (α : Type) (p : Poller α), ev ∈ (p.pollState ctx f).1 → ctx1 = ctx := by
    intro α p h
    rcases pollState_events _ _ _ ev h with h | h | ⟨n, h⟩ <;> rw [h] at he <;>
      simp only [Event.ctx?, Option.some.injEq, reduceCtorEq] at he
    exact he.symm
  have hcall : ∀ (m : String) (args : List String) (payload : Payload),
      ev = .call c m ctx args payload → ctx1 = ctx := by
    intro m args payload h
    rw [h] at he
    simp only [Event.ctx?, Option.some.injEq] at he
    exact he.symm
  cases hk : A.kind <;> simp only [hk] at hev
  · unfold syncForm at hev
    split at hev
    · simp at hev
    · exact hcall _ _ _ (by simpa using hev)
  · exact hcall _ _ _ (by simpa [syncPtrForm] using hev)
  · exact hcall _ _ _ (by simpa [syncListForm] using hev)
  · unfold asyncForm at hev
    split at hev
    · simp at hev
    · split at hev
      · exact hcall _ _ _ (by simpa using hev)
      · simp only [List.mem_cons] at hev
        rcases hev with h | h
        · exact hcall _ _ _ h
        · exact hpoll _ _ h
  · simp only [pagerForm, asList, Act.mem_bind_trace, Act.pure_eq, List.not_mem_nil, and_false,
      exists_false, or_false] at hev
    have := (listLoop_events _ _ _ _ _).1 ev hev
    rw [this] at he
    simp only [Event.ctx?, Option.some.injEq] at he
    exact he.symm
  · unfold deleteForm at hev
    split at hev
    · simp at hev
    · split at hev
      · exact hcall _ _ _ (by simpa using hev)
      · simp only [List.mem_cons] at hev
        rcases hev with h | h
        · exact hcall _ _ _ h
        · exact hpoll _ _ h

/-- C15. In every run of every sample whose setup went through: the context
`main` creates is the background context; every call, every poll-until-done
call and every page fetch of the run is given that one context; and when the
helper of a step A returns an error, nothing of an operation that a later step
B can issue is in the trace. -/
theorem single_context_per_run (s : Sample) (w : World) (a : Args)
    (hsetup : (s.script.setup w).out = .ok a) :
    a.ctx = context.Background ∧
      (∀ ev ∈ (s.main w).trace, ∀ ctx, ev.ctx? = some ctx → ctx = a.ctx) ∧
      (∀ pre mid post A B, s.script.sequence a = pre ++ A :: (mid ++ B :: post) → A.fails w →
        ∀ ev ∈ (s.main w).trace, ∀ o, ev.op? = some o → ¬ B.issues o) := by
  have hwf := s.wf
  rw [s.main_eq_run]
  refine ⟨hwf.setup_ctx w a hsetup, ?_, ?_⟩
  · intro ev hev ctx he
    have hop : ∃ o, ev.op? = some o := by
      cases ev <;> first | exact ⟨_, rfl⟩ | cases he
    obtain ⟨o, ho⟩ := hop
    rcases s.script.run_events hwf w ev hev with h | h | ⟨a1, ha1, S, hS, hl⟩
    · rw [(s.script.setup_op hwf w ev h).1] at ho; cases ho
    · rw [h] at ho; cases ho
    · rw [hsetup] at ha1; cases ha1
      obtain ⟨d, hd⟩ := hl.2 o ho
      exact (hwf.formed a S hS).contexts w d ev hd ctx he
  · intro pre mid post A B hseq hfail ev hev o ho hB
    obtain ⟨post1, hsteps⟩ := s.script.steps_of_sequence a hseq
    obtain ⟨T, h, hrun, hT⟩ := s.script.run_halts hwf w a hsetup pre A post1 hsteps hfail
    have hBF : B.Formed a.ctx := hwf.formed a B (by rw [hseq]; simp)
    have hne := nodup_split (hwf.distinct a) hseq
    have hoB := hBF.issues_op hB
    rw [hrun] at hev
    rcases List.mem_append.1 hev with hev | hev
    · rw [(s.script.setup_op hwf w ev hev).1] at ho; cases ho
    · obtain ⟨S, hS, hl⟩ := hT ev hev
      exact hne S hS ((hl.1.op_eq ho).symm.trans hoB)

/-- Witness of C15: the apps sample in the happy world; the poll of the
creation of the app is given the background context. -/
theorem single_context_per_run_witness :
    (Apps.script.setup happyWorld).out = .ok (args0 false) ∧
      Event.poll "armappplatform.AppsClient" "BeginCreateOrUpdate" context.Background none ∈
        (Sample.main .apps happyWorld).trace ∧
      context.Background = (args0 false).ctx :=
  ⟨rfl, by decide,
    (single_context_per_run .apps happyWorld (args0 false) rfl).2.1
      (.poll "armappplatform.AppsClient" "BeginCreateOrUpdate" context.Background none)
      (by decide) context.Background rfl⟩

/-! ## Terminal pollers (C16) -/

/-- C16. A poller that is terminal returns its terminal result on every
poll-until-done call, with no status query (the only event is the call itself),
and stays as it is; and a poll-until-done call whose loop ends on a terminal
status leaves the poller terminal, so that every later call returns that same
result without a status query. -/
theorem terminal_poller_idempotent {α : Type} (p : Poller α) :
    (∀ r, p.cached = some r → ∀ ctx f,
      p.pollState ctx f = ([.poll p.client p.method ctx f], r, p)) ∧
    (∀ ctx f, p.cached = none → ctx.canceled = false →
      pollEnds (f.getD defaultPollInterval) ctx.deadline p.remote = true →
      (p.pollState ctx f).2.2.cached = some (p.pollState ctx f).2.1 ∧
      ∀ ctx1 f1, (p.pollState ctx f).2.2.pollState ctx1 f1 =
        ([.poll p.client p.method ctx1 f1], (p.pollState ctx f).2.1,
          (p.pollState ctx f).2.2)) := by
  constructor
  · intro r hr ctx f
    simp only [Poller.pollState, hr]
  · intro ctx f hc hctx hends
    have hstate : (p.pollState ctx f).2.2 =
        { p with cached := some (p.pollState ctx f).2.1 } := by
      simp only [Poller.pollState, hc, hctx, hends, Bool.false_eq_true, if_false, if_true]
    refine ⟨by rw [hstate], ?_⟩
    intro ctx1 f1
    rw [hstate]
    simp only [Poller.pollState]

/-- Witness of C16: a poller of an operation that runs, then succeeds, polled
once on the background context and then again. -/
theorem terminal_poller_idempotent_witness :
    pollEnds ((some 10 : Option Nat).getD defaultPollInterval) context.Background.deadline
        [OperationStatus.Running none, OperationStatus.Succeeded okResource] = true ∧
      ((⟨"c", "m", [.Running none, .Succeeded okResource], none⟩ : Poller Resource).pollState
          context.Background (some 10)).1 =
        [.poll "c" "m" context.Background (some 10), .query "c" "m", .wait 10, .query "c" "m"] ∧
      (((⟨"c", "m", [.Running none, .Succeeded okResource], none⟩ : Poller Resource).pollState
          context.Background (some 10)).2.2.pollState context.Background none).1 =
        [.poll "c" "m" context.Background none] ∧
      (((⟨"c", "m", [.Running none, .Succeeded okResource], none⟩ : Poller Resource).pollState
          context.Background (some 10)).2.2.pollState context.Background none).2.1 =
        .ok okResource :=
  ⟨rfl, rfl,
    congrArg Prod.fst (((terminal_poller_idempotent
      (⟨"c", "m", [.Running none, .Succeeded okResource], none⟩ : Poller Resource)).2
      context.Background (some 10) rfl rfl rfl).2 context.Background none),
    congrArg (fun x => x.2.1) (((terminal_poller_idempotent
      (⟨"c", "m", [.Running none, .Succeeded okResource], none⟩ : Poller Resource)).2
      context.Background (some 10) rfl rfl rfl).2 context.Background none)⟩

/-! ## The resource group of a sample (C18) -/

/-- C18. In every run of every sample whose setup went through: the call that
creates the resource group and the call that deletes it name the resource
group of the sample and nothing else, so the group deleted is the group
created; and every other call names that resource group among its arguments,
`GetDomainOwnershipIdentifier` apart, which takes no argument and creates
nothing. -/
theorem delete_covers_created_group (s : Sample) (w : World) (a : Args)
    (hsetup : (s.script.setup w).out = .ok a) :
    ∀ ev ∈ (s.main w).trace, ∀ c m ctx args payload, ev = .call c m ctx args payload →
      (m ≠ "GetDomainOwnershipIdentifier" → s.resourceGroupName ∈ args) ∧
      ((c.name, m) = ("armresources.ResourceGroupsClient", "CreateOrUpdate") →
        args = [s.resourceGroupName]) ∧
      ((c.name, m) = ("armresources.ResourceGroupsClient", "BeginDelete") →
        args = [s.resourceGroupName]) := by
  intro ev hev c m ctx args payload he
  have hwf := s.wf
  rw [s.main_eq_run] at hev
  obtain ⟨S, hS, hk, hop, d, hhead⟩ :=
    s.script.call_provenance hwf w a hsetup ev hev (by rw [he]; rfl)
  obtain ⟨c1, ctx1, args1, payload1, hhead1, h1, h2, _⟩ :=
    s.call_args a (hwf.setup_ctx w a hsetup) S hS hk d
  rw [hhead1, he] at hhead
  simp only [Option.some.injEq, Event.call.injEq] at hhead
  obtain ⟨hc, hm, _, hargs, _⟩ := hhead
  subst hargs
  rw [he] at hop
  simp only [Event.op?, Option.some.injEq] at hop
  refine ⟨fun hne => h1 (hm ▸ hne), fun h => h2 (Or.inl ?_), fun h => h2 (Or.inr ?_)⟩
  · rw [← hop, h]
  · rw [← hop, h]

/-- Witness of C18: the delete of the resource group in the task-run sample in
the happy world. -/
theorem delete_covers_created_group_witness :
    (TaskRun.script.setup happyWorld).out = .ok (args0 true) ∧
      Event.call ⟨"armresources.ResourceGroupsClient", "x", ⟨⟨1⟩, true⟩⟩ "BeginDelete"
          context.Background ["sample-resource-group"] [] ∈
        (Sample.main .task_run happyWorld).trace ∧
      ["sample-resource-group"] = [Sample.resourceGroupName .task_run] :=
  ⟨rfl, by decide,
    ((delete_covers_created_group .task_run happyWorld (args0 true) rfl _ (by decide)
      ⟨"armresources.ResourceGroupsClient", "x", ⟨⟨1⟩, true⟩⟩ "BeginDelete"
      context.Background ["sample-resource-group"] [] rfl).2.2 rfl)⟩

/-! ## Results and errors of the helpers (C19) -/

/-- C19, counterexample: `createAvailabilitySet` in a world where the call
succeeds and the pointer field of the response is nil.  The helper returns a
nil pointer and a nil error. -/
theorem result_xor_error_counterexample :
    nilPointerWorld.sendPtr "armcompute.AvailabilitySetsClient" "CreateOrUpdate" = .ok none ∧
      (AvailabilitySet.createAvailabilitySet nilPointerWorld "x" context.Background
        ⟨⟨1⟩, true⟩).out = .ok (none, none) := by
  refine ⟨rfl, rfl⟩

/-- C19 (amended). For every create, get or list-sizes helper of every sample
that returns: when the returned error is non-nil the returned pointer is nil;
for the helpers that return the address of a value embedded in the response,
the pointer is nil only then; the helpers of compute/availabilityset return,
with a nil error, the pointer field of the response as it is. -/
theorem helper_result_and_error (s : Sample) (a : Args) (A : Step) (hA : A ∈ s.script.steps a)
    (w : World) (d : String) (ret : Ret) (err : Option Error)
    (h : (A.helper w d).out = .ok (ret, err)) :
    (A.kind = .sync ∨ A.kind = .async → ∃ r, ret = .resource r ∧ (r = none ↔ err ≠ none)) ∧
    (A.kind = .syncPtr → ∃ r, ret = .resource r ∧ (err ≠ none → r = none) ∧
      (err = none → w.sendPtr A.client A.method = .ok r)) ∧
    (A.kind = .syncList → ∃ l, ret = .sizes l ∧ (err ≠ none → l = none) ∧
      (err = none → w.sendList A.client A.method = .ok l)) := by
  have hF := s.wf.formed a A (by simp [Script.sequence, hA])
  obtain ⟨c, f, args, payload, raw, hc, hf, hp, hw⟩ := hF d
  rw [hw w] at h
  refine ⟨?_, ?_, ?_⟩
  · rintro (hk | hk)
    · simp only [hk, syncForm] at h
      split at h
      · simp only [Except.ok.injEq, Prod.mk.injEq] at h
        exact ⟨none, h.1.symm, by simp [← h.2]⟩
      · split at h <;> simp only [Except.ok.injEq, Prod.mk.injEq] at h
        · exact ⟨none, h.1.symm, by simp [← h.2]⟩
        · exact ⟨_, h.1.symm, by simp [← h.2]⟩
    · simp only [hk, asyncForm] at h
      split at h
      · simp only [Except.ok.injEq, Prod.mk.injEq] at h
        exact ⟨none, h.1.symm, by simp [← h.2]⟩
      · split at h
        · simp only [Except.ok.injEq, Prod.mk.injEq] at h
          exact ⟨none, h.1.symm, by simp [← h.2]⟩
        · split at h <;> simp only [Except.ok.injEq, Prod.mk.injEq] at h
          · exact ⟨none, h.1.symm, by simp [← h.2]⟩
          · exact ⟨_, h.1.symm, by simp [← h.2]⟩
  · intro hk
    simp only [hk, syncPtrForm, hc] at h
    cases hs : w.sendPtr A.client A.method with
    | error e =>
      simp only [hs, Except.ok.injEq, Prod.mk.injEq] at h
      exact ⟨none, h.1.symm, fun _ => rfl, fun he => by simp [← h.2] at he⟩
    | ok r =>
      simp only [hs, Except.ok.injEq, Prod.mk.injEq] at h
      exact ⟨r, h.1.symm, fun he => by simp [← h.2] at he, fun _ => rfl⟩
  · intro hk
    simp only [hk, syncListForm, hc] at h
    cases hs : w.sendList A.client A.method with
    | error e =>
      simp only [hs, Except.ok.injEq, Prod.mk.injEq] at h
      exact ⟨none, h.1.symm, fun _ => rfl, fun he => by simp [← h.2] at he⟩
    | ok r =>
      simp only [hs, Except.ok.injEq, Prod.mk.injEq] at h
      exact ⟨r, h.1.symm, fun he => by simp [← h.2] at he, fun _ => rfl⟩

/-- Witness of C19 (amended): `createAvailabilitySet` with a response whose
pointer field is nil. -/
theorem helper_result_and_error_witness :
    AvailabilitySet.script.stepAt (args0 true) 1 ∈
        (Sample.script .availabilityset).steps (args0 true) ∧
      ((AvailabilitySet.script.stepAt (args0 true) 1).helper nilPointerWorld "").out =
        .ok (.resource none, none) ∧
      (AvailabilitySet.script.stepAt (args0 true) 1).kind = .syncPtr ∧
      ∃ r, Ret.resource none = .resource r ∧ ((none : Option Error) ≠ none → r = none) ∧
        ((none : Option Error) = none →
          nilPointerWorld.sendPtr (AvailabilitySet.script.stepAt (args0 true) 1).client
            (AvailabilitySet.script.stepAt (args0 true) 1).method = .ok r) :=
  ⟨by simp [Script.stepAt, Script.sequence, Sample.script, AvailabilitySet.script], rfl, rfl,
    (helper_result_and_error .availabilityset (args0 true)
      (AvailabilitySet.script.stepAt (args0 true) 1)
      (by simp [Script.stepAt, Script.sequence, Sample.script, AvailabilitySet.script])
      nilPointerWorld "" (.resource none) none rfl).2.1 rfl⟩

/-! ## The pages of `listAvailabilitySet` (C20) -/

theorem listLoop_out (c : Client) (ctx : Context) (err : Option Error) (results : List ListResult)
    (acc : List (Option Resource)) :
    (AvailabilitySet.listAvailabilitySet.loop c ctx err (results.map some) (some acc)).out =
      .ok (some (acc ++ concatPages results)) := by
  induction results generalizing acc with
  | nil =>
    cases err <;> simp [AvailabilitySet.listAvailabilitySet.loop, concatPages]
  | cons page rest ih =>
    simp only [List.map_cons, AvailabilitySet.listAvailabilitySet.loop, Act.bind_eq, Act.bind,
      emit, deref]
    have happ : Slice.append (some acc) page.Value = some (acc ++ page.Value.toList) := by
      simp only [Slice.append, Slice.toList]
    rw [happ, ih]
    simp [concatPages]

/-- C20. When every page the pager yields holds a list result,
`listAvailabilitySet` returns the `Value` lists of those pages, one after the
other in page order, as a slice that is not nil; for a pager that yields no
page the slice is empty and not nil.  This holds whether or not the pager
stopped on an error. -/
theorem listAvailabilitySet_concatenates (w : World) (subscriptionID : String) (ctx : Context)
    (conn : Conn) (results : List ListResult)
    (hpages : (w.pages "armcompute.AvailabilitySetsClient" "List").pages = results.map some) :
    (AvailabilitySet.listAvailabilitySet w subscriptionID ctx conn).out =
        .ok (some (concatPages results)) ∧
      (results = [] →
        (AvailabilitySet.listAvailabilitySet w subscriptionID ctx conn).out = .ok (some [])) := by
  have h : (AvailabilitySet.listAvailabilitySet w subscriptionID ctx conn).out =
      .ok (some (concatPages results)) := by
    simp only [AvailabilitySet.listAvailabilitySet, Client.NewListPager, Client.new, hpages,
      Slice.make]
    simpa using listLoop_out _ ctx _ results []
  refine ⟨h, fun hr => ?_⟩
  rw [h, hr]
  rfl

/-- Witness of C20: a pager that yields two pages. -/
theorem listAvailabilitySet_concatenates_witness :
    (twoPagesWorld.pages "armcompute.AvailabilitySetsClient" "List").pages =
        [some ⟨some [some { okResource with ID := some "a" },
            some { okResource with ID := some "b" }]⟩,
          some ⟨some [some { okResource with ID := some "c" }]⟩] ∧
      (AvailabilitySet.listAvailabilitySet twoPagesWorld "x" context.Background ⟨⟨1⟩, true⟩).out =
        .ok (some [some { okResource with ID := some "a" },
          some { okResource with ID := some "b" }, some { okResource with ID := some "c" }]) :=
  ⟨rfl,
    (listAvailabilitySet_concatenates twoPagesWorld "x" context.Background ⟨⟨1⟩, true⟩
      [⟨some [some { okResource with ID := some "a" }, some { okResource with ID := some "b" }]⟩,
        ⟨some [some { okResource with ID := some "c" }]⟩] rfl).1⟩

/-! ## A failing page of `listAvailabilitySet` (C21) -/

/-- C21, the code at the failing input: in the availabilityset sample, the
pager yields one page and fails on the next fetch.  `listAvailabilitySet`
returns the one page it got and reports nothing; `main` goes on to call
`ListAvailableSizes` and to delete the resource group, logs "cleaned up
successfully." and ends normally. -/
theorem list_failure_goes_unnoticed :
    (pageFailsWorld.pages "armcompute.AvailabilitySetsClient" "List").err =
        some ⟨"TransportError"⟩ ∧
      (AvailabilitySet.listAvailabilitySet pageFailsWorld "x" context.Background
        ⟨⟨1⟩, true⟩).out = .ok (some [some okResource]) ∧
      (Sample.main .availabilityset pageFailsWorld).out = .ok () ∧
      Event.call ⟨"armcompute.AvailabilitySetsClient", "x", ⟨⟨1⟩, true⟩⟩ "ListAvailableSizes"
          context.Background ["sample-resource-group", "sample-availability-sets"] [] ∈
        (Sample.main .availabilityset pageFailsWorld).trace ∧
      Event.call ⟨"armresources.ResourceGroupsClient", "x", ⟨⟨1⟩, true⟩⟩ "BeginDelete"
          context.Background ["sample-resource-group"] [] ∈
        (Sample.main .availabilityset pageFailsWorld).trace ∧
      cleanedUp ∈ (Sample.main .availabilityset pageFailsWorld).trace := by
  refine ⟨rfl, rfl, rfl, by decide, by decide, by decide⟩

/-! ## Required environment values (C22) -/

/-- C22. For every sample and every required environment value `n` of it: when
the required values read before `n` are not empty and `n` is empty, the run
reads the required values up to `n`, ends on `log.Fatal` of "`n` is not set."
and does nothing else: no credential is built and no remote call is issued. -/
theorem missing_env_fails_first (s : Sample) (w : World) (pre post : List String) (n : String)
    (hreq : s.requiredEnv = pre ++ n :: post) (hpre : ∀ m ∈ pre, w.env m ≠ "")
    (hn : w.env n = "") :
    (s.main w).out = .error (.fatal (n ++ " is not set.")) ∧
      (s.main w).trace = (pre ++ [n]).map Event.getenv ++ [.fatal (n ++ " is not set.")] ∧
      Event.credential ∉ (s.main w).trace ∧ ∀ ev ∈ (s.main w).trace, ev.op? = none := by
  have key : (s.main w).out = .error (.fatal (n ++ " is not set.")) ∧
      (s.main w).trace = (pre ++ [n]).map Event.getenv ++ [.fatal (n ++ " is not set.")] := by
    rw [s.main_eq_run]
    have hlen : ∀ x : String, w.env x ≠ "" → ¬ (w.env x).length = 0 :=
      fun x hx h0 => hx ((length_eq_zero_iff _).1 h0)
    cases s <;> simp only [Sample.requiredEnv] at hreq
    case server_key =>
      rcases pre with _ | ⟨p1, _ | ⟨p2, _ | ⟨p3, pre⟩⟩⟩ <;>
        simp only [List.nil_append, List.cons_append, List.cons.injEq, List.nil_eq,
          List.append_eq_nil, reduceCtorEq, and_false, false_and] at hreq
      · obtain ⟨rfl, _⟩ := hreq
        simp [Script.run, Sample.script, ServerKey.script, ServerKey.setup, Act.bind_eq, Act.bind,
          os.Getenv, log.Fatal, Act.pure_eq, hn]
      · obtain ⟨rfl, rfl, _⟩ := hreq
        have h1 := hlen _ (hpre _ (List.mem_cons_self _ _))
        simp [Script.run, Sample.script, ServerKey.script, ServerKey.setup, Act.bind_eq, Act.bind,
          os.Getenv, log.Fatal, Act.pure_eq, hn, h1]
      · obtain ⟨rfl, rfl, rfl, _⟩ := hreq
        have h1 := hlen _ (hpre "AZURE_SUBSCRIPTION_ID" (by simp))
        have h2 := hlen _ (hpre "AZURE_TENANT_ID" (by simp))
        simp [Script.run, Sample.script, ServerKey.script, ServerKey.setup, Act.bind_eq, Act.bind,
          os.Getenv, log.Fatal, Act.pure_eq, hn, h1, h2]
    all_goals
      rcases pre with _ | ⟨p1, pre⟩ <;>
        simp only [List.nil_append, List.cons_append, List.cons.injEq, List.nil_eq,
          List.append_eq_nil, reduceCtorEq, and_false, false_and] at hreq
      obtain ⟨rfl, _⟩ := hreq
      simp [Script.run, Sample.script, AvailabilitySet.script, ActionGroup.script,
        ApimanagementService.script, TaskRun.script, EventhubNamespace.script, Cassandra.script,
        ApiTagDescription.script, VirtualNetworkRule.script, Apps.script, setupWith,
        setupFactories, Act.bind_eq, Act.bind, os.Getenv, log.Fatal, Act.pure_eq, hn]
  refine ⟨key.1, key.2, ?_, ?_⟩
  · rw [key.2]
    simp
  · intro ev hev
    rw [key.2] at hev
    simp only [List.map_append, List.mem_append, List.mem_map, List.mem_singleton,
      List.map_cons, List.map_nil] at hev
    rcases hev with (⟨x, _, rfl⟩ | rfl) | rfl <;> rfl

/-- Witness of C22: the server-key sample with `AZURE_SUBSCRIPTION_ID` set and
`AZURE_TENANT_ID` not set. -/
theorem missing_env_fails_first_witness :
    Sample.requiredEnv .server_key =
        ["AZURE_SUBSCRIPTION_ID"] ++ "AZURE_TENANT_ID" :: ["AZURE_OBJECT_ID"] ∧
      noTenantWorld.env "AZURE_SUBSCRIPTION_ID" ≠ "" ∧ noTenantWorld.env "AZURE_TENANT_ID" = "" ∧
      (Sample.main .server_key noTenantWorld).trace =
        [.getenv "AZURE_SUBSCRIPTION_ID", .getenv "AZURE_TENANT_ID",
          .fatal "AZURE_TENANT_ID is not set."] :=
  ⟨rfl, by decide, rfl,
    (missing_env_fails_first .server_key noTenantWorld ["AZURE_SUBSCRIPTION_ID"]
      ["AZURE_OBJECT_ID"] "AZURE_TENANT_ID" rfl (by decide) rfl).2.1⟩

/-! ## Dereferences of results (C23) -/

/-- A run of steps that are safe, each fed by the one before it, does not
dereference nil when what follows the steps does not. -/
theorem runSteps_safe (w : World) (k : Act Unit) (steps : List Step)
    (hsafe : ∀ S ∈ steps, S.Safe w) (hlink : List.Chain' Step.Feeds steps)
    (p : Option Resource)
    (hp : ∀ S ∈ steps.head?, S.arg = noArg ∨ (S.arg = idArg ∧ ∃ x id, p = some x ∧ x.ID = some id))
    (hk : k.out ≠ .error .panic) : (runSteps w k p steps).out ≠ .error .panic := by
  induction steps generalizing p with
  | nil => simpa [runSteps] using hk
  | cons S rest ih =>
    have hS := hsafe S (List.mem_cons_self _ _)
    intro hpanic
    rw [runSteps_cons, Act.bind_out_error] at hpanic
    have harg : ∃ d, (S.arg p).out = .ok d := by
      rcases hp S (by simp) with h | ⟨h, x, id, rfl, hx⟩
      · exact ⟨"", by rw [h]; rfl⟩
      · exact ⟨id, by rw [h]; simp [idArg, deref, Act.bind_eq, Act.bind, hx]⟩
    rcases hpanic with h | ⟨d, _, h⟩
    · obtain ⟨d, hd⟩ := harg
      rw [hd] at h; cases h
    · rw [Act.bind_out_error] at h
      rcases h with h | ⟨⟨ret, err⟩, hret, h⟩
      · exact hS.1 d h
      · cases err with
        | some e => simp [log.Fatal] at h
        | none =>
          simp only at h
          obtain ⟨r, hr, hid⟩ := hS.2 d ret hret
          rw [Act.bind_out_error] at h
          rcases h with h | ⟨r1, hr1, h⟩
          · rw [hr] at h; cases h
          · rw [hr] at hr1
            cases hr1
            refine ih (fun T hT => hsafe T (List.mem_cons_of_mem _ hT))
              (List.Chain'.tail hlink) r ?_ h
            intro T hT
            cases rest with
            | nil => simp at hT
            | cons T1 rest1 =>
              simp only [List.head?_cons, Option.mem_def, Option.some.injEq] at hT
              subst hT
              rcases (List.chain'_cons.1 hlink).1 with hf | ⟨hf, hID, hkind⟩
              · exact Or.inl hf
              · exact Or.inr ⟨hf, hid hID hkind⟩

/-- A synchronous helper of the oldest SDK generation that returns no error
returns the pointer of the response of its call. -/
theorem Step.Formed.syncPtr_ok {A : Step} {ctx : Context} (hF : A.Formed ctx)
    (hk : A.kind = .syncPtr) {w : World} {d : String} {ret : Ret}
    (h : (A.helper w d).out = .ok (ret, none)) :
    ∃ r, w.sendPtr A.client A.method = .ok r ∧ ret = .resource r := by
  obtain ⟨c, f, args, payload, raw, hc, hf, hp, hw⟩ := hF d
  rw [hw w] at h
  simp only [hk, syncPtrForm, hc] at h
  cases hs : w.sendPtr A.client A.method with
  | error e => simp [hs] at h
  | ok r =>
    simp only [hs, Except.ok.injEq, Prod.mk.injEq, and_true] at h
    exact ⟨r, rfl, h.symm⟩

theorem Step.Formed.no_panic {A : Step} {ctx : Context} (hF : A.Formed ctx)
    (hk : A.kind ≠ .pager) (w : World) (d : String) : (A.helper w d).out ≠ .error .panic := by
  rcases hF.out w d with ⟨ret, h⟩ | ⟨hp, _⟩
  · rw [h]; simp
  · exact absurd hp hk

/-- A step that returns a resource is safe in a world that is sound for it,
when its logging does not dereference nil on a resource with the logged fields
set. -/
theorem Step.Formed.safe_resource {S : Step} {ctx : Context} (hF : S.Formed ctx) {w : World}
    (hk : S.kind = .sync ∨ S.kind = .syncPtr ∨ S.kind = .async) (hsound : S.Sound w)
    (hrep : ∀ x, (∀ f ∈ loggedFields S.name, x.has f = true) →
      ∃ r, (S.report (.resource (some x))).out = .ok r ∧
        (LogField.ID ∈ loggedFields S.name → ∃ y id, r = some y ∧ y.ID = some id)) :
    S.Safe w := by
  refine ⟨hF.no_panic (by rcases hk with h | h | h <;> rw [h] <;> simp) w, ?_⟩
  intro d ret h
  have hx : ∃ x, ret = .resource (some x) ∧ ∀ f ∈ loggedFields S.name, x.has f = true := by
    rcases hk with hk | hk | hk
    · obtain ⟨r, hs, hr⟩ := hF.sync_ok hk h
      simp only [Step.Sound, hk] at hsound
      exact ⟨r, hr, hsound r hs⟩
    · obtain ⟨r, hs, hr⟩ := hF.syncPtr_ok hk h
      simp only [Step.Sound, hk] at hsound
      obtain ⟨x, rfl, hx⟩ := hsound r hs
      exact ⟨x, hr, hx⟩
    · obtain ⟨st, r, _, hb, hp, hr⟩ := hF.async_ok hk h
      simp only [Step.Sound, hk] at hsound
      exact ⟨r, hr, hsound st r hb (pollResult_ok _ _ _ _ _ hp)⟩
  obtain ⟨x, rfl, hfields⟩ := hx
  obtain ⟨r, hr, hid⟩ := hrep x hfields
  exact ⟨r, hr, fun hID _ => hid hID⟩

/-- The logging of an ID does not dereference nil on a resource whose ID is
set, and hands the resource on. -/
theorem reportID_safe (label : String) (x : Resource) (hx : x.has .ID = true) :
    ∃ r, (reportID label (.resource (some x))).out = .ok r ∧
      ∃ y id, r = some y ∧ y.ID = some id := by
  simp only [Resource.has, Option.isSome_iff_exists] at hx
  obtain ⟨id, hid⟩ := hx
  exact ⟨some x, by
    simp [reportID, deref, Act.bind_eq, Act.bind, hid, log.Println, emit, Act.pure_eq],
    x, id, rfl, hid⟩

/-- The clean-up is safe: its result is not dereferenced. -/
theorem Step.Formed.safe_delete {S : Step} {ctx : Context} (hF : S.Formed ctx) (w : World)
    (hk : S.kind = .delete) (hrep : S.report = reportCleaned) : S.Safe w := by
  refine ⟨hF.no_panic (by rw [hk]; simp) w, fun d ret _ => ⟨none, by rw [hrep]; rfl, ?_⟩⟩
  intro _ h
  rw [hk] at h
  simp at h

theorem forRange_ok {α : Type} (body : Nat → α → Act Unit) (l : List α)
    (h : ∀ i, ∀ x ∈ l, (body i x).out = .ok ()) (i : Nat) : (forRange body i l).out = .ok () := by
  induction l generalizing i with
  | nil => rfl
  | cons x xs ih =>
    simp only [forRange]
    rw [Act.bind_out_ok]
    exact ⟨(), h i x (List.mem_cons_self _ _), ih (fun j y hy => h j y (List.mem_cons_of_mem _ hy)) _⟩

theorem concatPages_mem {v : Option Resource} {rs : List ListResult} (h : v ∈ concatPages rs) :
    ∃ page ∈ rs, v ∈ page.Value.toList := by
  induction rs with
  | nil => simp [concatPages] at h
  | cons page rest ih =>
    simp only [concatPages, List.mem_append] at h
    rcases h with h | h
    · exact ⟨page, List.mem_cons_self _ _, h⟩
    · obtain ⟨q, hq, hv⟩ := ih h
      exact ⟨q, List.mem_cons_of_mem _ hq, hv⟩

theorem all_some {α : Type} (l : List (Option α)) (h : ∀ x ∈ l, ∃ y, x = some y) :
    ∃ rs : List α, l = rs.map some := by
  induction l with
  | nil => exact ⟨[], rfl⟩
  | cons x xs ih =>
    obtain ⟨y, rfl⟩ := h x (List.mem_cons_self _ _)
    obtain ⟨rs, rfl⟩ := ih (fun z hz => h z (List.mem_cons_of_mem _ hz))
    exact ⟨y :: rs, rfl⟩

/-- In every sample the first step takes no argument and every later step is
fed by the step before it. -/
theorem Sample.linked (s : Sample) (a : Args) :
    List.Chain' Step.Feeds (s.script.steps a) ∧
      ∀ S ∈ (s.script.steps a).head?, S.arg = noArg := by
  cases s <;>
    simp only [Sample.script, AvailabilitySet.script, ActionGroup.script,
      ApimanagementService.script, TaskRun.script, EventhubNamespace.script, Cassandra.script,
      ApiTagDescription.script, VirtualNetworkRule.script, Apps.script, ServerKey.script,
      List.chain'_cons, List.chain'_singleton, List.head?_cons, Option.mem_def,
      Option.some.injEq, and_true] <;>
    refine ⟨?_, fun S hS => by subst hS; rfl⟩ <;>
    repeat' apply And.intro
  all_goals first
    | exact Or.inl rfl
    | exact Or.inr ⟨rfl, by dsimp only; decide, by simp⟩

/-- The steps of the samples that log nothing but IDs, and every clean-up, are
safe in a world that is sound for them. -/
theorem Sample.ids_safe (s : Sample) (a : Args) (w : World) (h1 : s ≠ .availabilityset)
    (h2 : s ≠ .apimanagement_service) (h3 : s ≠ .apps) :
    ∀ S ∈ s.script.sequence a, S.Sound w → S.Safe w := by
  intro S hS hsound
  have hF := s.wf.formed a S hS
  cases s <;> first
    | exact absurd rfl h1
    | exact absurd rfl h2
    | exact absurd rfl h3
    | (simp only [Sample.script, ActionGroup.script, TaskRun.script, EventhubNamespace.script,
        Cassandra.script, ApiTagDescription.script, VirtualNetworkRule.script, ServerKey.script,
        Script.sequence, List.cons_append, List.nil_append, List.mem_cons, List.mem_singleton,
        List.not_mem_nil, or_false] at hS
       rcases hS with rfl | rfl | rfl | rfl | rfl | rfl | rfl <;>
       first
         | exact hF.safe_delete w rfl rfl
         | exact hF.safe_resource (by simp) hsound (fun x hx =>
             let ⟨r, hr, hid⟩ := reportID_safe _ x (hx _ (by dsimp only; decide))
             ⟨r, hr, fun _ => hid⟩))

/-- What `listAvailabilitySet` returns when every page of the pager holds a list
result: the concatenation of the pages. -/
theorem listAvailabilitySet_out (w : World) (subscriptionID : String) (ctx : Context)
    (conn : Conn) (results : List ListResult)
    (hpages : (w.pages "armcompute.AvailabilitySetsClient" "List").pages = results.map some) :
    (AvailabilitySet.listAvailabilitySet w subscriptionID ctx conn).out =
      .ok (some (concatPages results)) := by
  simp only [AvailabilitySet.listAvailabilitySet, Client.NewListPager, Client.new, hpages,
    Slice.make]
  simpa using listLoop_out _ ctx _ results []

/-- The list step of the availabilityset sample is safe in a world that is
sound for it: every page holds a list result, whose items are not nil and have
an ID. -/
theorem AvailabilitySet.list_safe (a : Args) (w : World)
    (hsound : (AvailabilitySet.script.stepAt a 2).Sound w) :
    (AvailabilitySet.script.stepAt a 2).Safe w := by
  simp only [Step.Sound, Script.stepAt, Script.sequence, AvailabilitySet.script,
    List.cons_append, List.drop_succ_cons, List.drop_zero, List.headD_cons] at hsound
  obtain ⟨rs, hrs⟩ := all_some _ (fun page hp => (hsound page hp).imp fun x hx => hx.1)
  have hout : ∀ d, ((AvailabilitySet.script.stepAt a 2).helper w d).out =
      .ok (.list (some (concatPages rs)), none) := by
    intro d
    have h := (listAvailabilitySet_out w a.subscriptionID a.ctx a.conn rs hrs)
    simp only [Script.stepAt, Script.sequence, AvailabilitySet.script, List.cons_append,
      List.drop_succ_cons, List.drop_zero, List.headD_cons, asList]
    rw [Act.bind_out_ok]
    exact ⟨_, h, rfl⟩
  refine ⟨fun d => by rw [hout d]; simp, fun d ret h => ?_⟩
  rw [hout d] at h
  simp only [Except.ok.injEq, Prod.mk.injEq, and_true] at h
  subst h
  refine ⟨none, ?_, fun _ hk => ?_⟩
  · simp only [Script.stepAt, Script.sequence, AvailabilitySet.script, List.cons_append,
      List.drop_succ_cons, List.drop_zero, List.headD_cons, Slice.toList]
    rw [Act.bind_out_ok]
    refine ⟨(), forRange_ok _ _ (fun i v hv => ?_) 0, rfl⟩
    obtain ⟨page, hpage, hv1⟩ := concatPages_mem hv
    obtain ⟨x, hx, hitems⟩ := hsound (some page) (by rw [hrs]; exact List.mem_map_of_mem _ hpage)
    cases hx
    obtain ⟨y, rfl, hy⟩ := hitems v hv1
    have hid := hy .ID (by decide)
    simp only [Resource.has, Option.isSome_iff_exists] at hid
    obtain ⟨id, hid⟩ := hid
    simp [deref, Act.bind_eq, Act.bind, hid, log.Println, emit]
  · simp [Script.stepAt, Script.sequence, AvailabilitySet.script] at hk

/-- The sizes step of the availabilityset sample is safe in a world that is
sound for it. -/
theorem AvailabilitySet.sizes_safe (a : Args) (w : World)
    (hsound : (AvailabilitySet.script.stepAt a 3).Sound w) :
    (AvailabilitySet.script.stepAt a 3).Safe w := by
  have hF := (Sample.wf .availabilityset).formed a (AvailabilitySet.script.stepAt a 3)
    (by simp [Script.stepAt, Script.sequence, Sample.script, AvailabilitySet.script])
  refine ⟨hF.no_panic (by simp [Script.stepAt, Script.sequence, AvailabilitySet.script]) w,
    fun d ret h => ?_⟩
  obtain ⟨c, f, args, payload, raw, hc, hf, hp, hw⟩ := hF d
  rw [hw w] at h
  simp only [Step.Sound, Script.stepAt, Script.sequence, AvailabilitySet.script,
    List.cons_append, List.drop_succ_cons, List.drop_zero, List.headD_cons, syncListForm]
    at h hsound hc
  rw [hc] at h
  cases hs : w.sendList "armcompute.AvailabilitySetsClient" "ListAvailableSizes" with
  | error e => simp [hs] at h
  | ok l =>
    simp only [hs, Except.ok.injEq, Prod.mk.injEq, and_true] at h
    subst h
    obtain ⟨x, rfl, hitems⟩ := hsound l hs
    refine ⟨none, ?_, fun hID => absurd hID (by
      simp [Script.stepAt, Script.sequence, AvailabilitySet.script, loggedFields])⟩
    simp only [Script.stepAt, Script.sequence, AvailabilitySet.script, List.cons_append,
      List.drop_succ_cons, List.drop_zero, List.headD_cons]
    simp only [Act.bind_out_ok, deref_out_ok, Println_out, exists_eq_left, exists_const,
      Option.some.injEq, Act.pure_eq, and_true]
    refine ⟨x, rfl, trivial, x, rfl, (), forRange_ok _ _ (fun i v hv => ?_) 0⟩
    obtain ⟨y, rfl, hy⟩ := hitems v hv
    have hn := hy .Name (by decide)
    simp only [Resource.has, Option.isSome_iff_exists] at hn
    obtain ⟨n, hn⟩ := hn
    simp [deref, Act.bind_eq, Act.bind, hn, log.Println, emit]

/-- The steps of the availabilityset sample are safe in a world that is sound
for them. -/
theorem AvailabilitySet.safe_availabilityset (a : Args) (w : World) :
    ∀ S ∈ AvailabilitySet.script.sequence a, S.Sound w → S.Safe w := by
  intro S hS hsound
  have hF := (Sample.wf .availabilityset).formed a S hS
  simp only [AvailabilitySet.script, Script.sequence, List.cons_append, List.nil_append,
    List.mem_cons, List.mem_singleton, List.not_mem_nil, or_false] at hS
  rcases hS with rfl | rfl | rfl | rfl | rfl
  · exact hF.safe_resource (by simp) hsound (fun x hx =>
      let ⟨r, hr, hid⟩ := reportID_safe _ x (hx _ (by dsimp only; decide))
      ⟨r, hr, fun _ => hid⟩)
  · exact hF.safe_resource (by simp) hsound (fun x hx =>
      let ⟨r, hr, hid⟩ := reportID_safe _ x (hx _ (by dsimp only; decide))
      ⟨r, hr, fun _ => hid⟩)
  · exact AvailabilitySet.list_safe a w hsound
  · exact AvailabilitySet.sizes_safe a w hsound
  · exact hF.safe_delete w rfl rfl

/-- The steps of the apimanagement-service sample are safe in a world that is
sound for them. -/
theorem ApimanagementService.safe_apimanagement (a : Args) (w : World) :
    ∀ S ∈ ApimanagementService.script.sequence a, S.Sound w → S.Safe w := by
  intro S hS hsound
  have hF := (Sample.wf .apimanagement_service).formed a S hS
  simp only [ApimanagementService.script, Script.sequence, List.cons_append, List.nil_append,
    List.mem_cons, List.mem_singleton, List.not_mem_nil, or_false] at hS
  rcases hS with rfl | rfl | rfl | rfl | rfl | rfl
  · exact hF.safe_resource (by simp) hsound (fun x hx =>
      let ⟨r, hr, hid⟩ := reportID_safe _ x (hx _ (by dsimp only; decide))
      ⟨r, hr, fun _ => hid⟩)
  · exact hF.safe_resource (by simp) hsound (fun x hx =>
      let ⟨r, hr, hid⟩ := reportID_safe _ x (hx _ (by dsimp only; decide))
      ⟨r, hr, fun _ => hid⟩)
  · exact hF.safe_resource (by simp) hsound (fun x hx =>
      let ⟨r, hr, hid⟩ := reportID_safe _ x (hx _ (by dsimp only; decide))
      ⟨r, hr, fun _ => hid⟩)
  · refine hF.safe_resource (by simp) hsound (fun x hx => ?_)
    have h1 := hx .RedirectURI (by dsimp only; decide)
    simp only [Resource.has, Option.isSome_iff_exists] at h1
    obtain ⟨u, hu⟩ := h1
    exact ⟨some x, by simp [deref, Act.bind_eq, Act.bind, hu, log.Println, emit, Act.pure_eq],
      fun h => absurd h (by dsimp only; decide)⟩
  · refine hF.safe_resource (by simp) hsound (fun x hx => ?_)
    have h1 := hx .DomainOwnershipIdentifier (by dsimp only; decide)
    simp only [Resource.has, Option.isSome_iff_exists] at h1
    obtain ⟨u, hu⟩ := h1
    exact ⟨some x, by simp [deref, Act.bind_eq, Act.bind, hu, log.Println, emit, Act.pure_eq],
      fun h => absurd h (by dsimp only; decide)⟩
  · exact hF.safe_delete w rfl rfl

/-- The steps of the apps sample are safe in a world that is sound for them. -/
theorem Apps.safe_apps (a : Args) (w : World) :
    ∀ S ∈ Apps.script.sequence a, S.Sound w → S.Safe w := by
  intro S hS hsound
  have hF := (Sample.wf .apps).formed a S hS
  simp only [Apps.script, Script.sequence, List.cons_append, List.nil_append,
    List.mem_cons, List.mem_singleton, List.not_mem_nil, or_false] at hS
  rcases hS with rfl | rfl | rfl | rfl | rfl | rfl | rfl
  · exact hF.safe_resource (by simp) hsound (fun x hx =>
      let ⟨r, hr, hid⟩ := reportID_safe _ x (hx _ (by dsimp only; decide))
      ⟨r, hr, fun _ => hid⟩)
  · exact hF.safe_resource (by simp) hsound (fun x hx =>
      let ⟨r, hr, hid⟩ := reportID_safe _ x (hx _ (by dsimp only; decide))
      ⟨r, hr, fun _ => hid⟩)
  · exact hF.safe_resource (by simp) hsound (fun x hx =>
      let ⟨r, hr, hid⟩ := reportID_safe _ x (hx _ (by dsimp only; decide))
      ⟨r, hr, fun _ => hid⟩)
  · exact hF.safe_resource (by simp) hsound (fun x hx =>
      let ⟨r, hr, hid⟩ := reportID_safe _ x (hx _ (by dsimp only; decide))
      ⟨r, hr, fun _ => hid⟩)
  · refine hF.safe_resource (by simp) hsound (fun x hx => ?_)
    have h1 := hx .RelativePath (by dsimp only; decide)
    have h2 := hx .UploadURL (by dsimp only; decide)
    simp only [Resource.has, Option.isSome_iff_exists] at h1 h2
    obtain ⟨u, hu⟩ := h1
    obtain ⟨v, hv⟩ := h2
    exact ⟨some x, by
      simp [deref, Act.bind_eq, Act.bind, hu, hv, log.Println, emit, Act.pure_eq],
      fun h => absurd h (by dsimp only; decide)⟩
  · refine hF.safe_resource (by simp) hsound (fun x hx => ?_)
    have h1 := hx .IsValid (by dsimp only; decide)
    have h2 := hx .Message (by dsimp only; decide)
    simp only [Resource.has, Option.isSome_iff_exists] at h1 h2
    obtain ⟨u, hu⟩ := h1
    obtain ⟨v, hv⟩ := h2
    exact ⟨some x, by
      simp [deref, Act.bind_eq, Act.bind, hu, hv, log.Println, emit, Act.pure_eq],
      fun h => absurd h (by dsimp only; decide)⟩
  · exact hF.safe_delete w rfl rfl

/-- Every step of every sample is safe in a world that is sound for it. -/
theorem Sample.steps_safe (s : Sample) (a : Args) (w : World) :
    ∀ S ∈ s.script.sequence a, S.Sound w → S.Safe w := by
  by_cases h1 : s = .availabilityset
  · subst h1; exact AvailabilitySet.safe_availabilityset a w
  · by_cases h2 : s = .apimanagement_service
    · subst h2; exact ApimanagementService.safe_apimanagement a w
    · by_cases h3 : s = .apps
      · subst h3; exact Apps.safe_apps a w
      · exact s.ids_safe a w h1 h2 h3

/-- C23. In every sample, in every world in which each successful response
carries a resource that is not nil with the logged fields set (for each step
of the main sequence, whenever the setup goes through), `main` never
dereferences nil: it ends normally or on `log.Fatal`.  No condition is put on
the result of a helper that returns an error, so such a result is never
dereferenced. -/
theorem main_never_dereferences_nil (s : Sample) (w : World)
    (hsound : ∀ a, (s.script.setup w).out = .ok a → ∀ S ∈ s.script.sequence a, S.Sound w) :
    (s.main w).out ≠ .error .panic ∧
      ((s.main w).out = .ok () ∨ ∃ m, (s.main w).out = .error (.fatal m)) := by
  have hwf := s.wf
  have hnp : (s.main w).out ≠ .error .panic := by
    rw [s.main_eq_run]
    rcases s.script.run_cases hwf w with ⟨m, hm, hrun⟩ | ⟨a, ha, hrun⟩
    · rw [hrun]; simp
    · rw [hrun]
      have hsafe := fun S hS => s.steps_safe a w S hS (hsound a ha S hS)
      obtain ⟨hlink, hhead⟩ := s.linked a
      obtain ⟨harg, hrep⟩ := s.cleanup_shape a
      refine runSteps_safe w _ (s.script.steps a)
        (fun S hS => hsafe S (by simp [Script.sequence, hS])) hlink none
        (fun S hS => Or.inl (hhead S hS)) ?_
      rw [s.script.finish_eq w a]
      split
      · refine runSteps_safe w _ [s.script.cleanup a]
          (fun S hS => hsafe S (by
            simp only [List.mem_singleton] at hS
            simp [Script.sequence, hS]))
          (List.chain'_singleton _) none (fun S hS => ?_) (by simp [Act.pure_eq])
        simp only [List.head?_cons, Option.mem_def, Option.some.injEq] at hS
        subst hS
        exact Or.inl harg
      · simp
  refine ⟨hnp, ?_⟩
  rcases hout : (s.main w).out with h | u
  · cases h with
    | fatal m => exact Or.inr ⟨m, rfl⟩
    | panic => exact absurd hout hnp
  · exact Or.inl rfl

/-- In the rejecting world the eventhub sample is sound: the responses that
succeed carry resources whose ID is set. -/
theorem rejecting_eventhub_sound :
    ∀ a, ∀ S ∈ (Sample.script .eventhub_namespace).sequence a, S.Sound rejectingWorld := by
  intro a S hS
  simp only [Sample.script, EventhubNamespace.script, Script.sequence, List.cons_append,
    List.nil_append, List.mem_cons, List.mem_singleton, List.not_mem_nil, or_false] at hS
  rcases hS with rfl | rfl | rfl | rfl <;>
    simp [Step.Sound, rejectingWorld, happyWorld, loggedFields, Resource.has, okResource]

/-- Witness of C23: the eventhub sample in the rejecting world, where
`createNamespace` returns an error and a nil result; `main` ends on
`log.Fatal` of the error. -/
theorem main_never_dereferences_nil_witness :
    (EventhubNamespace.createNamespace rejectingWorld "x" context.Background ⟨1⟩).out =
        .ok (none, some ⟨"RemoteRejected"⟩) ∧
      (Sample.main .eventhub_namespace rejectingWorld).out = .error (.fatal "RemoteRejected") ∧
      (Sample.main .eventhub_namespace rejectingWorld).out ≠ .error .panic :=
  ⟨rfl, rfl,
    (main_never_dereferences_nil .eventhub_namespace rejectingWorld
      (fun a _ => rejecting_eventhub_sound a)).1⟩

/-! ## Read steps and their create steps (C24) -/

/-- The read steps and their create steps, evaluated in the happy world: the
read step directly follows the create step, both work on the same client type,
and their calls pass the same identifiers. -/
theorem Sample.read_args (s : Sample) (a : Args) (hctx : a.ctx = context.Background) :
    ∀ gc ∈ readsOf s, ∀ d1 d2,
      (s.script.stepAt a (s.names.indexOf gc.1)).name = gc.1 ∧
      (s.script.stepAt a (s.names.indexOf gc.2)).name = gc.2 ∧
      s.names.indexOf gc.1 = s.names.indexOf gc.2 + 1 ∧
      s.script.stepAt a (s.names.indexOf gc.1) ∈ s.script.sequence a ∧
      s.script.stepAt a (s.names.indexOf gc.2) ∈ s.script.sequence a ∧
      (s.script.stepAt a (s.names.indexOf gc.1)).client =
        (s.script.stepAt a (s.names.indexOf gc.2)).client ∧
      ∃ ev1 ev2,
        ((s.script.stepAt a (s.names.indexOf gc.1)).helper happyWorld d1).trace.head? =
          some ev1 ∧
        ((s.script.stepAt a (s.names.indexOf gc.2)).helper happyWorld d2).trace.head? =
          some ev2 ∧
        ev1.args = ev2.args ∧ s.resourceGroupName ∈ ev1.args ∧ 2 ≤ ev1.args.length := by
  rcases a with ⟨sub, ten, obj, ctx, conn⟩
  simp only at hctx
  subst hctx
  intro gc hgc d1 d2
  cases s <;> simp only [readsOf, List.mem_singleton, List.not_mem_nil] at hgc <;> subst hgc <;>
    refine ⟨rfl, rfl, by decide, ?_, ?_, rfl, _, _, rfl, rfl, rfl, ?_, ?_⟩ <;>
    first
      | decide
      | simp [Script.stepAt, Script.sequence, Sample.script, Sample.names, ActionGroup.script,
          ApimanagementService.script, TaskRun.script, EventhubNamespace.script, Apps.script,
          List.indexOf_cons, Event.args, Sample.resourceGroupName]

/-- Two steps of a well-formed script with the same operation are the same
step. -/
theorem Script.step_of_op (sc : Script) (hwf : sc.WF) (a : Args) {S G : Step}
    (hS : S ∈ sc.sequence a) (hG : G ∈ sc.sequence a) (h : S.op = G.op) : S = G :=
  List.inj_on_of_nodup_map (hwf.distinct a) hS hG h

/-- C24. In every run of every sample whose setup went through, for each read
step that fetches a resource and the step that creates that resource (getTaskRun
and createTaskRun, getNamespace and createNamespace, getActionGroup and
createActionGroup, getAppResource and createAPP, getApiManagementService and
createApiManagementService): the read step directly follows the create step in
the main sequence, both use the same client type, and every call of the read
step passes the same identifiers as every call of the create step, the
resource group among them. -/
theorem read_matches_create (s : Sample) (w : World) (a : Args)
    (hsetup : (s.script.setup w).out = .ok a) :
    ∀ gc ∈ readsOf s,
      (s.script.stepAt a (s.names.indexOf gc.1)).name = gc.1 ∧
      (s.script.stepAt a (s.names.indexOf gc.2)).name = gc.2 ∧
      s.names.indexOf gc.1 = s.names.indexOf gc.2 + 1 ∧
      (s.script.stepAt a (s.names.indexOf gc.1)).client =
        (s.script.stepAt a (s.names.indexOf gc.2)).client ∧
      ∀ ev1 ∈ (s.main w).trace, ∀ ev2 ∈ (s.main w).trace,
        ev1.isCall = true → ev1.op? = some (s.script.stepAt a (s.names.indexOf gc.1)).op →
        ev2.isCall = true → ev2.op? = some (s.script.stepAt a (s.names.indexOf gc.2)).op →
        ev1.args = ev2.args ∧ s.resourceGroupName ∈ ev1.args ∧ 2 ≤ ev1.args.length := by
  intro gc hgc
  have hwf := s.wf
  have hctx := hwf.setup_ctx w a hsetup
  rw [s.main_eq_run]
  obtain ⟨h1, h2, h3, hG, hC, h4, _⟩ := s.read_args a hctx gc hgc "" ""
  refine ⟨h1, h2, h3, h4, ?_⟩
  intro ev1 hev1 ev2 hev2 hc1 ho1 hc2 ho2
  obtain ⟨S1, hS1, _, hop1, d1, hhead1⟩ :=
    s.script.call_provenance hwf w a hsetup ev1 hev1 hc1
  obtain ⟨S2, hS2, _, hop2, d2, hhead2⟩ :=
    s.script.call_provenance hwf w a hsetup ev2 hev2 hc2
  have e1 : S1 = _ := s.script.step_of_op hwf a hS1 hG (Option.some.inj (hop1.symm.trans ho1))
  have e2 : S2 = _ := s.script.step_of_op hwf a hS2 hC (Option.some.inj (hop2.symm.trans ho2))
  subst e1 e2
  obtain ⟨_, _, _, _, _, _, x1, x2, hx1, hx2, hargs, hrg, hlen⟩ := s.read_args a hctx gc hgc d1 d2
  rw [hhead1] at hx1
  rw [hhead2] at hx2
  cases Option.some.inj hx1
  cases Option.some.inj hx2
  exact ⟨hargs, hrg, hlen⟩

/-- Witness of C24: the task-run sample in the happy world. -/
theorem read_matches_create_witness :
    (TaskRun.script.setup happyWorld).out = .ok (args0 true) ∧
      ("getTaskRun", "createTaskRun") ∈ readsOf .task_run ∧
      (∀ ev1 ∈ (Sample.main .task_run happyWorld).trace,
        ∀ ev2 ∈ (Sample.main .task_run happyWorld).trace,
        ev1.isCall = true → ev1.op? = some ("armcontainerregistry.TaskRunsClient", "Get") →
        ev2.isCall = true →
        ev2.op? = some ("armcontainerregistry.TaskRunsClient", "BeginCreate") →
        ev1.args = ev2.args ∧ "sample-resource-group" ∈ ev1.args ∧ 2 ≤ ev1.args.length) :=
  ⟨rfl, by decide,
    (read_matches_create .task_run happyWorld (args0 true) rfl
      ("getTaskRun", "createTaskRun") (by decide)).2.2.2.2⟩

end AzureSamples
